import Mathlib

/-!
The xillver table cache of relxill: indexing, interpolation, lazy loading,
initialisation and the catalog of tables.

A shallow embedding of `src/xilltable.c` and proofs about it.

Conventions of the embedding.

* Numbers.  `float` and `double` values are elements of an arbitrary linearly
  ordered field `R` (exact arithmetic; every finite machine number is a
  rational, so `ℚ` is the instance used for evaluation).  The conversions
  `(float) x` and `(double) x` are the identity.  C `int` values are `Int`;
  the indices handled here are bounded by the table size, which
  `get_num_elem` asserts to fit an `int`.
* Arrays.  A C array is a list, read with `idx`; `data_storage`, the array of
  spectrum pointers, is the memory reached through that pointer, a map from
  the slot index to `none` (NULL) or `some spectrum`.
* Declarations that `xilltable.c` takes from `xilltable.h` and from other
  translation units (the `PARAM_*` constants, `is_xill_model`,
  `binary_search_float`, `interp_lin_1d`, ...) are not modelled: they are the
  fields of `Ext`, a parameter of every function that uses one of them; the
  enumerators of `enum xillTableIds` are the fields of `TableIds`.
* The CFITSIO calls are the fields of `FitsFile` (loading of spectra) and of
  `TableFile` (initialisation); the calls performed while loading are
  recorded in a log of `FitsEvent`s.  Memory allocation is taken to succeed.
* `status` is the C status word, `EXIT_SUCCESS` meaning no error.
* An `assert` on the arguments of a function states what the function expects
  of its callers; it is recorded in the doc comment of the function and is not
  part of the control flow.  An `assert` on what was read from the table file
  (the name of the last axis, the size of the table) ends the run when it
  fails: a function that reaches one returns an `Option`, `none` being the
  run that ended there.
* Tables created at initialisation live in a heap, a pointer to a table being a
  position in it; the six global pointers to the cached tables form the
  `Catalog`.
* A function that dereferences spectrum pointers returns an `Option`: `none`
  when a pointer it reads through is NULL or a spectrum is too short.
-/

set_option autoImplicit false
set_option linter.unusedSectionVars false
set_option linter.unusedTactic false
set_option maxRecDepth 4000

namespace Relxill

/-! ## Definitions -/

section Defs

variable {R : Type} [LinearOrderedField R]

/-- Read `a[i]` from a C array held as the list `a`; reading outside the
array, undefined in C, yields `d`. -/
def idx {α : Type} (d : α) (a : List α) (i : Int) : α :=
  if 0 ≤ i then a.getD i.toNat d else d

/-- Declarations used by `xilltable.c` and defined elsewhere: the parameter
identifiers, names and table file names of `xilltable.h`, the model
predicates, and three numerical helpers.  `indet` is the content of freshly
allocated memory that has not been written yet. -/
structure Ext (R : Type) where
  PARAM_GAM : Int
  PARAM_AFE : Int
  PARAM_LXI : Int
  PARAM_ECT : Int
  PARAM_KTE : Int
  PARAM_DNS : Int
  PARAM_KTB : Int
  PARAM_ACO : Int
  PARAM_FRA : Int
  PARAM_INC : Int
  N_PARAM_MAX : Int
  NAME_GAM : String
  NAME_AFE : String
  NAME_LXI : String
  NAME_ECT : String
  NAME_KTE : String
  NAME_DNS : String
  NAME_KTB : String
  NAME_ACO : String
  NAME_FRA : String
  NAME_INC : String
  XILLTABLE_FILENAME : String
  XILLTABLE_NTHCOMP_FILENAME : String
  XILLTABLE_NS_FILENAME : String
  XILLTABLE_CO_FILENAME : String
  PRIM_SPEC_NTHCOMP : Int
  is_xill_model : Int → Bool
  is_ns_model : Int → Bool
  is_co_model : Int → Bool
  binary_search_float : List R → Int → R → Int
  interp_lin_1d : R → R → R → R
  pow10 : R → R
  indet : Int → R

/-- The C constant `EXIT_SUCCESS`. -/
def EXIT_SUCCESS : Int := 0

/-- The C constant `EXIT_FAILURE`. -/
def EXIT_FAILURE : Int := 1

/-- The struct `xillTable` (fields as used in `xilltable.c`). -/
structure xillTable (R : Type) where
  num_param : Int
  num_param_vals : List Int
  param_index : List Int
  param_names : List String
  param_vals : List (List R)
  n_ener : Int
  elo : List R
  ehi : List R
  incl : List R
  n_incl : Int
  num_elements : Int
  data_storage : Int → Option (List R)

/-- The struct `xillTableParam`. -/
structure xillTableParam (R : Type) where
  gam : R
  afe : R
  lxi : R
  ect : R
  dens : R
  kTbb : R
  frac_pl_bb : R
  incl : R
  model_type : Int
  prim_type : Int

/-- The struct `xillSpec`. -/
structure xillSpec (R : Type) where
  n_ener : Int
  n_incl : Int
  ener : List R
  incl : List R
  flu : List (List R)

/-- Row number of a spectrum in the table file, `get_xillspec_rownum`. -/
def get_xillspec_rownum (num_param_vals : List Int) (num_param : Int)
    (nn ii jj kk ll mm : Int) : Int :=
  if num_param = 5 then
    (((ii * idx 0 num_param_vals 1 + jj) * idx 0 num_param_vals 2
        + kk) * idx 0 num_param_vals 3 + ll) * idx 0 num_param_vals 4 + mm + 1
  else if num_param = 6 then
    ((((nn * idx 0 num_param_vals 1 + ii) * idx 0 num_param_vals 2
        + jj) * idx 0 num_param_vals 3 + kk) * idx 0 num_param_vals 4 + ll)
      * idx 0 num_param_vals 5 + mm + 1
  else
    -1

/-- Store a spectrum pointer in the data storage, `set_dat`. -/
def set_dat (spec : List R) (tab : xillTable R) (i0 i1 i2 i3 i4 i5 : Int) : xillTable R :=
  let index := get_xillspec_rownum tab.num_param_vals tab.num_param i0 i1 i2 i3 i4 i5
  { tab with data_storage := Function.update tab.data_storage index (some spec) }

/-- Get one spectrum from the data storage, `get_xillspec`; `none` is the NULL
pointer. -/
def get_xillspec (tab : xillTable R) (i0 i1 i2 i3 i4 i5 : Int) : Option (List R) :=
  let index := get_xillspec_rownum tab.num_param_vals tab.num_param i0 i1 i2 i3 i4 i5
  tab.data_storage index

/-- Read `dat[ii]` through a spectrum pointer: fails on the NULL pointer and
outside the allocated spectrum. -/
def deref (dat : Option (List R)) (ii : Nat) : Option R :=
  dat.bind fun s => s[ii]?

/-- The product `f * (double) (dat[ii])` of a weight and a stored value. -/
def term (f : R) (dat : Option (List R)) (ii : Nat) : Option R :=
  (deref dat ii).map fun v => f * v

/-- Sum of two values, each the result of reads that may fail. -/
def oadd (a b : Option R) : Option R :=
  a.bind fun x => b.map fun y => x + y

/-- The sum `t0 + t1 + ... + tk`, evaluated from left to right. -/
def sum_terms : List (Option R) → Option R
  | [] => some 0
  | t :: ts => ts.foldl oadd t

/-- The loop `for (ii = 0; ii < n; ii++) out[ii] = body(ii)`: the array written,
or `none` when some iteration fails. -/
def for_ii {α : Type} : Nat → (Nat → Option α) → Option (List α)
  | 0, _ => some []
  | n + 1, body => do
    let out ← for_ii n body
    let v ← body n
    pure (out ++ [v])

/-! ### The corner weights of `interp_5d_tab_incl` (16) and `interp_5d_tab` (32) -/

def f_0000 (f1 f2 f3 f4 : R) : R :=
  (1 - f1) * (1 - f2) * (1 - f3) * (1 - f4)

def f_1000 (f1 f2 f3 f4 : R) : R :=
  (f1) * (1 - f2) * (1 - f3) * (1 - f4)

def f_0100 (f1 f2 f3 f4 : R) : R :=
  (1 - f1) * (f2) * (1 - f3) * (1 - f4)

def f_0010 (f1 f2 f3 f4 : R) : R :=
  (1 - f1) * (1 - f2) * (f3) * (1 - f4)

def f_0001 (f1 f2 f3 f4 : R) : R :=
  (1 - f1) * (1 - f2) * (1 - f3) * (f4)

def f_1010 (f1 f2 f3 f4 : R) : R :=
  (f1) * (1 - f2) * (f3) * (1 - f4)

def f_1001 (f1 f2 f3 f4 : R) : R :=
  (f1) * (1 - f2) * (1 - f3) * (f4)

def f_0101 (f1 f2 f3 f4 : R) : R :=
  (1 - f1) * (f2) * (1 - f3) * (f4)

def f_1100 (f1 f2 f3 f4 : R) : R :=
  (f1) * (f2) * (1 - f3) * (1 - f4)

def f_0110 (f1 f2 f3 f4 : R) : R :=
  (1 - f1) * (f2) * (f3) * (1 - f4)

def f_0011 (f1 f2 f3 f4 : R) : R :=
  (1 - f1) * (1 - f2) * (f3) * (f4)

def f_1101 (f1 f2 f3 f4 : R) : R :=
  (f1) * (f2) * (1 - f3) * (f4)

def f_1110 (f1 f2 f3 f4 : R) : R :=
  (f1) * (f2) * (f3) * (1 - f4)

def f_1011 (f1 f2 f3 f4 : R) : R :=
  (f1) * (1 - f2) * (f3) * (f4)

def f_0111 (f1 f2 f3 f4 : R) : R :=
  (1 - f1) * (f2) * (f3) * (f4)

def f_1111 (f1 f2 f3 f4 : R) : R :=
  (f1) * (f2) * (f3) * (f4)

def f_00000 (f1 f2 f3 f4 f5 : R) : R :=
  (1 - f1) * (1 - f2) * (1 - f3) * (1 - f4) * (1 - f5)

def f_10000 (f1 f2 f3 f4 f5 : R) : R :=
  (f1) * (1 - f2) * (1 - f3) * (1 - f4) * (1 - f5)

def f_01000 (f1 f2 f3 f4 f5 : R) : R :=
  (1 - f1) * (f2) * (1 - f3) * (1 - f4) * (1 - f5)

def f_00100 (f1 f2 f3 f4 f5 : R) : R :=
  (1 - f1) * (1 - f2) * (f3) * (1 - f4) * (1 - f5)

def f_00010 (f1 f2 f3 f4 f5 : R) : R :=
  (1 - f1) * (1 - f2) * (1 - f3) * (f4) * (1 - f5)

def f_10100 (f1 f2 f3 f4 f5 : R) : R :=
  (f1) * (1 - f2) * (f3) * (1 - f4) * (1 - f5)

def f_10010 (f1 f2 f3 f4 f5 : R) : R :=
  (f1) * (1 - f2) * (1 - f3) * (f4) * (1 - f5)

def f_01010 (f1 f2 f3 f4 f5 : R) : R :=
  (1 - f1) * (f2) * (1 - f3) * (f4) * (1 - f5)

def f_11000 (f1 f2 f3 f4 f5 : R) : R :=
  (f1) * (f2) * (1 - f3) * (1 - f4) * (1 - f5)

def f_01100 (f1 f2 f3 f4 f5 : R) : R :=
  (1 - f1) * (f2) * (f3) * (1 - f4) * (1 - f5)

def f_00110 (f1 f2 f3 f4 f5 : R) : R :=
  (1 - f1) * (1 - f2) * (f3) * (f4) * (1 - f5)

def f_11010 (f1 f2 f3 f4 f5 : R) : R :=
  (f1) * (f2) * (1 - f3) * (f4) * (1 - f5)

def f_11100 (f1 f2 f3 f4 f5 : R) : R :=
  (f1) * (f2) * (f3) * (1 - f4) * (1 - f5)

def f_10110 (f1 f2 f3 f4 f5 : R) : R :=
  (f1) * (1 - f2) * (f3) * (f4) * (1 - f5)

def f_01110 (f1 f2 f3 f4 f5 : R) : R :=
  (1 - f1) * (f2) * (f3) * (f4) * (1 - f5)

def f_11110 (f1 f2 f3 f4 f5 : R) : R :=
  (f1) * (f2) * (f3) * (f4) * (1 - f5)

def f_00001 (f1 f2 f3 f4 f5 : R) : R :=
  (1 - f1) * (1 - f2) * (1 - f3) * (1 - f4) * (f5)

def f_10001 (f1 f2 f3 f4 f5 : R) : R :=
  (f1) * (1 - f2) * (1 - f3) * (1 - f4) * (f5)

def f_01001 (f1 f2 f3 f4 f5 : R) : R :=
  (1 - f1) * (f2) * (1 - f3) * (1 - f4) * (f5)

def f_00101 (f1 f2 f3 f4 f5 : R) : R :=
  (1 - f1) * (1 - f2) * (f3) * (1 - f4) * (f5)

def f_00011 (f1 f2 f3 f4 f5 : R) : R :=
  (1 - f1) * (1 - f2) * (1 - f3) * (f4) * (f5)

def f_10101 (f1 f2 f3 f4 f5 : R) : R :=
  (f1) * (1 - f2) * (f3) * (1 - f4) * (f5)

def f_10011 (f1 f2 f3 f4 f5 : R) : R :=
  (f1) * (1 - f2) * (1 - f3) * (f4) * (f5)

def f_01011 (f1 f2 f3 f4 f5 : R) : R :=
  (1 - f1) * (f2) * (1 - f3) * (f4) * (f5)

def f_11001 (f1 f2 f3 f4 f5 : R) : R :=
  (f1) * (f2) * (1 - f3) * (1 - f4) * (f5)

def f_01101 (f1 f2 f3 f4 f5 : R) : R :=
  (1 - f1) * (f2) * (f3) * (1 - f4) * (f5)

def f_00111 (f1 f2 f3 f4 f5 : R) : R :=
  (1 - f1) * (1 - f2) * (f3) * (f4) * (f5)

def f_11011 (f1 f2 f3 f4 f5 : R) : R :=
  (f1) * (f2) * (1 - f3) * (f4) * (f5)

def f_11101 (f1 f2 f3 f4 f5 : R) : R :=
  (f1) * (f2) * (f3) * (1 - f4) * (f5)

def f_10111 (f1 f2 f3 f4 f5 : R) : R :=
  (f1) * (1 - f2) * (f3) * (f4) * (f5)

def f_01111 (f1 f2 f3 f4 f5 : R) : R :=
  (1 - f1) * (f2) * (f3) * (f4) * (f5)

def f_11111 (f1 f2 f3 f4 f5 : R) : R :=
  (f1) * (f2) * (f3) * (f4) * (f5)

/-- The 16-corner blend `interp_5d_tab_incl`; the result is the array `flu`. -/
def interp_5d_tab_incl (tab : xillTable R) (n_ener : Nat) (f1 f2 f3 f4 : R)
    (i0 i1 i2 i3 i4 i5 : Int) : Option (List R) :=
  let dat_0000 := get_xillspec tab i0 i1 i2 i3 i4 i5
  let dat_1000 := get_xillspec tab i0 (i1 + 1) i2 i3 i4 i5
  let dat_0100 := get_xillspec tab i0 i1 (i2 + 1) i3 i4 i5
  let dat_0010 := get_xillspec tab i0 i1 i2 (i3 + 1) i4 i5
  let dat_1100 := get_xillspec tab i0 (i1 + 1) (i2 + 1) i3 i4 i5
  let dat_1010 := get_xillspec tab i0 (i1 + 1) i2 (i3 + 1) i4 i5
  let dat_0110 := get_xillspec tab i0 i1 (i2 + 1) (i3 + 1) i4 i5
  let dat_1110 := get_xillspec tab i0 (i1 + 1) (i2 + 1) (i3 + 1) i4 i5
  let dat_0001 := get_xillspec tab i0 i1 i2 i3 (i4 + 1) i5
  let dat_1001 := get_xillspec tab i0 (i1 + 1) i2 i3 (i4 + 1) i5
  let dat_0101 := get_xillspec tab i0 i1 (i2 + 1) i3 (i4 + 1) i5
  let dat_0011 := get_xillspec tab i0 i1 i2 (i3 + 1) (i4 + 1) i5
  let dat_1101 := get_xillspec tab i0 (i1 + 1) (i2 + 1) i3 (i4 + 1) i5
  let dat_1011 := get_xillspec tab i0 (i1 + 1) i2 (i3 + 1) (i4 + 1) i5
  let dat_0111 := get_xillspec tab i0 i1 (i2 + 1) (i3 + 1) (i4 + 1) i5
  let dat_1111 := get_xillspec tab i0 (i1 + 1) (i2 + 1) (i3 + 1) (i4 + 1) i5
  for_ii n_ener fun ii =>
    sum_terms [
      term (f_0000 f1 f2 f3 f4) dat_0000 ii,
      term (f_1000 f1 f2 f3 f4) dat_1000 ii,
      term (f_0100 f1 f2 f3 f4) dat_0100 ii,
      term (f_0010 f1 f2 f3 f4) dat_0010 ii,
      term (f_1100 f1 f2 f3 f4) dat_1100 ii,
      term (f_1010 f1 f2 f3 f4) dat_1010 ii,
      term (f_0110 f1 f2 f3 f4) dat_0110 ii,
      term (f_1110 f1 f2 f3 f4) dat_1110 ii,
      term (f_0001 f1 f2 f3 f4) dat_0001 ii,
      term (f_1001 f1 f2 f3 f4) dat_1001 ii,
      term (f_0101 f1 f2 f3 f4) dat_0101 ii,
      term (f_0011 f1 f2 f3 f4) dat_0011 ii,
      term (f_1101 f1 f2 f3 f4) dat_1101 ii,
      term (f_1011 f1 f2 f3 f4) dat_1011 ii,
      term (f_0111 f1 f2 f3 f4) dat_0111 ii,
      term (f_1111 f1 f2 f3 f4) dat_1111 ii]

/-- The 32-corner blend `interp_5d_tab`; the result is the array `flu`. -/
def interp_5d_tab (tab : xillTable R) (n_ener : Nat) (f1 f2 f3 f4 f5 : R)
    (i0 i1 i2 i3 i4 i5 : Int) : Option (List R) :=
  let dat_00000 := get_xillspec tab i0 i1 i2 i3 i4 i5
  let dat_10000 := get_xillspec tab i0 (i1 + 1) i2 i3 i4 i5
  let dat_01000 := get_xillspec tab i0 i1 (i2 + 1) i3 i4 i5
  let dat_00100 := get_xillspec tab i0 i1 i2 (i3 + 1) i4 i5
  let dat_11000 := get_xillspec tab i0 (i1 + 1) (i2 + 1) i3 i4 i5
  let dat_10100 := get_xillspec tab i0 (i1 + 1) i2 (i3 + 1) i4 i5
  let dat_01100 := get_xillspec tab i0 i1 (i2 + 1) (i3 + 1) i4 i5
  let dat_11100 := get_xillspec tab i0 (i1 + 1) (i2 + 1) (i3 + 1) i4 i5
  let dat_00010 := get_xillspec tab i0 i1 i2 i3 (i4 + 1) i5
  let dat_10010 := get_xillspec tab i0 (i1 + 1) i2 i3 (i4 + 1) i5
  let dat_01010 := get_xillspec tab i0 i1 (i2 + 1) i3 (i4 + 1) i5
  let dat_00110 := get_xillspec tab i0 i1 i2 (i3 + 1) (i4 + 1) i5
  let dat_11010 := get_xillspec tab i0 (i1 + 1) (i2 + 1) i3 (i4 + 1) i5
  let dat_10110 := get_xillspec tab i0 (i1 + 1) i2 (i3 + 1) (i4 + 1) i5
  let dat_01110 := get_xillspec tab i0 i1 (i2 + 1) (i3 + 1) (i4 + 1) i5
  let dat_11110 := get_xillspec tab i0 (i1 + 1) (i2 + 1) (i3 + 1) (i4 + 1) i5
  let dat_00001 := get_xillspec tab i0 i1 i2 i3 i4 (i5 + 1)
  let dat_10001 := get_xillspec tab i0 (i1 + 1) i2 i3 i4 (i5 + 1)
  let dat_01001 := get_xillspec tab i0 i1 (i2 + 1) i3 i4 (i5 + 1)
  let dat_00101 := get_xillspec tab i0 i1 i2 (i3 + 1) i4 (i5 + 1)
  let dat_11001 := get_xillspec tab i0 (i1 + 1) (i2 + 1) i3 i4 (i5 + 1)
  let dat_10101 := get_xillspec tab i0 (i1 + 1) i2 (i3 + 1) i4 (i5 + 1)
  let dat_01101 := get_xillspec tab i0 i1 (i2 + 1) (i3 + 1) i4 (i5 + 1)
  let dat_11101 := get_xillspec tab i0 (i1 + 1) (i2 + 1) (i3 + 1) i4 (i5 + 1)
  let dat_00011 := get_xillspec tab i0 i1 i2 i3 (i4 + 1) (i5 + 1)
  let dat_10011 := get_xillspec tab i0 (i1 + 1) i2 i3 (i4 + 1) (i5 + 1)
  let dat_01011 := get_xillspec tab i0 i1 (i2 + 1) i3 (i4 + 1) (i5 + 1)
  let dat_00111 := get_xillspec tab i0 i1 i2 (i3 + 1) (i4 + 1) (i5 + 1)
  let dat_11011 := get_xillspec tab i0 (i1 + 1) (i2 + 1) i3 (i4 + 1) (i5 + 1)
  let dat_10111 := get_xillspec tab i0 (i1 + 1) i2 (i3 + 1) (i4 + 1) (i5 + 1)
  let dat_01111 := get_xillspec tab i0 i1 (i2 + 1) (i3 + 1) (i4 + 1) (i5 + 1)
  let dat_11111 := get_xillspec tab i0 (i1 + 1) (i2 + 1) (i3 + 1) (i4 + 1) (i5 + 1)
  for_ii n_ener fun ii =>
    sum_terms [
      term (f_00000 f1 f2 f3 f4 f5) dat_00000 ii,
      term (f_10000 f1 f2 f3 f4 f5) dat_10000 ii,
      term (f_01000 f1 f2 f3 f4 f5) dat_01000 ii,
      term (f_00100 f1 f2 f3 f4 f5) dat_00100 ii,
      term (f_11000 f1 f2 f3 f4 f5) dat_11000 ii,
      term (f_10100 f1 f2 f3 f4 f5) dat_10100 ii,
      term (f_01100 f1 f2 f3 f4 f5) dat_01100 ii,
      term (f_11100 f1 f2 f3 f4 f5) dat_11100 ii,
      term (f_00010 f1 f2 f3 f4 f5) dat_00010 ii,
      term (f_10010 f1 f2 f3 f4 f5) dat_10010 ii,
      term (f_01010 f1 f2 f3 f4 f5) dat_01010 ii,
      term (f_00110 f1 f2 f3 f4 f5) dat_00110 ii,
      term (f_11010 f1 f2 f3 f4 f5) dat_11010 ii,
      term (f_10110 f1 f2 f3 f4 f5) dat_10110 ii,
      term (f_01110 f1 f2 f3 f4 f5) dat_01110 ii,
      term (f_11110 f1 f2 f3 f4 f5) dat_11110 ii,
      term (f_00001 f1 f2 f3 f4 f5) dat_00001 ii,
      term (f_10001 f1 f2 f3 f4 f5) dat_10001 ii,
      term (f_01001 f1 f2 f3 f4 f5) dat_01001 ii,
      term (f_00101 f1 f2 f3 f4 f5) dat_00101 ii,
      term (f_11001 f1 f2 f3 f4 f5) dat_11001 ii,
      term (f_10101 f1 f2 f3 f4 f5) dat_10101 ii,
      term (f_01101 f1 f2 f3 f4 f5) dat_01101 ii,
      term (f_11101 f1 f2 f3 f4 f5) dat_11101 ii,
      term (f_00011 f1 f2 f3 f4 f5) dat_00011 ii,
      term (f_10011 f1 f2 f3 f4 f5) dat_10011 ii,
      term (f_01011 f1 f2 f3 f4 f5) dat_01011 ii,
      term (f_00111 f1 f2 f3 f4 f5) dat_00111 ii,
      term (f_11011 f1 f2 f3 f4 f5) dat_11011 ii,
      term (f_10111 f1 f2 f3 f4 f5) dat_10111 ii,
      term (f_01111 f1 f2 f3 f4 f5) dat_01111 ii,
      term (f_11111 f1 f2 f3 f4 f5) dat_11111 ii]

/-! ### Vocabulary for the statements about the blends -/

/-- The index offset of a corner bit: `1` for the upper neighbour, `0` for the
lower one. -/
def b2i (b : Bool) : Int :=
  if b then 1 else 0

/-- The linear weight of one axis: `f` for the upper neighbour, `1 - f` for the
lower one. -/
def wgt (f : R) (b : Bool) : R :=
  if b then f else 1 - f

/-- The stored value `get_xillspec(tab,i0,..,i5)[e]` (`0` where there is none). -/
def specval (tab : xillTable R) (i0 i1 i2 i3 i4 i5 : Int) (e : Nat) : R :=
  ((get_xillspec tab i0 i1 i2 i3 i4 i5).getD []).getD e 0

/-- The slot of corner `(i0,..,i5)` holds a spectrum of at least `n` bins. -/
def resident (tab : xillTable R) (n : Nat) (i0 i1 i2 i3 i4 i5 : Int) : Bool :=
  match get_xillspec tab i0 i1 i2 i3 i4 i5 with
  | some s => decide (n ≤ s.length)
  | none => false

/-- The 16 corners read by `interp_5d_tab_incl` hold spectra of `n` bins. -/
def cell16 (tab : xillTable R) (n : Nat) (i0 i1 i2 i3 i4 i5 : Int) : Prop :=
  ∀ b1 b2 b3 b4 : Bool,
    resident tab n i0 (i1 + b2i b1) (i2 + b2i b2) (i3 + b2i b3) (i4 + b2i b4) i5 = true

/-- The 32 corners read by `interp_5d_tab` hold spectra of `n` bins. -/
def cell32 (tab : xillTable R) (n : Nat) (i0 i1 i2 i3 i4 i5 : Int) : Prop :=
  ∀ b1 b2 b3 b4 b5 : Bool,
    resident tab n i0 (i1 + b2i b1) (i2 + b2i b2) (i3 + b2i b3) (i4 + b2i b4)
      (i5 + b2i b5) = true

/-- Order-4 multilinear interpolation as the specification words it: the sum
over the 16 bit vectors of the product of the per-axis weights times the
stored value of the corner, in energy bin `e`. -/
def multilinear4 (tab : xillTable R) (f1 f2 f3 f4 : R) (i0 i1 i2 i3 i4 i5 : Int)
    (e : Nat) : R :=
  ∑ b1 : Bool, ∑ b2 : Bool, ∑ b3 : Bool, ∑ b4 : Bool,
    (wgt f1 b1 * wgt f2 b2 * wgt f3 b3 * wgt f4 b4) *
      specval tab i0 (i1 + b2i b1) (i2 + b2i b2) (i3 + b2i b3) (i4 + b2i b4) i5 e

/-- Order-5 multilinear interpolation over the axes of `i1..i5`: the sum over
the 32 bit vectors. -/
def multilinear5 (tab : xillTable R) (f1 f2 f3 f4 f5 : R) (i0 i1 i2 i3 i4 i5 : Int)
    (e : Nat) : R :=
  ∑ b1 : Bool, ∑ b2 : Bool, ∑ b3 : Bool, ∑ b4 : Bool, ∑ b5 : Bool,
    (wgt f1 b1 * wgt f2 b2 * wgt f3 b3 * wgt f4 b4 * wgt f5 b5) *
      specval tab i0 (i1 + b2i b1) (i2 + b2i b2) (i3 + b2i b3) (i4 + b2i b4)
        (i5 + b2i b5) e

/-! ### A small table for evaluation -/

/-- A 5-axis table with two values on every axis and two energy bins, all of
its 32 spectra loaded; the spectrum in slot `k` is `[k, k * k]`. -/
def demoTable : xillTable ℚ where
  num_param := 5
  num_param_vals := [2, 2, 2, 2, 2]
  param_index := [0, 1, 2, 3, 8]
  param_names := ["Gamma", "A_Fe", "logXi", "Ecut", "Incl"]
  param_vals := [[1, 2], [1, 2], [1, 2], [1, 2], [1, 2]]
  n_ener := 2
  elo := [1, 2]
  ehi := [2, 3]
  incl := [1, 2]
  n_incl := 2
  num_elements := 32
  data_storage := fun k => if 1 ≤ k ∧ k ≤ 32 then some [(k : ℚ), (k : ℚ) * k] else none

/-! ### Input parameters, index search and clamping -/

/-- The array of input values indexed by parameter identifier,
`get_xilltab_paramvals`: a fresh block in which eight entries are written (the
entries of `PARAM_KTE` and `PARAM_ACO` are not, unless they coincide with
another identifier). -/
def get_xilltab_paramvals (X : Ext R) (param : xillTableParam R) : Int → R :=
  let param_vals := X.indet
  let param_vals := Function.update param_vals X.PARAM_GAM param.gam
  let param_vals := Function.update param_vals X.PARAM_AFE param.afe
  let param_vals := Function.update param_vals X.PARAM_LXI param.lxi
  let param_vals := Function.update param_vals X.PARAM_ECT param.ect
  let param_vals := Function.update param_vals X.PARAM_DNS param.dens
  let param_vals := Function.update param_vals X.PARAM_KTB param.kTbb
  let param_vals := Function.update param_vals X.PARAM_FRA param.frac_pl_bb
  let param_vals := Function.update param_vals X.PARAM_INC param.incl
  param_vals

/-- The lower grid index of every axis, `get_xilltab_indices_for_paramvals`;
`none` is the NULL pointer returned on a bad status. -/
def get_xilltab_indices_for_paramvals (X : Ext R) (param : xillTableParam R)
    (tab : xillTable R) (status : Int) : Option (List Int) :=
  if status ≠ EXIT_SUCCESS then none
  else
    let inp_param_vals := get_xilltab_paramvals X param
    some ((List.range tab.num_param.toNat).map fun (ii : Nat) =>
      let ind_ii := X.binary_search_float (idx [] tab.param_vals ii)
        (idx 0 tab.num_param_vals ii) (inp_param_vals (idx 0 tab.param_index ii))
      if ind_ii < 0 then 0
      else if ind_ii > idx 0 tab.num_param_vals ii - 2 then idx 0 tab.num_param_vals ii - 2
      else ind_ii)

/-- Position of the axis of kind `ind` in the table, or `-1`,
`get_xilltab_param_index`. -/
def get_xilltab_param_index (tab : xillTable R) (ind : Int) : Int :=
  match (List.range tab.num_param.toNat).find? fun (ii : Nat) => idx 0 tab.param_index ii == ind with
  | some ii => ii
  | none => -1

/-- The value stored back by `resetInpvalsToBoundaries` (the warnings of a
debug run are left out). -/
def resetInpvalsToBoundaries (inpVal tabValLo tabValHi : R) : R :=
  if inpVal < tabValLo then tabValLo
  else if inpVal > tabValHi then tabValHi
  else inpVal

/-- The array `inp_param_vals` after the clamping statement of iteration `ii`
of the factor loop of `interp_xill_table`: unless the model is not a xillver
model and the axis is the inclination, the entry of the axis is replaced by
its clamped value. -/
def ipol_fac_clamp (X : Ext R) (tab : xillTable R) (param : xillTableParam R)
    (inp_param_vals : Int → R) (ii : Nat) : Int → R :=
  let pind := idx 0 tab.param_index ii
  if !((!X.is_xill_model param.model_type) && (idx 0 tab.param_index ii == X.PARAM_INC)) then
    Function.update inp_param_vals pind
      (resetInpvalsToBoundaries (inp_param_vals pind) (idx 0 (idx [] tab.param_vals ii) 0)
        (idx 0 (idx [] tab.param_vals ii) (idx 0 tab.num_param_vals ii - 1)))
  else inp_param_vals

/-- The factor `ipol_fac[ii]` assigned in iteration `ii` of the factor loop. -/
def ipol_fac_value (tab : xillTable R) (ind : List Int) (inp_param_vals : Int → R)
    (ii : Nat) : R :=
  let pind := idx 0 tab.param_index ii
  (inp_param_vals pind - idx 0 (idx [] tab.param_vals ii) (idx 0 ind ii)) /
    (idx 0 (idx [] tab.param_vals ii) (idx 0 ind ii + 1)
      - idx 0 (idx [] tab.param_vals ii) (idx 0 ind ii))

/-- One iteration `ii` of the loop of `interp_xill_table` that computes the
interpolation factors; the state is the array `inp_param_vals` (the clamped
value is written back into it) and the factors computed so far. -/
def ipol_fac_step (X : Ext R) (tab : xillTable R) (param : xillTableParam R)
    (ind : List Int) (st : (Int → R) × List R) (ii : Nat) : (Int → R) × List R :=
  let inp_param_vals := ipol_fac_clamp X tab param st.1 ii
  (inp_param_vals, st.2 ++ [ipol_fac_value tab ind inp_param_vals ii])

/-- The state of the factor loop of `interp_xill_table` after its first `k`
iterations. -/
def ipol_fac_loop (X : Ext R) (tab : xillTable R) (param : xillTableParam R)
    (ind : List Int) (k : Nat) : (Int → R) × List R :=
  (List.range k).foldl (ipol_fac_step X tab param ind) (get_xilltab_paramvals X param, [])

/-- Pin the factor of the cutoff-energy axis at the table boundaries,
`ensure_ecut_within_boundarys`; the result is the array `ipol_fac`. -/
def ensure_ecut_within_boundarys (X : Ext R) (tab : xillTable R)
    (param : xillTableParam R) (ipol_fac : List R) : List R :=
  let index_ect := get_xilltab_param_index tab X.PARAM_ECT
  if index_ect ≥ 0 then
    let ipol_fac :=
      if param.ect ≤ idx 0 (idx [] tab.param_vals (idx 0 tab.param_index index_ect)) 0 then
        ipol_fac.set index_ect.toNat 0
      else ipol_fac
    let ipol_fac :=
      if param.ect ≥ idx 0 (idx [] tab.param_vals (idx 0 tab.param_index index_ect))
          (idx 0 tab.num_param_vals (idx 0 tab.param_index index_ect) - 1) then
        ipol_fac.set index_ect.toNat 1
      else ipol_fac
    ipol_fac
  else ipol_fac

/-! ### Six-axis interpolation and the table query -/

/-- The loop `flu[ii] = interp_lin_1d(fac[0], s1[ii], s2[ii])` shared by the two
six-axis blends. -/
def blend_lin_1d (X : Ext R) (n_ener : Nat) (f : R) (s1 s2 : List R) : Option (List R) :=
  for_ii n_ener fun ii =>
    (s1[ii]?).bind fun a => (s2[ii]?).map fun b => X.interp_lin_1d f a b

/-- The two-stage blend `interp_6d_tab_incl` (`assert(nfac == 6)` is a
precondition). -/
def interp_6d_tab_incl (X : Ext R) (tab : xillTable R) (n_ener : Nat) (fac : List R)
    (_nfac : Int) (ind : List Int) (iincl : Int) : Option (List R) :=
  (interp_5d_tab_incl tab n_ener
    (idx 0 fac 1) (idx 0 fac 2) (idx 0 fac 3) (idx 0 fac 4) (idx 0 ind 0)
    (idx 0 ind 1) (idx 0 ind 2) (idx 0 ind 3) (idx 0 ind 4) iincl).bind fun s1 =>
  (interp_5d_tab_incl tab n_ener
    (idx 0 fac 1) (idx 0 fac 2) (idx 0 fac 3) (idx 0 fac 4) (idx 0 ind 0 + 1)
    (idx 0 ind 1) (idx 0 ind 2) (idx 0 ind 3) (idx 0 ind 4) iincl).bind fun s2 =>
  blend_lin_1d X n_ener (idx 0 fac 0) s1 s2

/-- The two-stage blend `interp_6d_tab` (`assert(nfac == 6)` is a
precondition). -/
def interp_6d_tab (X : Ext R) (tab : xillTable R) (n_ener : Nat) (fac : List R)
    (_nfac : Int) (ind : List Int) : Option (List R) :=
  (interp_5d_tab tab n_ener
    (idx 0 fac 1) (idx 0 fac 2) (idx 0 fac 3) (idx 0 fac 4) (idx 0 fac 5)
    (idx 0 ind 0)
    (idx 0 ind 1) (idx 0 ind 2) (idx 0 ind 3) (idx 0 ind 4) (idx 0 ind 5)).bind fun s1 =>
  (interp_5d_tab tab n_ener
    (idx 0 fac 1) (idx 0 fac 2) (idx 0 fac 3) (idx 0 fac 4) (idx 0 fac 5)
    (idx 0 ind 0 + 1)
    (idx 0 ind 1) (idx 0 ind 2) (idx 0 ind 3) (idx 0 ind 4) (idx 0 ind 5)).bind fun s2 =>
  blend_lin_1d X n_ener (idx 0 fac 0) s1 s2

/-- The interpolation factors that `interp_xill_table` hands to the blends: the
factor loop over all `num_param` axes followed by the cutoff-energy pin. -/
def interp_xill_table_ipol_fac (X : Ext R) (tab : xillTable R) (param : xillTableParam R)
    (ind : List Int) : List R :=
  ensure_ecut_within_boundarys X tab param
    (ipol_fac_loop X tab param ind tab.num_param.toNat).2

/-- The flux arrays `spec->flu` computed by `interp_xill_table`, one per
inclination bin of the result.  For a table that has neither 5 nor 6 axes the
arrays are allocated and never written. -/
def interp_xill_table_flu (X : Ext R) (tab : xillTable R) (param : xillTableParam R)
    (ind : List Int) (n_incl : Int) : Option (List (List R)) :=
  let n_ener := tab.n_ener.toNat
  let nfac := tab.num_param
  let ipol_fac := interp_xill_table_ipol_fac X tab param ind
  if tab.num_param = 5 then
    if X.is_xill_model param.model_type then
      (interp_5d_tab tab n_ener
        (idx 0 ipol_fac 0) (idx 0 ipol_fac 1) (idx 0 ipol_fac 2) (idx 0 ipol_fac 3)
        (idx 0 ipol_fac 4) 0
        (idx 0 ind 0) (idx 0 ind 1) (idx 0 ind 2) (idx 0 ind 3) (idx 0 ind 4)).map
          fun flu0 => [flu0]
    else
      for_ii n_incl.toNat fun ii =>
        interp_5d_tab_incl tab n_ener
          (idx 0 ipol_fac 0) (idx 0 ipol_fac 1) (idx 0 ipol_fac 2) (idx 0 ipol_fac 3) 0
          (idx 0 ind 0) (idx 0 ind 1) (idx 0 ind 2) (idx 0 ind 3) ii
  else if tab.num_param = 6 then
    if X.is_xill_model param.model_type then
      for_ii n_incl.toNat fun _ => interp_6d_tab X tab n_ener ipol_fac nfac ind
    else
      for_ii n_incl.toNat fun ii => interp_6d_tab_incl X tab n_ener ipol_fac nfac ind ii
  else
    some (List.replicate n_incl.toNat ((List.range n_ener).map fun (e : Nat) => X.indet e))

/-- The table query `interp_xill_table`; `none` when no spectrum is returned (bad
status on entry) or when a corner that is read is not loaded. -/
def interp_xill_table (X : Ext R) (tab : xillTable R) (param : xillTableParam R)
    (ind : List Int) (status : Int) : Option (xillSpec R) :=
  if status ≠ EXIT_SUCCESS then none
  else
    let n_incl := if X.is_xill_model param.model_type then 1 else tab.n_incl
    (interp_xill_table_flu X tab param ind n_incl).map fun flu =>
      { n_ener := tab.n_ener
        n_incl := n_incl
        ener := ((List.range tab.n_ener.toNat).map fun (ii : Nat) => idx 0 tab.elo ii)
          ++ [idx 0 tab.ehi (tab.n_ener - 1)]
        incl := (List.range n_incl.toNat).map fun (ii : Nat) => idx 0 tab.incl ii
        flu := flu }

/-- A 6-axis table with two values on every axis and two energy bins, all of
its 64 spectra loaded; the spectrum in slot `k` is `[k, k * k]`. -/
def demoTable6 : xillTable ℚ where
  num_param := 6
  num_param_vals := [2, 2, 2, 2, 2, 2]
  param_index := [6, 7, 5, 0, 1, 8]
  param_names := ["A_CO", "Frac", "kTbb", "Gamma", "A_Fe", "Incl"]
  param_vals := [[1, 2], [1, 2], [1, 2], [1, 2], [1, 2], [1, 2]]
  n_ener := 2
  elo := [1, 2]
  ehi := [2, 3]
  incl := [1, 2]
  n_incl := 2
  num_elements := 64
  data_storage := fun k => if 1 ≤ k ∧ k ≤ 64 then some [(k : ℚ), (k : ℚ) * k] else none

/-- An instance of `Ext` for evaluation.  The identifiers are those of relxill's
`xilltable.h`; `is_xill_model` holds for model type 0 only;
`binary_search_float` returns the number of tabulated values below or at the
input, minus one; `interp_lin_1d` is linear interpolation; `pow10` is exact on
integer exponents; fresh memory reads 0. -/
def demoExt : Ext ℚ where
  PARAM_GAM := 0
  PARAM_AFE := 1
  PARAM_LXI := 2
  PARAM_ECT := 3
  PARAM_KTE := 3
  PARAM_DNS := 4
  PARAM_KTB := 5
  PARAM_ACO := 6
  PARAM_FRA := 7
  PARAM_INC := 8
  N_PARAM_MAX := 10
  NAME_GAM := "Gamma"
  NAME_AFE := "A_Fe"
  NAME_LXI := "logXi"
  NAME_ECT := "Ecut"
  NAME_KTE := "kTe"
  NAME_DNS := "Dens"
  NAME_KTB := "kTbb"
  NAME_ACO := "A_CO"
  NAME_FRA := "Frac"
  NAME_INC := "Incl"
  XILLTABLE_FILENAME := "xillver-a-Ec5.fits"
  XILLTABLE_NTHCOMP_FILENAME := "xillverCp_v3.4.fits"
  XILLTABLE_NS_FILENAME := "xillverNS-2.fits"
  XILLTABLE_CO_FILENAME := "xillverCO.fits"
  PRIM_SPEC_NTHCOMP := 2
  is_xill_model := fun t => t == 0
  is_ns_model := fun t => t == 1
  is_co_model := fun t => t == 2
  binary_search_float := fun arr _ x => (arr.filter fun v => v ≤ x).length - 1
  interp_lin_1d := fun f a b => (1 - f) * a + f * b
  pow10 := fun x => (10 : ℚ) ^ (Int.floor x)
  indet := fun _ => 0

/-- A parameter set for evaluation: every value lies on the grid of `demoTable`
except `gam`, halfway between its two tabulated values. -/
def demoParam : xillTableParam ℚ where
  gam := 3 / 2
  afe := 1
  lxi := 1
  ect := 1
  dens := 15
  kTbb := 1
  frac_pl_bb := 1
  incl := 1
  model_type := 0
  prim_type := 0

/-! ### Vocabulary for the statements about axes -/

/-- The tabulated value `tab->param_vals[ii][k]`. -/
def axis_val (tab : xillTable R) (ii : Nat) (k : Int) : R :=
  idx 0 (idx [] tab.param_vals ii) k

/-- The number `tab->num_param_vals[ii]` of tabulated values of axis `ii`. -/
def axis_len (tab : xillTable R) (ii : Nat) : Int :=
  idx 0 tab.num_param_vals ii

/-- Axis `ii` holds `num_param_vals[ii]` values, at least two, in strictly
increasing order. -/
def axis_increasing (tab : xillTable R) (ii : Nat) : Prop :=
  2 ≤ axis_len tab ii ∧
  ((idx [] tab.param_vals ii).length : Int) = axis_len tab ii ∧
  (idx [] tab.param_vals ii).Pairwise (· < ·)

/-- Axis `ii` is clamped by the factor loop of `interp_xill_table`: it is not
the case that the model is not a xillver model and the axis is the
inclination. -/
def axis_clamped (X : Ext R) (tab : xillTable R) (param : xillTableParam R) (ii : Nat) :
    Prop :=
  ¬(X.is_xill_model param.model_type = false ∧ idx 0 tab.param_index ii = X.PARAM_INC)

/-- A 5-axis table whose cutoff-energy axis is the first one, and not the axis at
position `PARAM_ECT = 3`, which holds the density: axes Ecut (5, 10),
Gamma (1, 2), A_Fe (1, 2), Dens (15, 19), Incl (1, 2); all 32 spectra are
loaded, the one in slot `k` being `[k, k * k]`. -/
def cutoffFirstTable : xillTable ℚ where
  num_param := 5
  num_param_vals := [2, 2, 2, 2, 2]
  param_index := [3, 0, 1, 4, 8]
  param_names := ["Ecut", "Gamma", "A_Fe", "Dens", "Incl"]
  param_vals := [[5, 10], [1, 2], [1, 2], [15, 19], [1, 2]]
  n_ener := 2
  elo := [1, 2]
  ehi := [2, 3]
  incl := [1, 2]
  n_incl := 2
  num_elements := 32
  data_storage := fun k => if 1 ≤ k ∧ k ≤ 32 then some [(k : ℚ), (k : ℚ) * k] else none

/-- A query on `cutoffFirstTable` with cutoff energy `ect`, every other value on
the first grid point of its axis. -/
def cutoffFirstParam (ect : ℚ) : xillTableParam ℚ where
  gam := 1
  afe := 1
  lxi := 0
  ect := ect
  dens := 15
  kTbb := 1
  frac_pl_bb := 1
  incl := 1
  model_type := 0
  prim_type := 0

/-- A 5-axis table whose cutoff-energy axis is the second one, the axis at
position `PARAM_ECT = 3` being the ionization: axes Gamma (1, 2),
Ecut (20, 300), A_Fe (1, 2), logXi (0, 4), Incl (1, 2); all 32 spectra are
loaded, the one in slot `k` being `[k, k * k]`. -/
def cutoffSecondTable : xillTable ℚ where
  num_param := 5
  num_param_vals := [2, 2, 2, 2, 2]
  param_index := [0, 3, 1, 2, 8]
  param_names := ["Gamma", "Ecut", "A_Fe", "logXi", "Incl"]
  param_vals := [[1, 2], [20, 300], [1, 2], [0, 4], [1, 2]]
  n_ener := 2
  elo := [1, 2]
  ehi := [2, 3]
  incl := [1, 2]
  n_incl := 2
  num_elements := 32
  data_storage := fun k => if 1 ≤ k ∧ k ≤ 32 then some [(k : ℚ), (k : ℚ) * k] else none

/-- A query on `cutoffSecondTable`: `gam` halfway between the two tabulated
values, every other value on the first grid point of its axis. -/
def cutoffSecondParam : xillTableParam ℚ where
  gam := 3 / 2
  afe := 1
  lxi := 0
  ect := 20
  dens := 15
  kTbb := 1
  frac_pl_bb := 1
  incl := 1
  model_type := 0
  prim_type := 0

/-! ### Loading spectra from the table file -/

/-- Behaviour of the CFITSIO calls on the table file during one call of
`check_xilltab_cache`: whether `fits_open_table` succeeds, whether
`fits_movnam_hdu` to the extension SPECTRA succeeds before the read of row `r`,
the flux values that `fits_read_col` delivers for row `r` (`none` when the read
fails), and whether `fits_close_file` succeeds. -/
structure FitsFile (R : Type) where
  open_ok : Bool
  movnam_ok : Int → Bool
  read_col : Int → Option (List R)
  close_ok : Bool

/-- A CFITSIO call performed on the table file, with its outcome. -/
inductive FitsEvent where
  | open_table (ok : Bool)
  | movnam_hdu (ok : Bool)
  | read_col (rownum : Int) (ok : Bool)
  | close_file (ok : Bool)
  deriving DecidableEq, Repr

/-- The state threaded through `check_xilltab_cache`: the table, whether the
file pointer `fptr` is non-NULL, the status word and the CFITSIO calls made so
far. -/
structure LoadState (R : Type) where
  tab : xillTable R
  fptr : Bool
  status : Int
  log : List FitsEvent

/-- Renormalisation of the first `n` elements of a spectrum, `renorm_xill_spec`
(`pow(10, x)` is `X.pow10 x`). -/
def renorm_xill_spec (X : Ext R) (spec : List R) (n : Int) (lxi dens : R) : List R :=
  spec.enum.map fun p =>
    if (p.1 : Int) < n then
      let s := p.2 / X.pow10 lxi
      if |dens - 15| > 1 / 1000000 then s / X.pow10 (dens - 15) else s
    else p.2

/-- Index of an axis in the 6-entry index array, `convertTo6dimTableIndex`
(`assert(num_param == 6 || num_param == 5)` is a precondition). -/
def convertTo6dimTableIndex (num_param : Int) (indexTable : Int) : Int :=
  if num_param = 5 then indexTable + 1 else indexTable

/-- Renormalisation of a freshly read spectrum,
`normalizeXillverSpecLogxiDensity`. -/
def normalizeXillverSpecLogxiDensity (X : Ext R) (spec : List R) (tab : xillTable R)
    (density logxi : R) (indVals : List Int) : List R :=
  let ind_dens := get_xilltab_param_index tab X.PARAM_DNS
  let ind_lxi := get_xilltab_param_index tab X.PARAM_LXI
  let ind_dens_6dim := convertTo6dimTableIndex tab.num_param ind_dens
  let ind_lxi_6dim := convertTo6dimTableIndex tab.num_param ind_lxi
  let density :=
    if ind_dens ≥ 0 then idx 0 (idx [] tab.param_vals ind_dens) (idx 0 indVals ind_dens_6dim)
    else density
  let logxi :=
    if ind_lxi ≥ 0 then idx 0 (idx [] tab.param_vals ind_lxi) (idx 0 indVals ind_lxi_6dim)
    else logxi
  renorm_xill_spec X spec tab.n_ener logxi density

/-- Load one spectrum from the file into the storage,
`xilltable_fits_load_single_spec`.  Every failure leaves a status different
from `EXIT_SUCCESS`, written `EXIT_FAILURE`.  The buffer `spec` has `n_ener`
elements, filled by `fits_read_col`. -/
def xilltable_fits_load_single_spec (X : Ext R) (fits : FitsFile R) (st : LoadState R)
    (defDensity defLogxi : R) (nn ii jj kk ll mm : Int) : LoadState R :=
  if st.status ≠ EXIT_SUCCESS then st
  else
    -- open the fits file if not already open
    let st : LoadState R :=
      if st.fptr = false then
        { st with
          fptr := fits.open_ok
          status := if fits.open_ok then st.status else EXIT_FAILURE
          log := st.log ++ [FitsEvent.open_table fits.open_ok] }
      else st
    if st.status ≠ EXIT_SUCCESS then st
    else
      let rownum := get_xillspec_rownum st.tab.num_param_vals st.tab.num_param nn ii jj kk ll mm
      if fits.movnam_ok rownum = false then
        { st with status := EXIT_FAILURE, log := st.log ++ [FitsEvent.movnam_hdu false] }
      else
        let st : LoadState R := { st with log := st.log ++ [FitsEvent.movnam_hdu true] }
        match fits.read_col rownum with
        | none =>
          { st with status := EXIT_FAILURE, log := st.log ++ [FitsEvent.read_col rownum false] }
        | some row =>
          let spec := (List.range st.tab.n_ener.toNat).map fun (e : Nat) => row.getD e (X.indet e)
          let spec := normalizeXillverSpecLogxiDensity X spec st.tab defDensity defLogxi
            [nn, ii, jj, kk, ll, mm]
          { st with
            tab := set_dat spec st.tab nn ii jj kk ll mm
            log := st.log ++ [FitsEvent.read_col rownum true] }

/-- The values of a loop `for (i = lo; i <= hi; i++)`. -/
def int_range (lo hi : Int) : List Int :=
  (List.range (hi + 1 - lo).toNat).map fun (k : Nat) => lo + k

/-- The corners visited by the six nested loops of `check_xilltab_cache`, in the
order of the visit. -/
def check_xilltab_cache_corners (tab : xillTable R) (ind : List Int) :
    List (Int × Int × Int × Int × Int × Int) :=
  let i0lo := if tab.num_param = 6 then idx 0 ind 0 else 0
  let i0hi := if tab.num_param = 6 then idx 0 ind 0 + 1 else 0
  let istart : Int := if tab.num_param = 6 then 1 else 0
  (int_range i0lo i0hi).flatMap fun nn =>
  (int_range (idx 0 ind istart) (idx 0 ind istart + 1)).flatMap fun ii =>
  (int_range (idx 0 ind (istart + 1)) (idx 0 ind (istart + 1) + 1)).flatMap fun jj =>
  (int_range (idx 0 ind (istart + 2)) (idx 0 ind (istart + 2) + 1)).flatMap fun kk =>
  (int_range (idx 0 ind (istart + 3)) (idx 0 ind (istart + 3) + 1)).flatMap fun ll =>
  (List.range tab.n_incl.toNat).map fun (mm : Nat) => (nn, ii, jj, kk, ll, (mm : Int))

/-- The body of the innermost loop of `check_xilltab_cache` for one corner; once
the status is bad the function has returned and nothing more happens. -/
def check_xilltab_cache_step (X : Ext R) (fits : FitsFile R) (param : xillTableParam R)
    (st : LoadState R) (c : Int × Int × Int × Int × Int × Int) : LoadState R :=
  if st.status ≠ EXIT_SUCCESS then st
  else if get_xillspec st.tab c.1 c.2.1 c.2.2.1 c.2.2.2.1 c.2.2.2.2.1 c.2.2.2.2.2 = none then
    xilltable_fits_load_single_spec X fits st param.dens param.lxi
      c.1 c.2.1 c.2.2.1 c.2.2.2.1 c.2.2.2.2.1 c.2.2.2.2.2
  else st

/-- Make sure that all spectra around the grid cell `ind` are loaded,
`check_xilltab_cache`.  The result holds the table, the status and the CFITSIO
calls made.  A failed load returns at once, without closing the file. -/
def check_xilltab_cache (X : Ext R) (fits : FitsFile R) (param : xillTableParam R)
    (tab : xillTable R) (ind : List Int) (status : Int) : LoadState R :=
  if status ≠ EXIT_SUCCESS then { tab := tab, fptr := false, status := status, log := [] }
  else
    let st := (check_xilltab_cache_corners tab ind).foldl
      (check_xilltab_cache_step X fits param)
      { tab := tab, fptr := false, status := status, log := [] }
    if st.status ≠ EXIT_SUCCESS then st
    else if st.fptr then
      { st with
        fptr := false
        status := if fits.close_ok then st.status else EXIT_FAILURE
        log := st.log ++ [FitsEvent.close_file fits.close_ok] }
    else st

/-- One call of `check_xilltab_cache` in a sequence of calls on the same table. -/
structure CacheCall (R : Type) where
  fits : FitsFile R
  param : xillTableParam R
  ind : List Int
  status : Int

/-- A sequence of calls of `check_xilltab_cache` on one table, each with its own
indices, parameters, status on entry and file behaviour: the table after the
last call and the CFITSIO calls of all of them, in order. -/
def run_cache_calls (X : Ext R) (tab : xillTable R) :
    List (CacheCall R) → xillTable R × List FitsEvent
  | [] => (tab, [])
  | c :: cs =>
    let st := check_xilltab_cache X c.fits c.param tab c.ind c.status
    let r := run_cache_calls X st.tab cs
    (r.1, st.log ++ r.2)

/-- The outcomes of the `fits_read_col` calls for row `r`, in the order of the
calls. -/
def reads_of (r : Int) : List FitsEvent → List Bool
  | [] => []
  | FitsEvent.read_col r' ok :: es => if r' = r then ok :: reads_of r es else reads_of r es
  | _ :: es => reads_of r es

/-- The number of `fits_open_table` calls in a log. -/
def opens_of : List FitsEvent → Nat
  | [] => 0
  | FitsEvent.open_table _ :: es => opens_of es + 1
  | _ :: es => opens_of es

/-- The bookkeeping invariant of the lazy loading, for a table and the CFITSIO
calls made on its file so far: every row that was read successfully is
resident in the storage, and no `fits_read_col` call for a row other than the
last one for that row was successful. -/
def load_invariant (tab : xillTable R) (log : List FitsEvent) : Prop :=
  ∀ r : Int, (true ∈ reads_of r log → (tab.data_storage r).isSome = true) ∧
    true ∉ (reads_of r log).dropLast

/-- Two tables have the same axes and the second one holds every spectrum that
the first one holds. -/
def storage_grows (t1 t2 : xillTable R) : Prop :=
  t2.num_param = t1.num_param ∧ t2.num_param_vals = t1.num_param_vals ∧
    t2.n_incl = t1.n_incl ∧
    ∀ r : Int, (t1.data_storage r).isSome = true → (t2.data_storage r).isSome = true

/-- The table `demoTable` before any spectrum is loaded. -/
def emptyTable : xillTable ℚ :=
  { demoTable with data_storage := fun _ => none }

/-- A table file on which every CFITSIO call succeeds; row `r` holds `[r, r * r]`. -/
def demoFile : FitsFile ℚ where
  open_ok := true
  movnam_ok := fun _ => true
  read_col := fun r => some [(r : ℚ), (r : ℚ) * r]
  close_ok := true

/-- The caller's value of the parameter of axis `ii` is the tabulated value at
`ind[ii]`. -/
def on_grid (X : Ext R) (tab : xillTable R) (param : xillTableParam R) (ind : List Int)
    (ii : Nat) : Prop :=
  get_xilltab_paramvals X param (idx 0 tab.param_index ii) = axis_val tab ii (idx 0 ind ii)

/-- The caller's value of the parameter of axis `ii` lies halfway between the
tabulated values at `ind[ii]` and `ind[ii] + 1`. -/
def at_midpoint (X : Ext R) (tab : xillTable R) (param : xillTableParam R) (ind : List Int)
    (ii : Nat) : Prop :=
  get_xilltab_paramvals X param (idx 0 tab.param_index ii)
    = (axis_val tab ii (idx 0 ind ii) + axis_val tab ii (idx 0 ind ii + 1)) / 2

/-- A table of `n` axes as the data model describes it, with grid indices that
have an upper neighbour: every axis strictly increasing with at least two
values, at most one axis per kind, `0 ≤ ind[ii] ≤ num_param_vals[ii] - 2`. -/
def well_formed (tab : xillTable R) (ind : List Int) (n : Nat) : Prop :=
  tab.num_param = n ∧
  (∀ ii : Nat, ii < n → axis_increasing tab ii) ∧
  (∀ jj ii : Nat, jj < ii → ii < n → idx 0 tab.param_index jj ≠ idx 0 tab.param_index ii) ∧
  (∀ ii : Nat, ii < n → 0 ≤ idx 0 ind ii ∧ idx 0 ind ii ≤ axis_len tab ii - 2)

/-- The layout under which `ensure_ecut_within_boundarys` reads the cutoff axis:
if the table has a cutoff-energy axis, its position in the table is the
number `PARAM_ECT`, and the entry `PARAM_ECT` of the input array holds
`param->ect`. -/
def cutoff_axis_in_place (X : Ext R) (tab : xillTable R) (param : xillTableParam R) : Prop :=
  ∀ p : Nat, get_xilltab_param_index tab X.PARAM_ECT = (p : Int) →
    (p : Int) = X.PARAM_ECT ∧ get_xilltab_paramvals X param X.PARAM_ECT = param.ect

/-! ### Vocabulary of the renormalisation claims -/

/-- The table has an axis of kind `k`, and `p` is the position of the first
one. -/
def tabulated_at (tab : xillTable R) (k : Int) (p : Nat) : Prop :=
  p < tab.num_param.toNat ∧ idx 0 tab.param_index p = k ∧
    ∀ jj : Nat, jj < p → idx 0 tab.param_index jj ≠ k

/-- The table has no axis of kind `k`. -/
def not_tabulated (tab : xillTable R) (k : Int) : Prop :=
  ∀ ii : Nat, ii < tab.num_param.toNat → idx 0 tab.param_index ii ≠ k

/-- The tabulated value of axis `p` at a corner given by its index array of six
entries: the corner's index on axis `p` is entry `p` of the array for a table
of 6 axes and entry `p + 1` for a table of 5 axes. -/
def corner_axis_value (tab : xillTable R) (indVals : List Int) (p : Nat) : R :=
  idx 0 (idx [] tab.param_vals p)
    (if tab.num_param = 6 then idx 0 indVals p else idx 0 indVals (p + 1))


/-- The state of the storage during a call of `check_xilltab_cache` on the table
`tab0`, with respect to the corners `all` of the call: only the storage of the
table has changed; a slot that was resident at the start holds the same
spectrum; a row that was read successfully is the row of a corner of the call
and its slot holds the row read from the file, renormalised at that corner; a
row whose read failed has an absent slot, and the status is bad. -/
def load_faithful (X : Ext R) (fits : FitsFile R) (param : xillTableParam R)
    (tab0 : xillTable R) (all : List (Int × Int × Int × Int × Int × Int))
    (st : LoadState R) : Prop :=
  (∃ f, st.tab = { tab0 with data_storage := f }) ∧
  (∀ r s, tab0.data_storage r = some s → st.tab.data_storage r = some s) ∧
  (∀ r, true ∈ reads_of r st.log →
    ∃ c ∈ all,
      get_xillspec_rownum tab0.num_param_vals tab0.num_param
        c.1 c.2.1 c.2.2.1 c.2.2.2.1 c.2.2.2.2.1 c.2.2.2.2.2 = r ∧
      ∃ row, fits.read_col r = some row ∧
        st.tab.data_storage r = some (normalizeXillverSpecLogxiDensity X
          ((List.range tab0.n_ener.toNat).map fun (e : Nat) => row.getD e (X.indet e))
          tab0 param.dens param.lxi
          [c.1, c.2.1, c.2.2.1, c.2.2.2.1, c.2.2.2.2.1, c.2.2.2.2.2])) ∧
  (∀ r, false ∈ reads_of r st.log →
    st.status ≠ EXIT_SUCCESS ∧ st.tab.data_storage r = none)


/-- A table file on which the read of row 3 fails and every other CFITSIO call
succeeds; row `r` holds `[r, r * r]`. -/
def failingFile : FitsFile ℚ where
  open_ok := true
  movnam_ok := fun _ => true
  read_col := fun r => if r = 3 then none else some [(r : ℚ), (r : ℚ) * r]
  close_ok := true


/-! ### Creation of a table and the names of its axes -/

/-- The array `global_param_index`. -/
def global_param_index (X : Ext R) : List Int :=
  [X.PARAM_GAM, X.PARAM_AFE, X.PARAM_LXI, X.PARAM_ECT, X.PARAM_KTE, X.PARAM_DNS,
    X.PARAM_KTB, X.PARAM_ACO, X.PARAM_FRA, X.PARAM_INC]

/-- The array `global_param_names`. -/
def global_param_names (X : Ext R) : List String :=
  [X.NAME_GAM, X.NAME_AFE, X.NAME_LXI, X.NAME_ECT, X.NAME_KTE, X.NAME_DNS,
    X.NAME_KTB, X.NAME_ACO, X.NAME_FRA, X.NAME_INC]

/-- The first `n` elements of a block of fresh memory holding the values `a`
(`d` where `a` is shorter). -/
def fresh_block {α : Type} (d : α) (a : List α) (n : Int) : List α :=
  (List.range n.toNat).map fun (ii : Nat) => a.getD ii d

/-- Get a new and empty table, `new_xillTable`: the table, or `none` for the
NULL pointer, and the status.  `fresh` is the content of the memory handed out
by `malloc` before anything is written to it; the NULL pointers stored in the
table are the empty array, the empty name and the storage without any slot. -/
def new_xillTable (fresh : xillTable R) (num_param : Int) (status : Int) :
    Option (xillTable R) × Int :=
  let tab : xillTable R := { fresh with num_param := num_param }
  -- first make sure we ask only for the dimensions that are implemented
  if ¬(tab.num_param = 5 ∨ tab.num_param = 6) then (none, EXIT_FAILURE)
  else
    let tab : xillTable R := { tab with
      num_param_vals := fresh_block 0 fresh.num_param_vals num_param
      param_index := fresh_block 0 fresh.param_index num_param
      param_names := List.replicate num_param.toNat ""
      param_vals := List.replicate num_param.toNat []
      elo := []
      ehi := []
      incl := []
      n_incl := -1
      data_storage := fun _ => none }
    (some tab, status)

/-- The loop over all possible parameters in `set_parindex_from_parname`, for
the given parameter `ii`: every match writes `pindex[ii]`, the loop goes on. -/
def set_parindex_search (X : Ext R) (pindex : List Int) (pname : List String) (ii : Nat) :
    List Int :=
  (List.range X.N_PARAM_MAX.toNat).foldl
    (fun (p : List Int) (jj : Nat) =>
      if idx "" pname ii = idx "" (global_param_names X) jj then
        p.set ii (idx 0 (global_param_index X) jj)
      else p)
    pindex

/-- The body of the loop over the given parameters in
`set_parindex_from_parname`, on the array `pindex` and the status. -/
def set_parindex_step (X : Ext R) (pname : List String) (st : List Int × Int) (ii : Nat) :
    List Int × Int :=
  let pindex := st.1.set ii (-1)
  let pindex := set_parindex_search X pindex pname ii
  if idx 0 pindex ii = -1 then (pindex, EXIT_FAILURE) else (pindex, st.2)

/-- Set the parameter identifiers of the `n` axis names `pname`,
`set_parindex_from_parname`: the array `pindex` and the status afterwards. -/
def set_parindex_from_parname (X : Ext R) (pindex : List Int) (pname : List String)
    (n : Int) (status : Int) : List Int × Int :=
  (List.range n.toNat).foldl (set_parindex_step X pname) (pindex, status)


/-! ### Reading the table file at initialisation -/

/-- The table file as `init_xillver_table` reads it: the outcome of each CFITSIO
call, `false` or `none` for a call that fails, in the order of the calls.  A
CFITSIO call entered with a bad status does nothing. -/
structure TableFile (R : Type) where
  open_ok : Bool
  num_rows : Option Int
  ener_movnam_ok : Bool
  ener_rows : Option Int
  elo : Option (List R)
  ehi : Option (List R)
  par_movnam_ok : Bool
  par_rows : Option Int
  par_nvals : Option (List Int)
  par_names : Option (List String)
  par_vals : Nat → Option (List R)
  close_ok : Bool

/-- The C constant `INT_MAX` of a 32-bit `int`. -/
def INT_MAX : Int := 2147483647

/-- A fresh block of `n` numbers, not written yet. -/
def indet_block (X : Ext R) (n : Int) : List R :=
  (List.range n.toNat).map fun (k : Nat) => X.indet k

/-- A block of `n` numbers after a read of the values `l` into it. -/
def read_block (X : Ext R) (l : List R) (n : Int) : List R :=
  (List.range n.toNat).map fun (k : Nat) => l.getD k (X.indet k)

/-- The number of rows of the first table of the file, `get_num_param_auto`,
and the status; after a failure the number is not used by the caller. -/
def get_num_param_auto (file : TableFile R) (status : Int) : Int × Int :=
  if status ≠ EXIT_SUCCESS then (0, status)
  else
    match file.num_rows with
    | some n => (n, status)
    | none => (0, EXIT_FAILURE)

/-- Read the energy grid into `n_ener`, `elo`, `ehi` of the table,
`get_xilltable_ener`. -/
def get_xilltable_ener (X : Ext R) (file : TableFile R) (tab : xillTable R) (status : Int) :
    xillTable R × Int :=
  if status ≠ EXIT_SUCCESS then (tab, status)
  else if file.ener_movnam_ok = false then (tab, EXIT_FAILURE)
  else
    match file.ener_rows with
    | none => (tab, EXIT_FAILURE)
    | some nrows =>
      match file.elo with
      | none =>
        ({ tab with n_ener := nrows, elo := indet_block X nrows, ehi := indet_block X nrows },
          EXIT_FAILURE)
      | some lo =>
        match file.ehi with
        | none =>
          ({ tab with n_ener := nrows, elo := read_block X lo nrows,
                      ehi := indet_block X nrows }, EXIT_FAILURE)
        | some hi =>
          ({ tab with n_ener := nrows, elo := read_block X lo nrows,
                      ehi := read_block X hi nrows }, status)

/-- The loop of `get_xilltable_parameters` that loads the values of each axis:
the array `param_vals` and the status, for the axes `ii` still to do.  A bad
status ends the loop (`CHECK_STATUS_BREAK`). -/
def read_param_vals (X : Ext R) (file : TableFile R) (num_param_vals : List Int) :
    List Nat → List (List R) × Int → List (List R) × Int
  | [], st => st
  | ii :: rest, st =>
    if st.2 ≠ EXIT_SUCCESS then
      (st.1.set ii (indet_block X (idx 0 num_param_vals ii)), st.2)
    else
      match file.par_vals ii with
      | some l =>
        read_param_vals X file num_param_vals rest
          (st.1.set ii (read_block X l (idx 0 num_param_vals ii)), st.2)
      | none => (st.1.set ii (indet_block X (idx 0 num_param_vals ii)), EXIT_FAILURE)

/-- The assertion of `get_xilltable_parameters` on the name of the last axis: its
first four characters are `I`, `n`, `c`, `l` (a C string ends with the
character 0). -/
def is_incl_name (name : String) : Bool :=
  name.toList.getD 0 (Char.ofNat 0) == 'I'
    && name.toList.getD 1 (Char.ofNat 0) == 'n'
    && name.toList.getD 2 (Char.ofNat 0) == 'c'
    && name.toList.getD 3 (Char.ofNat 0) == 'l'

/-- Read the parameters of the table file, `get_xilltable_parameters`: the table
and the status, or `none` when the assertion on the name of the last axis
fails.  `fresh` holds the content of the name buffers handed out by `malloc`. -/
def get_xilltable_parameters (X : Ext R) (fresh : xillTable R) (file : TableFile R)
    (tab : xillTable R) (status : Int) : Option (xillTable R × Int) :=
  if status ≠ EXIT_SUCCESS then some (tab, status)
  else if file.par_movnam_ok = false then some (tab, EXIT_FAILURE)
  else
    match file.par_rows with
    | none => some (tab, EXIT_FAILURE)
    | some n =>
      let status := if tab.num_param ≠ n then EXIT_FAILURE else status
      let names := fresh_block "" fresh.param_names tab.num_param
      -- the number of values of each axis
      let rd_n : List Int × Int :=
        if status ≠ EXIT_SUCCESS then (tab.num_param_vals, status)
        else
          match file.par_nvals with
          | some l =>
            ((List.range tab.num_param.toNat).map fun (k : Nat) =>
              l.getD k (tab.num_param_vals.getD k 0), status)
          | none => (tab.num_param_vals, EXIT_FAILURE)
      -- the names of the axes
      let rd_s : List String × Int :=
        if rd_n.2 ≠ EXIT_SUCCESS then (names, rd_n.2)
        else
          match file.par_names with
          | some l =>
            ((List.range tab.num_param.toNat).map fun (k : Nat) =>
              l.getD k (names.getD k ""), rd_n.2)
          | none => (names, EXIT_FAILURE)
      -- the values of each axis
      let rd_v := read_param_vals X file rd_n.1 (List.range tab.num_param.toNat)
        (tab.param_vals, rd_s.2)
      let pi := set_parindex_from_parname X tab.param_index rd_s.1 tab.num_param rd_v.2
      if is_incl_name (idx "" rd_s.1 (tab.num_param - 1)) = false then none
      else
        some ({ tab with
                num_param_vals := rd_n.1
                param_names := rd_s.1
                param_vals := rd_v.1
                param_index := pi.1
                incl := idx [] rd_v.1 (tab.num_param - 1)
                n_incl := idx 0 rd_n.1 (tab.num_param - 1) }, pi.2)

/-- The number of spectra of the table, `get_num_elem`, or `none` when one of its
two assertions fails. -/
def get_num_elem (n_parvals : List Int) (npar : Int) : Option Int :=
  if ¬(npar ≥ 1) then none
  else
    let num_elem := (List.range (npar.toNat - 1)).foldl
      (fun (acc : Int) (k : Nat) => acc * idx 0 n_parvals ((k : Int) + 1))
      (idx 0 n_parvals 0)
    if ¬(num_elem ≤ INT_MAX) then none else some num_elem

/-- Allocate the storage and set its slots to NULL,
`init_xilltable_data_struct`.  The array handed out by `malloc` has the slots
`0..num_elements-1`, and the loop writes NULL to each of them.  What lies at
any other index is not part of the array and is not written: it is what the
memory holds, `fresh.data_storage`, the content of memory that nothing has
been written to. -/
def init_xilltable_data_struct (fresh tab : xillTable R) (status : Int) :
    Option (xillTable R × Int) :=
  if status ≠ EXIT_SUCCESS then some (tab, status)
  else
    (get_num_elem tab.num_param_vals tab.num_param).map fun num_elements =>
      ({ tab with
          num_elements := num_elements
          data_storage := fun ii =>
            if 0 ≤ ii ∧ ii < num_elements then none else fresh.data_storage ii }, status)


/-- Initialise a table from its file, `init_xillver_table`.  Tables live in the
heap `heap`, a pointer to a table being a position in it, and `inp_tab` is the
pointer that `*inp_tab` holds; the result is the heap, `*inp_tab` and the
status, or `none` when an assertion on the content of the file fails.  A table
that is freed at the end was never reachable, so it is not put in the heap.
`assert(tab == NULL)` is what the function expects of its argument. -/
def init_xillver_table (X : Ext R) (fresh : xillTable R) (file : TableFile R)
    (heap : List (xillTable R)) (inp_tab : Option Nat) (status : Int) :
    Option (List (xillTable R) × Option Nat × Int) :=
  if status ≠ EXIT_SUCCESS then some (heap, inp_tab, status)
  else if file.open_ok = false then some (heap, inp_tab, EXIT_FAILURE)
  else
    let np := get_num_param_auto file status
    if np.2 ≠ EXIT_SUCCESS then some (heap, inp_tab, np.2)
    else
      let nt := new_xillTable fresh np.1 np.2
      match nt.1 with
      | none =>
        -- the calls below return at once, the status being bad
        if nt.2 = EXIT_SUCCESS then some (heap, none, nt.2) else some (heap, inp_tab, nt.2)
      | some tab =>
        let en := get_xilltable_ener X file tab nt.2
        (get_xilltable_parameters X fresh file en.1 en.2).bind fun pa =>
        (init_xilltable_data_struct fresh pa.1 pa.2).bind fun ds =>
        if ds.2 = EXIT_SUCCESS then
          some (heap ++ [ds.1], some heap.length,
            if file.close_ok then ds.2 else EXIT_FAILURE)
        else some (heap, inp_tab, ds.2)

/-- The enumerators of `enum xillTableIds` of `xilltable.h` that `xilltable.c`
uses. -/
structure TableIds where
  XILLTABLE_ID_STANDARD : Int
  XILLTABLE_ID_NTHCOMP : Int
  XILLTABLE_ID_NS : Int
  XILLTABLE_ID_CO : Int

/-- The table variant of a model, `get_xilltable_id`. -/
def get_xilltable_id (X : Ext R) (ids : TableIds) (model_id prim_type : Int) : Int :=
  if X.is_ns_model model_id then ids.XILLTABLE_ID_NS
  else if X.is_co_model model_id then ids.XILLTABLE_ID_CO
  else if prim_type = X.PRIM_SPEC_NTHCOMP then ids.XILLTABLE_ID_NTHCOMP
  else ids.XILLTABLE_ID_STANDARD

/-- The global storage for the tables: the heap of tables, the pointers that have
been passed to `free_xillTable`, the six global pointers of `xilltable.c`
(`none` is NULL), and the file names of the calls of `init_xillver_table` made
so far. -/
structure Catalog (R : Type) where
  heap : List (xillTable R)
  released : List Nat
  cached_xill_tab : Option Nat
  cached_xill_tab_dens : Option Nat
  cached_xill_tab_nthcomp : Option Nat
  cached_xill_tab_dens_nthcomp : Option Nat
  cached_xill_tab_ns : Option Nat
  cached_xill_tab_co : Option Nat
  init_calls : List String

/-- The catalog at the start of the process. -/
def empty_catalog : Catalog R where
  heap := []
  released := []
  cached_xill_tab := none
  cached_xill_tab_dens := none
  cached_xill_tab_nthcomp := none
  cached_xill_tab_dens_nthcomp := none
  cached_xill_tab_ns := none
  cached_xill_tab_co := none
  init_calls := []

/-- What `get_init_xillver_table` leaves behind: the catalog, the pointer `*tab`
of the caller, the file name returned (`none` is NULL) and the status. -/
structure GetInitResult (R : Type) where
  cat : Catalog R
  tab : Option Nat
  fname : Option String
  status : Int

/-- Load the table of a model and return its file name,
`get_init_xillver_table`; `tab` is the pointer that `*tab` holds on entry and
`files` the table file behind each file name.  The result is `none` when an
assertion fails during the initialisation. -/
def get_init_xillver_table (X : Ext R) (ids : TableIds) (fresh : xillTable R)
    (files : String → TableFile R) (cat : Catalog R) (tab : Option Nat)
    (model_type prim_type : Int) (status : Int) : Option (GetInitResult R) :=
  if status ≠ EXIT_SUCCESS then
    some { cat := cat, tab := tab, fname := none, status := status }
  else
    let id := get_xilltable_id X ids model_type prim_type
    if id = ids.XILLTABLE_ID_STANDARD then
      if cat.cached_xill_tab = none then
        (init_xillver_table X fresh (files X.XILLTABLE_FILENAME) cat.heap
          cat.cached_xill_tab status).map fun r =>
          { cat := { cat with
                heap := r.1
                cached_xill_tab := r.2.1
                init_calls := cat.init_calls ++ [X.XILLTABLE_FILENAME] }
            tab := r.2.1
            fname := some X.XILLTABLE_FILENAME
            status := r.2.2 }
      else
        some { cat := cat, tab := cat.cached_xill_tab, fname := some X.XILLTABLE_FILENAME,
               status := status }
    else if id = ids.XILLTABLE_ID_NTHCOMP then
      if cat.cached_xill_tab_dens_nthcomp = none then
        (init_xillver_table X fresh (files X.XILLTABLE_NTHCOMP_FILENAME) cat.heap
          cat.cached_xill_tab_dens_nthcomp status).map fun r =>
          if r.2.2 ≠ EXIT_SUCCESS then
            { cat := { cat with
                  heap := r.1
                  cached_xill_tab_dens_nthcomp := r.2.1
                  init_calls := cat.init_calls ++ [X.XILLTABLE_NTHCOMP_FILENAME] }
              tab := tab
              fname := none
              status := r.2.2 }
          else
            { cat := { cat with
                  heap := r.1
                  cached_xill_tab_dens_nthcomp := r.2.1
                  init_calls := cat.init_calls ++ [X.XILLTABLE_NTHCOMP_FILENAME] }
              tab := r.2.1
              fname := some X.XILLTABLE_NTHCOMP_FILENAME
              status := r.2.2 }
      else
        some { cat := cat, tab := cat.cached_xill_tab_dens_nthcomp,
               fname := some X.XILLTABLE_NTHCOMP_FILENAME, status := status }
    else if id = ids.XILLTABLE_ID_NS then
      if cat.cached_xill_tab_ns = none then
        (init_xillver_table X fresh (files X.XILLTABLE_NS_FILENAME) cat.heap
          cat.cached_xill_tab_ns status).map fun r =>
          if r.2.2 ≠ EXIT_SUCCESS then
            { cat := { cat with
                  heap := r.1
                  cached_xill_tab_ns := r.2.1
                  init_calls := cat.init_calls ++ [X.XILLTABLE_NS_FILENAME] }
              tab := tab
              fname := none
              status := r.2.2 }
          else
            { cat := { cat with
                  heap := r.1
                  cached_xill_tab_ns := r.2.1
                  init_calls := cat.init_calls ++ [X.XILLTABLE_NS_FILENAME] }
              tab := r.2.1
              fname := some X.XILLTABLE_NS_FILENAME
              status := r.2.2 }
      else
        some { cat := cat, tab := cat.cached_xill_tab_ns,
               fname := some X.XILLTABLE_NS_FILENAME, status := status }
    else if id = ids.XILLTABLE_ID_CO then
      if cat.cached_xill_tab_co = none then
        (init_xillver_table X fresh (files X.XILLTABLE_CO_FILENAME) cat.heap
          cat.cached_xill_tab_co status).map fun r =>
          if r.2.2 ≠ EXIT_SUCCESS then
            { cat := { cat with
                  heap := r.1
                  cached_xill_tab_co := r.2.1
                  init_calls := cat.init_calls ++ [X.XILLTABLE_CO_FILENAME] }
              tab := tab
              fname := none
              status := r.2.2 }
          else
            { cat := { cat with
                  heap := r.1
                  cached_xill_tab_co := r.2.1
                  init_calls := cat.init_calls ++ [X.XILLTABLE_CO_FILENAME] }
              tab := r.2.1
              fname := some X.XILLTABLE_CO_FILENAME
              status := r.2.2 }
      else
        some { cat := cat, tab := cat.cached_xill_tab_co,
               fname := some X.XILLTABLE_CO_FILENAME, status := status }
    else
      some { cat := cat, tab := tab, fname := none, status := EXIT_FAILURE }

/-- Free a table, `free_xillTable`: the pointer, unless NULL, is recorded as
released. -/
def free_xillTable (cat : Catalog R) (tab : Option Nat) : Catalog R :=
  match tab with
  | some a => { cat with released := cat.released ++ [a] }
  | none => cat

/-- The teardown `free_cached_xillTable`. -/
def free_cached_xillTable (cat : Catalog R) : Catalog R :=
  let cat := free_xillTable cat cat.cached_xill_tab
  let cat := free_xillTable cat cat.cached_xill_tab_dens
  free_xillTable cat cat.cached_xill_tab_nthcomp


/-- One step in the life of the catalog: a call of `get_init_xillver_table`, or a
call of `check_xilltab_cache` on the table behind the pointer `a`. -/
inductive CatalogOp (R : Type) where
  | query (fresh : xillTable R) (files : String → TableFile R) (tab : Option Nat)
      (model_type prim_type status : Int)
  | load (a : Nat) (fits : FitsFile R) (param : xillTableParam R) (ind : List Int)
      (status : Int)

/-- The catalog after one step, `none` when an assertion fails. -/
def run_catalog_op (X : Ext R) (ids : TableIds) (cat : Catalog R) :
    CatalogOp R → Option (Catalog R)
  | CatalogOp.query fresh files tab model_type prim_type status =>
    (get_init_xillver_table X ids fresh files cat tab model_type prim_type status).map
      fun g => g.cat
  | CatalogOp.load a fits param ind status =>
    match cat.heap[a]? with
    | some t =>
      some { cat with heap := cat.heap.set a (check_xilltab_cache X fits param t ind status).tab }
    | none => some cat

/-- The catalog after a sequence of steps. -/
def run_catalog_ops (X : Ext R) (ids : TableIds) :
    Catalog R → List (CatalogOp R) → Option (Catalog R)
  | cat, [] => some cat
  | cat, op :: ops => (run_catalog_op X ids cat op).bind fun c => run_catalog_ops X ids c ops

/-- Every global pointer that is set in `c1` has the same value in `c2`. -/
def pointers_kept (c1 c2 : Catalog R) : Prop :=
  ∀ a : Nat,
    (c1.cached_xill_tab = some a → c2.cached_xill_tab = some a) ∧
    (c1.cached_xill_tab_dens = some a → c2.cached_xill_tab_dens = some a) ∧
    (c1.cached_xill_tab_nthcomp = some a → c2.cached_xill_tab_nthcomp = some a) ∧
    (c1.cached_xill_tab_dens_nthcomp = some a → c2.cached_xill_tab_dens_nthcomp = some a) ∧
    (c1.cached_xill_tab_ns = some a → c2.cached_xill_tab_ns = some a) ∧
    (c1.cached_xill_tab_co = some a → c2.cached_xill_tab_co = some a)

/-- Four distinct values for the enumerators of `enum xillTableIds`. -/
def demoIds : TableIds where
  XILLTABLE_ID_STANDARD := 0
  XILLTABLE_ID_NTHCOMP := 1
  XILLTABLE_ID_NS := 2
  XILLTABLE_ID_CO := 3

/-- A table file of 5 axes with two values each and two energy bins, on which
every CFITSIO call succeeds. -/
def demoTableFile : TableFile ℚ where
  open_ok := true
  num_rows := some 5
  ener_movnam_ok := true
  ener_rows := some 2
  elo := some [1, 2]
  ehi := some [2, 3]
  par_movnam_ok := true
  par_rows := some 5
  par_nvals := some [2, 2, 2, 2, 2]
  par_names := some ["Gamma", "A_Fe", "logXi", "Ecut", "Incl"]
  par_vals := fun _ => some [1, 2]
  close_ok := true

/-- The file `demoTableFile` with the last two axes exchanged: every name is
known, the last one is `Ecut`. -/
def lastAxisEcutFile : TableFile ℚ :=
  { demoTableFile with par_names := some ["Gamma", "A_Fe", "logXi", "Incl", "Ecut"] }


/-! ### Vocabulary of the storage claims -/

/-- The product of the lengths of the first `k` axes of the table. -/
def axis_product_upto (tab : xillTable R) (k : Nat) : Int :=
  ((List.range k).map fun (i : Nat) => idx 0 tab.num_param_vals i).prod

/-- The product of the lengths of all axes of the table. -/
def axis_product (tab : xillTable R) : Int :=
  axis_product_upto tab tab.num_param.toNat


/-- A valid corner of the table: every index lies within its axis.  For a table
of 5 axes the indices are `ii`, .., `mm` and `nn` is 0, as in every call of
this file; for a table of 6 axes they are `nn`, `ii`, .., `mm`. -/
def valid_corner (tab : xillTable R) (c : Int × Int × Int × Int × Int × Int) : Prop :=
  if tab.num_param = 5 then
    c.1 = 0 ∧ (0 ≤ c.2.1 ∧ c.2.1 < axis_len tab 0) ∧ (0 ≤ c.2.2.1 ∧ c.2.2.1 < axis_len tab 1) ∧
      (0 ≤ c.2.2.2.1 ∧ c.2.2.2.1 < axis_len tab 2) ∧
      (0 ≤ c.2.2.2.2.1 ∧ c.2.2.2.2.1 < axis_len tab 3) ∧
      (0 ≤ c.2.2.2.2.2 ∧ c.2.2.2.2.2 < axis_len tab 4)
  else
    (0 ≤ c.1 ∧ c.1 < axis_len tab 0) ∧ (0 ≤ c.2.1 ∧ c.2.1 < axis_len tab 1) ∧
      (0 ≤ c.2.2.1 ∧ c.2.2.1 < axis_len tab 2) ∧
      (0 ≤ c.2.2.2.1 ∧ c.2.2.2.1 < axis_len tab 3) ∧
      (0 ≤ c.2.2.2.2.1 ∧ c.2.2.2.2.1 < axis_len tab 4) ∧
      (0 ≤ c.2.2.2.2.2 ∧ c.2.2.2.2.2 < axis_len tab 5)

/-- The row of a corner, `get_xillspec_rownum` on the axes of the table. -/
def corner_row (tab : xillTable R) (c : Int × Int × Int × Int × Int × Int) : Int :=
  get_xillspec_rownum tab.num_param_vals tab.num_param
    c.1 c.2.1 c.2.2.1 c.2.2.2.1 c.2.2.2.2.1 c.2.2.2.2.2

/-- The corner with the largest index on every axis. -/
def last_corner (tab : xillTable R) : Int × Int × Int × Int × Int × Int :=
  if tab.num_param = 5 then
    (0, axis_len tab 0 - 1, axis_len tab 1 - 1, axis_len tab 2 - 1, axis_len tab 3 - 1,
      axis_len tab 4 - 1)
  else
    (axis_len tab 0 - 1, axis_len tab 1 - 1, axis_len tab 2 - 1, axis_len tab 3 - 1,
      axis_len tab 4 - 1, axis_len tab 5 - 1)


/-- The number of `fits_read_col` calls in a log. -/
def num_reads : List FitsEvent → Nat
  | [] => 0
  | FitsEvent.read_col _ _ :: es => num_reads es + 1
  | _ :: es => num_reads es

/-- The number of `fits_close_file` calls in a log. -/
def closes_of : List FitsEvent → Nat
  | [] => 0
  | FitsEvent.close_file _ :: es => closes_of es + 1
  | _ :: es => closes_of es

/-- A 5-axis table with five inclination bins and two values on every other
axis, two energy bins, and no spectrum loaded. -/
def wideInclTable : xillTable ℚ where
  num_param := 5
  num_param_vals := [2, 2, 2, 2, 5]
  param_index := [0, 1, 2, 3, 8]
  param_names := ["Gamma", "A_Fe", "logXi", "Ecut", "Incl"]
  param_vals := [[1, 2], [1, 2], [1, 2], [1, 2], [1, 2, 3, 4, 5]]
  n_ener := 2
  elo := [1, 2]
  ehi := [2, 3]
  incl := [1, 2, 3, 4, 5]
  n_incl := 5
  num_elements := 80
  data_storage := fun _ => none


/-- The state of the file handle inside the loops of `check_xilltab_cache`: the
file has not been closed; and either the handle is NULL and no CFITSIO call
has been made, or the handle is NULL after the one call that failed to open
the file, the status being bad, or the handle is open and the log starts
with the one call that opened the file. -/
def handle_state (st : LoadState R) : Prop :=
  closes_of st.log = 0 ∧
  ((st.fptr = false ∧
      (st.log = [] ∨ (st.log = [FitsEvent.open_table false] ∧ st.status ≠ EXIT_SUCCESS))) ∨
    (st.fptr = true ∧ ∃ es, st.log = FitsEvent.open_table true :: es ∧ opens_of es = 0))


/-! ### Vocabulary of the claims on the table query -/

/-- The corners that `interp_xill_table` reads for the indices `ind` hold spectra
of `n_ener` bins: for a xillver model the 32 corners of `interp_5d_tab`, twice
for a table of 6 axes; otherwise, for every inclination bin, the 16 corners
of `interp_5d_tab_incl`, twice for a table of 6 axes. -/
def corners_loaded (X : Ext R) (tab : xillTable R) (param : xillTableParam R)
    (ind : List Int) : Prop :=
  if tab.num_param = 5 then
    if X.is_xill_model param.model_type then
      cell32 tab tab.n_ener.toNat 0 (idx 0 ind 0) (idx 0 ind 1) (idx 0 ind 2) (idx 0 ind 3)
        (idx 0 ind 4)
    else
      ∀ m : Nat, m < tab.n_incl.toNat →
        cell16 tab tab.n_ener.toNat 0 (idx 0 ind 0) (idx 0 ind 1) (idx 0 ind 2) (idx 0 ind 3) m
  else if tab.num_param = 6 then
    if X.is_xill_model param.model_type then
      ∀ b0 : Bool, cell32 tab tab.n_ener.toNat (idx 0 ind 0 + b2i b0) (idx 0 ind 1)
        (idx 0 ind 2) (idx 0 ind 3) (idx 0 ind 4) (idx 0 ind 5)
    else
      ∀ m : Nat, m < tab.n_incl.toNat → ∀ b0 : Bool,
        cell16 tab tab.n_ener.toNat (idx 0 ind 0 + b2i b0) (idx 0 ind 1) (idx 0 ind 2)
          (idx 0 ind 3) (idx 0 ind 4) m
  else True

/-- The number of flux arrays of the result of `interp_xill_table` as the
specification gives it: 1 for a xillver model, the number of inclination bins
of the table otherwise. -/
def result_n_incl (X : Ext R) (tab : xillTable R) (param : xillTableParam R) : Int :=
  if X.is_xill_model param.model_type then 1 else tab.n_incl


/-- A parameter set for evaluation: every value lies on the first grid point of
its axis of `demoTable`, except the inclination, halfway between its two
tabulated values. -/
def inclMidParam : xillTableParam ℚ :=
  { demoParam with gam := 1, incl := 3 / 2 }


/-- The parameters `demoParam` for a model that is not a xillver model. -/
def nonXillParam : xillTableParam ℚ :=
  { demoParam with model_type := 1 }


/-! ### Vocabulary of the convexity claim -/

/-- The value in energy bin `e` of the corner of `interp_5d_tab_incl` with the
bit pattern `b`. -/
def corner16 (tab : xillTable R) (i0 i1 i2 i3 i4 i5 : Int) (e : Nat)
    (b : Bool × Bool × Bool × Bool) : R :=
  specval tab i0 (i1 + b2i b.1) (i2 + b2i b.2.1) (i3 + b2i b.2.2.1) (i4 + b2i b.2.2.2) i5 e

/-- The value in energy bin `e` of the corner of `interp_5d_tab` with the bit
pattern `b`. -/
def corner32 (tab : xillTable R) (i0 i1 i2 i3 i4 i5 : Int) (e : Nat)
    (b : Bool × Bool × Bool × Bool × Bool) : R :=
  specval tab i0 (i1 + b2i b.1) (i2 + b2i b.2.1) (i3 + b2i b.2.2.1) (i4 + b2i b.2.2.2.1)
    (i5 + b2i b.2.2.2.2) e


/-! ### Vocabulary of the claim on a failed initialisation -/

/-- The global pointer that `get_init_xillver_table` hands to
`init_xillver_table` for the variant `id`, in the order of the cases of its
`switch`; NULL for an id that is no case of it. -/
def cached_entry (ids : TableIds) (cat : Catalog R) (id : Int) : Option Nat :=
  if id = ids.XILLTABLE_ID_STANDARD then cat.cached_xill_tab
  else if id = ids.XILLTABLE_ID_NTHCOMP then cat.cached_xill_tab_dens_nthcomp
  else if id = ids.XILLTABLE_ID_NS then cat.cached_xill_tab_ns
  else if id = ids.XILLTABLE_ID_CO then cat.cached_xill_tab_co
  else none

/-- The file name that `get_init_xillver_table` uses for the variant `id`. -/
def variant_filename (X : Ext R) (ids : TableIds) (id : Int) : String :=
  if id = ids.XILLTABLE_ID_STANDARD then X.XILLTABLE_FILENAME
  else if id = ids.XILLTABLE_ID_NTHCOMP then X.XILLTABLE_NTHCOMP_FILENAME
  else if id = ids.XILLTABLE_ID_NS then X.XILLTABLE_NS_FILENAME
  else if id = ids.XILLTABLE_ID_CO then X.XILLTABLE_CO_FILENAME
  else ""

/-- The file `demoTableFile` with an axis name that relxill does not know. -/
def unknownAxisFile : TableFile ℚ :=
  { demoTableFile with par_names := some ["Gamma", "Flux", "logXi", "Ecut", "Incl"] }

/-- The file `demoTableFile` on which the closing `fits_close_file` fails. -/
def closeFailFile : TableFile ℚ :=
  { demoTableFile with close_ok := false }


/-- The query `cutoffSecondParam` with the cutoff energy 10, below the lowest
tabulated value 20 of the cutoff axis of `cutoffSecondTable`. -/
def lowCutoffParam : xillTableParam ℚ :=
  { cutoffSecondParam with ect := 10 }

end Defs

/-! ## Theorems -/

section Theorems

variable {R : Type} [LinearOrderedField R]

/-! ### Reading the storage -/

theorem for_ii_eq_some {α : Type} (n : Nat) (body : Nat → Option α) (g : Nat → α)
    (h : ∀ e, e < n → body e = some (g e)) :
    for_ii n body = some ((List.range n).map g) := by
  induction n with
  | zero => rfl
  | succ k ih =>
    have h1 := ih (fun e he => h e (Nat.lt_succ_of_lt he))
    have h2 := h k (Nat.lt_succ_self k)
    simp [for_ii, h1, h2, List.range_succ]

theorem resident_iff (tab : xillTable R) (n : Nat) (i0 i1 i2 i3 i4 i5 : Int) :
    resident tab n i0 i1 i2 i3 i4 i5 = true ↔
      ∃ s, get_xillspec tab i0 i1 i2 i3 i4 i5 = some s ∧ n ≤ s.length := by
  unfold resident
  cases h : get_xillspec tab i0 i1 i2 i3 i4 i5 <;> simp

theorem deref_of_resident {tab : xillTable R} {n : Nat} {i0 i1 i2 i3 i4 i5 : Int}
    (h : resident tab n i0 i1 i2 i3 i4 i5 = true) {e : Nat} (he : e < n) :
    deref (get_xillspec tab i0 i1 i2 i3 i4 i5) e = some (specval tab i0 i1 i2 i3 i4 i5 e) := by
  obtain ⟨s, hs, hn⟩ := (resident_iff tab n i0 i1 i2 i3 i4 i5).1 h
  have hlt : e < s.length := lt_of_lt_of_le he hn
  simp [deref, specval, hs, List.getD, List.getElem?_eq_getElem hlt]

theorem term_of_resident {tab : xillTable R} {n : Nat} {i0 i1 i2 i3 i4 i5 : Int}
    (h : resident tab n i0 i1 i2 i3 i4 i5 = true) {e : Nat} (he : e < n) (f : R) :
    term f (get_xillspec tab i0 i1 i2 i3 i4 i5) e
      = some (f * specval tab i0 i1 i2 i3 i4 i5 e) := by
  simp [term, deref_of_resident h he]

theorem b2i_true : b2i true = 1 := rfl

theorem b2i_false : b2i false = 0 := rfl

theorem wgt_true (f : R) : wgt f true = f := rfl

theorem wgt_false (f : R) : wgt f false = 1 - f := rfl

/-! ### The blends as multilinear sums -/

theorem interp_5d_tab_incl_eq (tab : xillTable R) (n_ener : Nat) (f1 f2 f3 f4 : R)
    (i0 i1 i2 i3 i4 i5 : Int) (h : cell16 tab n_ener i0 i1 i2 i3 i4 i5) :
    interp_5d_tab_incl tab n_ener f1 f2 f3 f4 i0 i1 i2 i3 i4 i5
      = some ((List.range n_ener).map (multilinear4 tab f1 f2 f3 f4 i0 i1 i2 i3 i4 i5)) := by
  unfold interp_5d_tab_incl
  apply for_ii_eq_some
  intro e he
  have H : ∀ (b1 b2 b3 b4 : Bool) (f : R),
      term f (get_xillspec tab i0 (i1 + b2i b1) (i2 + b2i b2) (i3 + b2i b3)
        (i4 + b2i b4) i5) e
      = some (f * specval tab i0 (i1 + b2i b1) (i2 + b2i b2) (i3 + b2i b3)
        (i4 + b2i b4) i5 e) :=
    fun b1 b2 b3 b4 f => term_of_resident (h b1 b2 b3 b4) he f
  simp only [Bool.forall_bool, b2i_true, b2i_false, add_zero] at H
  simp only [H, sum_terms, List.foldl, oadd, Option.bind, Option.map, multilinear4,
    Fintype.sum_bool, b2i_true, b2i_false, add_zero, wgt_true, wgt_false]
  congr 1
  simp only [f_0000, f_0001, f_0010, f_0011, f_0100, f_0101, f_0110, f_0111, f_1000, f_1001, f_1010, f_1011, f_1100, f_1101, f_1110, f_1111]
  ring

theorem interp_5d_tab_eq (tab : xillTable R) (n_ener : Nat) (f1 f2 f3 f4 f5 : R)
    (i0 i1 i2 i3 i4 i5 : Int) (h : cell32 tab n_ener i0 i1 i2 i3 i4 i5) :
    interp_5d_tab tab n_ener f1 f2 f3 f4 f5 i0 i1 i2 i3 i4 i5
      = some ((List.range n_ener).map (multilinear5 tab f1 f2 f3 f4 f5 i0 i1 i2 i3 i4 i5)) := by
  unfold interp_5d_tab
  apply for_ii_eq_some
  intro e he
  have H : ∀ (b1 b2 b3 b4 b5 : Bool) (f : R),
      term f (get_xillspec tab i0 (i1 + b2i b1) (i2 + b2i b2) (i3 + b2i b3)
        (i4 + b2i b4) (i5 + b2i b5)) e
      = some (f * specval tab i0 (i1 + b2i b1) (i2 + b2i b2) (i3 + b2i b3)
        (i4 + b2i b4) (i5 + b2i b5) e) :=
    fun b1 b2 b3 b4 b5 f => term_of_resident (h b1 b2 b3 b4 b5) he f
  simp only [Bool.forall_bool, b2i_true, b2i_false, add_zero] at H
  simp only [H, sum_terms, List.foldl, oadd, Option.bind, Option.map, multilinear5,
    Fintype.sum_bool, b2i_true, b2i_false, add_zero, wgt_true, wgt_false]
  congr 1
  simp only [f_00000, f_00001, f_00010, f_00011, f_00100, f_00101, f_00110, f_00111, f_01000, f_01001, f_01010, f_01011, f_01100, f_01101, f_01110, f_01111, f_10000, f_10001, f_10010, f_10011, f_10100, f_10101, f_10110, f_10111, f_11000, f_11001, f_11010, f_11011, f_11100, f_11101, f_11110, f_11111]
  ring


theorem take_eq_map_getD (s : List R) (n : Nat) (h : n ≤ s.length) :
    (List.range n).map (fun e => s.getD e 0) = s.take n := by
  apply List.ext_getElem
  · simp [h]
  · intro i h1 h2
    have hi : i < n := by simpa using h1
    have hs : i < s.length := lt_of_lt_of_le hi h
    simp [List.getD, List.getElem?_eq_getElem hs]

theorem multilinear4_zero (tab : xillTable R) (i0 i1 i2 i3 i4 i5 : Int) (e : Nat) :
    multilinear4 tab 0 0 0 0 i0 i1 i2 i3 i4 i5 e = specval tab i0 i1 i2 i3 i4 i5 e := by
  simp [multilinear4, Fintype.sum_bool, wgt, b2i]

theorem multilinear5_zero (tab : xillTable R) (i0 i1 i2 i3 i4 i5 : Int) (e : Nat) :
    multilinear5 tab 0 0 0 0 0 i0 i1 i2 i3 i4 i5 e = specval tab i0 i1 i2 i3 i4 i5 e := by
  simp [multilinear5, Fintype.sum_bool, wgt, b2i]

theorem cell16_base {tab : xillTable R} {n : Nat} {i0 i1 i2 i3 i4 i5 : Int}
    (h : cell16 tab n i0 i1 i2 i3 i4 i5) : resident tab n i0 i1 i2 i3 i4 i5 = true := by
  simpa [b2i] using h false false false false

theorem cell32_base {tab : xillTable R} {n : Nat} {i0 i1 i2 i3 i4 i5 : Int}
    (h : cell32 tab n i0 i1 i2 i3 i4 i5) : resident tab n i0 i1 i2 i3 i4 i5 = true := by
  simpa [b2i] using h false false false false false

theorem map_specval_eq_take {tab : xillTable R} {n : Nat} {i0 i1 i2 i3 i4 i5 : Int}
    {s : List R} (hs : get_xillspec tab i0 i1 i2 i3 i4 i5 = some s) (hn : n ≤ s.length) :
    (List.range n).map (specval tab i0 i1 i2 i3 i4 i5) = s.take n := by
  rw [← take_eq_map_getD s n hn]
  apply List.map_congr_left
  intro e _
  simp [specval, hs]

/-! ### Claims on the blends -/

/-- C1 (grid-point identity).  With all fractions equal to 0 the 16-corner blend
`interp_5d_tab_incl` and the 32-corner blend `interp_5d_tab` return, in every
one of the `n_ener` energy bins, the value stored for the base corner
`get_xillspec(tab,i0,..,i5)`: the output array is the stored spectrum `s`
itself, cut to `n_ener` bins.  The corners the function reads are loaded
(`cell16`, `cell32`), as the C code requires. -/
theorem grid_point_identity (tab : xillTable R) (n_ener : Nat)
    (i0 i1 i2 i3 i4 i5 : Int) :
    (cell16 tab n_ener i0 i1 i2 i3 i4 i5 →
      ∃ s, get_xillspec tab i0 i1 i2 i3 i4 i5 = some s ∧ n_ener ≤ s.length ∧
        interp_5d_tab_incl tab n_ener 0 0 0 0 i0 i1 i2 i3 i4 i5 = some (s.take n_ener) ∧
        ∀ e, e < n_ener → (s.take n_ener)[e]? = s[e]?) ∧
    (cell32 tab n_ener i0 i1 i2 i3 i4 i5 →
      ∃ s, get_xillspec tab i0 i1 i2 i3 i4 i5 = some s ∧ n_ener ≤ s.length ∧
        interp_5d_tab tab n_ener 0 0 0 0 0 i0 i1 i2 i3 i4 i5 = some (s.take n_ener) ∧
        ∀ e, e < n_ener → (s.take n_ener)[e]? = s[e]?) := by
  constructor
  · intro h
    obtain ⟨s, hs, hn⟩ := (resident_iff tab n_ener i0 i1 i2 i3 i4 i5).1 (cell16_base h)
    refine ⟨s, hs, hn, ?_, fun e he => List.getElem?_take_of_lt he⟩
    rw [interp_5d_tab_incl_eq tab n_ener 0 0 0 0 i0 i1 i2 i3 i4 i5 h,
      ← map_specval_eq_take hs hn]
    congr 1
    exact List.map_congr_left (fun e _ => multilinear4_zero tab i0 i1 i2 i3 i4 i5 e)
  · intro h
    obtain ⟨s, hs, hn⟩ := (resident_iff tab n_ener i0 i1 i2 i3 i4 i5).1 (cell32_base h)
    refine ⟨s, hs, hn, ?_, fun e he => List.getElem?_take_of_lt he⟩
    rw [interp_5d_tab_eq tab n_ener 0 0 0 0 0 i0 i1 i2 i3 i4 i5 h,
      ← map_specval_eq_take hs hn]
    congr 1
    exact List.map_congr_left (fun e _ => multilinear5_zero tab i0 i1 i2 i3 i4 i5 e)

/-- C2 (weight normalisation).  For all fractions, inside `[0,1]` or not, the 16
corner weights of `interp_5d_tab_incl` add up to 1, and so do the 32 corner
weights of `interp_5d_tab`. -/
theorem weights_sum_to_one (f1 f2 f3 f4 f5 : R) :
    (f_0000 f1 f2 f3 f4 +
      f_1000 f1 f2 f3 f4 +
      f_0100 f1 f2 f3 f4 +
      f_0010 f1 f2 f3 f4 +
      f_0001 f1 f2 f3 f4 +
      f_1010 f1 f2 f3 f4 +
      f_1001 f1 f2 f3 f4 +
      f_0101 f1 f2 f3 f4 +
      f_1100 f1 f2 f3 f4 +
      f_0110 f1 f2 f3 f4 +
      f_0011 f1 f2 f3 f4 +
      f_1101 f1 f2 f3 f4 +
      f_1110 f1 f2 f3 f4 +
      f_1011 f1 f2 f3 f4 +
      f_0111 f1 f2 f3 f4 +
      f_1111 f1 f2 f3 f4 = 1) ∧
    (f_00000 f1 f2 f3 f4 f5 +
      f_10000 f1 f2 f3 f4 f5 +
      f_01000 f1 f2 f3 f4 f5 +
      f_00100 f1 f2 f3 f4 f5 +
      f_00010 f1 f2 f3 f4 f5 +
      f_10100 f1 f2 f3 f4 f5 +
      f_10010 f1 f2 f3 f4 f5 +
      f_01010 f1 f2 f3 f4 f5 +
      f_11000 f1 f2 f3 f4 f5 +
      f_01100 f1 f2 f3 f4 f5 +
      f_00110 f1 f2 f3 f4 f5 +
      f_11010 f1 f2 f3 f4 f5 +
      f_11100 f1 f2 f3 f4 f5 +
      f_10110 f1 f2 f3 f4 f5 +
      f_01110 f1 f2 f3 f4 f5 +
      f_11110 f1 f2 f3 f4 f5 +
      f_00001 f1 f2 f3 f4 f5 +
      f_10001 f1 f2 f3 f4 f5 +
      f_01001 f1 f2 f3 f4 f5 +
      f_00101 f1 f2 f3 f4 f5 +
      f_00011 f1 f2 f3 f4 f5 +
      f_10101 f1 f2 f3 f4 f5 +
      f_10011 f1 f2 f3 f4 f5 +
      f_01011 f1 f2 f3 f4 f5 +
      f_11001 f1 f2 f3 f4 f5 +
      f_01101 f1 f2 f3 f4 f5 +
      f_00111 f1 f2 f3 f4 f5 +
      f_11011 f1 f2 f3 f4 f5 +
      f_11101 f1 f2 f3 f4 f5 +
      f_10111 f1 f2 f3 f4 f5 +
      f_01111 f1 f2 f3 f4 f5 +
      f_11111 f1 f2 f3 f4 f5 = 1) := by
  constructor
  · simp only [f_0000, f_0001, f_0010, f_0011, f_0100, f_0101, f_0110, f_0111, f_1000, f_1001, f_1010, f_1011, f_1100, f_1101, f_1110, f_1111]
    ring
  · simp only [f_00000, f_00001, f_00010, f_00011, f_00100, f_00101, f_00110, f_00111, f_01000, f_01001, f_01010, f_01011, f_01100, f_01101, f_01110, f_01111, f_10000, f_10001, f_10010, f_10011, f_10100, f_10101, f_10110, f_10111, f_11000, f_11001, f_11010, f_11011, f_11100, f_11101, f_11110, f_11111]
    ring

/-- C3 (order-4 multilinear blend).  In every energy bin `e < n_ener` the output
of `interp_5d_tab_incl` is the sum over the 16 bit vectors `(b1,b2,b3,b4)` of
the product of the weights (`f_k` if `b_k` is set, `1 - f_k` otherwise) times
the value stored at corner `(i0, i1+b1, i2+b2, i3+b3, i4+b4, i5)`. -/
theorem interp_5d_tab_incl_multilinear (tab : xillTable R) (n_ener : Nat)
    (f1 f2 f3 f4 : R) (i0 i1 i2 i3 i4 i5 : Int)
    (h : cell16 tab n_ener i0 i1 i2 i3 i4 i5) :
    ∃ flu, interp_5d_tab_incl tab n_ener f1 f2 f3 f4 i0 i1 i2 i3 i4 i5 = some flu ∧
      flu.length = n_ener ∧
      ∀ e, e < n_ener →
        flu[e]? = some (∑ b1 : Bool, ∑ b2 : Bool, ∑ b3 : Bool, ∑ b4 : Bool,
          (wgt f1 b1 * wgt f2 b2 * wgt f3 b3 * wgt f4 b4) *
            specval tab i0 (i1 + b2i b1) (i2 + b2i b2) (i3 + b2i b3) (i4 + b2i b4) i5 e) := by
  refine ⟨_, interp_5d_tab_incl_eq tab n_ener f1 f2 f3 f4 i0 i1 i2 i3 i4 i5 h, by simp, ?_⟩
  intro e he
  simp [he, multilinear4]

/-- Witness of C1 on `demoTable`: base corner `(0,0,0,0,0,1)` for the 16-corner
blend and `(0,0,0,0,0,0)` for the 32-corner blend. -/
theorem grid_point_identity_witness :
    cell16 demoTable 2 0 0 0 0 0 1 ∧ cell32 demoTable 2 0 0 0 0 0 0 ∧
    interp_5d_tab_incl demoTable 2 0 0 0 0 0 0 0 0 0 1 = some [2, 4] ∧
    interp_5d_tab demoTable 2 0 0 0 0 0 0 0 0 0 0 0 = some [1, 1] := by
  have h16 : cell16 demoTable 2 0 0 0 0 0 1 := by unfold cell16; decide
  have h32 : cell32 demoTable 2 0 0 0 0 0 0 := by unfold cell32; decide
  refine ⟨h16, h32, ?_, ?_⟩
  · obtain ⟨s, hs, -, hr, -⟩ := (grid_point_identity demoTable 2 0 0 0 0 0 1).1 h16
    have h2 : get_xillspec demoTable 0 0 0 0 0 1 = some [2, 4] := by
      simp [get_xillspec, get_xillspec_rownum, demoTable, idx]; norm_num
    rw [h2] at hs
    cases hs
    simpa using hr
  · obtain ⟨s, hs, -, hr, -⟩ := (grid_point_identity demoTable 2 0 0 0 0 0 0).2 h32
    have h2 : get_xillspec demoTable 0 0 0 0 0 0 = some [1, 1] := by
      simp [get_xillspec, get_xillspec_rownum, demoTable, idx]
    rw [h2] at hs
    cases hs
    simpa using hr

/-- Witness of C3 on `demoTable`, at the base corner `(0,0,0,0,0,1)`. -/
theorem interp_5d_tab_incl_multilinear_witness :
    cell16 demoTable 2 0 0 0 0 0 1 ∧
    ∃ flu, interp_5d_tab_incl demoTable 2 (1 / 2) (1 / 4) 0 1 0 0 0 0 0 1 = some flu ∧
      flu.length = 2 ∧
      ∀ e, e < 2 →
        flu[e]? = some (∑ b1 : Bool, ∑ b2 : Bool, ∑ b3 : Bool, ∑ b4 : Bool,
          (wgt (1 / 2) b1 * wgt (1 / 4) b2 * wgt 0 b3 * wgt 1 b4) *
            specval demoTable 0 (0 + b2i b1) (0 + b2i b2) (0 + b2i b3) (0 + b2i b4) 1 e) :=
  have h16 : cell16 demoTable 2 0 0 0 0 0 1 := by unfold cell16; decide
  ⟨h16, interp_5d_tab_incl_multilinear demoTable 2 (1 / 2) (1 / 4) 0 1 0 0 0 0 0 1 h16⟩

/-! ### The six-axis blends -/

theorem blend_lin_1d_map (X : Ext R) (n : Nat) (f : R) (g1 g2 : Nat → R) :
    blend_lin_1d X n f ((List.range n).map g1) ((List.range n).map g2)
      = some ((List.range n).map fun e => X.interp_lin_1d f (g1 e) (g2 e)) := by
  unfold blend_lin_1d
  apply for_ii_eq_some
  intro e he
  simp [he]

theorem getElem?_map_range (n : Nat) (g : Nat → R) {e : Nat} (he : e < n) :
    ((List.range n).map g)[e]? = some (g e) := by
  simp [he]

theorem lin_multilinear4 (tab : xillTable R) (f0 f1 f2 f3 f4 : R)
    (i0 i1 i2 i3 i4 i5 : Int) (e : Nat) :
    (1 - f0) * multilinear4 tab f1 f2 f3 f4 i0 i1 i2 i3 i4 i5 e
        + f0 * multilinear4 tab f1 f2 f3 f4 (i0 + 1) i1 i2 i3 i4 i5 e
      = ∑ b0 : Bool, ∑ b1 : Bool, ∑ b2 : Bool, ∑ b3 : Bool, ∑ b4 : Bool,
          (wgt f0 b0 * wgt f1 b1 * wgt f2 b2 * wgt f3 b3 * wgt f4 b4) *
            specval tab (i0 + b2i b0) (i1 + b2i b1) (i2 + b2i b2) (i3 + b2i b3)
              (i4 + b2i b4) i5 e := by
  simp only [multilinear4, Fintype.sum_bool, b2i_true, b2i_false, add_zero, wgt_true,
    wgt_false]
  ring

theorem lin_multilinear5 (tab : xillTable R) (f0 f1 f2 f3 f4 f5 : R)
    (i0 i1 i2 i3 i4 i5 : Int) (e : Nat) :
    (1 - f0) * multilinear5 tab f1 f2 f3 f4 f5 i0 i1 i2 i3 i4 i5 e
        + f0 * multilinear5 tab f1 f2 f3 f4 f5 (i0 + 1) i1 i2 i3 i4 i5 e
      = ∑ b0 : Bool, ∑ b1 : Bool, ∑ b2 : Bool, ∑ b3 : Bool, ∑ b4 : Bool, ∑ b5 : Bool,
          (wgt f0 b0 * wgt f1 b1 * wgt f2 b2 * wgt f3 b3 * wgt f4 b4 * wgt f5 b5) *
            specval tab (i0 + b2i b0) (i1 + b2i b1) (i2 + b2i b2) (i3 + b2i b3)
              (i4 + b2i b4) (i5 + b2i b5) e := by
  simp only [multilinear5, Fintype.sum_bool, b2i_true, b2i_false, add_zero, wgt_true,
    wgt_false]
  ring

theorem interp_6d_tab_incl_eq (X : Ext R) (tab : xillTable R) (n_ener : Nat)
    (fac : List R) (nfac : Int) (ind : List Int) (iincl : Int)
    (h0 : cell16 tab n_ener (idx 0 ind 0) (idx 0 ind 1) (idx 0 ind 2) (idx 0 ind 3)
      (idx 0 ind 4) iincl)
    (h1 : cell16 tab n_ener (idx 0 ind 0 + 1) (idx 0 ind 1) (idx 0 ind 2) (idx 0 ind 3)
      (idx 0 ind 4) iincl) :
    interp_6d_tab_incl X tab n_ener fac nfac ind iincl
      = some ((List.range n_ener).map fun e => X.interp_lin_1d (idx 0 fac 0)
          (multilinear4 tab (idx 0 fac 1) (idx 0 fac 2) (idx 0 fac 3) (idx 0 fac 4)
            (idx 0 ind 0) (idx 0 ind 1) (idx 0 ind 2) (idx 0 ind 3) (idx 0 ind 4) iincl e)
          (multilinear4 tab (idx 0 fac 1) (idx 0 fac 2) (idx 0 fac 3) (idx 0 fac 4)
            (idx 0 ind 0 + 1) (idx 0 ind 1) (idx 0 ind 2) (idx 0 ind 3) (idx 0 ind 4)
            iincl e)) := by
  unfold interp_6d_tab_incl
  rw [interp_5d_tab_incl_eq tab n_ener _ _ _ _ _ _ _ _ _ _ h0,
    interp_5d_tab_incl_eq tab n_ener _ _ _ _ _ _ _ _ _ _ h1]
  simp only [Option.bind]
  exact blend_lin_1d_map X n_ener _ _ _

theorem interp_6d_tab_eq (X : Ext R) (tab : xillTable R) (n_ener : Nat)
    (fac : List R) (nfac : Int) (ind : List Int)
    (h0 : cell32 tab n_ener (idx 0 ind 0) (idx 0 ind 1) (idx 0 ind 2) (idx 0 ind 3)
      (idx 0 ind 4) (idx 0 ind 5))
    (h1 : cell32 tab n_ener (idx 0 ind 0 + 1) (idx 0 ind 1) (idx 0 ind 2) (idx 0 ind 3)
      (idx 0 ind 4) (idx 0 ind 5)) :
    interp_6d_tab X tab n_ener fac nfac ind
      = some ((List.range n_ener).map fun e => X.interp_lin_1d (idx 0 fac 0)
          (multilinear5 tab (idx 0 fac 1) (idx 0 fac 2) (idx 0 fac 3) (idx 0 fac 4)
            (idx 0 fac 5)
            (idx 0 ind 0) (idx 0 ind 1) (idx 0 ind 2) (idx 0 ind 3) (idx 0 ind 4)
            (idx 0 ind 5) e)
          (multilinear5 tab (idx 0 fac 1) (idx 0 fac 2) (idx 0 fac 3) (idx 0 fac 4)
            (idx 0 fac 5)
            (idx 0 ind 0 + 1) (idx 0 ind 1) (idx 0 ind 2) (idx 0 ind 3) (idx 0 ind 4)
            (idx 0 ind 5) e)) := by
  unfold interp_6d_tab
  rw [interp_5d_tab_eq tab n_ener _ _ _ _ _ _ _ _ _ _ _ h0,
    interp_5d_tab_eq tab n_ener _ _ _ _ _ _ _ _ _ _ _ h1]
  simp only [Option.bind]
  exact blend_lin_1d_map X n_ener _ _ _

/-- C4 (the two-stage blends are exact multilinear interpolation).  If
`interp_lin_1d(f,a,b) = (1-f)*a + f*b`, then in every energy bin
`interp_6d_tab_incl` yields the sum over the 32 corners of axes 0..4
(inclination bin `iincl` fixed) and `interp_6d_tab` the sum over the 64
corners of axes 0..5, each corner `ind[k]` or `ind[k]+1` weighted by the
product of `1 - fac[k]` or `fac[k]`.  The corners read are loaded. -/
theorem interp_6d_exact_multilinear (X : Ext R) (tab : xillTable R) (n_ener : Nat)
    (fac : List R) (ind : List Int) (iincl : Int)
    (hlin : ∀ f a b : R, X.interp_lin_1d f a b = (1 - f) * a + f * b) :
    ((∀ b0 : Bool, cell16 tab n_ener (idx 0 ind 0 + b2i b0) (idx 0 ind 1) (idx 0 ind 2)
        (idx 0 ind 3) (idx 0 ind 4) iincl) →
      ∃ flu, interp_6d_tab_incl X tab n_ener fac 6 ind iincl = some flu ∧
        flu.length = n_ener ∧
        ∀ e, e < n_ener →
          flu[e]? = some (∑ b0 : Bool, ∑ b1 : Bool, ∑ b2 : Bool, ∑ b3 : Bool, ∑ b4 : Bool,
            (wgt (idx 0 fac 0) b0 * wgt (idx 0 fac 1) b1 * wgt (idx 0 fac 2) b2 *
                wgt (idx 0 fac 3) b3 * wgt (idx 0 fac 4) b4) *
              specval tab (idx 0 ind 0 + b2i b0) (idx 0 ind 1 + b2i b1)
                (idx 0 ind 2 + b2i b2) (idx 0 ind 3 + b2i b3) (idx 0 ind 4 + b2i b4)
                iincl e)) ∧
    ((∀ b0 : Bool, cell32 tab n_ener (idx 0 ind 0 + b2i b0) (idx 0 ind 1) (idx 0 ind 2)
        (idx 0 ind 3) (idx 0 ind 4) (idx 0 ind 5)) →
      ∃ flu, interp_6d_tab X tab n_ener fac 6 ind = some flu ∧
        flu.length = n_ener ∧
        ∀ e, e < n_ener →
          flu[e]? = some (∑ b0 : Bool, ∑ b1 : Bool, ∑ b2 : Bool, ∑ b3 : Bool, ∑ b4 : Bool,
              ∑ b5 : Bool,
            (wgt (idx 0 fac 0) b0 * wgt (idx 0 fac 1) b1 * wgt (idx 0 fac 2) b2 *
                wgt (idx 0 fac 3) b3 * wgt (idx 0 fac 4) b4 * wgt (idx 0 fac 5) b5) *
              specval tab (idx 0 ind 0 + b2i b0) (idx 0 ind 1 + b2i b1)
                (idx 0 ind 2 + b2i b2) (idx 0 ind 3 + b2i b3) (idx 0 ind 4 + b2i b4)
                (idx 0 ind 5 + b2i b5) e)) := by
  constructor
  · intro h
    have h0 := h false
    have h1 := h true
    simp only [b2i_true, b2i_false, add_zero] at h0 h1
    refine ⟨_, interp_6d_tab_incl_eq X tab n_ener fac 6 ind iincl h0 h1, ?_, ?_⟩
    · simp
    · intro e he
      rw [getElem?_map_range n_ener _ he, hlin, lin_multilinear4]
  · intro h
    have h0 := h false
    have h1 := h true
    simp only [b2i_true, b2i_false, add_zero] at h0 h1
    refine ⟨_, interp_6d_tab_eq X tab n_ener fac 6 ind h0 h1, ?_, ?_⟩
    · simp
    · intro e he
      rw [getElem?_map_range n_ener _ he, hlin, lin_multilinear5]

/-- Witness of C4 on the six-axis `demoTable6` with `demoExt`, whose
`interp_lin_1d` is linear interpolation. -/
theorem interp_6d_exact_multilinear_witness :
    (∀ f a b : ℚ, demoExt.interp_lin_1d f a b = (1 - f) * a + f * b) ∧
    (∃ flu, interp_6d_tab_incl demoExt demoTable6 2 [1 / 2, 1 / 4, 0, 1, 3, 0] 6
        [0, 0, 0, 0, 0, 0] 1 = some flu ∧ flu.length = 2) ∧
    (∃ flu, interp_6d_tab demoExt demoTable6 2 [1 / 2, 1 / 4, 0, 1, 3, 1 / 3] 6
        [0, 0, 0, 0, 0, 0] = some flu ∧ flu.length = 2) := by
  have hlin : ∀ f a b : ℚ, demoExt.interp_lin_1d f a b = (1 - f) * a + f * b :=
    fun _ _ _ => rfl
  have h16 : ∀ b0 : Bool, cell16 demoTable6 2 (idx 0 [0, 0, 0, 0, 0, 0] 0 + b2i b0)
      (idx 0 [0, 0, 0, 0, 0, 0] 1) (idx 0 [0, 0, 0, 0, 0, 0] 2)
      (idx 0 [0, 0, 0, 0, 0, 0] 3) (idx 0 [0, 0, 0, 0, 0, 0] 4) 1 := by
    unfold cell16; decide
  have h32 : ∀ b0 : Bool, cell32 demoTable6 2 (idx 0 [0, 0, 0, 0, 0, 0] 0 + b2i b0)
      (idx 0 [0, 0, 0, 0, 0, 0] 1) (idx 0 [0, 0, 0, 0, 0, 0] 2)
      (idx 0 [0, 0, 0, 0, 0, 0] 3) (idx 0 [0, 0, 0, 0, 0, 0] 4)
      (idx 0 [0, 0, 0, 0, 0, 0] 5) := by
    unfold cell32; decide
  obtain ⟨flu1, e1, l1, -⟩ := (interp_6d_exact_multilinear demoExt demoTable6 2
    [1 / 2, 1 / 4, 0, 1, 3, 0] [0, 0, 0, 0, 0, 0] 1 hlin).1 h16
  obtain ⟨flu2, e2, l2, -⟩ := (interp_6d_exact_multilinear demoExt demoTable6 2
    [1 / 2, 1 / 4, 0, 1, 3, 1 / 3] [0, 0, 0, 0, 0, 0] 1 hlin).2 h32
  exact ⟨hlin, ⟨flu1, e1, l1⟩, ⟨flu2, e2, l2⟩⟩

/-! ### Row numbers and grid indices -/

theorem idx_natCast {α : Type} (d : α) (a : List α) (i : Nat) :
    idx d a (i : Int) = a.getD i d := by
  simp [idx]

theorem idx_map_range {α : Type} (d : α) (n : Nat) (g : Nat → α) {i : Nat} (hi : i < n) :
    idx d ((List.range n).map g) (i : Int) = g i := by
  simp [idx_natCast, List.getD, hi]

/-- C9 (one indexing formula).  The 5-axis branch of `get_xillspec_rownum`, for
any value of its unused argument `nn`, returns what the 6-axis branch returns
for the axis lengths with a notional axis of length 1 put in front and the
index 0 on that axis.  Both are mixed-radix numbers, plus 1: the first axis
is the most significant digit and the last one (inclination) the least. -/
theorem rownum_shared_formula (n0 n1 n2 n3 n4 nn a b c d m : Int) :
    get_xillspec_rownum [n0, n1, n2, n3, n4] 5 nn a b c d m
      = get_xillspec_rownum [1, n0, n1, n2, n3, n4] 6 0 a b c d m ∧
    get_xillspec_rownum [n0, n1, n2, n3, n4] 5 nn a b c d m
      = a * (n1 * n2 * n3 * n4) + b * (n2 * n3 * n4) + c * (n3 * n4) + d * n4 + m + 1 ∧
    ∀ k0 k1 k2 k3 k4 k5 i0 : Int,
      get_xillspec_rownum [k0, k1, k2, k3, k4, k5] 6 i0 a b c d m
        = i0 * (k1 * k2 * k3 * k4 * k5) + a * (k2 * k3 * k4 * k5) + b * (k3 * k4 * k5)
          + c * (k4 * k5) + d * k5 + m + 1 := by
  refine ⟨?_, ?_, ?_⟩
  · simp [get_xillspec_rownum, idx]
  · simp [get_xillspec_rownum, idx]
    ring
  · intro k0 k1 k2 k3 k4 k5 i0
    simp [get_xillspec_rownum, idx]
    ring

/-- C6 (index clamping).  On a table whose axes all have at least two tabulated
values, whatever `binary_search_float` returns, every index produced by
`get_xilltab_indices_for_paramvals` lies in `[0, num_param_vals[i] - 2]`, so
that `ind[i] + 1` is the index of a tabulated value as well. -/
theorem indices_clamped (X : Ext R) (param : xillTableParam R) (tab : xillTable R)
    (hlen : ∀ ii : Nat, ii < tab.num_param.toNat → 2 ≤ idx 0 tab.num_param_vals ii) :
    ∃ ind, get_xilltab_indices_for_paramvals X param tab EXIT_SUCCESS = some ind ∧
      ind.length = tab.num_param.toNat ∧
      ∀ ii : Nat, ii < tab.num_param.toNat →
        0 ≤ idx 0 ind ii ∧ idx 0 ind ii ≤ idx 0 tab.num_param_vals ii - 2 ∧
          idx 0 ind ii + 1 < idx 0 tab.num_param_vals ii := by
  refine ⟨_, if_neg (fun h => h rfl), by simp, ?_⟩
  intro ii hii
  have h2 := hlen ii hii
  rw [idx_map_range 0 _ _ hii]
  simp only []
  split_ifs <;> omega

/-- Witness of C6: the five axes of `demoTable` have two values each. -/
theorem indices_clamped_witness :
    (∀ ii : Nat, ii < demoTable.num_param.toNat → 2 ≤ idx 0 demoTable.num_param_vals ii) ∧
    ∃ ind, get_xilltab_indices_for_paramvals demoExt demoParam demoTable EXIT_SUCCESS
        = some ind ∧
      ind.length = demoTable.num_param.toNat ∧
      ∀ ii : Nat, ii < demoTable.num_param.toNat →
        0 ≤ idx 0 ind ii ∧ idx 0 ind ii ≤ idx 0 demoTable.num_param_vals ii - 2 ∧
          idx 0 ind ii + 1 < idx 0 demoTable.num_param_vals ii :=
  have h : ∀ ii : Nat, ii < demoTable.num_param.toNat →
      2 ≤ idx 0 demoTable.num_param_vals ii := by decide
  ⟨h, indices_clamped demoExt demoParam demoTable h⟩

/-! ### The interpolation factors -/

theorem ipol_fac_loop_succ (X : Ext R) (tab : xillTable R) (param : xillTableParam R)
    (ind : List Int) (k : Nat) :
    ipol_fac_loop X tab param ind (k + 1)
      = ipol_fac_step X tab param ind (ipol_fac_loop X tab param ind k) k := by
  simp [ipol_fac_loop, List.range_succ]

theorem ipol_fac_loop_length (X : Ext R) (tab : xillTable R) (param : xillTableParam R)
    (ind : List Int) (k : Nat) :
    (ipol_fac_loop X tab param ind k).2.length = k := by
  induction k with
  | zero => rfl
  | succ k ih => rw [ipol_fac_loop_succ]; simp [ipol_fac_step, ih]

/-- Entry `j` of the factor array is the value assigned in iteration `j`; later
iterations do not touch it. -/
theorem ipol_fac_loop_getElem (X : Ext R) (tab : xillTable R) (param : xillTableParam R)
    (ind : List Int) (k j : Nat) (hj : j < k) :
    (ipol_fac_loop X tab param ind k).2[j]?
      = some (ipol_fac_value tab ind
          (ipol_fac_clamp X tab param (ipol_fac_loop X tab param ind j).1 j) j) := by
  induction k with
  | zero => omega
  | succ k ih =>
    rw [ipol_fac_loop_succ]
    have hl := ipol_fac_loop_length X tab param ind k
    rcases Nat.lt_succ_iff_lt_or_eq.1 hj with h | h
    · simp only [ipol_fac_step]
      rw [List.getElem?_append_left (by omega)]
      exact ih h
    · subst h
      simp only [ipol_fac_step]
      rw [List.getElem?_append_right (by omega)]
      simp [hl]

/-- The input value of a kind that none of the first `k` axes has is still the
caller's value after `k` iterations. -/
theorem ipol_fac_loop_inp (X : Ext R) (tab : xillTable R) (param : xillTableParam R)
    (ind : List Int) (k : Nat) (p : Int)
    (hp : ∀ j : Nat, j < k → idx 0 tab.param_index j ≠ p) :
    (ipol_fac_loop X tab param ind k).1 p = get_xilltab_paramvals X param p := by
  induction k with
  | zero => rfl
  | succ k ih =>
    rw [ipol_fac_loop_succ]
    have h1 := ih (fun j hj => hp j (Nat.lt_succ_of_lt hj))
    have h2 := hp k (Nat.lt_succ_self k)
    simp only [ipol_fac_step, ipol_fac_clamp]
    split_ifs
    · rw [Function.update_noteq (Ne.symm h2)]
      exact h1
    · exact h1

theorem idx_lt_of_pairwise {l : List R} (h : l.Pairwise (· < ·)) {i j : Int}
    (hi : 0 ≤ i) (hij : i < j) (hj : j < l.length) : idx 0 l i < idx 0 l j := by
  obtain ⟨a, rfl⟩ := Int.eq_ofNat_of_zero_le hi
  obtain ⟨b, rfl⟩ := Int.eq_ofNat_of_zero_le (le_trans hi (le_of_lt hij))
  have hab : a < b := by exact_mod_cast hij
  have hb : b < l.length := by exact_mod_cast hj
  have ha : a < l.length := lt_trans hab hb
  rw [idx_natCast, idx_natCast, List.getD_eq_getElem _ _ ha, List.getD_eq_getElem _ _ hb]
  exact List.pairwise_iff_getElem.1 h a b ha hb hab

theorem axis_val_lt {tab : xillTable R} {ii : Nat} (h : axis_increasing tab ii) {i j : Int}
    (hi : 0 ≤ i) (hij : i < j) (hj : j < axis_len tab ii) :
    axis_val tab ii i < axis_val tab ii j :=
  idx_lt_of_pairwise h.2.2 hi hij (by rw [h.2.1]; exact hj)

theorem axis_val_le {tab : xillTable R} {ii : Nat} (h : axis_increasing tab ii) {i j : Int}
    (hi : 0 ≤ i) (hij : i ≤ j) (hj : j < axis_len tab ii) :
    axis_val tab ii i ≤ axis_val tab ii j := by
  rcases eq_or_lt_of_le hij with h1 | h1
  · rw [h1]
  · exact le_of_lt (axis_val_lt h hi h1 hj)

/-- The factor of a clamped axis, as the loop of `interp_xill_table` computes
it from the entry of `inp_param_vals` found when the iteration of the axis
starts. -/
theorem ipol_fac_loop_clamped_turn (X : Ext R) (tab : xillTable R)
    (param : xillTableParam R) (ind : List Int) (k ii : Nat) (hii : ii < k)
    (hclamp : axis_clamped X tab param ii) :
    (ipol_fac_loop X tab param ind k).2[ii]?
      = some ((resetInpvalsToBoundaries
            ((ipol_fac_loop X tab param ind ii).1 (idx 0 tab.param_index ii))
            (axis_val tab ii 0) (axis_val tab ii (axis_len tab ii - 1))
          - axis_val tab ii (idx 0 ind ii)) /
        (axis_val tab ii (idx 0 ind ii + 1) - axis_val tab ii (idx 0 ind ii))) := by
  rw [ipol_fac_loop_getElem X tab param ind k ii hii]
  have hc : (!((!X.is_xill_model param.model_type) &&
      (idx 0 tab.param_index ii == X.PARAM_INC))) = true := by
    unfold axis_clamped at hclamp
    cases hm : X.is_xill_model param.model_type
    · have : idx 0 tab.param_index ii ≠ X.PARAM_INC := fun h => hclamp ⟨hm, h⟩
      simp [this]
    · simp
  simp only [ipol_fac_value, ipol_fac_clamp, hc, if_true, Function.update_same, axis_val,
    axis_len]

/-- The factor of a clamped axis, as the loop of `interp_xill_table` computes
it, when no earlier axis has the same kind. -/
theorem ipol_fac_loop_clamped (X : Ext R) (tab : xillTable R) (param : xillTableParam R)
    (ind : List Int) (k ii : Nat) (hii : ii < k)
    (hclamp : axis_clamped X tab param ii)
    (hfirst : ∀ jj : Nat, jj < ii → idx 0 tab.param_index jj ≠ idx 0 tab.param_index ii) :
    (ipol_fac_loop X tab param ind k).2[ii]?
      = some ((resetInpvalsToBoundaries
            (get_xilltab_paramvals X param (idx 0 tab.param_index ii))
            (axis_val tab ii 0) (axis_val tab ii (axis_len tab ii - 1))
          - axis_val tab ii (idx 0 ind ii)) /
        (axis_val tab ii (idx 0 ind ii + 1) - axis_val tab ii (idx 0 ind ii))) := by
  rw [ipol_fac_loop_clamped_turn X tab param ind k ii hii hclamp,
    ipol_fac_loop_inp X tab param ind ii (idx 0 tab.param_index ii) hfirst]

/-- The factor of an axis that is not clamped (the inclination of a model that
is not a xillver model), when no earlier axis has the same kind. -/
theorem ipol_fac_loop_unclamped (X : Ext R) (tab : xillTable R) (param : xillTableParam R)
    (ind : List Int) (k ii : Nat) (hii : ii < k)
    (hclamp : ¬axis_clamped X tab param ii)
    (hfirst : ∀ jj : Nat, jj < ii → idx 0 tab.param_index jj ≠ idx 0 tab.param_index ii) :
    (ipol_fac_loop X tab param ind k).2[ii]?
      = some ((get_xilltab_paramvals X param (idx 0 tab.param_index ii)
          - axis_val tab ii (idx 0 ind ii)) /
        (axis_val tab ii (idx 0 ind ii + 1) - axis_val tab ii (idx 0 ind ii))) := by
  rw [ipol_fac_loop_getElem X tab param ind k ii hii]
  have hx := ipol_fac_loop_inp X tab param ind ii (idx 0 tab.param_index ii) hfirst
  have hc : (!((!X.is_xill_model param.model_type) &&
      (idx 0 tab.param_index ii == X.PARAM_INC))) = false := by
    unfold axis_clamped at hclamp
    rw [not_not] at hclamp
    simp [hclamp.1, hclamp.2]
  simp [ipol_fac_value, ipol_fac_clamp, hc, hx, axis_val]

/-- The factor that the loop of `interp_xill_table` stores for a clamped axis,
before `ensure_ecut_within_boundarys` runs.  For a clamped axis `ii` with
strictly increasing tabulated values, let `x` be the input value of the axis,
the entry of `inp_param_vals` that the loop finds when it reaches the axis
(the caller's value of the parameter whenever no earlier axis has the same
kind), and `x'` its clamped value.  The factor `frac` that the loop stores in
`ipol_fac[ii]` is `(x' - param_vals[ind]) / (param_vals[ind+1] - param_vals[ind])`,
and
* `x` below the first tabulated value and `ind = 0` give `frac = 0`;
* `x` above the last tabulated value and `ind = len - 2` give `frac = 1`;
* whenever `ind` brackets `x'`, the denominator is not 0 and `0 ≤ frac ≤ 1`. -/
theorem loop_clamped_fraction (X : Ext R) (tab : xillTable R) (param : xillTableParam R)
    (ind : List Int) (ii : Nat) (hii : ii < tab.num_param.toNat)
    (hclamp : axis_clamped X tab param ii)
    (haxis : axis_increasing tab ii) :
    ∃ frac x x', (ipol_fac_loop X tab param ind tab.num_param.toNat).2[ii]? = some frac ∧
      x = (ipol_fac_loop X tab param ind ii).1 (idx 0 tab.param_index ii) ∧
      ((∀ jj : Nat, jj < ii → idx 0 tab.param_index jj ≠ idx 0 tab.param_index ii) →
        x = get_xilltab_paramvals X param (idx 0 tab.param_index ii)) ∧
      x' = resetInpvalsToBoundaries x (axis_val tab ii 0)
        (axis_val tab ii (axis_len tab ii - 1)) ∧
      frac = (x' - axis_val tab ii (idx 0 ind ii)) /
        (axis_val tab ii (idx 0 ind ii + 1) - axis_val tab ii (idx 0 ind ii)) ∧
      (x < axis_val tab ii 0 → idx 0 ind ii = 0 → frac = 0) ∧
      (axis_val tab ii (axis_len tab ii - 1) < x → idx 0 ind ii = axis_len tab ii - 2 →
        frac = 1) ∧
      (0 ≤ idx 0 ind ii → idx 0 ind ii ≤ axis_len tab ii - 2 →
        axis_val tab ii (idx 0 ind ii) ≤ x' → x' ≤ axis_val tab ii (idx 0 ind ii + 1) →
        axis_val tab ii (idx 0 ind ii + 1) - axis_val tab ii (idx 0 ind ii) ≠ 0 ∧
          0 ≤ frac ∧ frac ≤ 1) := by
  refine ⟨_, _, _, ipol_fac_loop_clamped_turn X tab param ind _ ii hii hclamp, rfl,
    fun hfirst => ipol_fac_loop_inp X tab param ind ii _ hfirst, rfl, rfl, ?_, ?_, ?_⟩
  · intro hx hind
    simp [resetInpvalsToBoundaries, hx, hind]
  · intro hx hind
    have hlen := haxis.1
    have hlohi : axis_val tab ii 0 ≤ axis_val tab ii (axis_len tab ii - 1) :=
      axis_val_le haxis le_rfl (by omega) (by omega)
    have hlt : axis_val tab ii (axis_len tab ii - 2) < axis_val tab ii (axis_len tab ii - 1) :=
      axis_val_lt haxis (by omega) (by omega) (by omega)
    have h1 : ¬ (ipol_fac_loop X tab param ind ii).1 (idx 0 tab.param_index ii)
        < axis_val tab ii 0 :=
      not_lt.2 (le_trans hlohi (le_of_lt hx))
    have h2 : axis_len tab ii - 2 + 1 = axis_len tab ii - 1 := by omega
    rw [hind, h2]
    simp only [resetInpvalsToBoundaries, h1, if_false, gt_iff_lt, hx, if_true]
    exact div_self (sub_ne_zero.2 (ne_of_gt hlt))
  · intro h0 h1 ha hb
    have hlt : axis_val tab ii (idx 0 ind ii) < axis_val tab ii (idx 0 ind ii + 1) :=
      axis_val_lt haxis h0 (by omega) (by omega)
    have hpos : 0 < axis_val tab ii (idx 0 ind ii + 1) - axis_val tab ii (idx 0 ind ii) :=
      sub_pos.2 hlt
    refine ⟨ne_of_gt hpos, div_nonneg (sub_nonneg.2 ha) (le_of_lt hpos), ?_⟩
    rw [div_le_one hpos]
    exact sub_le_sub_right hb _

theorem demoTable_axis_increasing (ii : Nat) (hii : ii < 5) : axis_increasing demoTable ii := by
  have h : ii = 0 ∨ ii = 1 ∨ ii = 2 ∨ ii = 3 ∨ ii = 4 := by omega
  rcases h with h | h | h | h | h <;> subst h <;>
    simp [axis_increasing, axis_len, demoTable, idx]

/-! ### The table query -/

theorem range5 : List.range 5 = [0, 1, 2, 3, 4] := rfl

/-- The flux of a query on a 5-axis table for a xillver model: one array, the
order-5 multilinear blend with the factors of `interp_xill_table_ipol_fac`. -/
theorem interp_xill_table_flu_5_xill (X : Ext R) (tab : xillTable R)
    (param : xillTableParam R) (ind : List Int) (f0 f1 f2 f3 f4 : R)
    (h5 : tab.num_param = 5) (hx : X.is_xill_model param.model_type = true)
    (hf0 : idx 0 (interp_xill_table_ipol_fac X tab param ind) 0 = f0)
    (hf1 : idx 0 (interp_xill_table_ipol_fac X tab param ind) 1 = f1)
    (hf2 : idx 0 (interp_xill_table_ipol_fac X tab param ind) 2 = f2)
    (hf3 : idx 0 (interp_xill_table_ipol_fac X tab param ind) 3 = f3)
    (hf4 : idx 0 (interp_xill_table_ipol_fac X tab param ind) 4 = f4)
    (hc : cell32 tab tab.n_ener.toNat 0 (idx 0 ind 0) (idx 0 ind 1) (idx 0 ind 2)
      (idx 0 ind 3) (idx 0 ind 4)) :
    (interp_xill_table X tab param ind EXIT_SUCCESS).map (fun s => s.flu)
      = some [(List.range tab.n_ener.toNat).map
          (multilinear5 tab f0 f1 f2 f3 f4 0 (idx 0 ind 0) (idx 0 ind 1) (idx 0 ind 2)
            (idx 0 ind 3) (idx 0 ind 4))] := by
  simp only [interp_xill_table, ne_eq, not_true_eq_false, if_false, interp_xill_table_flu, h5,
    hx, if_true, hf0, hf1, hf2, hf3, hf4,
    interp_5d_tab_eq tab _ f0 f1 f2 f3 f4 0 _ _ _ _ _ hc, Option.map_some', Option.map]

/-- The flux of a query on a 5-axis table for a model that is not a xillver
model: one array per inclination bin `m`, the order-4 multilinear blend at
inclination index `m`. -/
theorem interp_xill_table_flu_5_incl (X : Ext R) (tab : xillTable R)
    (param : xillTableParam R) (ind : List Int) (f0 f1 f2 f3 : R)
    (h5 : tab.num_param = 5) (hx : X.is_xill_model param.model_type = false)
    (hf0 : idx 0 (interp_xill_table_ipol_fac X tab param ind) 0 = f0)
    (hf1 : idx 0 (interp_xill_table_ipol_fac X tab param ind) 1 = f1)
    (hf2 : idx 0 (interp_xill_table_ipol_fac X tab param ind) 2 = f2)
    (hf3 : idx 0 (interp_xill_table_ipol_fac X tab param ind) 3 = f3)
    (hc : ∀ m : Nat, m < tab.n_incl.toNat →
      cell16 tab tab.n_ener.toNat 0 (idx 0 ind 0) (idx 0 ind 1) (idx 0 ind 2) (idx 0 ind 3) m) :
    (interp_xill_table X tab param ind EXIT_SUCCESS).map (fun s => s.flu)
      = some ((List.range tab.n_incl.toNat).map fun (m : Nat) =>
          (List.range tab.n_ener.toNat).map
            (multilinear4 tab f0 f1 f2 f3 0 (idx 0 ind 0) (idx 0 ind 1) (idx 0 ind 2)
              (idx 0 ind 3) m)) := by
  have hfor := for_ii_eq_some tab.n_incl.toNat
    (fun ii => interp_5d_tab_incl tab tab.n_ener.toNat f0 f1 f2 f3 0 (idx 0 ind 0)
      (idx 0 ind 1) (idx 0 ind 2) (idx 0 ind 3) (ii : Int))
    (fun (m : Nat) => (List.range tab.n_ener.toNat).map
      (multilinear4 tab f0 f1 f2 f3 0 (idx 0 ind 0) (idx 0 ind 1) (idx 0 ind 2)
        (idx 0 ind 3) m))
    (fun m hm => interp_5d_tab_incl_eq tab _ f0 f1 f2 f3 0 _ _ _ _ _ (hc m hm))
  simp only [interp_xill_table, ne_eq, not_true_eq_false, if_false, interp_xill_table_flu, h5,
    hx, if_true, hf0, hf1, hf2, hf3, Bool.false_eq_true, hfor, Option.map_some', Option.map]

/-- C8, evaluated on a table whose cutoff axis is not stored at position
`PARAM_ECT`.  On `cutoffFirstTable` the cutoff energy is axis 0 with highest
tabulated value 10 and `ind[0] = len - 2 = 0`.  `ensure_ecut_within_boundarys`
compares `ect` with the values of axis `PARAM_ECT = 3` (the density, 15 and
19): for `ect = 10`, the highest tabulated cutoff, the factor of axis 0 is set
to 0 instead of 1 and the flux is the spectrum of the lower corner; for
`ect = 17`, above the highest tabulated cutoff, the factor is 1 and the flux
differs from the one returned for `ect = 10`. -/
theorem cutoff_pin_reads_axis_PARAM_ECT :
    get_xilltab_param_index cutoffFirstTable demoExt.PARAM_ECT = 0 ∧
    axis_val cutoffFirstTable 0 (axis_len cutoffFirstTable 0 - 1) = 10 ∧
    interp_xill_table_ipol_fac demoExt cutoffFirstTable (cutoffFirstParam 10) [0, 0, 0, 0, 0]
      = [0, 0, 0, 0, 0] ∧
    interp_xill_table_ipol_fac demoExt cutoffFirstTable (cutoffFirstParam 17) [0, 0, 0, 0, 0]
      = [1, 0, 0, 0, 0] ∧
    (interp_xill_table demoExt cutoffFirstTable (cutoffFirstParam 10) [0, 0, 0, 0, 0]
      EXIT_SUCCESS).map (fun s => s.flu) = some [[1, 1]] ∧
    (interp_xill_table demoExt cutoffFirstTable (cutoffFirstParam 17) [0, 0, 0, 0, 0]
      EXIT_SUCCESS).map (fun s => s.flu) = some [[17, 289]] := by
  have hf10 : interp_xill_table_ipol_fac demoExt cutoffFirstTable (cutoffFirstParam 10)
      [0, 0, 0, 0, 0] = [0, 0, 0, 0, 0] := by
    simp [interp_xill_table_ipol_fac, ensure_ecut_within_boundarys, ipol_fac_loop,
      ipol_fac_step, ipol_fac_clamp, ipol_fac_value, get_xilltab_param_index,
      get_xilltab_paramvals, resetInpvalsToBoundaries, cutoffFirstTable, cutoffFirstParam,
      demoExt, idx, range5, Function.update]
    norm_num
  have hf17 : interp_xill_table_ipol_fac demoExt cutoffFirstTable (cutoffFirstParam 17)
      [0, 0, 0, 0, 0] = [1, 0, 0, 0, 0] := by
    simp [interp_xill_table_ipol_fac, ensure_ecut_within_boundarys, ipol_fac_loop,
      ipol_fac_step, ipol_fac_clamp, ipol_fac_value, get_xilltab_param_index,
      get_xilltab_paramvals, resetInpvalsToBoundaries, cutoffFirstTable, cutoffFirstParam,
      demoExt, idx, range5, Function.update]
    norm_num
  have hc : cell32 cutoffFirstTable cutoffFirstTable.n_ener.toNat 0 (idx 0 [0, 0, 0, 0, 0] 0)
      (idx 0 [0, 0, 0, 0, 0] 1) (idx 0 [0, 0, 0, 0, 0] 2) (idx 0 [0, 0, 0, 0, 0] 3)
      (idx 0 [0, 0, 0, 0, 0] 4) := by
    unfold cell32; decide
  refine ⟨by decide, by simp [axis_val, axis_len, cutoffFirstTable, idx], hf10, hf17, ?_, ?_⟩
  · rw [interp_xill_table_flu_5_xill demoExt cutoffFirstTable (cutoffFirstParam 10)
      [0, 0, 0, 0, 0] 0 0 0 0 0 rfl rfl (by rw [hf10]; rfl) (by rw [hf10]; rfl)
      (by rw [hf10]; rfl) (by rw [hf10]; rfl) (by rw [hf10]; rfl) hc]
    simp [multilinear5, Fintype.sum_bool, wgt, b2i, specval, get_xillspec,
      get_xillspec_rownum, cutoffFirstTable, idx, List.range_succ]
  · rw [interp_xill_table_flu_5_xill demoExt cutoffFirstTable (cutoffFirstParam 17)
      [0, 0, 0, 0, 0] 1 0 0 0 0 rfl rfl (by rw [hf17]; rfl) (by rw [hf17]; rfl)
      (by rw [hf17]; rfl) (by rw [hf17]; rfl) (by rw [hf17]; rfl) hc]
    simp [multilinear5, Fintype.sum_bool, wgt, b2i, specval, get_xillspec,
      get_xillspec_rownum, cutoffFirstTable, idx, List.range_succ]
    norm_num

/-- C5, evaluated on a table whose cutoff axis is not stored at position
`PARAM_ECT`.  On `cutoffSecondTable` the query `cutoffSecondParam` has `gam`
halfway between the two tabulated values of axis 0 and every other value on
the grid point `ind[k] = 0` of its axis.  `ensure_ecut_within_boundarys`
compares `ect = 20` with the values of axis `PARAM_ECT = 3` (the ionization,
0 and 4) and sets the factor of the cutoff axis to 1: the flux returned is
`[17, 353]`, whereas the mean of the two neighbouring gamma spectra, at
corners `(0,0,0,0,0)` and `(1,0,0,0,0)`, is `[9, 145]`. -/
theorem midpoint_query_on_cutoffSecondTable :
    get_xilltab_paramvals demoExt cutoffSecondParam (idx 0 cutoffSecondTable.param_index 0)
      = (axis_val cutoffSecondTable 0 0 + axis_val cutoffSecondTable 0 1) / 2 ∧
    (∀ k : Nat, 1 ≤ k → k < 5 →
      get_xilltab_paramvals demoExt cutoffSecondParam (idx 0 cutoffSecondTable.param_index k)
        = axis_val cutoffSecondTable k 0) ∧
    interp_xill_table_ipol_fac demoExt cutoffSecondTable cutoffSecondParam [0, 0, 0, 0, 0]
      = [1 / 2, 1, 0, 0, 0] ∧
    (interp_xill_table demoExt cutoffSecondTable cutoffSecondParam [0, 0, 0, 0, 0]
      EXIT_SUCCESS).map (fun s => s.flu) = some [[17, 353]] ∧
    (List.range 2).map (fun e => (specval cutoffSecondTable 0 0 0 0 0 0 e
      + specval cutoffSecondTable 0 1 0 0 0 0 e) / 2) = [9, 145] := by
  have hf : interp_xill_table_ipol_fac demoExt cutoffSecondTable cutoffSecondParam
      [0, 0, 0, 0, 0] = [1 / 2, 1, 0, 0, 0] := by
    simp [interp_xill_table_ipol_fac, ensure_ecut_within_boundarys, ipol_fac_loop,
      ipol_fac_step, ipol_fac_clamp, ipol_fac_value, get_xilltab_param_index,
      get_xilltab_paramvals, resetInpvalsToBoundaries, cutoffSecondTable, cutoffSecondParam,
      demoExt, idx, range5, Function.update]
    norm_num
  have hc : cell32 cutoffSecondTable cutoffSecondTable.n_ener.toNat 0
      (idx 0 [0, 0, 0, 0, 0] 0) (idx 0 [0, 0, 0, 0, 0] 1) (idx 0 [0, 0, 0, 0, 0] 2)
      (idx 0 [0, 0, 0, 0, 0] 3) (idx 0 [0, 0, 0, 0, 0] 4) := by
    unfold cell32; decide
  refine ⟨?_, ?_, hf, ?_, ?_⟩
  · simp [get_xilltab_paramvals, demoExt, cutoffSecondParam, cutoffSecondTable, axis_val, idx,
      Function.update]
    norm_num
  · intro k h1 h5
    have h : k = 1 ∨ k = 2 ∨ k = 3 ∨ k = 4 := by omega
    rcases h with h | h | h | h <;> subst h <;>
      simp [get_xilltab_paramvals, demoExt, cutoffSecondParam, cutoffSecondTable, axis_val,
        idx, Function.update]
  · rw [interp_xill_table_flu_5_xill demoExt cutoffSecondTable cutoffSecondParam
      [0, 0, 0, 0, 0] (1 / 2) 1 0 0 0 rfl rfl (by rw [hf]; rfl) (by rw [hf]; rfl)
      (by rw [hf]; rfl) (by rw [hf]; rfl) (by rw [hf]; rfl) hc]
    simp [multilinear5, Fintype.sum_bool, wgt, b2i, specval, get_xillspec,
      get_xillspec_rownum, cutoffSecondTable, idx, List.range_succ]
    norm_num
  · simp [specval, get_xillspec, get_xillspec_rownum, cutoffSecondTable, idx, List.range_succ]
    norm_num

/-! ### Lazy loading -/

theorem reads_of_append (r : Int) (l1 l2 : List FitsEvent) :
    reads_of r (l1 ++ l2) = reads_of r l1 ++ reads_of r l2 := by
  induction l1 with
  | nil => rfl
  | cons e es ih =>
    cases e with
    | read_col r' ok =>
      simp only [List.cons_append, reads_of]
      split_ifs <;> simp [ih]
    | open_table ok => simpa only [List.cons_append, reads_of] using ih
    | movnam_hdu ok => simpa only [List.cons_append, reads_of] using ih
    | close_file ok => simpa only [List.cons_append, reads_of] using ih

theorem load_invariant_nil (tab : xillTable R) : load_invariant tab [] := by
  intro r
  simp [reads_of]

/-- Calls other than `fits_read_col` keep the invariant. -/
theorem load_invariant_append_other {tab : xillTable R} {log : List FitsEvent}
    (h : load_invariant tab log) (es : List FitsEvent) (he : ∀ r, reads_of r es = []) :
    load_invariant tab (log ++ es) := by
  intro r
  rw [reads_of_append, he r, List.append_nil]
  exact h r

/-- A failed read of a row that is not resident keeps the invariant. -/
theorem load_invariant_append_failed {tab : xillTable R} {log : List FitsEvent}
    (h : load_invariant tab log) (r0 : Int) (habs : tab.data_storage r0 = none)
    (es : List FitsEvent) (he : ∀ r, reads_of r es = if r0 = r then [false] else []) :
    load_invariant tab (log ++ es) := by
  intro r
  rw [reads_of_append, he r]
  by_cases hr : r0 = r
  · subst hr
    have hno : true ∉ reads_of r0 log := fun hm => by
      have := (h r0).1 hm
      simp [habs] at this
    simp only [if_true, List.dropLast_concat]
    refine ⟨fun hm => ?_, hno⟩
    rcases List.mem_append.1 hm with h1 | h1
    · exact absurd h1 hno
    · simp at h1
  · simp only [hr, if_false, List.append_nil]
    exact h r

/-- A successful read of a row that is not resident, followed by the store into
its slot, keeps the invariant. -/
theorem load_invariant_append_loaded {tab : xillTable R} {log : List FitsEvent}
    (h : load_invariant tab log) (spec : List R) (i0 i1 i2 i3 i4 i5 : Int)
    (habs : get_xillspec tab i0 i1 i2 i3 i4 i5 = none)
    (es : List FitsEvent)
    (he : ∀ r, reads_of r es
      = if get_xillspec_rownum tab.num_param_vals tab.num_param i0 i1 i2 i3 i4 i5 = r
        then [true] else []) :
    load_invariant (set_dat spec tab i0 i1 i2 i3 i4 i5) (log ++ es) := by
  intro r
  rw [reads_of_append, he r]
  by_cases hr : get_xillspec_rownum tab.num_param_vals tab.num_param i0 i1 i2 i3 i4 i5 = r
  · have hno : true ∉ reads_of r log := fun hm => by
      have := (h r).1 hm
      rw [← hr] at this
      simp only [get_xillspec] at habs
      simp [habs] at this
    simp only [hr, if_true, List.dropLast_concat]
    refine ⟨fun _ => ?_, hno⟩
    simp [set_dat, hr]
  · simp only [hr, if_false, List.append_nil]
    refine ⟨fun hm => ?_, (h r).2⟩
    have := (h r).1 hm
    simp only [set_dat]
    rw [Function.update_noteq (Ne.symm hr)]
    exact this

theorem load_single_spec_invariant (X : Ext R) (fits : FitsFile R) (st : LoadState R)
    (d l : R) (nn ii jj kk ll mm : Int) (pre : List FitsEvent)
    (h : load_invariant st.tab (pre ++ st.log))
    (habs : get_xillspec st.tab nn ii jj kk ll mm = none) :
    load_invariant (xilltable_fits_load_single_spec X fits st d l nn ii jj kk ll mm).tab
      (pre ++ (xilltable_fits_load_single_spec X fits st d l nn ii jj kk ll mm).log) := by
  have habs' : st.tab.data_storage
      (get_xillspec_rownum st.tab.num_param_vals st.tab.num_param nn ii jj kk ll mm) = none :=
    habs
  by_cases hs : st.status = EXIT_SUCCESS
  swap
  · simpa [xilltable_fits_load_single_spec, hs] using h
  · cases hf : st.fptr <;> cases ho : fits.open_ok <;>
      cases hm : fits.movnam_ok
        (get_xillspec_rownum st.tab.num_param_vals st.tab.num_param nn ii jj kk ll mm) <;>
      cases hr : fits.read_col
        (get_xillspec_rownum st.tab.num_param_vals st.tab.num_param nn ii jj kk ll mm) <;>
      simp only [xilltable_fits_load_single_spec, hs, hf, ho, hm, hr, ne_eq, not_true_eq_false,
        if_false, if_true, EXIT_FAILURE, EXIT_SUCCESS, Bool.false_eq_true, Bool.true_eq_false,
        one_ne_zero, not_false_eq_true, List.append_assoc, List.singleton_append] <;>
      (try rw [← List.append_assoc]) <;>
      first
        | exact h
        | (refine load_invariant_append_loaded h _ _ _ _ _ _ _ habs _ ?_
           intro r
           simp only [reads_of]
           done)
        | (refine load_invariant_append_failed h _ habs' _ ?_
           intro r
           simp only [reads_of]
           done)
        | (refine load_invariant_append_other h _ ?_
           intro r
           simp only [reads_of]
           done)

theorem check_step_invariant (X : Ext R) (fits : FitsFile R) (param : xillTableParam R)
    (st : LoadState R) (c : Int × Int × Int × Int × Int × Int) (pre : List FitsEvent)
    (h : load_invariant st.tab (pre ++ st.log)) :
    load_invariant (check_xilltab_cache_step X fits param st c).tab
      (pre ++ (check_xilltab_cache_step X fits param st c).log) := by
  unfold check_xilltab_cache_step
  split_ifs with h1 h2
  · exact h
  · exact load_single_spec_invariant X fits st _ _ _ _ _ _ _ _ pre h h2
  · exact h

theorem check_fold_invariant (X : Ext R) (fits : FitsFile R) (param : xillTableParam R)
    (cs : List (Int × Int × Int × Int × Int × Int)) (st : LoadState R)
    (pre : List FitsEvent) (h : load_invariant st.tab (pre ++ st.log)) :
    load_invariant (cs.foldl (check_xilltab_cache_step X fits param) st).tab
      (pre ++ (cs.foldl (check_xilltab_cache_step X fits param) st).log) := by
  induction cs generalizing st with
  | nil => exact h
  | cons c cs ih => exact ih _ (check_step_invariant X fits param st c pre h)

theorem check_xilltab_cache_invariant (X : Ext R) (fits : FitsFile R)
    (param : xillTableParam R) (tab : xillTable R) (ind : List Int) (status : Int)
    (pre : List FitsEvent) (h : load_invariant tab pre) :
    load_invariant (check_xilltab_cache X fits param tab ind status).tab
      (pre ++ (check_xilltab_cache X fits param tab ind status).log) := by
  have h0 : load_invariant
      ({ tab := tab, fptr := false, status := status, log := [] } : LoadState R).tab
      (pre ++ ({ tab := tab, fptr := false, status := status, log := [] } : LoadState R).log) := by
    simpa using h
  have hf := check_fold_invariant X fits param (check_xilltab_cache_corners tab ind) _ pre h0
  unfold check_xilltab_cache
  by_cases h1 : status ≠ EXIT_SUCCESS
  · rw [if_pos h1]
    simpa using h
  · rw [if_neg h1]
    simp only []
    by_cases h2 : (List.foldl (check_xilltab_cache_step X fits param)
        ({ tab := tab, fptr := false, status := status, log := [] } : LoadState R)
        (check_xilltab_cache_corners tab ind)).status ≠ EXIT_SUCCESS
    · rw [if_pos h2]
      exact hf
    · rw [if_neg h2]
      by_cases h3 : (List.foldl (check_xilltab_cache_step X fits param)
          ({ tab := tab, fptr := false, status := status, log := [] } : LoadState R)
          (check_xilltab_cache_corners tab ind)).fptr = true
      · rw [if_pos h3]
        simp only []
        rw [← List.append_assoc]
        exact load_invariant_append_other hf _ (fun r => rfl)
      · rw [if_neg h3]
        exact hf

theorem run_cache_calls_invariant (X : Ext R) (calls : List (CacheCall R))
    (tab : xillTable R) (pre : List FitsEvent) (h : load_invariant tab pre) :
    load_invariant (run_cache_calls X tab calls).1 (pre ++ (run_cache_calls X tab calls).2) := by
  induction calls generalizing tab pre with
  | nil => simpa [run_cache_calls] using h
  | cons c cs ih =>
    simp only [run_cache_calls]
    rw [← List.append_assoc]
    exact ih _ _ (check_xilltab_cache_invariant X c.fits c.param tab c.ind c.status pre h)

/-- In a list of outcomes in which only the last one can be a success, at most
one is a success, and if none is a failure the list has at most one element. -/
theorem count_true_le_one (l : List Bool) (h : true ∉ l.dropLast) :
    l.count true ≤ 1 ∧ ((∀ ok ∈ l, ok = true) → l.length ≤ 1) := by
  rcases List.eq_nil_or_concat l with rfl | ⟨l', b, rfl⟩
  · simp
  · rw [List.concat_eq_append] at h ⊢
    rw [List.dropLast_concat] at h
    constructor
    · rw [List.count_append, List.count_eq_zero_of_not_mem h]
      cases b <;> simp
    · intro hall
      have : l' = [] := by
        cases l' with
        | nil => rfl
        | cons a t =>
          have ha : a = true := hall a (by simp)
          exact absurd (by simp [ha]) h
      simp [this]

theorem storage_grows_refl (t : xillTable R) : storage_grows t t :=
  ⟨rfl, rfl, rfl, fun _ h => h⟩

theorem storage_grows_trans {t1 t2 t3 : xillTable R} (h12 : storage_grows t1 t2)
    (h23 : storage_grows t2 t3) : storage_grows t1 t3 :=
  ⟨h23.1.trans h12.1, h23.2.1.trans h12.2.1, h23.2.2.1.trans h12.2.2.1,
    fun r h => h23.2.2.2 r (h12.2.2.2 r h)⟩

theorem storage_grows_set_dat (spec : List R) (t : xillTable R) (i0 i1 i2 i3 i4 i5 : Int) :
    storage_grows t (set_dat spec t i0 i1 i2 i3 i4 i5) := by
  refine ⟨rfl, rfl, rfl, fun r h => ?_⟩
  show (Function.update t.data_storage
    (get_xillspec_rownum t.num_param_vals t.num_param i0 i1 i2 i3 i4 i5) (some spec) r).isSome
      = true
  by_cases hr : r = get_xillspec_rownum t.num_param_vals t.num_param i0 i1 i2 i3 i4 i5
  · rw [hr, Function.update_same]
    rfl
  · rw [Function.update_noteq hr]
    exact h

theorem get_xillspec_set_dat (spec : List R) (t : xillTable R) (i0 i1 i2 i3 i4 i5 : Int) :
    get_xillspec (set_dat spec t i0 i1 i2 i3 i4 i5) i0 i1 i2 i3 i4 i5 = some spec := by
  simp [get_xillspec, set_dat]

/-- A spectrum that is resident stays resident when the storage grows. -/
theorem get_xillspec_of_grows {t1 t2 : xillTable R} (h : storage_grows t1 t2)
    {i0 i1 i2 i3 i4 i5 : Int} (hres : get_xillspec t1 i0 i1 i2 i3 i4 i5 ≠ none) :
    get_xillspec t2 i0 i1 i2 i3 i4 i5 ≠ none := by
  simp only [get_xillspec, h.1, h.2.1] at hres ⊢
  have h1 := h.2.2.2 _ (Option.isSome_iff_ne_none.2 hres)
  exact Option.isSome_iff_ne_none.1 h1

/-- The two outcomes of `xilltable_fits_load_single_spec` entered with a good
status: a bad status and an unchanged table, or a good status and the
spectrum stored in the slot of the corner. -/
theorem load_single_spec_cases (X : Ext R) (fits : FitsFile R) (st : LoadState R)
    (d l : R) (nn ii jj kk ll mm : Int) (hs : st.status = EXIT_SUCCESS) :
    ((xilltable_fits_load_single_spec X fits st d l nn ii jj kk ll mm).status ≠ EXIT_SUCCESS ∧
      (xilltable_fits_load_single_spec X fits st d l nn ii jj kk ll mm).tab = st.tab) ∨
    ((xilltable_fits_load_single_spec X fits st d l nn ii jj kk ll mm).status = EXIT_SUCCESS ∧
      ∃ spec, (xilltable_fits_load_single_spec X fits st d l nn ii jj kk ll mm).tab
        = set_dat spec st.tab nn ii jj kk ll mm) := by
  cases hf : st.fptr <;> cases ho : fits.open_ok <;>
    cases hm : fits.movnam_ok
      (get_xillspec_rownum st.tab.num_param_vals st.tab.num_param nn ii jj kk ll mm) <;>
    cases hr : fits.read_col
      (get_xillspec_rownum st.tab.num_param_vals st.tab.num_param nn ii jj kk ll mm) <;>
    simp [xilltable_fits_load_single_spec, hs, hf, ho, hm, hr, EXIT_FAILURE, EXIT_SUCCESS] <;>
    exact ⟨_, rfl⟩

theorem check_step_bad_status (X : Ext R) (fits : FitsFile R) (param : xillTableParam R)
    (st : LoadState R) (c : Int × Int × Int × Int × Int × Int)
    (hs : st.status ≠ EXIT_SUCCESS) :
    check_xilltab_cache_step X fits param st c = st := by
  simp [check_xilltab_cache_step, hs]

/-- One corner of the loops: the storage only grows, and if the status is good
afterwards it was good before and the corner is resident. -/
theorem check_step_spec (X : Ext R) (fits : FitsFile R) (param : xillTableParam R)
    (st : LoadState R) (c : Int × Int × Int × Int × Int × Int) :
    storage_grows st.tab (check_xilltab_cache_step X fits param st c).tab ∧
    ((check_xilltab_cache_step X fits param st c).status = EXIT_SUCCESS →
      st.status = EXIT_SUCCESS ∧
      get_xillspec (check_xilltab_cache_step X fits param st c).tab
        c.1 c.2.1 c.2.2.1 c.2.2.2.1 c.2.2.2.2.1 c.2.2.2.2.2 ≠ none) := by
  by_cases hs : st.status ≠ EXIT_SUCCESS
  · rw [check_step_bad_status X fits param st c hs]
    exact ⟨storage_grows_refl _, fun h => absurd h hs⟩
  · have hs' : st.status = EXIT_SUCCESS := not_not.1 hs
    by_cases hg : get_xillspec st.tab c.1 c.2.1 c.2.2.1 c.2.2.2.1 c.2.2.2.2.1 c.2.2.2.2.2 = none
    · have hstep : check_xilltab_cache_step X fits param st c
          = xilltable_fits_load_single_spec X fits st param.dens param.lxi
              c.1 c.2.1 c.2.2.1 c.2.2.2.1 c.2.2.2.2.1 c.2.2.2.2.2 := by
        simp [check_xilltab_cache_step, hs', hg]
      rw [hstep]
      rcases load_single_spec_cases X fits st param.dens param.lxi
        c.1 c.2.1 c.2.2.1 c.2.2.2.1 c.2.2.2.2.1 c.2.2.2.2.2 hs' with ⟨h1, h2⟩ | ⟨_, spec, h2⟩
      · rw [h2]
        exact ⟨storage_grows_refl _, fun h => absurd h h1⟩
      · rw [h2]
        refine ⟨storage_grows_set_dat _ _ _ _ _ _ _ _, fun _ => ⟨hs', ?_⟩⟩
        rw [get_xillspec_set_dat]
        exact Option.some_ne_none _
    · have hstep : check_xilltab_cache_step X fits param st c = st := by
        simp [check_xilltab_cache_step, hs', hg]
      rw [hstep]
      exact ⟨storage_grows_refl _, fun _ => ⟨hs', hg⟩⟩

/-- The loops of `check_xilltab_cache`: the storage only grows, and if the status
is good at the end it was good at the start and every corner visited is
resident. -/
theorem check_fold_spec (X : Ext R) (fits : FitsFile R) (param : xillTableParam R)
    (cs : List (Int × Int × Int × Int × Int × Int)) (st : LoadState R) :
    storage_grows st.tab (cs.foldl (check_xilltab_cache_step X fits param) st).tab ∧
    ((cs.foldl (check_xilltab_cache_step X fits param) st).status = EXIT_SUCCESS →
      st.status = EXIT_SUCCESS ∧
      ∀ c ∈ cs, get_xillspec (cs.foldl (check_xilltab_cache_step X fits param) st).tab
        c.1 c.2.1 c.2.2.1 c.2.2.2.1 c.2.2.2.2.1 c.2.2.2.2.2 ≠ none) := by
  induction cs generalizing st with
  | nil => exact ⟨storage_grows_refl _, fun h => ⟨h, fun c hc => absurd hc (List.not_mem_nil c)⟩⟩
  | cons c cs ih =>
    simp only [List.foldl_cons]
    have h1 := check_step_spec X fits param st c
    have h2 := ih (check_xilltab_cache_step X fits param st c)
    refine ⟨storage_grows_trans h1.1 h2.1, fun hend => ?_⟩
    obtain ⟨hmid, hall⟩ := h2.2 hend
    obtain ⟨hstart, hc⟩ := h1.2 hmid
    refine ⟨hstart, fun c' hc' => ?_⟩
    rcases List.mem_cons.1 hc' with rfl | hin
    · exact get_xillspec_of_grows h2.1 hc
    · exact hall c' hin

/-- When every corner visited is resident, the loops do nothing. -/
theorem check_fold_resident (X : Ext R) (fits : FitsFile R) (param : xillTableParam R)
    (cs : List (Int × Int × Int × Int × Int × Int)) (st : LoadState R)
    (h : ∀ c ∈ cs, get_xillspec st.tab c.1 c.2.1 c.2.2.1 c.2.2.2.1 c.2.2.2.2.1 c.2.2.2.2.2
      ≠ none) :
    cs.foldl (check_xilltab_cache_step X fits param) st = st := by
  induction cs with
  | nil => rfl
  | cons c cs ih =>
    have hc := h c (List.mem_cons_self c cs)
    have hstep : check_xilltab_cache_step X fits param st c = st := by
      simp [check_xilltab_cache_step, hc]
    rw [List.foldl_cons, hstep]
    exact ih (fun c' hc' => h c' (List.mem_cons_of_mem c hc'))

theorem check_xilltab_cache_corners_congr {t1 t2 : xillTable R} (h : storage_grows t1 t2)
    (ind : List Int) :
    check_xilltab_cache_corners t2 ind = check_xilltab_cache_corners t1 ind := by
  simp only [check_xilltab_cache_corners, h.1, h.2.2.1]

/-- A call of `check_xilltab_cache` that ends with a good status: the storage has
only grown and every corner visited by the loops is resident. -/
theorem check_xilltab_cache_success (X : Ext R) (fits : FitsFile R)
    (param : xillTableParam R) (tab : xillTable R) (ind : List Int)
    (h : (check_xilltab_cache X fits param tab ind EXIT_SUCCESS).status = EXIT_SUCCESS) :
    storage_grows tab (check_xilltab_cache X fits param tab ind EXIT_SUCCESS).tab ∧
    ∀ c ∈ check_xilltab_cache_corners tab ind,
      get_xillspec (check_xilltab_cache X fits param tab ind EXIT_SUCCESS).tab
        c.1 c.2.1 c.2.2.1 c.2.2.2.1 c.2.2.2.2.1 c.2.2.2.2.2 ≠ none := by
  have hspec := check_fold_spec X fits param (check_xilltab_cache_corners tab ind)
    ({ tab := tab, fptr := false, status := EXIT_SUCCESS, log := [] } : LoadState R)
  unfold check_xilltab_cache at h ⊢
  rw [if_neg (fun hne => hne rfl)] at h ⊢
  simp only [] at h ⊢
  by_cases h2 : (List.foldl (check_xilltab_cache_step X fits param)
      ({ tab := tab, fptr := false, status := EXIT_SUCCESS, log := [] } : LoadState R)
      (check_xilltab_cache_corners tab ind)).status ≠ EXIT_SUCCESS
  · rw [if_pos h2] at h
    exact absurd h h2
  · rw [if_neg h2]
    have h2' := not_not.1 h2
    by_cases h3 : (List.foldl (check_xilltab_cache_step X fits param)
        ({ tab := tab, fptr := false, status := EXIT_SUCCESS, log := [] } : LoadState R)
        (check_xilltab_cache_corners tab ind)).fptr = true
    · rw [if_pos h3]
      exact ⟨hspec.1, (hspec.2 h2').2⟩
    · rw [if_neg h3]
      exact ⟨hspec.1, (hspec.2 h2').2⟩

/-- A call of `check_xilltab_cache` on a table in which every corner visited is
resident makes no CFITSIO call and changes nothing. -/
theorem check_xilltab_cache_resident (X : Ext R) (fits : FitsFile R)
    (param : xillTableParam R) (tab : xillTable R) (ind : List Int)
    (h : ∀ c ∈ check_xilltab_cache_corners tab ind,
      get_xillspec tab c.1 c.2.1 c.2.2.1 c.2.2.2.1 c.2.2.2.2.1 c.2.2.2.2.2 ≠ none) :
    check_xilltab_cache X fits param tab ind EXIT_SUCCESS
      = { tab := tab, fptr := false, status := EXIT_SUCCESS, log := [] } := by
  unfold check_xilltab_cache
  rw [if_neg (fun hne => hne rfl)]
  simp only []
  rw [check_fold_resident X fits param (check_xilltab_cache_corners tab ind)
    ({ tab := tab, fptr := false, status := EXIT_SUCCESS, log := [] } : LoadState R) h]
  simp

/-- The CFITSIO calls of one `xilltable_fits_load_single_spec`: they are appended
to the log, and the only row that may be read is the row of the corner. -/
theorem load_single_spec_log (X : Ext R) (fits : FitsFile R) (st : LoadState R)
    (d l : R) (nn ii jj kk ll mm : Int) :
    ∃ es, (xilltable_fits_load_single_spec X fits st d l nn ii jj kk ll mm).log = st.log ++ es ∧
      ∀ r, reads_of r es ≠ [] →
        r = get_xillspec_rownum st.tab.num_param_vals st.tab.num_param nn ii jj kk ll mm := by
  by_cases hs : st.status = EXIT_SUCCESS
  swap
  · exact ⟨[], by simp [xilltable_fits_load_single_spec, hs], fun r h => absurd rfl h⟩
  · cases hf : st.fptr <;> cases ho : fits.open_ok <;>
      cases hm : fits.movnam_ok
        (get_xillspec_rownum st.tab.num_param_vals st.tab.num_param nn ii jj kk ll mm) <;>
      cases hr : fits.read_col
        (get_xillspec_rownum st.tab.num_param_vals st.tab.num_param nn ii jj kk ll mm) <;>
      simp only [xilltable_fits_load_single_spec, hs, hf, ho, hm, hr, ne_eq, not_true_eq_false,
        if_false, if_true, EXIT_FAILURE, EXIT_SUCCESS, Bool.false_eq_true, Bool.true_eq_false,
        one_ne_zero, not_false_eq_true, List.append_assoc, List.singleton_append] <;>
      refine ⟨_, rfl, fun r h => ?_⟩ <;>
      (by_contra hne
       apply h
       simp [reads_of, Ne.symm hne])

/-- One corner of the loops: a row that has been read by then either had been
read before or was absent from the storage. -/
theorem check_step_reads (X : Ext R) (fits : FitsFile R) (param : xillTableParam R)
    (st : LoadState R) (c : Int × Int × Int × Int × Int × Int) (r : Int)
    (h : reads_of r (check_xilltab_cache_step X fits param st c).log ≠ []) :
    reads_of r st.log ≠ [] ∨ st.tab.data_storage r = none := by
  unfold check_xilltab_cache_step at h
  split_ifs at h with h1 h2
  · exact Or.inl h
  · obtain ⟨es, hlog, hes⟩ := load_single_spec_log X fits st param.dens param.lxi
      c.1 c.2.1 c.2.2.1 c.2.2.2.1 c.2.2.2.2.1 c.2.2.2.2.2
    rw [hlog, reads_of_append] at h
    by_cases hold : reads_of r st.log = []
    · right
      have hnew : reads_of r es ≠ [] := by
        intro hnil
        apply h
        rw [hold, hnil]
        rfl
      rw [hes r hnew]
      exact h2
    · exact Or.inl hold
  · exact Or.inl h

theorem check_fold_reads (X : Ext R) (fits : FitsFile R) (param : xillTableParam R)
    (cs : List (Int × Int × Int × Int × Int × Int)) (tab0 : xillTable R) (st : LoadState R)
    (hg : storage_grows tab0 st.tab)
    (hr : ∀ r, reads_of r st.log ≠ [] → tab0.data_storage r = none) (r : Int)
    (h : reads_of r (cs.foldl (check_xilltab_cache_step X fits param) st).log ≠ []) :
    tab0.data_storage r = none := by
  induction cs generalizing st with
  | nil => exact hr r h
  | cons c cs ih =>
    refine ih (check_xilltab_cache_step X fits param st c)
      (storage_grows_trans hg (check_step_spec X fits param st c).1) (fun r' h' => ?_) h
    rcases check_step_reads X fits param st c r' h' with h1 | h1
    · exact hr r' h1
    · by_contra hne
      have h2 := hg.2.2.2 r' (Option.isSome_iff_ne_none.2 hne)
      rw [h1] at h2
      exact absurd h2 (by simp)

/-- Within one call, `fits_read_col` is called only for rows whose slot was
absent when the call started. -/
theorem check_xilltab_cache_reads_absent (X : Ext R) (fits : FitsFile R)
    (param : xillTableParam R) (tab : xillTable R) (ind : List Int) (status : Int) (r : Int)
    (h : reads_of r (check_xilltab_cache X fits param tab ind status).log ≠ []) :
    tab.data_storage r = none := by
  have hfold := check_fold_reads X fits param (check_xilltab_cache_corners tab ind) tab
    ({ tab := tab, fptr := false, status := status, log := [] } : LoadState R)
    (storage_grows_refl tab) (fun r' h' => absurd rfl h') r
  unfold check_xilltab_cache at h
  by_cases h1 : status ≠ EXIT_SUCCESS
  · rw [if_pos h1] at h
    exact absurd rfl h
  · rw [if_neg h1] at h
    simp only [] at h
    by_cases h2 : (List.foldl (check_xilltab_cache_step X fits param)
        ({ tab := tab, fptr := false, status := status, log := [] } : LoadState R)
        (check_xilltab_cache_corners tab ind)).status ≠ EXIT_SUCCESS
    · rw [if_pos h2] at h
      exact hfold h
    · rw [if_neg h2] at h
      by_cases h3 : (List.foldl (check_xilltab_cache_step X fits param)
          ({ tab := tab, fptr := false, status := status, log := [] } : LoadState R)
          (check_xilltab_cache_corners tab ind)).fptr = true
      · rw [if_pos h3] at h
        simp only [reads_of_append, reads_of, List.append_nil] at h
        exact hfold h
      · rw [if_neg h3] at h
        exact hfold h

/-- C10 (amended).  (0) Within a call of `check_xilltab_cache`,
`fits_read_col` is called only for rows whose slot was absent when the call
started, and every row read successfully is resident afterwards.  Hence
(1) after a call that ended with a good status, a second call with the same
indices (any parameters, any file behaviour) makes no CFITSIO call at all: no
row read, no file open, and the table and status are unchanged; (2) in any
sequence of calls on one table (any indices, any status on entry, reads that
may fail), for every row `r` only the last `fits_read_col` call for `r` can
have succeeded, so that `r` is read successfully at most once and, when no
read of `r` fails, `fits_read_col` is called at most once for `r`.  A row
whose read failed is read again by a later call. -/
theorem at_most_once_load (X : Ext R) :
    (∀ (fits : FitsFile R) (param : xillTableParam R) (tab : xillTable R) (ind : List Int)
        (status : Int) (r : Int),
      (reads_of r (check_xilltab_cache X fits param tab ind status).log ≠ [] →
        tab.data_storage r = none) ∧
      (true ∈ reads_of r (check_xilltab_cache X fits param tab ind status).log →
        ((check_xilltab_cache X fits param tab ind status).tab.data_storage r).isSome
          = true)) ∧
    (∀ (fits1 fits2 : FitsFile R) (param1 param2 : xillTableParam R) (tab : xillTable R)
        (ind : List Int),
      (check_xilltab_cache X fits1 param1 tab ind EXIT_SUCCESS).status = EXIT_SUCCESS →
        (check_xilltab_cache X fits2 param2
          (check_xilltab_cache X fits1 param1 tab ind EXIT_SUCCESS).tab ind
          (check_xilltab_cache X fits1 param1 tab ind EXIT_SUCCESS).status).log = [] ∧
        (∀ r, reads_of r (check_xilltab_cache X fits2 param2
          (check_xilltab_cache X fits1 param1 tab ind EXIT_SUCCESS).tab ind
          (check_xilltab_cache X fits1 param1 tab ind EXIT_SUCCESS).status).log = []) ∧
        opens_of (check_xilltab_cache X fits2 param2
          (check_xilltab_cache X fits1 param1 tab ind EXIT_SUCCESS).tab ind
          (check_xilltab_cache X fits1 param1 tab ind EXIT_SUCCESS).status).log = 0 ∧
        (check_xilltab_cache X fits2 param2
          (check_xilltab_cache X fits1 param1 tab ind EXIT_SUCCESS).tab ind
          (check_xilltab_cache X fits1 param1 tab ind EXIT_SUCCESS).status).tab
          = (check_xilltab_cache X fits1 param1 tab ind EXIT_SUCCESS).tab ∧
        (check_xilltab_cache X fits2 param2
          (check_xilltab_cache X fits1 param1 tab ind EXIT_SUCCESS).tab ind
          (check_xilltab_cache X fits1 param1 tab ind EXIT_SUCCESS).status).status
          = EXIT_SUCCESS) ∧
    (∀ (tab : xillTable R) (calls : List (CacheCall R)) (r : Int),
      true ∉ (reads_of r (run_cache_calls X tab calls).2).dropLast ∧
      (reads_of r (run_cache_calls X tab calls).2).count true ≤ 1 ∧
      ((∀ ok ∈ reads_of r (run_cache_calls X tab calls).2, ok = true) →
        (reads_of r (run_cache_calls X tab calls).2).length ≤ 1)) := by
  refine ⟨?_, ?_, ?_⟩
  · intro fits param tab ind status r
    refine ⟨check_xilltab_cache_reads_absent X fits param tab ind status r, fun h => ?_⟩
    have hinv := check_xilltab_cache_invariant X fits param tab ind status []
      (load_invariant_nil tab)
    exact (hinv r).1 (by simpa using h)
  · intro fits1 fits2 param1 param2 tab ind h
    obtain ⟨hg, hres⟩ := check_xilltab_cache_success X fits1 param1 tab ind h
    have hres' : ∀ c ∈ check_xilltab_cache_corners
        (check_xilltab_cache X fits1 param1 tab ind EXIT_SUCCESS).tab ind,
        get_xillspec (check_xilltab_cache X fits1 param1 tab ind EXIT_SUCCESS).tab
          c.1 c.2.1 c.2.2.1 c.2.2.2.1 c.2.2.2.2.1 c.2.2.2.2.2 ≠ none := by
      rw [check_xilltab_cache_corners_congr hg ind]
      exact hres
    rw [h, check_xilltab_cache_resident X fits2 param2 _ ind hres']
    exact ⟨rfl, fun r => rfl, rfl, rfl, rfl⟩
  · intro tab calls r
    have hinv := run_cache_calls_invariant X calls tab [] (load_invariant_nil tab)
    have hlast : true ∉ (reads_of r (run_cache_calls X tab calls).2).dropLast := by
      simpa using (hinv r).2
    exact ⟨hlast, (count_true_le_one _ hlast).1, (count_true_le_one _ hlast).2⟩

/-- Witness of C10: the first call on the empty `emptyTable` with a file that
works ends with a good status, and the second call with the same indices
makes no CFITSIO call. -/
theorem at_most_once_load_witness :
    (check_xilltab_cache demoExt demoFile demoParam emptyTable [0, 0, 0, 0, 0]
      EXIT_SUCCESS).status = EXIT_SUCCESS ∧
    (check_xilltab_cache demoExt demoFile demoParam
      (check_xilltab_cache demoExt demoFile demoParam emptyTable [0, 0, 0, 0, 0]
        EXIT_SUCCESS).tab [0, 0, 0, 0, 0]
      (check_xilltab_cache demoExt demoFile demoParam emptyTable [0, 0, 0, 0, 0]
        EXIT_SUCCESS).status).log = [] :=
  have h : (check_xilltab_cache demoExt demoFile demoParam emptyTable [0, 0, 0, 0, 0]
      EXIT_SUCCESS).status = EXIT_SUCCESS := by decide
  ⟨h, ((at_most_once_load demoExt).2.1 demoFile demoFile demoParam demoParam emptyTable
    [0, 0, 0, 0, 0] h).1⟩

/-! ### The cutoff-energy pin -/

/-- The result of `get_xilltab_param_index`: `-1` when no axis has kind `k`,
otherwise the first position of an axis of kind `k`. -/
theorem get_xilltab_param_index_spec (tab : xillTable R) (k : Int) :
    (get_xilltab_param_index tab k = -1 ∧
      ∀ ii : Nat, ii < tab.num_param.toNat → idx 0 tab.param_index ii ≠ k) ∨
    ∃ p : Nat, get_xilltab_param_index tab k = (p : Int) ∧ p < tab.num_param.toNat ∧
      idx 0 tab.param_index p = k ∧ ∀ jj : Nat, jj < p → idx 0 tab.param_index jj ≠ k := by
  unfold get_xilltab_param_index
  cases h : (List.range tab.num_param.toNat).find?
      fun (ii : Nat) => idx 0 tab.param_index ii == k with
  | none =>
    left
    refine ⟨rfl, fun ii hii => ?_⟩
    have := List.find?_range_eq_none.1 h ii hii
    simpa using this
  | some p =>
    right
    obtain ⟨h1, h2, h3⟩ := List.find?_range_eq_some.1 h
    refine ⟨p, rfl, by simpa using h2, by simpa using h1, fun jj hjj => ?_⟩
    have := h3 jj hjj
    simpa using this

theorem ensure_ecut_length (X : Ext R) (tab : xillTable R) (param : xillTableParam R)
    (L : List R) : (ensure_ecut_within_boundarys X tab param L).length = L.length := by
  unfold ensure_ecut_within_boundarys
  simp only []
  split_ifs <;> simp

/-- The pin leaves every entry other than the one of the cutoff axis alone. -/
theorem ensure_ecut_getElem?_ne (X : Ext R) (tab : xillTable R) (param : xillTableParam R)
    (L : List R) (j : Nat) (hj : get_xilltab_param_index tab X.PARAM_ECT ≠ (j : Int)) :
    (ensure_ecut_within_boundarys X tab param L)[j]? = L[j]? := by
  unfold ensure_ecut_within_boundarys
  simp only []
  by_cases h0 : get_xilltab_param_index tab X.PARAM_ECT ≥ 0
  · have hne : (get_xilltab_param_index tab X.PARAM_ECT).toNat ≠ j := by
      intro h
      apply hj
      rw [← h, Int.toNat_of_nonneg h0]
    rw [if_pos h0]
    split_ifs <;> simp [List.getElem?_set_ne, hne]
  · rw [if_neg h0]

/-- The entry of the cutoff axis after the pin, the axis being at position `p`:
1 when `ect` is at or above the last value of the axis at position
`param_index[p]`, else 0 when `ect` is at or below its first value, else
unchanged. -/
theorem ensure_ecut_getElem?_eq (X : Ext R) (tab : xillTable R) (param : xillTableParam R)
    (L : List R) (p : Nat) (hp : get_xilltab_param_index tab X.PARAM_ECT = (p : Int))
    (hpl : p < L.length) :
    (ensure_ecut_within_boundarys X tab param L)[p]?
      = if param.ect ≥ idx 0 (idx [] tab.param_vals (idx 0 tab.param_index p))
            (idx 0 tab.num_param_vals (idx 0 tab.param_index p) - 1) then some 1
        else if param.ect ≤ idx 0 (idx [] tab.param_vals (idx 0 tab.param_index p)) 0
          then some 0
        else L[p]? := by
  unfold ensure_ecut_within_boundarys
  simp only [hp, ge_iff_le, Int.natCast_nonneg, if_true, Int.toNat_ofNat]
  split_ifs <;> simp [hpl]

/-! ### Queries on and between grid points -/

theorem resetInpvalsToBoundaries_of_mem {x lo hi : R} (h1 : lo ≤ x) (h2 : x ≤ hi) :
    resetInpvalsToBoundaries x lo hi = x := by
  simp [resetInpvalsToBoundaries, not_lt.2 h1, not_lt.2 h2]

theorem idx_of_getElem? {α : Type} (d : α) {L : List α} {j : Nat} {v : α}
    (h : L[j]? = some v) : idx d L (j : Int) = v := by
  simp [idx_natCast, List.getD, h]

/-- The factor that the loop computes for an axis, clamped or not, whose input
value `x` lies within the tabulated range. -/
theorem ipol_fac_loop_in_range (X : Ext R) (tab : xillTable R) (param : xillTableParam R)
    (ind : List Int) (k ii : Nat) (hii : ii < k)
    (hfirst : ∀ jj : Nat, jj < ii → idx 0 tab.param_index jj ≠ idx 0 tab.param_index ii)
    (hlo : axis_val tab ii 0 ≤ get_xilltab_paramvals X param (idx 0 tab.param_index ii))
    (hhi : get_xilltab_paramvals X param (idx 0 tab.param_index ii)
      ≤ axis_val tab ii (axis_len tab ii - 1)) :
    (ipol_fac_loop X tab param ind k).2[ii]?
      = some ((get_xilltab_paramvals X param (idx 0 tab.param_index ii)
          - axis_val tab ii (idx 0 ind ii)) /
        (axis_val tab ii (idx 0 ind ii + 1) - axis_val tab ii (idx 0 ind ii))) := by
  by_cases hc : axis_clamped X tab param ii
  · rw [ipol_fac_loop_clamped X tab param ind k ii hii hc hfirst,
      resetInpvalsToBoundaries_of_mem hlo hhi]
  · exact ipol_fac_loop_unclamped X tab param ind k ii hii hc hfirst

theorem ipol_fac_loop_on_grid (X : Ext R) (tab : xillTable R) (param : xillTableParam R)
    (ind : List Int) (n ii : Nat) (hwf : well_formed tab ind n) (hii : ii < n)
    (hgrid : on_grid X tab param ind ii) :
    (ipol_fac_loop X tab param ind n).2[ii]? = some 0 := by
  obtain ⟨_, hax, hkind, hind⟩ := hwf
  have h1 := (hind ii hii).1
  have h2 := (hind ii hii).2
  have hlen := (hax ii hii).1
  unfold on_grid at hgrid
  rw [ipol_fac_loop_in_range X tab param ind n ii hii (fun jj hjj => hkind jj ii hjj hii)
    (by rw [hgrid]; exact axis_val_le (hax ii hii) le_rfl h1 (by omega))
    (by rw [hgrid]; exact axis_val_le (hax ii hii) h1 (by omega) (by omega)), hgrid]
  simp

theorem ipol_fac_loop_midpoint (X : Ext R) (tab : xillTable R) (param : xillTableParam R)
    (ind : List Int) (n ii : Nat) (hwf : well_formed tab ind n) (hii : ii < n)
    (hmid : at_midpoint X tab param ind ii) :
    (ipol_fac_loop X tab param ind n).2[ii]? = some (1 / 2) := by
  obtain ⟨_, hax, hkind, hind⟩ := hwf
  have h1 := (hind ii hii).1
  have h2 := (hind ii hii).2
  have hlen := (hax ii hii).1
  have hab : axis_val tab ii (idx 0 ind ii) < axis_val tab ii (idx 0 ind ii + 1) :=
    axis_val_lt (hax ii hii) h1 (by omega) (by omega)
  have hlo : axis_val tab ii 0 ≤ axis_val tab ii (idx 0 ind ii) :=
    axis_val_le (hax ii hii) le_rfl h1 (by omega)
  have hhi : axis_val tab ii (idx 0 ind ii + 1) ≤ axis_val tab ii (axis_len tab ii - 1) :=
    axis_val_le (hax ii hii) (by omega) (by omega) (by omega)
  unfold at_midpoint at hmid
  rw [ipol_fac_loop_in_range X tab param ind n ii hii (fun jj hjj => hkind jj ii hjj hii)
    (by rw [hmid]; linarith) (by rw [hmid]; linarith), hmid]
  congr 1
  have hne : axis_val tab ii (idx 0 ind ii + 1) - axis_val tab ii (idx 0 ind ii) ≠ 0 :=
    ne_of_gt (sub_pos.2 hab)
  field_simp
  ring

/-- Under the layout `cutoff_axis_in_place` the pin does not change the factor
of an axis whose input value is a tabulated value. -/
theorem final_factor_on_grid (X : Ext R) (tab : xillTable R) (param : xillTableParam R)
    (ind : List Int) (n ii : Nat) (hwf : well_formed tab ind n) (hii : ii < n)
    (hect : cutoff_axis_in_place X tab param)
    (hgrid : on_grid X tab param ind ii) :
    (interp_xill_table_ipol_fac X tab param ind)[ii]? = some 0 := by
  have hn : tab.num_param.toNat = n := by rw [hwf.1]; simp
  have hL := ipol_fac_loop_on_grid X tab param ind n ii hwf hii hgrid
  have hlen := ipol_fac_loop_length X tab param ind n
  unfold interp_xill_table_ipol_fac
  rw [hn]
  by_cases hp : get_xilltab_param_index tab X.PARAM_ECT = (ii : Int)
  · obtain ⟨hpos, hval⟩ := hect ii hp
    have hkind : idx 0 tab.param_index ii = X.PARAM_ECT := by
      rcases get_xilltab_param_index_spec tab X.PARAM_ECT with ⟨h1, _⟩ | ⟨p, h1, _, h3, _⟩
      · rw [h1] at hp; omega
      · have : p = ii := by rw [h1] at hp; exact_mod_cast hp
        rw [← this]; exact h3
    rw [ensure_ecut_getElem?_eq X tab param _ ii hp (by omega), hkind, ← hpos, ← hval,
      ← hkind]
    obtain ⟨_, hax, _, hind⟩ := hwf
    have h1 := (hind ii hii).1
    have h2 := (hind ii hii).2
    have hlt : axis_val tab ii (idx 0 ind ii) < axis_val tab ii (axis_len tab ii - 1) :=
      axis_val_lt (hax ii hii) h1 (by omega) (by omega)
    unfold on_grid at hgrid
    rw [hgrid]
    have hnot : ¬ axis_val tab ii (idx 0 ind ii) ≥ axis_val tab ii (axis_len tab ii - 1) :=
      not_le.2 hlt
    simp only [axis_val, axis_len] at hnot ⊢
    rw [if_neg hnot]
    split_ifs
    · rfl
    · exact hL
  · rw [ensure_ecut_getElem?_ne X tab param _ ii hp]
    exact hL

/-- Under the layout `cutoff_axis_in_place` the pin does not change the factor
of an axis whose input value lies halfway between two tabulated values. -/
theorem final_factor_midpoint (X : Ext R) (tab : xillTable R) (param : xillTableParam R)
    (ind : List Int) (n ii : Nat) (hwf : well_formed tab ind n) (hii : ii < n)
    (hect : cutoff_axis_in_place X tab param)
    (hmid : at_midpoint X tab param ind ii) :
    (interp_xill_table_ipol_fac X tab param ind)[ii]? = some (1 / 2) := by
  have hn : tab.num_param.toNat = n := by rw [hwf.1]; simp
  have hL := ipol_fac_loop_midpoint X tab param ind n ii hwf hii hmid
  have hlen := ipol_fac_loop_length X tab param ind n
  unfold interp_xill_table_ipol_fac
  rw [hn]
  by_cases hp : get_xilltab_param_index tab X.PARAM_ECT = (ii : Int)
  · obtain ⟨hpos, hval⟩ := hect ii hp
    have hkind : idx 0 tab.param_index ii = X.PARAM_ECT := by
      rcases get_xilltab_param_index_spec tab X.PARAM_ECT with ⟨h1, _⟩ | ⟨p, h1, _, h3, _⟩
      · rw [h1] at hp; omega
      · have : p = ii := by rw [h1] at hp; exact_mod_cast hp
        rw [← this]; exact h3
    rw [ensure_ecut_getElem?_eq X tab param _ ii hp (by omega), hkind, ← hpos, ← hval,
      ← hkind]
    obtain ⟨_, hax, _, hind⟩ := hwf
    have h1 := (hind ii hii).1
    have h2 := (hind ii hii).2
    have hab : axis_val tab ii (idx 0 ind ii) < axis_val tab ii (idx 0 ind ii + 1) :=
      axis_val_lt (hax ii hii) h1 (by omega) (by omega)
    have hlo : axis_val tab ii 0 ≤ axis_val tab ii (idx 0 ind ii) :=
      axis_val_le (hax ii hii) le_rfl h1 (by omega)
    have hhi : axis_val tab ii (idx 0 ind ii + 1) ≤ axis_val tab ii (axis_len tab ii - 1) :=
      axis_val_le (hax ii hii) (by omega) (by omega) (by omega)
    unfold at_midpoint at hmid
    rw [hmid]
    have hnot1 : ¬ (axis_val tab ii (idx 0 ind ii) + axis_val tab ii (idx 0 ind ii + 1)) / 2
        ≥ axis_val tab ii (axis_len tab ii - 1) := by
      rw [not_le]; linarith
    have hnot2 : ¬ (axis_val tab ii (idx 0 ind ii) + axis_val tab ii (idx 0 ind ii + 1)) / 2
        ≤ axis_val tab ii 0 := by
      rw [not_le]; linarith
    simp only [axis_val, axis_len] at hnot1 hnot2 ⊢
    rw [if_neg hnot1, if_neg hnot2]
    exact hL
  · rw [ensure_ecut_getElem?_ne X tab param _ ii hp]
    exact hL

theorem multilinear5_half (tab : xillTable R) (i0 i1 i2 i3 i4 i5 : Int) (e : Nat) :
    multilinear5 tab (1 / 2) 0 0 0 0 i0 i1 i2 i3 i4 i5 e
      = (specval tab i0 i1 i2 i3 i4 i5 e + specval tab i0 (i1 + 1) i2 i3 i4 i5 e) / 2 := by
  simp only [multilinear5, Fintype.sum_bool, b2i_true, b2i_false, add_zero, wgt_true,
    wgt_false]
  ring

theorem multilinear4_half (tab : xillTable R) (i0 i1 i2 i3 i4 i5 : Int) (e : Nat) :
    multilinear4 tab (1 / 2) 0 0 0 i0 i1 i2 i3 i4 i5 e
      = (specval tab i0 i1 i2 i3 i4 i5 e + specval tab i0 (i1 + 1) i2 i3 i4 i5 e) / 2 := by
  simp only [multilinear4, Fintype.sum_bool, b2i_true, b2i_false, add_zero, wgt_true,
    wgt_false]
  ring

/-- The midpoint scenario of C5 on a table whose cutoff axis, if there is one,
is stored at position `PARAM_ECT`.  For a well-formed 5-axis table, the value
of axis 0 halfway between `param_vals[0][ind[0]]` and `param_vals[0][ind[0]+1]`
and the values of the other interpolated axes on their grid points
`param_vals[k][ind[k]]`, every flux array of `interp_xill_table` is, bin by
bin, the mean of the stored spectra of the two neighbouring corners on axis 0:
one array at inclination index `ind[4]` for a xillver model, one array per
inclination bin `m` otherwise. -/
theorem midpoint_average_in_place (X : Ext R) (tab : xillTable R) (param : xillTableParam R)
    (ind : List Int) (hwf : well_formed tab ind 5)
    (hect : cutoff_axis_in_place X tab param)
    (hmid : at_midpoint X tab param ind 0)
    (hgrid : ∀ ii : Nat, 1 ≤ ii → ii < 4 → on_grid X tab param ind ii) :
    (X.is_xill_model param.model_type = true → on_grid X tab param ind 4 →
      cell32 tab tab.n_ener.toNat 0 (idx 0 ind 0) (idx 0 ind 1) (idx 0 ind 2) (idx 0 ind 3)
        (idx 0 ind 4) →
      (interp_xill_table X tab param ind EXIT_SUCCESS).map (fun s => s.flu)
        = some [(List.range tab.n_ener.toNat).map fun e =>
            (specval tab 0 (idx 0 ind 0) (idx 0 ind 1) (idx 0 ind 2) (idx 0 ind 3)
                (idx 0 ind 4) e
              + specval tab 0 (idx 0 ind 0 + 1) (idx 0 ind 1) (idx 0 ind 2) (idx 0 ind 3)
                (idx 0 ind 4) e) / 2]) ∧
    (X.is_xill_model param.model_type = false →
      (∀ m : Nat, m < tab.n_incl.toNat →
        cell16 tab tab.n_ener.toNat 0 (idx 0 ind 0) (idx 0 ind 1) (idx 0 ind 2)
          (idx 0 ind 3) m) →
      (interp_xill_table X tab param ind EXIT_SUCCESS).map (fun s => s.flu)
        = some ((List.range tab.n_incl.toNat).map fun (m : Nat) =>
            (List.range tab.n_ener.toNat).map fun e =>
              (specval tab 0 (idx 0 ind 0) (idx 0 ind 1) (idx 0 ind 2) (idx 0 ind 3) m e
                + specval tab 0 (idx 0 ind 0 + 1) (idx 0 ind 1) (idx 0 ind 2) (idx 0 ind 3)
                  m e) / 2)) := by
  have f0 : idx 0 (interp_xill_table_ipol_fac X tab param ind) 0 = 1 / 2 :=
    idx_of_getElem? 0 (final_factor_midpoint X tab param ind 5 0 hwf (by omega) hect hmid)
  have f1 : idx 0 (interp_xill_table_ipol_fac X tab param ind) 1 = 0 :=
    idx_of_getElem? 0 (final_factor_on_grid X tab param ind 5 1 hwf (by omega) hect
      (hgrid 1 (by omega) (by omega)))
  have f2 : idx 0 (interp_xill_table_ipol_fac X tab param ind) 2 = 0 :=
    idx_of_getElem? 0 (final_factor_on_grid X tab param ind 5 2 hwf (by omega) hect
      (hgrid 2 (by omega) (by omega)))
  have f3 : idx 0 (interp_xill_table_ipol_fac X tab param ind) 3 = 0 :=
    idx_of_getElem? 0 (final_factor_on_grid X tab param ind 5 3 hwf (by omega) hect
      (hgrid 3 (by omega) (by omega)))
  have h5 : tab.num_param = 5 := hwf.1
  constructor
  · intro hx hg4 hc
    have f4 : idx 0 (interp_xill_table_ipol_fac X tab param ind) 4 = 0 :=
      idx_of_getElem? 0 (final_factor_on_grid X tab param ind 5 4 hwf (by omega) hect hg4)
    rw [interp_xill_table_flu_5_xill X tab param ind (1 / 2) 0 0 0 0 h5 hx f0 f1 f2 f3 f4 hc]
    congr 2
    exact List.map_congr_left (fun e _ => multilinear5_half tab _ _ _ _ _ _ e)
  · intro hx hc
    rw [interp_xill_table_flu_5_incl X tab param ind (1 / 2) 0 0 0 h5 hx f0 f1 f2 f3 hc]
    congr 1
    apply List.map_congr_left
    intro m _
    exact List.map_congr_left (fun e _ => multilinear4_half tab _ _ _ _ _ _ e)

/-! ### The cutoff-energy pin on a table whose cutoff axis is in place -/

theorem get_xilltab_paramvals_ect (X : Ext R) (param : xillTableParam R) (e : R) (q : Int)
    (hq : q ≠ X.PARAM_ECT) :
    get_xilltab_paramvals X { param with ect := e } q = get_xilltab_paramvals X param q := by
  simp [get_xilltab_paramvals, Function.update_apply, hq]

/-- Changing `ect` changes the array `inp_param_vals` of the factor loop at the
entry `PARAM_ECT` only. -/
theorem ipol_fac_loop_inp_ect (X : Ext R) (tab : xillTable R) (param : xillTableParam R)
    (ind : List Int) (e : R) (k : Nat) (q : Int) (hq : q ≠ X.PARAM_ECT) :
    (ipol_fac_loop X tab { param with ect := e } ind k).1 q
      = (ipol_fac_loop X tab param ind k).1 q := by
  induction k generalizing q with
  | zero => exact get_xilltab_paramvals_ect X param e q hq
  | succ k ih =>
    rw [ipol_fac_loop_succ, ipol_fac_loop_succ]
    simp only [ipol_fac_step, ipol_fac_clamp]
    split_ifs
    · by_cases hk : q = idx 0 tab.param_index k
      · rw [hk, Function.update_same, Function.update_same, ih _ (hk ▸ hq)]
      · rw [Function.update_noteq hk, Function.update_noteq hk, ih q hq]
    · exact ih q hq

/-- Changing `ect` does not change the factor that the loop computes for an axis
of another kind. -/
theorem ipol_fac_loop_getElem?_ect (X : Ext R) (tab : xillTable R)
    (param : xillTableParam R) (ind : List Int) (e : R) (k j : Nat) (hj : j < k)
    (hkind : idx 0 tab.param_index j ≠ X.PARAM_ECT) :
    (ipol_fac_loop X tab { param with ect := e } ind k).2[j]?
      = (ipol_fac_loop X tab param ind k).2[j]? := by
  rw [ipol_fac_loop_getElem X tab _ ind k j hj, ipol_fac_loop_getElem X tab _ ind k j hj]
  have h := ipol_fac_loop_inp_ect X tab param ind e j _ hkind
  simp only [ipol_fac_value, ipol_fac_clamp]
  split_ifs
  · simp only [Function.update_same, h]
  · simp only [h]

/-- The statement of C8 on a table whose cutoff axis is stored at position
`PARAM_ECT`.  If the cutoff energy is tabulated at position `p = PARAM_ECT`
and on no other axis, then for every `ect` at or above the highest tabulated
cutoff value the factor of axis `p` is 1, and `interp_xill_table` returns
what it returns for `ect` equal to that highest value. -/
theorem cutoff_pin_in_place (X : Ext R) (tab : xillTable R) (param : xillTableParam R)
    (ind : List Int) (status : Int) (p : Nat)
    (hp : get_xilltab_param_index tab X.PARAM_ECT = (p : Int))
    (hpos : (p : Int) = X.PARAM_ECT)
    (huniq : ∀ j : Nat, j < tab.num_param.toNat → idx 0 tab.param_index j = X.PARAM_ECT →
      j = p)
    (hect : axis_val tab p (axis_len tab p - 1) ≤ param.ect) :
    (interp_xill_table_ipol_fac X tab param ind)[p]? = some 1 ∧
    interp_xill_table X tab { param with ect := axis_val tab p (axis_len tab p - 1) } ind status
      = interp_xill_table X tab param ind status := by
  have hpn : p < tab.num_param.toNat := by
    rcases get_xilltab_param_index_spec tab X.PARAM_ECT with ⟨h1, _⟩ | ⟨p', h1, h2, _, _⟩
    · rw [h1] at hp; omega
    · have : p' = p := by rw [h1] at hp; exact_mod_cast hp
      rw [← this]; exact h2
  have hkind : idx 0 tab.param_index p = (p : Int) := by
    rcases get_xilltab_param_index_spec tab X.PARAM_ECT with ⟨h1, _⟩ | ⟨p', h1, _, h3, _⟩
    · rw [h1] at hp; omega
    · have : p' = p := by rw [h1] at hp; exact_mod_cast hp
      rw [← this, h3, ← hpos, this]
  have hpin : ∀ prm : xillTableParam R, axis_val tab p (axis_len tab p - 1) ≤ prm.ect →
      (interp_xill_table_ipol_fac X tab prm ind)[p]? = some 1 := by
    intro prm hprm
    unfold interp_xill_table_ipol_fac
    rw [ensure_ecut_getElem?_eq X tab prm _ p hp
      (by rw [ipol_fac_loop_length]; exact hpn), hkind]
    simp only [axis_val, axis_len] at hprm
    rw [if_pos hprm]
  have hfac : interp_xill_table_ipol_fac X tab
      { param with ect := axis_val tab p (axis_len tab p - 1) } ind
      = interp_xill_table_ipol_fac X tab param ind := by
    apply List.ext_getElem?
    intro j
    by_cases hj : j = p
    · rw [hj, hpin param hect, hpin _ (le_refl _)]
    · have hne : get_xilltab_param_index tab X.PARAM_ECT ≠ (j : Int) := by
        rw [hp]; exact_mod_cast (Ne.symm hj)
      unfold interp_xill_table_ipol_fac
      rw [ensure_ecut_getElem?_ne X tab _ _ j hne, ensure_ecut_getElem?_ne X tab _ _ j hne]
      by_cases hjn : j < tab.num_param.toNat
      · exact ipol_fac_loop_getElem?_ect X tab param ind _ _ j hjn
          (fun h => hj (huniq j hjn h))
      · rw [List.getElem?_eq_none (by rw [ipol_fac_loop_length]; omega),
          List.getElem?_eq_none (by rw [ipol_fac_loop_length]; omega)]
  refine ⟨hpin param hect, ?_⟩
  simp only [interp_xill_table, interp_xill_table_flu, hfac]

theorem demoTable_well_formed : well_formed demoTable [0, 0, 0, 0, 0] 5 := by
  refine ⟨rfl, demoTable_axis_increasing, ?_, ?_⟩
  · intro jj ii h1 h2
    interval_cases ii <;> interval_cases jj <;> simp [demoTable, idx]
  · intro ii h
    interval_cases ii <;> simp [demoTable, idx, axis_len]

theorem demoTable_cutoff_axis_in_place (param : xillTableParam ℚ) :
    cutoff_axis_in_place demoExt demoTable param := by
  intro p hp
  have h3 : get_xilltab_param_index demoTable demoExt.PARAM_ECT = 3 := by decide
  rw [h3] at hp
  have hp3 : p = 3 := by exact_mod_cast hp.symm
  subst hp3
  refine ⟨rfl, ?_⟩
  simp [get_xilltab_paramvals, demoExt, Function.update_apply]

/-- The midpoint scenario evaluated on `demoTable`, whose cutoff axis is at
position `PARAM_ECT = 3`: the query `demoParam` has `gam = 3/2`, halfway
between the tabulated 1 and 2, and the flux is the mean `[9, 145]` of the
spectra `[1, 1]` and `[17, 289]` of the two neighbouring corners. -/
theorem midpoint_average_in_place_witness :
    well_formed demoTable [0, 0, 0, 0, 0] 5 ∧
    cutoff_axis_in_place demoExt demoTable demoParam ∧
    at_midpoint demoExt demoTable demoParam [0, 0, 0, 0, 0] 0 ∧
    (∀ ii : Nat, 1 ≤ ii → ii < 5 → on_grid demoExt demoTable demoParam [0, 0, 0, 0, 0] ii) ∧
    (interp_xill_table demoExt demoTable demoParam [0, 0, 0, 0, 0] EXIT_SUCCESS).map
      (fun s => s.flu) = some [[9, 145]] := by
  have hmid : at_midpoint demoExt demoTable demoParam [0, 0, 0, 0, 0] 0 := by
    simp [at_midpoint, get_xilltab_paramvals, demoExt, demoParam, demoTable, axis_val, idx,
      Function.update_apply]
    norm_num
  have hgrid : ∀ ii : Nat, 1 ≤ ii → ii < 5 →
      on_grid demoExt demoTable demoParam [0, 0, 0, 0, 0] ii := by
    intro ii h1 h5
    interval_cases ii <;>
      simp [on_grid, get_xilltab_paramvals, demoExt, demoParam, demoTable, axis_val, idx,
        Function.update_apply]
  have hc : cell32 demoTable demoTable.n_ener.toNat 0 (idx 0 [0, 0, 0, 0, 0] 0)
      (idx 0 [0, 0, 0, 0, 0] 1) (idx 0 [0, 0, 0, 0, 0] 2) (idx 0 [0, 0, 0, 0, 0] 3)
      (idx 0 [0, 0, 0, 0, 0] 4) := by
    unfold cell32; decide
  refine ⟨demoTable_well_formed, demoTable_cutoff_axis_in_place demoParam, hmid, hgrid, ?_⟩
  rw [(midpoint_average_in_place demoExt demoTable demoParam [0, 0, 0, 0, 0]
    demoTable_well_formed (demoTable_cutoff_axis_in_place demoParam) hmid
    (fun ii h1 h4 => hgrid ii h1 (by omega))).1 rfl (hgrid 4 (by omega) (by omega)) hc]
  simp [specval, get_xillspec, get_xillspec_rownum, demoTable, idx, List.range_succ]
  norm_num

/-- The cutoff pin evaluated on `demoTable`, whose cutoff axis is at position
`PARAM_ECT = 3` with highest tabulated value 2: for `ect = 7` the factor of
axis 3 is 1 and the query returns what it returns for `ect = 2`. -/
theorem cutoff_pin_in_place_witness :
    get_xilltab_param_index demoTable demoExt.PARAM_ECT = ((3 : Nat) : Int) ∧
    axis_val demoTable 3 (axis_len demoTable 3 - 1) = 2 ∧
    (interp_xill_table_ipol_fac demoExt demoTable { demoParam with ect := 7 }
      [0, 0, 0, 0, 0])[3]? = some 1 ∧
    interp_xill_table demoExt demoTable
        { ({ demoParam with ect := 7 } : xillTableParam ℚ) with
          ect := axis_val demoTable 3 (axis_len demoTable 3 - 1) } [0, 0, 0, 0, 0] EXIT_SUCCESS
      = interp_xill_table demoExt demoTable { demoParam with ect := 7 } [0, 0, 0, 0, 0]
          EXIT_SUCCESS := by
  have hv : axis_val demoTable 3 (axis_len demoTable 3 - 1) = 2 := by
    simp [axis_val, axis_len, demoTable, idx]
  have h := cutoff_pin_in_place demoExt demoTable { demoParam with ect := 7 } [0, 0, 0, 0, 0]
    EXIT_SUCCESS 3 (by decide) rfl
    (by
      intro j hj hk
      have hj5 : j < 5 := hj
      interval_cases j <;> simp [demoTable, demoExt, idx] at hk ⊢)
    (by rw [hv]; norm_num)
  exact ⟨by decide, hv, h.1, h.2⟩

/-! ### Renormalisation of a loaded spectrum -/

theorem renorm_xill_spec_length (X : Ext R) (spec : List R) (n : Int) (lxi dens : R) :
    (renorm_xill_spec X spec n lxi dens).length = spec.length := by
  simp [renorm_xill_spec]

/-- Element `i` of the result of `renorm_xill_spec`. -/
theorem renorm_xill_spec_getElem? (X : Ext R) (spec : List R) (n : Int) (lxi dens : R)
    (i : Nat) :
    (renorm_xill_spec X spec n lxi dens)[i]? = spec[i]?.map fun s =>
      if (i : Int) < n then
        if |dens - 15| > 1 / 1000000 then s / X.pow10 lxi / X.pow10 (dens - 15)
        else s / X.pow10 lxi
      else s := by
  simp only [renorm_xill_spec, List.getElem?_map, List.getElem?_enum, Option.map_map]
  cases spec[i]? <;> rfl

/-- C13: with `10^0 = 1`, `renorm_xill_spec` at the reference point `lxi = 0`,
`dens = 15` returns the spectrum unchanged, whatever the length `n`. -/
theorem renorm_identity_at_reference (X : Ext R) (spec : List R) (n : Int)
    (h : X.pow10 0 = 1) : renorm_xill_spec X spec n 0 15 = spec := by
  apply List.ext_getElem?
  intro i
  rw [renorm_xill_spec_getElem?]
  cases spec[i]? with
  | none => rfl
  | some s =>
    have h0 : ¬ (|(15 : R) - 15| > 1 / 1000000) := by norm_num
    simp only [Option.map_some', h0, if_false, h, div_one, ite_self]

/-- Witness of C13: the spectrum `[3, 4, 5]` with `n = 2` and the power function
of `demoExt`. -/
theorem renorm_identity_at_reference_witness :
    demoExt.pow10 0 = 1 ∧ renorm_xill_spec demoExt [3, 4, 5] 2 0 15 = [3, 4, 5] :=
  ⟨by simp [demoExt], renorm_identity_at_reference demoExt [3, 4, 5] 2 (by simp [demoExt])⟩

/-- C14: `renorm_xill_spec` keeps the length of the array; each of the first `n`
elements `s` becomes `s / 10^lxi` when `|dens - 15| <= 1e-6` and
`s / 10^lxi / 10^(dens - 15)` when `|dens - 15| > 1e-6`; the elements at index
`n` and above are unchanged. -/
theorem renorm_formula (X : Ext R) (spec : List R) (n : Int) (lxi dens : R) :
    (renorm_xill_spec X spec n lxi dens).length = spec.length ∧
    ∀ i : Nat, (renorm_xill_spec X spec n lxi dens)[i]? = spec[i]?.map fun s =>
      if n ≤ (i : Int) then s
      else if |dens - 15| ≤ 1 / 1000000 then s / X.pow10 lxi
      else s / X.pow10 lxi / X.pow10 (dens - 15) := by
  refine ⟨renorm_xill_spec_length X spec n lxi dens, fun i => ?_⟩
  rw [renorm_xill_spec_getElem?]
  congr 1
  funext s
  by_cases h1 : (i : Int) < n
  · rw [if_pos h1, if_neg (not_le.2 h1)]
    by_cases h2 : |dens - 15| > 1 / 1000000
    · rw [if_pos h2, if_neg (not_le.2 h2)]
    · rw [if_neg h2, if_pos (not_lt.1 h2)]
  · rw [if_neg h1, if_pos (not_lt.1 h1)]

theorem tabulated_at_index (tab : xillTable R) (k : Int) (p : Nat)
    (h : tabulated_at tab k p) : get_xilltab_param_index tab k = (p : Int) := by
  rcases get_xilltab_param_index_spec tab k with ⟨_, h2⟩ | ⟨q, h1, h2, h3, h4⟩
  · exact absurd h.2.1 (h2 p h.1)
  · rw [h1]
    rcases Nat.lt_trichotomy p q with hlt | heq | hgt
    · exact absurd h.2.1 (h4 p hlt)
    · rw [heq]
    · exact absurd h3 (h.2.2 q hgt)

theorem not_tabulated_index (tab : xillTable R) (k : Int) (h : not_tabulated tab k) :
    get_xilltab_param_index tab k = -1 := by
  rcases get_xilltab_param_index_spec tab k with ⟨h1, _⟩ | ⟨q, _, h2, h3, _⟩
  · exact h1
  · exact absurd h3 (h q h2)

/-- The value with which `normalizeXillverSpecLogxiDensity` replaces the default
of a quantity of kind `k`. -/
theorem normalize_value_cases (tab : xillTable R) (k : Int) (indVals : List Int) (dflt : R)
    (h56 : tab.num_param = 5 ∨ tab.num_param = 6) :
    (∀ p : Nat, tabulated_at tab k p →
      (if get_xilltab_param_index tab k ≥ 0 then
          idx 0 (idx [] tab.param_vals (get_xilltab_param_index tab k))
            (idx 0 indVals
              (convertTo6dimTableIndex tab.num_param (get_xilltab_param_index tab k)))
        else dflt) = corner_axis_value tab indVals p) ∧
    (not_tabulated tab k →
      (if get_xilltab_param_index tab k ≥ 0 then
          idx 0 (idx [] tab.param_vals (get_xilltab_param_index tab k))
            (idx 0 indVals
              (convertTo6dimTableIndex tab.num_param (get_xilltab_param_index tab k)))
        else dflt) = dflt) := by
  constructor
  · intro p hp
    rw [tabulated_at_index tab k p hp, if_pos (by positivity)]
    unfold corner_axis_value convertTo6dimTableIndex
    rcases h56 with h | h
    · rw [h, if_pos rfl, if_neg (by decide)]
    · rw [h, if_neg (by decide), if_pos rfl]
  · intro hn
    rw [not_tabulated_index tab k hn, if_neg (by decide)]


/-- C15: for a table of 5 or 6 axes and a corner with index array `indVals`,
`normalizeXillverSpecLogxiDensity` renormalises the first `n_ener` elements
with a density `d` and an ionization `l` such that: if density (ionization) is
the axis at table position `p`, `d` (`l`) is `param_vals[p][c]` with `c` the
entry `p` of the index array for 6 axes and the entry `p + 1` for 5 axes,
whatever the caller's default; if the quantity is no axis of the table, it is
the caller's default. -/
theorem normalize_uses_grid_point (X : Ext R) (spec : List R) (tab : xillTable R)
    (density logxi : R) (indVals : List Int)
    (h56 : tab.num_param = 5 ∨ tab.num_param = 6) :
    ∃ d l : R,
      normalizeXillverSpecLogxiDensity X spec tab density logxi indVals
        = renorm_xill_spec X spec tab.n_ener l d ∧
      (∀ p : Nat, tabulated_at tab X.PARAM_DNS p → d = corner_axis_value tab indVals p) ∧
      (not_tabulated tab X.PARAM_DNS → d = density) ∧
      (∀ p : Nat, tabulated_at tab X.PARAM_LXI p → l = corner_axis_value tab indVals p) ∧
      (not_tabulated tab X.PARAM_LXI → l = logxi) :=
  ⟨_, _, rfl, (normalize_value_cases tab X.PARAM_DNS indVals density h56).1,
    (normalize_value_cases tab X.PARAM_DNS indVals density h56).2,
    (normalize_value_cases tab X.PARAM_LXI indVals logxi h56).1,
    (normalize_value_cases tab X.PARAM_LXI indVals logxi h56).2⟩

/-- Witness of C15: the table `demoTable` of 5 axes, in which the ionization is
the axis at position 2 and the density is no axis. -/
theorem normalize_uses_grid_point_witness :
    (demoTable.num_param = 5 ∨ demoTable.num_param = 6) ∧
    ∃ d l : ℚ,
      normalizeXillverSpecLogxiDensity demoExt [7, 8] demoTable 15 0 [0, 1, 0, 1, 0, 1]
        = renorm_xill_spec demoExt [7, 8] demoTable.n_ener l d ∧
      (∀ p : Nat, tabulated_at demoTable demoExt.PARAM_DNS p →
        d = corner_axis_value demoTable [0, 1, 0, 1, 0, 1] p) ∧
      (not_tabulated demoTable demoExt.PARAM_DNS → d = 15) ∧
      (∀ p : Nat, tabulated_at demoTable demoExt.PARAM_LXI p →
        l = corner_axis_value demoTable [0, 1, 0, 1, 0, 1] p) ∧
      (not_tabulated demoTable demoExt.PARAM_LXI → l = 0) :=
  ⟨Or.inl rfl,
    normalize_uses_grid_point demoExt [7, 8] demoTable 15 0 [0, 1, 0, 1, 0, 1] (Or.inl rfl)⟩


/-! ### Completeness of the loader -/

theorem mem_int_range (lo hi x : Int) : x ∈ int_range lo hi ↔ lo ≤ x ∧ x ≤ hi := by
  unfold int_range
  simp only [List.mem_map, List.mem_range]
  constructor
  · rintro ⟨k, hk, rfl⟩
    omega
  · rintro ⟨h1, h2⟩
    exact ⟨(x - lo).toNat, by omega, by omega⟩

theorem b2i_cases (b : Bool) : 0 ≤ b2i b ∧ b2i b ≤ 1 := by
  cases b <;> simp [b2i]

/-- The corners visited by `check_xilltab_cache` for a table of 5 axes. -/
theorem check_xilltab_cache_corners_mem5 (tab : xillTable R) (ind : List Int)
    (h5 : tab.num_param = 5) (b1 b2 b3 b4 : Bool) (m : Int) (h0 : 0 ≤ m)
    (hm : m < tab.n_incl) :
    ((0 : Int), idx 0 ind 0 + b2i b1, idx 0 ind 1 + b2i b2, idx 0 ind 2 + b2i b3,
      idx 0 ind 3 + b2i b4, m) ∈ check_xilltab_cache_corners tab ind := by
  have e1 := b2i_cases b1
  have e2 := b2i_cases b2
  have e3 := b2i_cases b3
  have e4 := b2i_cases b4
  unfold check_xilltab_cache_corners
  simp only [h5, show ¬ ((5 : Int) = 6) by decide, if_false, List.mem_flatMap, List.mem_map,
    List.mem_range, mem_int_range, zero_add]
  refine ⟨0, ⟨le_refl _, le_refl _⟩, idx 0 ind 0 + b2i b1, ⟨by omega, by omega⟩,
    idx 0 ind 1 + b2i b2, ⟨by omega, by omega⟩, idx 0 ind 2 + b2i b3, ⟨by omega, by omega⟩,
    idx 0 ind 3 + b2i b4, ⟨by omega, by omega⟩, m.toNat, by omega, ?_⟩
  have : ((m.toNat : Nat) : Int) = m := by omega
  simp only [this]

/-- The corners visited by `check_xilltab_cache` for a table of 6 axes. -/
theorem check_xilltab_cache_corners_mem6 (tab : xillTable R) (ind : List Int)
    (h6 : tab.num_param = 6) (b0 b1 b2 b3 b4 : Bool) (m : Int) (h0 : 0 ≤ m)
    (hm : m < tab.n_incl) :
    (idx 0 ind 0 + b2i b0, idx 0 ind 1 + b2i b1, idx 0 ind 2 + b2i b2, idx 0 ind 3 + b2i b3,
      idx 0 ind 4 + b2i b4, m) ∈ check_xilltab_cache_corners tab ind := by
  have e0 := b2i_cases b0
  have e1 := b2i_cases b1
  have e2 := b2i_cases b2
  have e3 := b2i_cases b3
  have e4 := b2i_cases b4
  unfold check_xilltab_cache_corners
  simp only [h6, if_true, List.mem_flatMap, List.mem_map, List.mem_range, mem_int_range,
    show (1 : Int) + 1 = 2 by rfl, show (1 : Int) + 2 = 3 by rfl,
    show (1 : Int) + 3 = 4 by rfl]
  refine ⟨idx 0 ind 0 + b2i b0, ⟨by omega, by omega⟩, idx 0 ind 1 + b2i b1,
    ⟨by omega, by omega⟩, idx 0 ind 2 + b2i b2, ⟨by omega, by omega⟩, idx 0 ind 3 + b2i b3,
    ⟨by omega, by omega⟩, idx 0 ind 4 + b2i b4, ⟨by omega, by omega⟩, m.toNat, by omega, ?_⟩
  have : ((m.toNat : Nat) : Int) = m := by omega
  simp only [this]

theorem resident_zero_iff (tab : xillTable R) (i0 i1 i2 i3 i4 i5 : Int) :
    resident tab 0 i0 i1 i2 i3 i4 i5 = true ↔ get_xillspec tab i0 i1 i2 i3 i4 i5 ≠ none := by
  unfold resident
  cases h : get_xillspec tab i0 i1 i2 i3 i4 i5 <;> simp


theorem b2i_shift_bounds (i n : Int) (b : Bool) (h0 : 0 ≤ i) (h1 : i ≤ n - 2) :
    0 ≤ i + b2i b ∧ i + b2i b < n := by
  have e := b2i_cases b
  omega

/-- C11: after a call of `check_xilltab_cache` that ends with a good status, for
a table of 5 axes the slot of every corner `(0, ind[0] + b1, .., ind[3] + b4, m)`
with `0 <= m < n_incl` holds a spectrum, and so do the 16 corners read by
`interp_5d_tab_incl` for every inclination bin and, for
`0 <= ind[4] <= n_incl - 2`, the 32 corners read by `interp_5d_tab`; for a table
of 6 axes the same holds for the corners `(ind[0] + b0, .., ind[4] + b4, m)`, the
two cells of 16 corners read by `interp_6d_tab_incl` and, for
`0 <= ind[5] <= n_incl - 2`, the two cells of 32 corners read by
`interp_6d_tab`.  Here `n_incl` is the length of the inclination axis. -/
theorem loader_completeness (X : Ext R) (fits : FitsFile R) (param : xillTableParam R)
    (tab : xillTable R) (ind : List Int) (status : Int)
    (h : (check_xilltab_cache X fits param tab ind status).status = EXIT_SUCCESS) :
    (tab.num_param = 5 →
      (∀ (b1 b2 b3 b4 : Bool) (m : Int), 0 ≤ m → m < tab.n_incl →
        get_xillspec (check_xilltab_cache X fits param tab ind status).tab 0
          (idx 0 ind 0 + b2i b1) (idx 0 ind 1 + b2i b2) (idx 0 ind 2 + b2i b3)
          (idx 0 ind 3 + b2i b4) m ≠ none) ∧
      (∀ m : Int, 0 ≤ m → m < tab.n_incl →
        cell16 (check_xilltab_cache X fits param tab ind status).tab 0 0
          (idx 0 ind 0) (idx 0 ind 1) (idx 0 ind 2) (idx 0 ind 3) m) ∧
      (0 ≤ idx 0 ind 4 → idx 0 ind 4 ≤ tab.n_incl - 2 →
        cell32 (check_xilltab_cache X fits param tab ind status).tab 0 0
          (idx 0 ind 0) (idx 0 ind 1) (idx 0 ind 2) (idx 0 ind 3) (idx 0 ind 4))) ∧
    (tab.num_param = 6 →
      (∀ (b0 b1 b2 b3 b4 : Bool) (m : Int), 0 ≤ m → m < tab.n_incl →
        get_xillspec (check_xilltab_cache X fits param tab ind status).tab
          (idx 0 ind 0 + b2i b0) (idx 0 ind 1 + b2i b1) (idx 0 ind 2 + b2i b2)
          (idx 0 ind 3 + b2i b3) (idx 0 ind 4 + b2i b4) m ≠ none) ∧
      (∀ (b0 : Bool) (m : Int), 0 ≤ m → m < tab.n_incl →
        cell16 (check_xilltab_cache X fits param tab ind status).tab 0
          (idx 0 ind 0 + b2i b0) (idx 0 ind 1) (idx 0 ind 2) (idx 0 ind 3) (idx 0 ind 4) m) ∧
      (0 ≤ idx 0 ind 5 → idx 0 ind 5 ≤ tab.n_incl - 2 → ∀ b0 : Bool,
        cell32 (check_xilltab_cache X fits param tab ind status).tab 0
          (idx 0 ind 0 + b2i b0) (idx 0 ind 1) (idx 0 ind 2) (idx 0 ind 3) (idx 0 ind 4)
          (idx 0 ind 5))) := by
  have hst : status = EXIT_SUCCESS := by
    by_contra hne
    unfold check_xilltab_cache at h
    rw [if_pos hne] at h
    exact hne h
  subst hst
  have hs := (check_xilltab_cache_success X fits param tab ind h).2
  have k5 : tab.num_param = 5 → ∀ (b1 b2 b3 b4 : Bool) (m : Int), 0 ≤ m → m < tab.n_incl →
      get_xillspec (check_xilltab_cache X fits param tab ind EXIT_SUCCESS).tab 0
        (idx 0 ind 0 + b2i b1) (idx 0 ind 1 + b2i b2) (idx 0 ind 2 + b2i b3)
        (idx 0 ind 3 + b2i b4) m ≠ none := fun h5 b1 b2 b3 b4 m h0 hm =>
    hs ((0 : Int), idx 0 ind 0 + b2i b1, idx 0 ind 1 + b2i b2, idx 0 ind 2 + b2i b3,
      idx 0 ind 3 + b2i b4, m) (check_xilltab_cache_corners_mem5 tab ind h5 b1 b2 b3 b4 m h0 hm)
  have k6 : tab.num_param = 6 → ∀ (b0 b1 b2 b3 b4 : Bool) (m : Int), 0 ≤ m →
      m < tab.n_incl →
      get_xillspec (check_xilltab_cache X fits param tab ind EXIT_SUCCESS).tab
        (idx 0 ind 0 + b2i b0) (idx 0 ind 1 + b2i b1) (idx 0 ind 2 + b2i b2)
        (idx 0 ind 3 + b2i b3) (idx 0 ind 4 + b2i b4) m ≠ none :=
    fun h6 b0 b1 b2 b3 b4 m h0 hm =>
      hs (idx 0 ind 0 + b2i b0, idx 0 ind 1 + b2i b1, idx 0 ind 2 + b2i b2,
        idx 0 ind 3 + b2i b3, idx 0 ind 4 + b2i b4, m)
        (check_xilltab_cache_corners_mem6 tab ind h6 b0 b1 b2 b3 b4 m h0 hm)
  refine ⟨fun h5 => ⟨k5 h5, ?_, ?_⟩, fun h6 => ⟨k6 h6, ?_, ?_⟩⟩
  · intro m h0 hm b1 b2 b3 b4
    exact (resident_zero_iff _ _ _ _ _ _ _).2 (k5 h5 b1 b2 b3 b4 m h0 hm)
  · intro h0 h1 b1 b2 b3 b4 b5
    have e := b2i_shift_bounds (idx 0 ind 4) tab.n_incl b5 h0 h1
    exact (resident_zero_iff _ _ _ _ _ _ _).2
      (k5 h5 b1 b2 b3 b4 (idx 0 ind 4 + b2i b5) e.1 e.2)
  · intro b0 m h0 hm b1 b2 b3 b4
    exact (resident_zero_iff _ _ _ _ _ _ _).2 (k6 h6 b0 b1 b2 b3 b4 m h0 hm)
  · intro h0 h1 b0 b1 b2 b3 b4 b5
    have e := b2i_shift_bounds (idx 0 ind 5) tab.n_incl b5 h0 h1
    exact (resident_zero_iff _ _ _ _ _ _ _).2
      (k6 h6 b0 b1 b2 b3 b4 (idx 0 ind 5 + b2i b5) e.1 e.2)

/-- Witness of C11: the empty table `emptyTable` of 5 axes, loaded from a file
that works, at the indices `[0, 0, 0, 0, 0]`. -/
theorem loader_completeness_witness :
    (check_xilltab_cache demoExt demoFile demoParam emptyTable [0, 0, 0, 0, 0]
      EXIT_SUCCESS).status = EXIT_SUCCESS ∧
    cell32 (check_xilltab_cache demoExt demoFile demoParam emptyTable [0, 0, 0, 0, 0]
      EXIT_SUCCESS).tab 0 0 0 0 0 0 0 :=
  have h : (check_xilltab_cache demoExt demoFile demoParam emptyTable [0, 0, 0, 0, 0]
      EXIT_SUCCESS).status = EXIT_SUCCESS := by decide
  ⟨h, ((loader_completeness demoExt demoFile demoParam emptyTable [0, 0, 0, 0, 0]
    EXIT_SUCCESS h).1 rfl).2.2 (by decide) (by decide)⟩


/-! ### A failed load leaves the storage intact -/

/-- The outcome of `xilltable_fits_load_single_spec` entered with a good status:
either a bad status, the table unchanged and no successful read, a failed read
being one of the row of the corner; or a good status, no failed read, and the
renormalised buffer stored in the slot of the corner. -/
theorem load_single_spec_outcome (X : Ext R) (fits : FitsFile R) (st : LoadState R)
    (d l : R) (nn ii jj kk ll mm : Int) (hs : st.status = EXIT_SUCCESS) :
    ∃ es, (xilltable_fits_load_single_spec X fits st d l nn ii jj kk ll mm).log = st.log ++ es ∧
      (((xilltable_fits_load_single_spec X fits st d l nn ii jj kk ll mm).status
            ≠ EXIT_SUCCESS ∧
          (xilltable_fits_load_single_spec X fits st d l nn ii jj kk ll mm).tab = st.tab ∧
          (∀ r, true ∉ reads_of r es) ∧
          (∀ r, false ∈ reads_of r es →
            r = get_xillspec_rownum st.tab.num_param_vals st.tab.num_param nn ii jj kk ll mm)) ∨
        ((xilltable_fits_load_single_spec X fits st d l nn ii jj kk ll mm).status
            = EXIT_SUCCESS ∧
          (∀ r, false ∉ reads_of r es) ∧
          (∀ r, true ∈ reads_of r es →
            r = get_xillspec_rownum st.tab.num_param_vals st.tab.num_param nn ii jj kk ll mm) ∧
          ∃ row, fits.read_col
              (get_xillspec_rownum st.tab.num_param_vals st.tab.num_param nn ii jj kk ll mm)
              = some row ∧
            (xilltable_fits_load_single_spec X fits st d l nn ii jj kk ll mm).tab
              = set_dat (normalizeXillverSpecLogxiDensity X
                  ((List.range st.tab.n_ener.toNat).map fun (e : Nat) => row.getD e (X.indet e))
                  st.tab d l [nn, ii, jj, kk, ll, mm]) st.tab nn ii jj kk ll mm)) := by
  cases hf : st.fptr <;> cases ho : fits.open_ok <;>
    cases hm : fits.movnam_ok
      (get_xillspec_rownum st.tab.num_param_vals st.tab.num_param nn ii jj kk ll mm) <;>
    cases hr : fits.read_col
      (get_xillspec_rownum st.tab.num_param_vals st.tab.num_param nn ii jj kk ll mm) <;>
    simp only [xilltable_fits_load_single_spec, hs, hf, ho, hm, hr, ne_eq, not_true_eq_false,
      if_false, if_true, EXIT_FAILURE, EXIT_SUCCESS, Bool.false_eq_true, Bool.true_eq_false,
      one_ne_zero, not_false_eq_true, List.append_assoc, List.singleton_append] <;>
    refine ⟨_, rfl, ?_⟩ <;>
    simp [reads_of]


/-- One corner of the loops keeps `load_faithful`. -/
theorem check_step_faithful (X : Ext R) (fits : FitsFile R) (param : xillTableParam R)
    (tab0 : xillTable R) (all : List (Int × Int × Int × Int × Int × Int))
    (st : LoadState R) (c : Int × Int × Int × Int × Int × Int) (hc : c ∈ all)
    (h : load_faithful X fits param tab0 all st) :
    load_faithful X fits param tab0 all (check_xilltab_cache_step X fits param st c) := by
  by_cases hs : st.status ≠ EXIT_SUCCESS
  · rw [check_step_bad_status X fits param st c hs]
    exact h
  have hs' : st.status = EXIT_SUCCESS := not_not.1 hs
  by_cases hg : get_xillspec st.tab c.1 c.2.1 c.2.2.1 c.2.2.2.1 c.2.2.2.2.1 c.2.2.2.2.2 = none
  swap
  · have hstep : check_xilltab_cache_step X fits param st c = st := by
      simp [check_xilltab_cache_step, hs', hg]
    rw [hstep]
    exact h
  have hstep : check_xilltab_cache_step X fits param st c
      = xilltable_fits_load_single_spec X fits st param.dens param.lxi
          c.1 c.2.1 c.2.2.1 c.2.2.2.1 c.2.2.2.2.1 c.2.2.2.2.2 := by
    simp [check_xilltab_cache_step, hs', hg]
  rw [hstep]
  obtain ⟨es, hlog, hcase⟩ := load_single_spec_outcome X fits st param.dens param.lxi
    c.1 c.2.1 c.2.2.1 c.2.2.2.1 c.2.2.2.2.1 c.2.2.2.2.2 hs'
  obtain ⟨⟨f, hf⟩, h2, h3, h4⟩ := h
  have hnofalse : ∀ r, false ∉ reads_of r st.log := fun r hr => (h4 r hr).1 hs'
  have habs : st.tab.data_storage (get_xillspec_rownum st.tab.num_param_vals st.tab.num_param
      c.1 c.2.1 c.2.2.1 c.2.2.2.1 c.2.2.2.2.1 c.2.2.2.2.2) = none := hg
  have e1 : st.tab.num_param_vals = tab0.num_param_vals := by rw [hf]
  have e2 : st.tab.num_param = tab0.num_param := by rw [hf]
  have e3 : st.tab.n_ener = tab0.n_ener := by rw [hf]
  have e4 : ∀ (spec : List R) (iv : List Int),
      normalizeXillverSpecLogxiDensity X spec st.tab param.dens param.lxi iv
        = normalizeXillverSpecLogxiDensity X spec tab0 param.dens param.lxi iv := by
    intro spec iv
    rw [hf]
    rfl
  rw [e1, e2] at habs hcase
  rw [e3] at hcase
  rcases hcase with ⟨hst, htab, hnt, hfl⟩ | ⟨hst, hnf, htr, row, hrow, htab⟩
  · refine ⟨⟨f, by rw [htab]; exact hf⟩, ?_, ?_, ?_⟩
    · intro r s hrs
      rw [htab]
      exact h2 r s hrs
    · intro r hr
      rw [hlog, reads_of_append, List.mem_append] at hr
      rcases hr with hr | hr
      · rw [htab]
        exact h3 r hr
      · exact absurd hr (hnt r)
    · intro r hr
      rw [hlog, reads_of_append, List.mem_append] at hr
      rcases hr with hr | hr
      · exact absurd hr (hnofalse r)
      · refine ⟨hst, ?_⟩
        rw [htab, hfl r hr]
        exact habs
  · have hupd : ∀ r, r ≠ get_xillspec_rownum tab0.num_param_vals tab0.num_param
          c.1 c.2.1 c.2.2.1 c.2.2.2.1 c.2.2.2.2.1 c.2.2.2.2.2 →
        (xilltable_fits_load_single_spec X fits st param.dens param.lxi
          c.1 c.2.1 c.2.2.1 c.2.2.2.1 c.2.2.2.2.1 c.2.2.2.2.2).tab.data_storage r
          = st.tab.data_storage r := by
      intro r hr
      rw [htab]
      show Function.update st.tab.data_storage _ _ r = _
      rw [e1, e2, Function.update_noteq hr]
    have hnew : (xilltable_fits_load_single_spec X fits st param.dens param.lxi
          c.1 c.2.1 c.2.2.1 c.2.2.2.1 c.2.2.2.2.1 c.2.2.2.2.2).tab.data_storage
          (get_xillspec_rownum tab0.num_param_vals tab0.num_param
            c.1 c.2.1 c.2.2.1 c.2.2.2.1 c.2.2.2.2.1 c.2.2.2.2.2)
        = some (normalizeXillverSpecLogxiDensity X
          ((List.range tab0.n_ener.toNat).map fun (e : Nat) => row.getD e (X.indet e))
          tab0 param.dens param.lxi
          [c.1, c.2.1, c.2.2.1, c.2.2.2.1, c.2.2.2.2.1, c.2.2.2.2.2]) := by
      rw [htab]
      show Function.update st.tab.data_storage _ _ _ = _
      rw [e1, e2, Function.update_same, e4]
    refine ⟨⟨(xilltable_fits_load_single_spec X fits st param.dens param.lxi
      c.1 c.2.1 c.2.2.1 c.2.2.2.1 c.2.2.2.2.1 c.2.2.2.2.2).tab.data_storage, ?_⟩, ?_, ?_, ?_⟩
    · rw [htab, hf]
      rfl
    · intro r s hrs
      have hr := h2 r s hrs
      have hne : r ≠ get_xillspec_rownum tab0.num_param_vals tab0.num_param
          c.1 c.2.1 c.2.2.1 c.2.2.2.1 c.2.2.2.2.1 c.2.2.2.2.2 := by
        intro e
        rw [e, habs] at hr
        cases hr
      rw [hupd r hne]
      exact hr
    · intro r hr
      by_cases hrr : r = get_xillspec_rownum tab0.num_param_vals tab0.num_param
          c.1 c.2.1 c.2.2.1 c.2.2.2.1 c.2.2.2.2.1 c.2.2.2.2.2
      · refine ⟨c, hc, hrr.symm, row, ?_, ?_⟩
        · rw [hrr]
          exact hrow
        · rw [hrr]
          exact hnew
      · rw [hlog, reads_of_append, List.mem_append] at hr
        rcases hr with hr | hr
        · rw [hupd r hrr]
          exact h3 r hr
        · exact absurd (htr r hr) hrr
    · intro r hr
      rw [hlog, reads_of_append, List.mem_append] at hr
      rcases hr with hr | hr
      · exact absurd hr (hnofalse r)
      · exact absurd hr (hnf r)


theorem check_fold_faithful (X : Ext R) (fits : FitsFile R) (param : xillTableParam R)
    (tab0 : xillTable R) (all : List (Int × Int × Int × Int × Int × Int))
    (cs : List (Int × Int × Int × Int × Int × Int)) (hcs : ∀ c ∈ cs, c ∈ all)
    (st : LoadState R) (h : load_faithful X fits param tab0 all st) :
    load_faithful X fits param tab0 all
      (cs.foldl (check_xilltab_cache_step X fits param) st) := by
  induction cs generalizing st with
  | nil => exact h
  | cons c cs ih =>
    exact ih (fun c' hc' => hcs c' (List.mem_cons_of_mem c hc')) _
      (check_step_faithful X fits param tab0 all st c (hcs c (List.mem_cons_self c cs)) h)

theorem load_faithful_start (X : Ext R) (fits : FitsFile R) (param : xillTableParam R)
    (tab : xillTable R) (all : List (Int × Int × Int × Int × Int × Int)) (status : Int) :
    load_faithful X fits param tab all
      { tab := tab, fptr := false, status := status, log := [] } :=
  ⟨⟨tab.data_storage, rfl⟩, fun _ _ h => h, fun r h => absurd h (by simp [reads_of]),
    fun r h => absurd h (by simp [reads_of])⟩

/-- The whole call `check_xilltab_cache` keeps `load_faithful`. -/
theorem check_xilltab_cache_faithful (X : Ext R) (fits : FitsFile R)
    (param : xillTableParam R) (tab : xillTable R) (ind : List Int) (status : Int) :
    load_faithful X fits param tab (check_xilltab_cache_corners tab ind)
      (check_xilltab_cache X fits param tab ind status) := by
  have h0 := load_faithful_start X fits param tab (check_xilltab_cache_corners tab ind) status
  have hf := check_fold_faithful X fits param tab (check_xilltab_cache_corners tab ind)
    (check_xilltab_cache_corners tab ind) (fun c hc => hc) _ h0
  unfold check_xilltab_cache
  by_cases h1 : status ≠ EXIT_SUCCESS
  · rw [if_pos h1]
    exact h0
  · rw [if_neg h1]
    simp only []
    by_cases h2 : (List.foldl (check_xilltab_cache_step X fits param)
        ({ tab := tab, fptr := false, status := status, log := [] } : LoadState R)
        (check_xilltab_cache_corners tab ind)).status ≠ EXIT_SUCCESS
    · rw [if_pos h2]
      exact hf
    · rw [if_neg h2]
      by_cases h3 : (List.foldl (check_xilltab_cache_step X fits param)
          ({ tab := tab, fptr := false, status := status, log := [] } : LoadState R)
          (check_xilltab_cache_corners tab ind)).fptr = true
      · rw [if_pos h3]
        obtain ⟨g1, g2, g3, g4⟩ := hf
        refine ⟨g1, g2, fun r hr => ?_, fun r hr => ?_⟩
        · refine g3 r ?_
          simpa [reads_of_append, reads_of] using hr
        · have hr' : false ∈ reads_of r (List.foldl (check_xilltab_cache_step X fits param)
              ({ tab := tab, fptr := false, status := status, log := [] } : LoadState R)
              (check_xilltab_cache_corners tab ind)).log := by
            simpa [reads_of_append, reads_of] using hr
          exact absurd (not_not.1 h2) (g4 r hr').1
      · rw [if_neg h3]
        exact hf

/-- C12: for every call of `check_xilltab_cache`, whatever the behaviour of the
file: only the storage of the table changes; every slot that was resident
before the call holds the same spectrum afterwards; every row read successfully
during the call is the row of a corner of the call, and its slot holds the row
read from the file, renormalised at that corner; and if the read of a row
fails, the call ends with a bad status and the slot of that row is absent. -/
theorem failed_load_keeps_cache (X : Ext R) (fits : FitsFile R) (param : xillTableParam R)
    (tab : xillTable R) (ind : List Int) (status : Int) :
    (check_xilltab_cache X fits param tab ind status).tab
      = { tab with
          data_storage := (check_xilltab_cache X fits param tab ind status).tab.data_storage } ∧
    (∀ r s, tab.data_storage r = some s →
      (check_xilltab_cache X fits param tab ind status).tab.data_storage r = some s) ∧
    (∀ r, true ∈ reads_of r (check_xilltab_cache X fits param tab ind status).log →
      ∃ c ∈ check_xilltab_cache_corners tab ind,
        get_xillspec_rownum tab.num_param_vals tab.num_param
          c.1 c.2.1 c.2.2.1 c.2.2.2.1 c.2.2.2.2.1 c.2.2.2.2.2 = r ∧
        ∃ row, fits.read_col r = some row ∧
          (check_xilltab_cache X fits param tab ind status).tab.data_storage r
            = some (normalizeXillverSpecLogxiDensity X
              ((List.range tab.n_ener.toNat).map fun (e : Nat) => row.getD e (X.indet e))
              tab param.dens param.lxi
              [c.1, c.2.1, c.2.2.1, c.2.2.2.1, c.2.2.2.2.1, c.2.2.2.2.2])) ∧
    (∀ r, false ∈ reads_of r (check_xilltab_cache X fits param tab ind status).log →
      (check_xilltab_cache X fits param tab ind status).status ≠ EXIT_SUCCESS ∧
      (check_xilltab_cache X fits param tab ind status).tab.data_storage r = none) := by
  obtain ⟨⟨f, hf⟩, g2, g3, g4⟩ := check_xilltab_cache_faithful X fits param tab ind status
  refine ⟨?_, g2, g3, g4⟩
  rw [hf]

/-- Witness of C12: on the empty table `emptyTable` with the file `failingFile`,
the rows 1 and 2 are loaded, then the read of row 3 fails: the status is bad
and slot 3 is absent. -/
theorem failed_load_keeps_cache_witness :
    false ∈ reads_of 3 (check_xilltab_cache demoExt failingFile demoParam emptyTable
      [0, 0, 0, 0, 0] EXIT_SUCCESS).log ∧
    (check_xilltab_cache demoExt failingFile demoParam emptyTable
      [0, 0, 0, 0, 0] EXIT_SUCCESS).status ≠ EXIT_SUCCESS ∧
    (check_xilltab_cache demoExt failingFile demoParam emptyTable
      [0, 0, 0, 0, 0] EXIT_SUCCESS).tab.data_storage 3 = none :=
  have h : false ∈ reads_of 3 (check_xilltab_cache demoExt failingFile demoParam emptyTable
      [0, 0, 0, 0, 0] EXIT_SUCCESS).log := by decide
  ⟨h, (failed_load_keeps_cache demoExt failingFile demoParam emptyTable [0, 0, 0, 0, 0]
    EXIT_SUCCESS).2.2.2 3 h⟩


/-! ### Creation of a table -/

/-- C18: `new_xillTable` returns a table and leaves the status unchanged if and
only if `num_param` is 5 or 6, and that table has `num_param` axes (the field
`num_param`, and `num_param` entries in each of the four arrays indexed by the
axis); for every other `num_param` it returns no table and the status is the
error status `EXIT_FAILURE`. -/
theorem new_xillTable_axis_count (fresh : xillTable R) (num_param : Int) (status : Int) :
    (((new_xillTable fresh num_param status).1 ≠ none ∧
        (new_xillTable fresh num_param status).2 = status) ↔
      (num_param = 5 ∨ num_param = 6)) ∧
    (∀ tab, (new_xillTable fresh num_param status).1 = some tab →
      (new_xillTable fresh num_param status).2 = status ∧
      tab.num_param = num_param ∧
      (tab.num_param_vals.length : Int) = num_param ∧
      (tab.param_index.length : Int) = num_param ∧
      (tab.param_names.length : Int) = num_param ∧
      (tab.param_vals.length : Int) = num_param) ∧
    (¬(num_param = 5 ∨ num_param = 6) →
      new_xillTable fresh num_param status = (none, EXIT_FAILURE)) ∧
    EXIT_FAILURE ≠ EXIT_SUCCESS := by
  by_cases h : num_param = 5 ∨ num_param = 6
  · have hpos : 0 ≤ num_param := by omega
    have e : new_xillTable fresh num_param status
        = (some { fresh with
            num_param := num_param
            num_param_vals := fresh_block 0 fresh.num_param_vals num_param
            param_index := fresh_block 0 fresh.param_index num_param
            param_names := List.replicate num_param.toNat ""
            param_vals := List.replicate num_param.toNat []
            elo := []
            ehi := []
            incl := []
            n_incl := -1
            data_storage := fun _ => none }, status) := by
      unfold new_xillTable
      simp only []
      rw [if_neg (not_not.2 h)]
    rw [e]
    refine ⟨⟨fun _ => h, fun _ => ⟨by simp, rfl⟩⟩, ?_, fun hn => absurd h hn, by decide⟩
    intro tab htab
    simp only [Option.some.injEq] at htab
    subst htab
    simp [fresh_block, Int.toNat_of_nonneg hpos]
  · have e : new_xillTable fresh num_param status = (none, EXIT_FAILURE) := by
      unfold new_xillTable
      simp only []
      rw [if_pos h]
    rw [e]
    refine ⟨⟨fun hh => absurd rfl hh.1, fun hh => absurd hh h⟩, ?_, fun _ => rfl, by decide⟩
    intro tab htab
    cases htab


/-! ### The names of the axes -/

/-- A loop in which every match writes entry `ii`: without a match the array is
unchanged, otherwise entry `ii` holds the value of a match. -/
theorem search_fold_spec (c : Nat → Prop) [DecidablePred c] (v : Nat → Int) (ii : Nat)
    (L : List Nat) (p : List Int) :
    ((∀ jj ∈ L, ¬c jj) ∧
      L.foldl (fun (p : List Int) (jj : Nat) => if c jj then p.set ii (v jj) else p) p = p) ∨
    ∃ jj ∈ L, c jj ∧
      L.foldl (fun (p : List Int) (jj : Nat) => if c jj then p.set ii (v jj) else p) p
        = p.set ii (v jj) := by
  induction L generalizing p with
  | nil => exact Or.inl ⟨fun jj h => absurd h (List.not_mem_nil jj), rfl⟩
  | cons a L ih =>
    simp only [List.foldl_cons]
    by_cases ha : c a
    · rw [if_pos ha]
      rcases ih (p.set ii (v a)) with ⟨h1, h2⟩ | ⟨jj, h1, h2, h3⟩
      · exact Or.inr ⟨a, List.mem_cons_self a L, ha, h2⟩
      · refine Or.inr ⟨jj, List.mem_cons_of_mem a h1, h2, ?_⟩
        rw [h3, List.set_set]
    · rw [if_neg ha]
      rcases ih p with ⟨h1, h2⟩ | ⟨jj, h1, h2, h3⟩
      · refine Or.inl ⟨fun jj hjj => ?_, h2⟩
        rcases List.mem_cons.1 hjj with rfl | hin
        · exact ha
        · exact h1 jj hin
      · exact Or.inr ⟨jj, List.mem_cons_of_mem a h1, h2, h3⟩

theorem idx_set_same (p : List Int) (ii : Nat) (v : Int) (h : ii < p.length) :
    idx 0 (p.set ii v) ii = v := by
  unfold idx
  simp [h]

theorem idx_set_other (p : List Int) (ii k : Nat) (v : Int) (h : k ≠ ii) :
    idx 0 (p.set ii v) k = idx 0 p k := by
  unfold idx
  simp [List.getD_eq_getElem?_getD, List.getElem?_set, Ne.symm h]

/-- One iteration of the outer loop of `set_parindex_from_parname`. -/
theorem set_parindex_body_spec (X : Ext R) (p : List Int) (pname : List String) (ii : Nat)
    (hii : ii < p.length)
    (hneg : ∀ jj : Nat, jj < X.N_PARAM_MAX.toNat → idx 0 (global_param_index X) jj ≠ -1) :
    ((∀ jj : Nat, jj < X.N_PARAM_MAX.toNat →
          idx "" pname ii ≠ idx "" (global_param_names X) jj) ∧
        set_parindex_search X (p.set ii (-1)) pname ii = p.set ii (-1) ∧
        idx 0 (set_parindex_search X (p.set ii (-1)) pname ii) ii = -1) ∨
    (∃ jj : Nat, jj < X.N_PARAM_MAX.toNat ∧
        idx "" pname ii = idx "" (global_param_names X) jj ∧
        set_parindex_search X (p.set ii (-1)) pname ii
          = p.set ii (idx 0 (global_param_index X) jj) ∧
        idx 0 (set_parindex_search X (p.set ii (-1)) pname ii) ii ≠ -1) := by
  unfold set_parindex_search
  rcases search_fold_spec (fun jj => idx "" pname ii = idx "" (global_param_names X) jj)
    (fun jj => idx 0 (global_param_index X) jj) ii (List.range X.N_PARAM_MAX.toNat)
    (p.set ii (-1)) with ⟨h1, h2⟩ | ⟨jj, h1, h2, h3⟩
  · left
    refine ⟨fun jj hjj => h1 jj (List.mem_range.2 hjj), h2, ?_⟩
    rw [h2]
    exact idx_set_same p ii (-1) hii
  · right
    have hjj := List.mem_range.1 h1
    refine ⟨jj, hjj, h2, ?_, ?_⟩
    · rw [h3, List.set_set]
    · rw [h3, List.set_set, idx_set_same p ii _ hii]
      exact hneg jj hjj


theorem set_parindex_step_spec (X : Ext R) (pname : List String) (st : List Int × Int)
    (ii : Nat) (hii : ii < st.1.length)
    (hneg : ∀ jj : Nat, jj < X.N_PARAM_MAX.toNat → idx 0 (global_param_index X) jj ≠ -1) :
    ((∀ jj : Nat, jj < X.N_PARAM_MAX.toNat →
          idx "" pname ii ≠ idx "" (global_param_names X) jj) ∧
        set_parindex_step X pname st ii = (st.1.set ii (-1), EXIT_FAILURE)) ∨
    (∃ jj : Nat, jj < X.N_PARAM_MAX.toNat ∧
        idx "" pname ii = idx "" (global_param_names X) jj ∧
        set_parindex_step X pname st ii
          = (st.1.set ii (idx 0 (global_param_index X) jj), st.2)) := by
  unfold set_parindex_step
  simp only []
  rcases set_parindex_body_spec X st.1 pname ii hii hneg with
    ⟨h1, h2, h3⟩ | ⟨jj, h1, h2, h3, h4⟩
  · left
    refine ⟨h1, ?_⟩
    rw [if_pos h3, h2]
  · right
    refine ⟨jj, h1, h2, ?_⟩
    rw [if_neg h4, h3]

/-- The state of `set_parindex_from_parname` after `m` iterations of its outer
loop. -/
theorem set_parindex_prefix_spec (X : Ext R) (pindex : List Int) (pname : List String)
    (status : Int)
    (hneg : ∀ jj : Nat, jj < X.N_PARAM_MAX.toNat → idx 0 (global_param_index X) jj ≠ -1)
    (m : Nat) (hm : m ≤ pindex.length) :
    ((List.range m).foldl (set_parindex_step X pname) (pindex, status)).1.length
      = pindex.length ∧
    (∀ i : Nat, i < m →
      ((∀ jj : Nat, jj < X.N_PARAM_MAX.toNat →
          idx "" pname i ≠ idx "" (global_param_names X) jj) ∧
        idx 0 ((List.range m).foldl (set_parindex_step X pname) (pindex, status)).1 i = -1) ∨
      (∃ jj : Nat, jj < X.N_PARAM_MAX.toNat ∧
        idx "" pname i = idx "" (global_param_names X) jj ∧
        idx 0 ((List.range m).foldl (set_parindex_step X pname) (pindex, status)).1 i
          = idx 0 (global_param_index X) jj)) ∧
    ((∃ i : Nat, i < m ∧ ∀ jj : Nat, jj < X.N_PARAM_MAX.toNat →
        idx "" pname i ≠ idx "" (global_param_names X) jj) →
      ((List.range m).foldl (set_parindex_step X pname) (pindex, status)).2 = EXIT_FAILURE) ∧
    ((∀ i : Nat, i < m → ∃ jj : Nat, jj < X.N_PARAM_MAX.toNat ∧
        idx "" pname i = idx "" (global_param_names X) jj) →
      ((List.range m).foldl (set_parindex_step X pname) (pindex, status)).2 = status) := by
  induction m with
  | zero =>
    refine ⟨rfl, fun i hi => absurd hi (Nat.not_lt_zero i), ?_, fun _ => rfl⟩
    rintro ⟨i, hi, _⟩
    exact absurd hi (Nat.not_lt_zero i)
  | succ m ih =>
    obtain ⟨g1, g2, g3, g4⟩ := ih (Nat.le_of_succ_le hm)
    rw [List.range_succ, List.foldl_append, List.foldl_cons, List.foldl_nil]
    have hlt : m < ((List.range m).foldl (set_parindex_step X pname) (pindex, status)).1.length := by
      rw [g1]
      exact hm
    have hold : ∀ (v : Int) (i : Nat), i < m →
        idx 0 (((List.range m).foldl (set_parindex_step X pname) (pindex, status)).1.set m v) i
          = idx 0 ((List.range m).foldl (set_parindex_step X pname) (pindex, status)).1 i :=
      fun v i hi => idx_set_other _ m i v (Nat.ne_of_lt hi)
    rcases set_parindex_step_spec X pname
      ((List.range m).foldl (set_parindex_step X pname) (pindex, status)) m hlt hneg with
      ⟨h1, h2⟩ | ⟨jj, h1, h2, h3⟩
    · rw [h2]
      refine ⟨by simpa using g1, fun i hi => ?_, fun _ => rfl, fun hall => ?_⟩
      · rcases Nat.lt_succ_iff_lt_or_eq.1 hi with hi' | rfl
        · simp only [hold _ i hi']
          exact g2 i hi'
        · exact Or.inl ⟨h1, idx_set_same _ _ _ hlt⟩
      · obtain ⟨jj, hjj, hm'⟩ := hall m (Nat.lt_succ_self m)
        exact absurd hm' (h1 jj hjj)
    · rw [h3]
      refine ⟨by simpa using g1, fun i hi => ?_, fun hex => ?_, fun hall => ?_⟩
      · rcases Nat.lt_succ_iff_lt_or_eq.1 hi with hi' | rfl
        · simp only [hold _ i hi']
          exact g2 i hi'
        · exact Or.inr ⟨jj, h1, h2, idx_set_same _ _ _ hlt⟩
      · obtain ⟨i, hi, hun⟩ := hex
        rcases Nat.lt_succ_iff_lt_or_eq.1 hi with hi' | rfl
        · exact g3 ⟨i, hi', hun⟩
        · exact absurd h2 (hun jj h1)
      · exact g4 fun i hi => hall i (Nat.lt_succ_of_lt hi)


theorem mem_iff_idx {α : Type} (d : α) (l : List α) (s : α) :
    s ∈ l ↔ ∃ jj : Nat, jj < l.length ∧ s = idx d l jj := by
  constructor
  · intro h
    obtain ⟨jj, hjj, e⟩ := List.mem_iff_getElem.1 h
    refine ⟨jj, hjj, ?_⟩
    rw [idx_natCast, List.getD_eq_getElem _ _ hjj, e]
  · rintro ⟨jj, hjj, e⟩
    rw [idx_natCast, List.getD_eq_getElem _ _ hjj] at e
    rw [e]
    exact List.getElem_mem hjj

/-- C19: with `N_PARAM_MAX = 10`, the length of `global_param_names`, no
parameter identifier equal to `-1`, and `n` names to look up in arrays of at
least `n` entries: `set_parindex_from_parname` sets the error status
`EXIT_FAILURE` if one of the `n` names is none of the known names and leaves
the status as it was if all of them are known; for every name that is known,
`pindex[i]` is the entry of `global_param_index` at a position where
`global_param_names` holds that name, and for every name that is not known
`pindex[i]` is `-1`. -/
theorem axis_name_validation (X : Ext R) (pindex : List Int) (pname : List String)
    (n : Int) (status : Int) (hN : X.N_PARAM_MAX = 10)
    (hneg : ∀ v ∈ global_param_index X, v ≠ -1)
    (hlen : n ≤ (pindex.length : Int)) :
    ((∃ i : Nat, (i : Int) < n ∧ idx "" pname i ∉ global_param_names X) →
      (set_parindex_from_parname X pindex pname n status).2 = EXIT_FAILURE) ∧
    ((∀ i : Nat, (i : Int) < n → idx "" pname i ∈ global_param_names X) →
      (set_parindex_from_parname X pindex pname n status).2 = status) ∧
    (∀ i : Nat, (i : Int) < n →
      (idx "" pname i ∈ global_param_names X →
        ∃ jj : Nat, jj < 10 ∧ idx "" (global_param_names X) jj = idx "" pname i ∧
          idx 0 (set_parindex_from_parname X pindex pname n status).1 i
            = idx 0 (global_param_index X) jj) ∧
      (idx "" pname i ∉ global_param_names X →
        idx 0 (set_parindex_from_parname X pindex pname n status).1 i = -1)) := by
  have hN' : X.N_PARAM_MAX.toNat = 10 := by
    rw [hN]
    rfl
  have hneg' : ∀ jj : Nat, jj < X.N_PARAM_MAX.toNat →
      idx 0 (global_param_index X) jj ≠ -1 := by
    intro jj hjj
    rw [hN'] at hjj
    apply hneg
    exact (mem_iff_idx 0 (global_param_index X) _).2 ⟨jj, hjj, rfl⟩
  have hmem : ∀ s : String, s ∈ global_param_names X ↔
      ∃ jj : Nat, jj < X.N_PARAM_MAX.toNat ∧ s = idx "" (global_param_names X) jj := by
    intro s
    rw [hN']
    exact mem_iff_idx "" (global_param_names X) s
  have hm : n.toNat ≤ pindex.length := by omega
  have hlt : ∀ i : Nat, (i : Int) < n → i < n.toNat := by
    intro i hi
    omega
  obtain ⟨_, g2, g3, g4⟩ := set_parindex_prefix_spec X pindex pname status hneg' n.toNat hm
  unfold set_parindex_from_parname
  refine ⟨?_, ?_, ?_⟩
  · rintro ⟨i, hi, hun⟩
    refine g3 ⟨i, hlt i hi, fun jj hjj e => hun ((hmem _).2 ⟨jj, hjj, e⟩)⟩
  · intro hall
    exact g4 fun i hi => (hmem _).1 (hall i (by omega))
  · intro i hi
    rcases g2 i (hlt i hi) with ⟨h1, h2⟩ | ⟨jj, h1, h2, h3⟩
    · refine ⟨fun hk => ?_, fun _ => h2⟩
      obtain ⟨jj, hjj, e⟩ := (hmem _).1 hk
      exact absurd e (h1 jj hjj)
    · refine ⟨fun _ => ⟨jj, by rw [← hN']; exact h1, h2.symm, h3⟩, fun hun => ?_⟩
      exact absurd ((hmem _).2 ⟨jj, h1, h2⟩) hun

/-- Witness of C19: the names `Gamma`, `Flux`, `Incl` with the constants of
`demoExt`; the second name is not known. -/
theorem axis_name_validation_witness :
    demoExt.N_PARAM_MAX = 10 ∧
    (set_parindex_from_parname demoExt [7, 7, 7] ["Gamma", "Flux", "Incl"] 3
      EXIT_SUCCESS).2 = EXIT_FAILURE :=
  ⟨rfl, (axis_name_validation demoExt [7, 7, 7] ["Gamma", "Flux", "Incl"] 3 EXIT_SUCCESS rfl
    (by decide) (by decide)).1 ⟨1, by decide, by decide⟩⟩


/-! ### The catalog of tables -/

theorem new_xillTable_none (fresh : xillTable R) (num_param : Int) (status : Int)
    (h : (new_xillTable fresh num_param status).1 = none) :
    (new_xillTable fresh num_param status).2 = EXIT_FAILURE := by
  unfold new_xillTable at h ⊢
  simp only [] at h ⊢
  split_ifs at h ⊢ with h1
  rfl

/-- A call of `init_xillver_table` that ends with a good status has stored a new
table in `*inp_tab`. -/
theorem init_success_slot (X : Ext R) (fresh : xillTable R) (file : TableFile R)
    (heap : List (xillTable R)) (inp_tab : Option Nat) (status : Int)
    (r : List (xillTable R) × Option Nat × Int)
    (h : init_xillver_table X fresh file heap inp_tab status = some r)
    (hs : r.2.2 = EXIT_SUCCESS) : r.2.1 = some heap.length := by
  unfold init_xillver_table at h
  by_cases h1 : status ≠ EXIT_SUCCESS
  · rw [if_pos h1] at h
    cases h
    exact absurd hs h1
  rw [if_neg h1] at h
  by_cases h2 : file.open_ok = false
  · rw [if_pos h2] at h
    cases h
    exact absurd hs (show ¬((1 : Int) = 0) by decide)
  rw [if_neg h2] at h
  simp only [] at h
  by_cases h3 : (get_num_param_auto file status).2 ≠ EXIT_SUCCESS
  · rw [if_pos h3] at h
    cases h
    exact absurd hs h3
  rw [if_neg h3] at h
  cases h4 : (new_xillTable fresh (get_num_param_auto file status).1
      (get_num_param_auto file status).2).1 with
  | none =>
    have h5 := new_xillTable_none _ _ _ h4
    rw [h4] at h
    simp only [] at h
    rw [h5] at h
    rw [if_neg (by decide)] at h
    cases h
    exact absurd hs (show ¬((1 : Int) = 0) by decide)
  | some tab =>
    rw [h4] at h
    simp only [] at h
    obtain ⟨pa, _, h6⟩ := Option.bind_eq_some.1 h
    obtain ⟨ds, _, h7⟩ := Option.bind_eq_some.1 h6
    by_cases h8 : ds.2 = EXIT_SUCCESS
    · rw [if_pos h8] at h7
      cases h7
      rfl
    · rw [if_neg h8] at h7
      cases h7
      exact absurd hs h8


/-- A call of `get_init_xillver_table` with a good status for a variant whose
global pointer is set: the pointer and the file name of the variant are
returned, and nothing changes. -/
theorem get_init_hit (X : Ext R) (ids : TableIds) (fresh : xillTable R)
    (files : String → TableFile R) (cat : Catalog R) (tab : Option Nat)
    (model_type prim_type : Int) (a : Nat) :
    (get_xilltable_id X ids model_type prim_type = ids.XILLTABLE_ID_STANDARD →
      cat.cached_xill_tab = some a →
      get_init_xillver_table X ids fresh files cat tab model_type prim_type EXIT_SUCCESS
        = some { cat := cat, tab := some a, fname := some X.XILLTABLE_FILENAME,
                 status := EXIT_SUCCESS }) ∧
    (get_xilltable_id X ids model_type prim_type ≠ ids.XILLTABLE_ID_STANDARD →
      get_xilltable_id X ids model_type prim_type = ids.XILLTABLE_ID_NTHCOMP →
      cat.cached_xill_tab_dens_nthcomp = some a →
      get_init_xillver_table X ids fresh files cat tab model_type prim_type EXIT_SUCCESS
        = some { cat := cat, tab := some a, fname := some X.XILLTABLE_NTHCOMP_FILENAME,
                 status := EXIT_SUCCESS }) ∧
    (get_xilltable_id X ids model_type prim_type ≠ ids.XILLTABLE_ID_STANDARD →
      get_xilltable_id X ids model_type prim_type ≠ ids.XILLTABLE_ID_NTHCOMP →
      get_xilltable_id X ids model_type prim_type = ids.XILLTABLE_ID_NS →
      cat.cached_xill_tab_ns = some a →
      get_init_xillver_table X ids fresh files cat tab model_type prim_type EXIT_SUCCESS
        = some { cat := cat, tab := some a, fname := some X.XILLTABLE_NS_FILENAME,
                 status := EXIT_SUCCESS }) ∧
    (get_xilltable_id X ids model_type prim_type ≠ ids.XILLTABLE_ID_STANDARD →
      get_xilltable_id X ids model_type prim_type ≠ ids.XILLTABLE_ID_NTHCOMP →
      get_xilltable_id X ids model_type prim_type ≠ ids.XILLTABLE_ID_NS →
      get_xilltable_id X ids model_type prim_type = ids.XILLTABLE_ID_CO →
      cat.cached_xill_tab_co = some a →
      get_init_xillver_table X ids fresh files cat tab model_type prim_type EXIT_SUCCESS
        = some { cat := cat, tab := some a, fname := some X.XILLTABLE_CO_FILENAME,
                 status := EXIT_SUCCESS }) := by
  refine ⟨fun h1 hc => ?_, fun h1 h2 hc => ?_, fun h1 h2 h3 hc => ?_,
    fun h1 h2 h3 h4 hc => ?_⟩
  · unfold get_init_xillver_table
    rw [if_neg (fun hne => hne rfl)]
    simp only []
    rw [if_pos h1, hc, if_neg (by simp)]
  · unfold get_init_xillver_table
    rw [if_neg (fun hne => hne rfl)]
    simp only []
    rw [if_neg h1, if_pos h2, hc, if_neg (by simp)]
  · unfold get_init_xillver_table
    rw [if_neg (fun hne => hne rfl)]
    simp only []
    rw [if_neg h1, if_neg h2, if_pos h3, hc, if_neg (by simp)]
  · unfold get_init_xillver_table
    rw [if_neg (fun hne => hne rfl)]
    simp only []
    rw [if_neg h1, if_neg h2, if_neg h3, if_pos h4, hc, if_neg (by simp)]


/-- A call of `get_init_xillver_table` that ends with a good status: the status
was good on entry, and the pointer returned is the global pointer of the
variant, which is set, together with the file name of the variant. -/
theorem get_init_success (X : Ext R) (ids : TableIds) (fresh : xillTable R)
    (files : String → TableFile R) (cat : Catalog R) (tab : Option Nat)
    (model_type prim_type status : Int) (g : GetInitResult R)
    (h : get_init_xillver_table X ids fresh files cat tab model_type prim_type status = some g)
    (hs : g.status = EXIT_SUCCESS) :
    status = EXIT_SUCCESS ∧ ∃ a : Nat, g.tab = some a ∧
      ((get_xilltable_id X ids model_type prim_type = ids.XILLTABLE_ID_STANDARD ∧
          g.cat.cached_xill_tab = some a ∧ g.fname = some X.XILLTABLE_FILENAME) ∨
        (get_xilltable_id X ids model_type prim_type ≠ ids.XILLTABLE_ID_STANDARD ∧
          get_xilltable_id X ids model_type prim_type = ids.XILLTABLE_ID_NTHCOMP ∧
          g.cat.cached_xill_tab_dens_nthcomp = some a ∧
          g.fname = some X.XILLTABLE_NTHCOMP_FILENAME) ∨
        (get_xilltable_id X ids model_type prim_type ≠ ids.XILLTABLE_ID_STANDARD ∧
          get_xilltable_id X ids model_type prim_type ≠ ids.XILLTABLE_ID_NTHCOMP ∧
          get_xilltable_id X ids model_type prim_type = ids.XILLTABLE_ID_NS ∧
          g.cat.cached_xill_tab_ns = some a ∧ g.fname = some X.XILLTABLE_NS_FILENAME) ∨
        (get_xilltable_id X ids model_type prim_type ≠ ids.XILLTABLE_ID_STANDARD ∧
          get_xilltable_id X ids model_type prim_type ≠ ids.XILLTABLE_ID_NTHCOMP ∧
          get_xilltable_id X ids model_type prim_type ≠ ids.XILLTABLE_ID_NS ∧
          get_xilltable_id X ids model_type prim_type = ids.XILLTABLE_ID_CO ∧
          g.cat.cached_xill_tab_co = some a ∧ g.fname = some X.XILLTABLE_CO_FILENAME)) := by
  unfold get_init_xillver_table at h
  by_cases h0 : status ≠ EXIT_SUCCESS
  · rw [if_pos h0] at h
    cases h
    exact absurd hs h0
  rw [if_neg h0] at h
  simp only [] at h
  refine ⟨not_not.1 h0, ?_⟩
  by_cases h1 : get_xilltable_id X ids model_type prim_type = ids.XILLTABLE_ID_STANDARD
  · rw [if_pos h1] at h
    by_cases hn : cat.cached_xill_tab = none
    · rw [if_pos hn] at h
      obtain ⟨r, hr, hg⟩ := Option.map_eq_some'.1 h
      subst hg
      have hslot := init_success_slot X fresh _ _ _ _ r hr hs
      exact ⟨cat.heap.length, hslot, Or.inl ⟨h1, hslot, rfl⟩⟩
    · rw [if_neg hn] at h
      cases h
      obtain ⟨a, ha⟩ := Option.ne_none_iff_exists'.1 hn
      exact ⟨a, ha, Or.inl ⟨h1, ha, rfl⟩⟩
  rw [if_neg h1] at h
  by_cases h2 : get_xilltable_id X ids model_type prim_type = ids.XILLTABLE_ID_NTHCOMP
  · rw [if_pos h2] at h
    by_cases hn : cat.cached_xill_tab_dens_nthcomp = none
    · rw [if_pos hn] at h
      obtain ⟨r, hr, hg⟩ := Option.map_eq_some'.1 h
      by_cases hr2 : r.2.2 ≠ EXIT_SUCCESS
      · rw [if_pos hr2] at hg
        subst hg
        exact absurd hs hr2
      · rw [if_neg hr2] at hg
        subst hg
        have hslot := init_success_slot X fresh _ _ _ _ r hr hs
        exact ⟨cat.heap.length, hslot, Or.inr (Or.inl ⟨h1, h2, hslot, rfl⟩)⟩
    · rw [if_neg hn] at h
      cases h
      obtain ⟨a, ha⟩ := Option.ne_none_iff_exists'.1 hn
      exact ⟨a, ha, Or.inr (Or.inl ⟨h1, h2, ha, rfl⟩)⟩
  rw [if_neg h2] at h
  by_cases h3 : get_xilltable_id X ids model_type prim_type = ids.XILLTABLE_ID_NS
  · rw [if_pos h3] at h
    by_cases hn : cat.cached_xill_tab_ns = none
    · rw [if_pos hn] at h
      obtain ⟨r, hr, hg⟩ := Option.map_eq_some'.1 h
      by_cases hr2 : r.2.2 ≠ EXIT_SUCCESS
      · rw [if_pos hr2] at hg
        subst hg
        exact absurd hs hr2
      · rw [if_neg hr2] at hg
        subst hg
        have hslot := init_success_slot X fresh _ _ _ _ r hr hs
        exact ⟨cat.heap.length, hslot, Or.inr (Or.inr (Or.inl ⟨h1, h2, h3, hslot, rfl⟩))⟩
    · rw [if_neg hn] at h
      cases h
      obtain ⟨a, ha⟩ := Option.ne_none_iff_exists'.1 hn
      exact ⟨a, ha, Or.inr (Or.inr (Or.inl ⟨h1, h2, h3, ha, rfl⟩))⟩
  rw [if_neg h3] at h
  by_cases h4 : get_xilltable_id X ids model_type prim_type = ids.XILLTABLE_ID_CO
  · rw [if_pos h4] at h
    by_cases hn : cat.cached_xill_tab_co = none
    · rw [if_pos hn] at h
      obtain ⟨r, hr, hg⟩ := Option.map_eq_some'.1 h
      by_cases hr2 : r.2.2 ≠ EXIT_SUCCESS
      · rw [if_pos hr2] at hg
        subst hg
        exact absurd hs hr2
      · rw [if_neg hr2] at hg
        subst hg
        have hslot := init_success_slot X fresh _ _ _ _ r hr hs
        exact ⟨cat.heap.length, hslot, Or.inr (Or.inr (Or.inr ⟨h1, h2, h3, h4, hslot, rfl⟩))⟩
    · rw [if_neg hn] at h
      cases h
      obtain ⟨a, ha⟩ := Option.ne_none_iff_exists'.1 hn
      exact ⟨a, ha, Or.inr (Or.inr (Or.inr ⟨h1, h2, h3, h4, ha, rfl⟩))⟩
  rw [if_neg h4] at h
  cases h
  exact absurd hs (show ¬((1 : Int) = 0) by decide)


theorem pointers_kept_refl (c : Catalog R) : pointers_kept c c :=
  fun _ => ⟨id, id, id, id, id, id⟩

theorem pointers_kept_trans {c1 c2 c3 : Catalog R} (h12 : pointers_kept c1 c2)
    (h23 : pointers_kept c2 c3) : pointers_kept c1 c3 :=
  fun a => ⟨fun h => (h23 a).1 ((h12 a).1 h), fun h => (h23 a).2.1 ((h12 a).2.1 h),
    fun h => (h23 a).2.2.1 ((h12 a).2.2.1 h), fun h => (h23 a).2.2.2.1 ((h12 a).2.2.2.1 h),
    fun h => (h23 a).2.2.2.2.1 ((h12 a).2.2.2.2.1 h),
    fun h => (h23 a).2.2.2.2.2 ((h12 a).2.2.2.2.2 h)⟩

/-- A call of `get_init_xillver_table` changes no global pointer that is set. -/
theorem get_init_keeps (X : Ext R) (ids : TableIds) (fresh : xillTable R)
    (files : String → TableFile R) (cat : Catalog R) (tab : Option Nat)
    (model_type prim_type status : Int) (g : GetInitResult R)
    (h : get_init_xillver_table X ids fresh files cat tab model_type prim_type status = some g) :
    pointers_kept cat g.cat := by
  unfold get_init_xillver_table at h
  by_cases h0 : status ≠ EXIT_SUCCESS
  · rw [if_pos h0] at h
    cases h
    exact pointers_kept_refl cat
  rw [if_neg h0] at h
  simp only [] at h
  by_cases h1 : get_xilltable_id X ids model_type prim_type = ids.XILLTABLE_ID_STANDARD
  · rw [if_pos h1] at h
    by_cases hn : cat.cached_xill_tab = none
    · rw [if_pos hn] at h
      obtain ⟨r, hr, hg⟩ := Option.map_eq_some'.1 h
      subst hg
      intro a
      refine ⟨fun ha => ?_, id, id, id, id, id⟩
      rw [hn] at ha
      cases ha
    · rw [if_neg hn] at h
      cases h
      exact pointers_kept_refl cat
  rw [if_neg h1] at h
  by_cases h2 : get_xilltable_id X ids model_type prim_type = ids.XILLTABLE_ID_NTHCOMP
  · rw [if_pos h2] at h
    by_cases hn : cat.cached_xill_tab_dens_nthcomp = none
    · rw [if_pos hn] at h
      obtain ⟨r, hr, hg⟩ := Option.map_eq_some'.1 h
      have hk : ∀ a : Nat, cat.cached_xill_tab_dens_nthcomp = some a → False := by
        intro a ha
        rw [hn] at ha
        cases ha
      by_cases hr2 : r.2.2 ≠ EXIT_SUCCESS
      · rw [if_pos hr2] at hg
        subst hg
        exact fun a => ⟨id, id, id, fun ha => (hk a ha).elim, id, id⟩
      · rw [if_neg hr2] at hg
        subst hg
        exact fun a => ⟨id, id, id, fun ha => (hk a ha).elim, id, id⟩
    · rw [if_neg hn] at h
      cases h
      exact pointers_kept_refl cat
  rw [if_neg h2] at h
  by_cases h3 : get_xilltable_id X ids model_type prim_type = ids.XILLTABLE_ID_NS
  · rw [if_pos h3] at h
    by_cases hn : cat.cached_xill_tab_ns = none
    · rw [if_pos hn] at h
      obtain ⟨r, hr, hg⟩ := Option.map_eq_some'.1 h
      have hk : ∀ a : Nat, cat.cached_xill_tab_ns = some a → False := by
        intro a ha
        rw [hn] at ha
        cases ha
      by_cases hr2 : r.2.2 ≠ EXIT_SUCCESS
      · rw [if_pos hr2] at hg
        subst hg
        exact fun a => ⟨id, id, id, id, fun ha => (hk a ha).elim, id⟩
      · rw [if_neg hr2] at hg
        subst hg
        exact fun a => ⟨id, id, id, id, fun ha => (hk a ha).elim, id⟩
    · rw [if_neg hn] at h
      cases h
      exact pointers_kept_refl cat
  rw [if_neg h3] at h
  by_cases h4 : get_xilltable_id X ids model_type prim_type = ids.XILLTABLE_ID_CO
  · rw [if_pos h4] at h
    by_cases hn : cat.cached_xill_tab_co = none
    · rw [if_pos hn] at h
      obtain ⟨r, hr, hg⟩ := Option.map_eq_some'.1 h
      have hk : ∀ a : Nat, cat.cached_xill_tab_co = some a → False := by
        intro a ha
        rw [hn] at ha
        cases ha
      by_cases hr2 : r.2.2 ≠ EXIT_SUCCESS
      · rw [if_pos hr2] at hg
        subst hg
        exact fun a => ⟨id, id, id, id, id, fun ha => (hk a ha).elim⟩
      · rw [if_neg hr2] at hg
        subst hg
        exact fun a => ⟨id, id, id, id, id, fun ha => (hk a ha).elim⟩
    · rw [if_neg hn] at h
      cases h
      exact pointers_kept_refl cat
  rw [if_neg h4] at h
  cases h
  exact pointers_kept_refl cat

theorem run_catalog_op_keeps (X : Ext R) (ids : TableIds) (cat cat2 : Catalog R)
    (op : CatalogOp R) (h : run_catalog_op X ids cat op = some cat2) :
    pointers_kept cat cat2 := by
  cases op with
  | query fresh files tab model_type prim_type status =>
    simp only [run_catalog_op] at h
    obtain ⟨g, hg, e⟩ := Option.map_eq_some'.1 h
    subst e
    exact get_init_keeps X ids fresh files cat tab model_type prim_type status g hg
  | load a fits param ind status =>
    simp only [run_catalog_op] at h
    cases ht : cat.heap[a]? with
    | none =>
      rw [ht] at h
      rw [← Option.some.inj h]
      exact pointers_kept_refl cat
    | some t =>
      rw [ht] at h
      rw [← Option.some.inj h]
      exact fun _ => ⟨id, id, id, id, id, id⟩

/-- No sequence of calls of `get_init_xillver_table` and `check_xilltab_cache`
changes a global pointer that is set. -/
theorem run_catalog_ops_keeps (X : Ext R) (ids : TableIds) (ops : List (CatalogOp R))
    (cat cat2 : Catalog R) (h : run_catalog_ops X ids cat ops = some cat2) :
    pointers_kept cat cat2 := by
  induction ops generalizing cat with
  | nil =>
    simp only [run_catalog_ops] at h
    rw [← Option.some.inj h]
    exact pointers_kept_refl cat
  | cons op ops ih =>
    simp only [run_catalog_ops] at h
    obtain ⟨c, hc, h2⟩ := Option.bind_eq_some.1 h
    exact pointers_kept_trans (run_catalog_op_keeps X ids cat c op hc) (ih c h2)


/-- C16: once a call of `get_init_xillver_table` has ended with a good status,
after any sequence of further calls of `get_init_xillver_table` and of
`check_xilltab_cache` on cached tables, every call entered with a good status
that resolves to the same variant returns the same pointer, which is not
NULL, and the same file name, with a good status and the catalog unchanged: in
particular `init_xillver_table` is not called again, whatever the model and
primary-spectrum types, the table files and the pointer of the caller are. -/
theorem catalog_singleton (X : Ext R) (ids : TableIds)
    (fresh1 : xillTable R) (files1 : String → TableFile R) (cat0 : Catalog R)
    (tab1 : Option Nat) (model_type1 prim_type1 status1 : Int) (g1 : GetInitResult R)
    (h1 : get_init_xillver_table X ids fresh1 files1 cat0 tab1 model_type1 prim_type1 status1
      = some g1)
    (hs1 : g1.status = EXIT_SUCCESS)
    (ops : List (CatalogOp R)) (cat2 : Catalog R)
    (hops : run_catalog_ops X ids g1.cat ops = some cat2)
    (fresh2 : xillTable R) (files2 : String → TableFile R) (tab2 : Option Nat)
    (model_type2 prim_type2 : Int)
    (hid : get_xilltable_id X ids model_type2 prim_type2
      = get_xilltable_id X ids model_type1 prim_type1) :
    g1.tab ≠ none ∧ g1.fname ≠ none ∧
    get_init_xillver_table X ids fresh2 files2 cat2 tab2 model_type2 prim_type2 EXIT_SUCCESS
      = some { cat := cat2, tab := g1.tab, fname := g1.fname, status := EXIT_SUCCESS } := by
  obtain ⟨_, a, ha, hcase⟩ :=
    get_init_success X ids fresh1 files1 cat0 tab1 model_type1 prim_type1 status1 g1 h1 hs1
  have hk := run_catalog_ops_keeps X ids ops g1.cat cat2 hops a
  have hit := get_init_hit X ids fresh2 files2 cat2 tab2 model_type2 prim_type2 a
  rw [hid] at hit
  rw [ha]
  rcases hcase with ⟨e1, hc, hf⟩ | ⟨e1, e2, hc, hf⟩ | ⟨e1, e2, e3, hc, hf⟩ |
    ⟨e1, e2, e3, e4, hc, hf⟩
  · rw [hf]
    exact ⟨by simp, by simp, hit.1 e1 (hk.1 hc)⟩
  · rw [hf]
    exact ⟨by simp, by simp, hit.2.1 e1 e2 (hk.2.2.2.1 hc)⟩
  · rw [hf]
    exact ⟨by simp, by simp, hit.2.2.1 e1 e2 e3 (hk.2.2.2.2.1 hc)⟩
  · rw [hf]
    exact ⟨by simp, by simp, hit.2.2.2 e1 e2 e3 e4 (hk.2.2.2.2.2 hc)⟩

/-- Witness of C16: on the empty catalog the standard table is initialised from
`demoTableFile`; a second call for the standard variant with another
primary-spectrum type, made when the file behind the name has become
`lastAxisEcutFile`, returns the same pointer and file name and leaves the
catalog as it is. -/
theorem catalog_singleton_witness :
    ∃ g1 : GetInitResult ℚ,
      get_init_xillver_table demoExt demoIds emptyTable (fun _ => demoTableFile)
        empty_catalog none 0 0 EXIT_SUCCESS = some g1 ∧
      g1.status = EXIT_SUCCESS ∧
      get_init_xillver_table demoExt demoIds emptyTable (fun _ => lastAxisEcutFile)
        g1.cat none 0 7 EXIT_SUCCESS
        = some { cat := g1.cat, tab := g1.tab, fname := g1.fname, status := EXIT_SUCCESS } :=
  have hm : (get_init_xillver_table demoExt demoIds emptyTable (fun _ => demoTableFile)
      empty_catalog none 0 0 EXIT_SUCCESS).map (fun g => g.status) = some EXIT_SUCCESS := by
    decide
  match Option.map_eq_some'.1 hm with
  | ⟨g1, hg, hs⟩ =>
    ⟨g1, hg, hs,
      (catalog_singleton demoExt demoIds emptyTable (fun _ => demoTableFile) empty_catalog none
        0 0 EXIT_SUCCESS g1 hg hs [] g1.cat rfl emptyTable
        (fun _ => lastAxisEcutFile) none 0 7 (by decide)).2.2⟩

/-! ### The teardown -/

/-- What `free_cached_xillTable` does to the catalog: three pointers are passed
to `free_xillTable`, and nothing else changes. -/
theorem free_cached_xillTable_eq (cat : Catalog R) :
    free_cached_xillTable cat
      = { cat with released := cat.released ++ cat.cached_xill_tab.toList
            ++ cat.cached_xill_tab_dens.toList ++ cat.cached_xill_tab_nthcomp.toList } := by
  obtain ⟨heap, rel, p1, p2, p3, p4, p5, p6, ic⟩ := cat
  cases p1 <;> cases p2 <;> cases p3 <;> simp [free_cached_xillTable, free_xillTable]

/-- C17 (refuted): `free_cached_xillTable` frees the tables behind
`cached_xill_tab`, `cached_xill_tab_dens` and `cached_xill_tab_nthcomp` and
leaves the six global pointers as they are.  So, when the standard table is
cached at `a`: after the teardown `a` is released and `cached_xill_tab` still
holds `a`; the pointers of the thermal-Comptonization, neutron-star and CO
tables are unchanged and the only pointers released by the call are the three
named above; and the next call of `get_init_xillver_table` for the standard
variant returns the released pointer `a` with a good status, without a call of
`init_xillver_table`. -/
theorem teardown_leaves_catalog (X : Ext R) (ids : TableIds) (fresh : xillTable R)
    (files : String → TableFile R) (cat : Catalog R) (tab : Option Nat)
    (model_type prim_type : Int) (a : Nat)
    (hc : cat.cached_xill_tab = some a)
    (hid : get_xilltable_id X ids model_type prim_type = ids.XILLTABLE_ID_STANDARD) :
    a ∈ (free_cached_xillTable cat).released ∧
    (free_cached_xillTable cat).cached_xill_tab = some a ∧
    (free_cached_xillTable cat).cached_xill_tab_dens_nthcomp
      = cat.cached_xill_tab_dens_nthcomp ∧
    (free_cached_xillTable cat).cached_xill_tab_ns = cat.cached_xill_tab_ns ∧
    (free_cached_xillTable cat).cached_xill_tab_co = cat.cached_xill_tab_co ∧
    (∀ b : Nat, b ∈ (free_cached_xillTable cat).released →
      b ∈ cat.released ∨ cat.cached_xill_tab = some b ∨ cat.cached_xill_tab_dens = some b ∨
        cat.cached_xill_tab_nthcomp = some b) ∧
    get_init_xillver_table X ids fresh files (free_cached_xillTable cat) tab model_type
        prim_type EXIT_SUCCESS
      = some { cat := free_cached_xillTable cat, tab := some a,
               fname := some X.XILLTABLE_FILENAME, status := EXIT_SUCCESS } := by
  have hp : (free_cached_xillTable cat).cached_xill_tab = some a := by
    rw [free_cached_xillTable_eq]
    exact hc
  refine ⟨?_, hp, ?_, ?_, ?_, ?_, ?_⟩
  · rw [free_cached_xillTable_eq]
    simp [hc]
  · rw [free_cached_xillTable_eq]
  · rw [free_cached_xillTable_eq]
  · rw [free_cached_xillTable_eq]
  · intro b hb
    rw [free_cached_xillTable_eq] at hb
    simp only [List.mem_append, Option.mem_toList, Option.mem_def] at hb
    tauto
  · exact (get_init_hit X ids fresh files (free_cached_xillTable cat) tab model_type
      prim_type a).1 hid hp


/-- Witness of C17: the catalog after the initialisation of the standard table
(at pointer 0) and of the thermal-Comptonization table (at pointer 1).  After
the teardown the standard pointer is released and still stored, a further call
for the standard variant returns it, and the thermal-Comptonization table is
neither released nor forgotten. -/
theorem teardown_leaves_catalog_witness :
    ∃ cat : Catalog ℚ,
      run_catalog_ops demoExt demoIds empty_catalog
        [CatalogOp.query emptyTable (fun _ => demoTableFile) none 0 0 EXIT_SUCCESS,
          CatalogOp.query emptyTable (fun _ => demoTableFile) none 0 2 EXIT_SUCCESS]
        = some cat ∧
      cat.cached_xill_tab = some 0 ∧ cat.cached_xill_tab_dens_nthcomp = some 1 ∧
      0 ∈ (free_cached_xillTable cat).released ∧
      1 ∉ (free_cached_xillTable cat).released ∧
      (free_cached_xillTable cat).cached_xill_tab_dens_nthcomp = some 1 ∧
      get_init_xillver_table demoExt demoIds emptyTable (fun _ => demoTableFile)
          (free_cached_xillTable cat) none 0 0 EXIT_SUCCESS
        = some { cat := free_cached_xillTable cat, tab := some 0,
                 fname := some demoExt.XILLTABLE_FILENAME, status := EXIT_SUCCESS } := by
  have hm : (run_catalog_ops demoExt demoIds empty_catalog
      [CatalogOp.query emptyTable (fun _ => demoTableFile) none 0 0 EXIT_SUCCESS,
        CatalogOp.query emptyTable (fun _ => demoTableFile) none 0 2 EXIT_SUCCESS]).map
      (fun c => (c.cached_xill_tab, c.cached_xill_tab_dens_nthcomp, c.released,
        c.cached_xill_tab_dens, c.cached_xill_tab_nthcomp))
      = some (some 0, some 1, [], none, none) := by decide
  obtain ⟨cat, hcat, hf⟩ := Option.map_eq_some'.1 hm
  simp only [Prod.mk.injEq] at hf
  obtain ⟨h1, h2, h3, h4, h5⟩ := hf
  have T := teardown_leaves_catalog demoExt demoIds emptyTable (fun _ => demoTableFile) cat
    none 0 0 0 h1 (by decide)
  refine ⟨cat, hcat, h1, h2, T.1, ?_, ?_, T.2.2.2.2.2.2⟩
  · intro h
    rcases T.2.2.2.2.2.1 1 h with h | h | h | h
    · rw [h3] at h
      cases h
    · rw [h1] at h
      cases h
    · rw [h4] at h
      cases h
    · rw [h5] at h
      cases h
  · rw [T.2.2.1]
    exact h2


/-! ### The name of the last axis -/

/-- The name of the last axis after the read of the names, when the file holds
as many names as the table has axes. -/
theorem last_name_read (names junk : List String) (np : Int) (h56 : np = 5 ∨ np = 6)
    (hlen : (names.length : Int) = np) :
    idx "" ((List.range np.toNat).map fun (k : Nat) => names.getD k (junk.getD k ""))
      (np - 1) = idx "" names (np - 1) := by
  have h1 : (np - 1 : Int) = (((np - 1).toNat : Nat) : Int) := by omega
  have h2 : (np - 1).toNat < np.toNat := by omega
  have h3 : (np - 1).toNat < names.length := by omega
  rw [h1, idx_map_range "" np.toNat _ h2, idx_natCast, List.getD_eq_getElem _ _ h3,
    List.getD_eq_getElem _ _ h3]

/-- The assertion of `get_xilltable_parameters` fails when the status is good on
entry, the extension is found, it has one row per axis, the numbers of values
and the names are read, and the last name does not start with `Incl`. -/
theorem get_xilltable_parameters_abort (X : Ext R) (fresh : xillTable R)
    (file : TableFile R) (tab : xillTable R) (nv : List Int) (names : List String)
    (h56 : tab.num_param = 5 ∨ tab.num_param = 6)
    (hp1 : file.par_movnam_ok = true) (hp2 : file.par_rows = some tab.num_param)
    (hp3 : file.par_nvals = some nv) (hp4 : file.par_names = some names)
    (hlen : (names.length : Int) = tab.num_param)
    (hlast : is_incl_name (idx "" names (tab.num_param - 1)) = false) :
    get_xilltable_parameters X fresh file tab EXIT_SUCCESS = none := by
  unfold get_xilltable_parameters
  rw [if_neg (fun hne => hne rfl), hp1, if_neg (by simp), hp2]
  simp only [ne_eq, not_true_eq_false, if_false, hp3, hp4]
  rw [last_name_read names _ tab.num_param h56 hlen, hlast]
  rfl


theorem new_xillTable_some (fresh : xillTable R) (num_param : Int) (status : Int)
    (h56 : num_param = 5 ∨ num_param = 6) :
    ∃ tab, new_xillTable fresh num_param status = (some tab, status) ∧
      tab.num_param = num_param := by
  unfold new_xillTable
  simp only []
  rw [if_neg (not_not.2 h56)]
  exact ⟨_, rfl, rfl⟩

/-- The read of the energy grid, when every call succeeds: the status stays good
and the number of axes is untouched. -/
theorem get_xilltable_ener_ok (X : Ext R) (file : TableFile R) (tab : xillTable R)
    (ne : Int) (lo hi : List R) (he1 : file.ener_movnam_ok = true)
    (he2 : file.ener_rows = some ne) (he3 : file.elo = some lo) (he4 : file.ehi = some hi) :
    (get_xilltable_ener X file tab EXIT_SUCCESS).2 = EXIT_SUCCESS ∧
    (get_xilltable_ener X file tab EXIT_SUCCESS).1.num_param = tab.num_param := by
  unfold get_xilltable_ener
  rw [if_neg (fun hne => hne rfl), he1, if_neg (by simp), he2]
  simp only [he3, he4, and_self]

/-- C20 (amended): when the table file can be opened, its first table has 5 or 6
rows, the energy grid is read, the extension `PARAMETERS` has one row per axis
and the numbers of values and the names of the axes are read, and the first
four characters of the name of the last axis are not `Incl`, then
`init_xillver_table` does not return: the assertion in
`get_xilltable_parameters` fails.  No status reaches the caller. -/
theorem last_axis_assertion (X : Ext R) (fresh : xillTable R) (file : TableFile R)
    (heap : List (xillTable R)) (inp_tab : Option Nat) (np ne : Int) (lo hi : List R)
    (nv : List Int) (names : List String)
    (hopen : file.open_ok = true) (hnum : file.num_rows = some np)
    (h56 : np = 5 ∨ np = 6)
    (he1 : file.ener_movnam_ok = true) (he2 : file.ener_rows = some ne)
    (he3 : file.elo = some lo) (he4 : file.ehi = some hi)
    (hp1 : file.par_movnam_ok = true) (hp2 : file.par_rows = some np)
    (hp3 : file.par_nvals = some nv) (hp4 : file.par_names = some names)
    (hlen : (names.length : Int) = np)
    (hlast : is_incl_name (idx "" names (np - 1)) = false) :
    init_xillver_table X fresh file heap inp_tab EXIT_SUCCESS = none := by
  have hnp : get_num_param_auto file EXIT_SUCCESS = (np, EXIT_SUCCESS) := by
    unfold get_num_param_auto
    rw [if_neg (fun hne => hne rfl), hnum]
  obtain ⟨tab, htab, htn⟩ := new_xillTable_some fresh np EXIT_SUCCESS h56
  obtain ⟨hen1, hen2⟩ := get_xilltable_ener_ok X file tab ne lo hi he1 he2 he3 he4
  have hab : get_xilltable_parameters X fresh file
      (get_xilltable_ener X file tab EXIT_SUCCESS).1 EXIT_SUCCESS = none := by
    apply get_xilltable_parameters_abort X fresh file _ nv names
    · rw [hen2, htn]
      exact h56
    · exact hp1
    · rw [hen2, htn]
      exact hp2
    · exact hp3
    · exact hp4
    · rw [hen2, htn]
      exact hlen
    · rw [hen2, htn]
      exact hlast
  unfold init_xillver_table
  rw [if_neg (fun hne => hne rfl), hopen, if_neg (by simp)]
  simp only [hnp, htab, ne_eq, not_true_eq_false, if_false, hen1, hab, Option.none_bind]

/-- Witness of C20: the file `lastAxisEcutFile`, in which every name is known and
the last axis is `Ecut`. -/
theorem last_axis_assertion_witness :
    is_incl_name (idx "" ["Gamma", "A_Fe", "logXi", "Incl", "Ecut"] (5 - 1)) = false ∧
    init_xillver_table demoExt emptyTable lastAxisEcutFile [] none EXIT_SUCCESS = none :=
  ⟨by decide,
    last_axis_assertion demoExt emptyTable lastAxisEcutFile [] none 5 2 [1, 2] [2, 3]
      [2, 2, 2, 2, 2] ["Gamma", "A_Fe", "logXi", "Incl", "Ecut"] rfl rfl (Or.inl rfl) rfl rfl
      rfl rfl rfl rfl rfl rfl (by decide) (by decide)⟩

/-- Counterexample to C20: with the file `lastAxisEcutFile`, whose last axis is
named `Ecut`, a call of `get_init_xillver_table` for the standard table on the
empty catalog does not return a status: the run ends in the assertion.  With
the names in the right order, `demoTableFile`, the same call returns a good
status. -/
theorem last_axis_status_counterexample :
    (get_init_xillver_table demoExt demoIds emptyTable (fun _ => lastAxisEcutFile)
      empty_catalog none 0 0 EXIT_SUCCESS).isSome = false ∧
    (get_init_xillver_table demoExt demoIds emptyTable (fun _ => demoTableFile)
      empty_catalog none 0 0 EXIT_SUCCESS).map (fun g => g.status) = some EXIT_SUCCESS := by
  constructor <;> decide


/-! ### Clamping of an input value -/

/-- C29: in every energy bin `e < n_ener` the output of `interp_5d_tab` is the
sum over the 32 bit vectors `(b1,..,b5)` of the product of the five weights
(`f_k` if `b_k` is set, `1 - f_k` otherwise) times the value stored at corner
`(i0, i1+b1, i2+b2, i3+b3, i4+b4, i5+b5)`, for every table in which the 32
corners are loaded: each corner enters once, with the weight of its own bit
pattern. -/
theorem interp_5d_tab_multilinear (tab : xillTable R) (n_ener : Nat)
    (f1 f2 f3 f4 f5 : R) (i0 i1 i2 i3 i4 i5 : Int)
    (h : cell32 tab n_ener i0 i1 i2 i3 i4 i5) :
    ∃ flu, interp_5d_tab tab n_ener f1 f2 f3 f4 f5 i0 i1 i2 i3 i4 i5 = some flu ∧
      flu.length = n_ener ∧
      ∀ e, e < n_ener →
        flu[e]? = some (∑ b1 : Bool, ∑ b2 : Bool, ∑ b3 : Bool, ∑ b4 : Bool, ∑ b5 : Bool,
          (wgt f1 b1 * wgt f2 b2 * wgt f3 b3 * wgt f4 b4 * wgt f5 b5) *
            specval tab i0 (i1 + b2i b1) (i2 + b2i b2) (i3 + b2i b3) (i4 + b2i b4)
              (i5 + b2i b5) e) := by
  refine ⟨_, interp_5d_tab_eq tab n_ener f1 f2 f3 f4 f5 i0 i1 i2 i3 i4 i5 h, by simp, ?_⟩
  intro e he
  simp [he, multilinear5]

/-- Witness of C29 on `demoTable`, at the base corner `(0,0,0,0,0,0)`. -/
theorem interp_5d_tab_multilinear_witness :
    cell32 demoTable 2 0 0 0 0 0 0 ∧
    ∃ flu, interp_5d_tab demoTable 2 (1 / 2) (1 / 4) 0 1 (1 / 3) 0 0 0 0 0 0 = some flu ∧
      flu.length = 2 ∧
      ∀ e, e < 2 →
        flu[e]? = some (∑ b1 : Bool, ∑ b2 : Bool, ∑ b3 : Bool, ∑ b4 : Bool, ∑ b5 : Bool,
          (wgt (1 / 2) b1 * wgt (1 / 4) b2 * wgt 0 b3 * wgt 1 b4 * wgt (1 / 3) b5) *
            specval demoTable 0 (0 + b2i b1) (0 + b2i b2) (0 + b2i b3) (0 + b2i b4)
              (0 + b2i b5) e) :=
  have h32 : cell32 demoTable 2 0 0 0 0 0 0 := by unfold cell32; decide
  ⟨h32, interp_5d_tab_multilinear demoTable 2 (1 / 2) (1 / 4) 0 1 (1 / 3) 0 0 0 0 0 0 h32⟩


/-! ### The storage array -/

theorem axis_product_upto_succ (tab : xillTable R) (k : Nat) :
    axis_product_upto tab (k + 1)
      = axis_product_upto tab k * idx 0 tab.num_param_vals (k : Int) := by
  simp [axis_product_upto, List.range_succ]

/-- The accumulator of the loop of `get_num_elem` after `m` iterations is the
product of the first `m + 1` lengths. -/
theorem get_num_elem_loop (tab : xillTable R) (m : Nat) :
    (List.range m).foldl
        (fun (acc : Int) (k : Nat) => acc * idx 0 tab.num_param_vals ((k : Int) + 1))
        (idx 0 tab.num_param_vals 0)
      = axis_product_upto tab (m + 1) := by
  induction m with
  | zero => simp [axis_product_upto, List.range_succ]
  | succ m ih =>
    rw [List.range_succ, List.foldl_append, ih, axis_product_upto_succ tab (m + 1)]
    simp

/-- With every length at least 1, the partial products are at least 1 and grow
with the number of axes. -/
theorem axis_product_upto_mono (tab : xillTable R) (n : Nat)
    (hlen : ∀ i : Nat, i < n → 1 ≤ idx 0 tab.num_param_vals (i : Int)) :
    ∀ k : Nat, k ≤ n → 1 ≤ axis_product_upto tab k ∧
      ∀ j : Nat, j ≤ k → axis_product_upto tab j ≤ axis_product_upto tab k := by
  intro k
  induction k with
  | zero =>
    intro _
    refine ⟨by simp [axis_product_upto], fun j hj => ?_⟩
    rw [Nat.le_zero.1 hj]
  | succ k ih =>
    intro hk
    obtain ⟨h1, h2⟩ := ih (Nat.le_of_succ_le hk)
    have hg := hlen k hk
    rw [axis_product_upto_succ]
    have hstep : axis_product_upto tab k
        ≤ axis_product_upto tab k * idx 0 tab.num_param_vals (k : Int) := by nlinarith
    refine ⟨by nlinarith, fun j hj => ?_⟩
    rcases Nat.lt_succ_iff_lt_or_eq.1 (Nat.lt_succ_of_le hj) with hlt | heq
    · exact le_trans (h2 j (Nat.le_of_lt_succ hlt)) hstep
    · rw [heq, axis_product_upto_succ]

theorem get_num_elem_eq (tab : xillTable R) (hnp : 1 ≤ tab.num_param)
    (hhi : axis_product tab ≤ INT_MAX) :
    get_num_elem tab.num_param_vals tab.num_param = some (axis_product tab) := by
  have e : tab.num_param.toNat - 1 + 1 = tab.num_param.toNat := by omega
  unfold get_num_elem
  rw [if_neg (not_not.2 hnp)]
  simp only []
  rw [get_num_elem_loop tab (tab.num_param.toNat - 1), e]
  rw [if_neg (not_not.2 (show axis_product_upto tab tab.num_param.toNat ≤ INT_MAX from hhi))]
  rfl

/-- C21: for a table of `num_param >= 1` axes whose product of axis lengths fits
in an `int`, `init_xilltable_data_struct`, entered with a good status, returns
with a good status, sets `num_elements` to the product of all
`num_param_vals[i]`, makes a storage array whose slots `0..num_elements-1`
are all absent, and changes no other field.  Nothing is written outside these
slots: at any other index, the index `num_elements` among them, the memory
holds what it held before.  When every length is at least 1, every partial
product formed by `get_num_elem` lies between 1 and `INT_MAX`, so that its
`long` accumulator is exact. -/
theorem empty_storage_on_creation (fresh tab : xillTable R) (hnp : 1 ≤ tab.num_param)
    (_hlo : -INT_MAX - 1 ≤ axis_product tab) (hhi : axis_product tab ≤ INT_MAX) :
    init_xilltable_data_struct fresh tab EXIT_SUCCESS
      = some ({ tab with
          num_elements := axis_product tab
          data_storage := fun ii =>
            if 0 ≤ ii ∧ ii < axis_product tab then none else fresh.data_storage ii },
          EXIT_SUCCESS) ∧
    (∀ t st, init_xilltable_data_struct fresh tab EXIT_SUCCESS = some (t, st) →
      st = EXIT_SUCCESS ∧ t.num_elements = axis_product tab ∧
      (∀ k : Int, 0 ≤ k → k < t.num_elements → t.data_storage k = none) ∧
      (∀ k : Int, ¬(0 ≤ k ∧ k < t.num_elements) →
        t.data_storage k = fresh.data_storage k) ∧
      t.data_storage t.num_elements = fresh.data_storage t.num_elements) ∧
    ((∀ i : Nat, i < tab.num_param.toNat → 1 ≤ idx 0 tab.num_param_vals (i : Int)) →
      ∀ j : Nat, j ≤ tab.num_param.toNat →
        1 ≤ axis_product_upto tab j ∧ axis_product_upto tab j ≤ INT_MAX) := by
  have e : init_xilltable_data_struct fresh tab EXIT_SUCCESS
      = some ({ tab with
          num_elements := axis_product tab
          data_storage := fun ii =>
            if 0 ≤ ii ∧ ii < axis_product tab then none else fresh.data_storage ii },
          EXIT_SUCCESS) := by
    unfold init_xilltable_data_struct
    rw [if_neg (fun hne => hne rfl), get_num_elem_eq tab hnp hhi]
    rfl
  refine ⟨e, fun t st h => ?_, fun hlen j hj => ?_⟩
  · rw [e] at h
    simp only [Option.some.injEq, Prod.mk.injEq] at h
    obtain ⟨h1, h2⟩ := h
    subst h1
    refine ⟨h2.symm, rfl, fun k h0 hk => ?_, fun k hk => ?_, ?_⟩
    · exact if_pos ⟨h0, hk⟩
    · exact if_neg hk
    · exact if_neg (fun hk => lt_irrefl _ hk.2)
  · obtain ⟨h1, h2⟩ := axis_product_upto_mono tab tab.num_param.toNat hlen
      tab.num_param.toNat (le_refl _)
    exact ⟨(axis_product_upto_mono tab tab.num_param.toNat hlen j hj).1,
      le_trans (h2 j hj) hhi⟩

/-- Witness of C21: the axes of `demoTable`, five of length 2, in memory that
holds the content of `demoTable`: the storage gets 32 slots, the slots 0..31
are absent, and the index 32, one past the array, still holds what the
memory held. -/
theorem empty_storage_on_creation_witness :
    (1 : Int) ≤ demoTable.num_param ∧ axis_product demoTable = 32 ∧
    ∃ t, init_xilltable_data_struct demoTable demoTable EXIT_SUCCESS
        = some (t, EXIT_SUCCESS) ∧
      t.num_elements = 32 ∧
      (∀ k : Int, 0 ≤ k → k < 32 → t.data_storage k = none) ∧
      t.data_storage 32 = some [32, 1024] :=
  have hp : axis_product demoTable = 32 := by decide
  ⟨by decide, hp, _,
    (empty_storage_on_creation demoTable demoTable (by decide) (by decide) (by decide)).1,
    hp, fun k h0 hk => if_pos ⟨h0, by rw [hp]; exact hk⟩, by
      show (if 0 ≤ (32 : Int) ∧ (32 : Int) < axis_product demoTable then none
        else demoTable.data_storage 32) = some [32, 1024]
      rw [hp, if_neg (by decide)]
      simp [demoTable]
      norm_num⟩


/-! ### Mixed-radix numbers -/

theorem mixed_radix_range (a b m n : Int) (ha0 : 0 ≤ a) (ham : a < m) (hb0 : 0 ≤ b)
    (hbn : b < n) : 0 ≤ a * n + b ∧ a * n + b < m * n := by
  have hn : 0 < n := lt_of_le_of_lt hb0 hbn
  constructor
  · nlinarith
  · nlinarith

theorem mixed_radix_inj (a b a' b' n : Int) (hb0 : 0 ≤ b) (hbn : b < n) (hb0' : 0 ≤ b')
    (hbn' : b' < n) (h : a * n + b = a' * n + b') : a = a' ∧ b = b' := by
  have ha : a = a' := by
    rcases lt_trichotomy a a' with hlt | heq | hgt
    · exfalso
      nlinarith
    · exact heq
    · exfalso
      nlinarith
  subst ha
  exact ⟨rfl, by linarith⟩

theorem mixed_radix_surj (r m n : Int) (hn : 0 < n) (h0 : 0 ≤ r) (h1 : r < m * n) :
    ∃ a b : Int, 0 ≤ a ∧ a < m ∧ 0 ≤ b ∧ b < n ∧ r = a * n + b := by
  refine ⟨r / n, r % n, Int.ediv_nonneg h0 (le_of_lt hn), ?_, Int.emod_nonneg r (ne_of_gt hn),
    Int.emod_lt_of_pos r hn, ?_⟩
  · exact Int.ediv_lt_of_lt_mul hn h1
  · have := Int.ediv_add_emod r n
    linarith [mul_comm n (r / n)]

theorem axis_product_5 (tab : xillTable R) (h5 : tab.num_param = 5) :
    axis_product tab = axis_len tab 0 * axis_len tab 1 * axis_len tab 2 * axis_len tab 3
      * axis_len tab 4 := by
  simp [axis_product, axis_product_upto, h5, axis_len, range5]
  ring

theorem axis_product_6 (tab : xillTable R) (h6 : tab.num_param = 6) :
    axis_product tab = axis_len tab 0 * axis_len tab 1 * axis_len tab 2 * axis_len tab 3
      * axis_len tab 4 * axis_len tab 5 := by
  have r6 : List.range 6 = [0, 1, 2, 3, 4, 5] := rfl
  simp [axis_product, axis_product_upto, h6, axis_len, r6]
  ring


theorem corner_row_5 (tab : xillTable R) (h5 : tab.num_param = 5) (nn ii jj kk ll mm : Int) :
    corner_row tab (nn, ii, jj, kk, ll, mm)
      = (((ii * axis_len tab 1 + jj) * axis_len tab 2 + kk) * axis_len tab 3 + ll)
          * axis_len tab 4 + mm + 1 := by
  simp [corner_row, get_xillspec_rownum, h5, axis_len]

theorem corner_row_6 (tab : xillTable R) (h6 : tab.num_param = 6) (nn ii jj kk ll mm : Int) :
    corner_row tab (nn, ii, jj, kk, ll, mm)
      = ((((nn * axis_len tab 1 + ii) * axis_len tab 2 + jj) * axis_len tab 3 + kk)
          * axis_len tab 4 + ll) * axis_len tab 5 + mm + 1 := by
  simp [corner_row, get_xillspec_rownum, h6, axis_len]

/-- The rows of the valid corners of a table of 5 axes. -/
theorem corner_row_range_5 (tab : xillTable R) (h5 : tab.num_param = 5)
    (c : Int × Int × Int × Int × Int × Int) (hc : valid_corner tab c) :
    1 ≤ corner_row tab c ∧ corner_row tab c ≤ axis_product tab := by
  obtain ⟨nn, ii, jj, kk, ll, mm⟩ := c
  simp only [valid_corner, h5, if_true] at hc
  obtain ⟨_, ⟨a0, a1⟩, ⟨b0, b1⟩, ⟨c0, c1⟩, ⟨d0, d1⟩, ⟨e0, e1⟩⟩ := hc
  rw [corner_row_5 tab h5, axis_product_5 tab h5]
  obtain ⟨p0, p1⟩ := mixed_radix_range ii jj _ _ a0 a1 b0 b1
  obtain ⟨q0, q1⟩ := mixed_radix_range _ kk _ _ p0 p1 c0 c1
  obtain ⟨r0, r1⟩ := mixed_radix_range _ ll _ _ q0 q1 d0 d1
  obtain ⟨s0, s1⟩ := mixed_radix_range _ mm _ _ r0 r1 e0 e1
  constructor
  · linarith
  · linarith

/-- The rows of the valid corners of a table of 6 axes. -/
theorem corner_row_range_6 (tab : xillTable R) (h6 : tab.num_param = 6)
    (c : Int × Int × Int × Int × Int × Int) (hc : valid_corner tab c) :
    1 ≤ corner_row tab c ∧ corner_row tab c ≤ axis_product tab := by
  obtain ⟨nn, ii, jj, kk, ll, mm⟩ := c
  simp only [valid_corner, h6, show ¬((6 : Int) = 5) by decide, if_false] at hc
  obtain ⟨⟨z0, z1⟩, ⟨a0, a1⟩, ⟨b0, b1⟩, ⟨c0, c1⟩, ⟨d0, d1⟩, ⟨e0, e1⟩⟩ := hc
  rw [corner_row_6 tab h6, axis_product_6 tab h6]
  obtain ⟨o0, o1⟩ := mixed_radix_range nn ii _ _ z0 z1 a0 a1
  obtain ⟨p0, p1⟩ := mixed_radix_range _ jj _ _ o0 o1 b0 b1
  obtain ⟨q0, q1⟩ := mixed_radix_range _ kk _ _ p0 p1 c0 c1
  obtain ⟨r0, r1⟩ := mixed_radix_range _ ll _ _ q0 q1 d0 d1
  obtain ⟨s0, s1⟩ := mixed_radix_range _ mm _ _ r0 r1 e0 e1
  constructor
  · linarith
  · linarith

/-- Two valid corners of a table of 5 axes with the same row are equal. -/
theorem corner_row_inj_5 (tab : xillTable R) (h5 : tab.num_param = 5)
    (c c' : Int × Int × Int × Int × Int × Int) (hc : valid_corner tab c)
    (hc' : valid_corner tab c') (h : corner_row tab c = corner_row tab c') : c = c' := by
  obtain ⟨nn, ii, jj, kk, ll, mm⟩ := c
  obtain ⟨nn', ii', jj', kk', ll', mm'⟩ := c'
  simp only [valid_corner, h5, if_true] at hc hc'
  obtain ⟨n0, ⟨_, _⟩, ⟨b0, b1⟩, ⟨c0, c1⟩, ⟨d0, d1⟩, ⟨e0, e1⟩⟩ := hc
  obtain ⟨n0', ⟨_, _⟩, ⟨b0', b1'⟩, ⟨c0', c1'⟩, ⟨d0', d1'⟩, ⟨e0', e1'⟩⟩ := hc'
  rw [corner_row_5 tab h5, corner_row_5 tab h5] at h
  have hh : (((ii * axis_len tab 1 + jj) * axis_len tab 2 + kk) * axis_len tab 3 + ll)
        * axis_len tab 4 + mm
      = (((ii' * axis_len tab 1 + jj') * axis_len tab 2 + kk') * axis_len tab 3 + ll')
        * axis_len tab 4 + mm' := by linarith
  obtain ⟨h4, g4⟩ := mixed_radix_inj _ mm _ mm' _ e0 e1 e0' e1' hh
  obtain ⟨h3, g3⟩ := mixed_radix_inj _ ll _ ll' _ d0 d1 d0' d1' h4
  obtain ⟨h2, g2⟩ := mixed_radix_inj _ kk _ kk' _ c0 c1 c0' c1' h3
  obtain ⟨h1, g1⟩ := mixed_radix_inj _ jj _ jj' _ b0 b1 b0' b1' h2
  rw [n0, n0', h1, g1, g2, g3, g4]

/-- Two valid corners of a table of 6 axes with the same row are equal. -/
theorem corner_row_inj_6 (tab : xillTable R) (h6 : tab.num_param = 6)
    (c c' : Int × Int × Int × Int × Int × Int) (hc : valid_corner tab c)
    (hc' : valid_corner tab c') (h : corner_row tab c = corner_row tab c') : c = c' := by
  obtain ⟨nn, ii, jj, kk, ll, mm⟩ := c
  obtain ⟨nn', ii', jj', kk', ll', mm'⟩ := c'
  simp only [valid_corner, h6, show ¬((6 : Int) = 5) by decide, if_false] at hc hc'
  obtain ⟨⟨_, _⟩, ⟨a0, a1⟩, ⟨b0, b1⟩, ⟨c0, c1⟩, ⟨d0, d1⟩, ⟨e0, e1⟩⟩ := hc
  obtain ⟨⟨_, _⟩, ⟨a0', a1'⟩, ⟨b0', b1'⟩, ⟨c0', c1'⟩, ⟨d0', d1'⟩, ⟨e0', e1'⟩⟩ := hc'
  rw [corner_row_6 tab h6, corner_row_6 tab h6] at h
  have hh : ((((nn * axis_len tab 1 + ii) * axis_len tab 2 + jj) * axis_len tab 3 + kk)
        * axis_len tab 4 + ll) * axis_len tab 5 + mm
      = ((((nn' * axis_len tab 1 + ii') * axis_len tab 2 + jj') * axis_len tab 3 + kk')
        * axis_len tab 4 + ll') * axis_len tab 5 + mm' := by linarith
  obtain ⟨h5, g5⟩ := mixed_radix_inj _ mm _ mm' _ e0 e1 e0' e1' hh
  obtain ⟨h4, g4⟩ := mixed_radix_inj _ ll _ ll' _ d0 d1 d0' d1' h5
  obtain ⟨h3, g3⟩ := mixed_radix_inj _ kk _ kk' _ c0 c1 c0' c1' h4
  obtain ⟨h2, g2⟩ := mixed_radix_inj _ jj _ jj' _ b0 b1 b0' b1' h3
  obtain ⟨h1, g1⟩ := mixed_radix_inj _ ii _ ii' _ a0 a1 a0' a1' h2
  rw [h1, g1, g2, g3, g4, g5]


/-- Every row from 1 to the product of the lengths is the row of a valid corner,
for a table of 5 axes of length at least 1. -/
theorem corner_row_surj_5 (tab : xillTable R) (h5 : tab.num_param = 5)
    (hlen : ∀ i : Nat, i < tab.num_param.toNat → 1 ≤ axis_len tab i)
    (r : Int) (h1 : 1 ≤ r) (hN : r ≤ axis_product tab) :
    ∃ c, valid_corner tab c ∧ corner_row tab c = r := by
  have hn : tab.num_param.toNat = 5 := by rw [h5]; rfl
  have l1 := hlen 1 (by omega)
  have l2 := hlen 2 (by omega)
  have l3 := hlen 3 (by omega)
  have l4 := hlen 4 (by omega)
  rw [axis_product_5 tab h5] at hN
  obtain ⟨A3, mm, p0, p1, e0, e1, hr⟩ := mixed_radix_surj (r - 1)
    (axis_len tab 0 * axis_len tab 1 * axis_len tab 2 * axis_len tab 3) (axis_len tab 4)
    (by omega) (by omega) (by omega)
  obtain ⟨A2, ll, q0, q1, d0, d1, hA3⟩ := mixed_radix_surj A3
    (axis_len tab 0 * axis_len tab 1 * axis_len tab 2) (axis_len tab 3) (by omega) p0 p1
  obtain ⟨A1, kk, s0, s1, c0, c1, hA2⟩ := mixed_radix_surj A2
    (axis_len tab 0 * axis_len tab 1) (axis_len tab 2) (by omega) q0 q1
  obtain ⟨ii, jj, a0, a1, b0, b1, hA1⟩ := mixed_radix_surj A1
    (axis_len tab 0) (axis_len tab 1) (by omega) s0 s1
  refine ⟨(0, ii, jj, kk, ll, mm), ?_, ?_⟩
  · simp only [valid_corner, h5, if_true]
    exact ⟨trivial, ⟨a0, a1⟩, ⟨b0, b1⟩, ⟨c0, c1⟩, ⟨d0, d1⟩, ⟨e0, e1⟩⟩
  · rw [corner_row_5 tab h5, ← hA1, ← hA2, ← hA3, ← hr]
    ring

/-- Every row from 1 to the product of the lengths is the row of a valid corner,
for a table of 6 axes of length at least 1. -/
theorem corner_row_surj_6 (tab : xillTable R) (h6 : tab.num_param = 6)
    (hlen : ∀ i : Nat, i < tab.num_param.toNat → 1 ≤ axis_len tab i)
    (r : Int) (h1 : 1 ≤ r) (hN : r ≤ axis_product tab) :
    ∃ c, valid_corner tab c ∧ corner_row tab c = r := by
  have hn : tab.num_param.toNat = 6 := by rw [h6]; rfl
  have l1 := hlen 1 (by omega)
  have l2 := hlen 2 (by omega)
  have l3 := hlen 3 (by omega)
  have l4 := hlen 4 (by omega)
  have l5 := hlen 5 (by omega)
  rw [axis_product_6 tab h6] at hN
  obtain ⟨A4, mm, p0, p1, e0, e1, hr⟩ := mixed_radix_surj (r - 1)
    (axis_len tab 0 * axis_len tab 1 * axis_len tab 2 * axis_len tab 3 * axis_len tab 4)
    (axis_len tab 5) (by omega) (by omega) (by omega)
  obtain ⟨A3, ll, q0, q1, d0, d1, hA4⟩ := mixed_radix_surj A4
    (axis_len tab 0 * axis_len tab 1 * axis_len tab 2 * axis_len tab 3) (axis_len tab 4)
    (by omega) p0 p1
  obtain ⟨A2, kk, s0, s1, c0, c1, hA3⟩ := mixed_radix_surj A3
    (axis_len tab 0 * axis_len tab 1 * axis_len tab 2) (axis_len tab 3) (by omega) q0 q1
  obtain ⟨A1, jj, t0, t1, b0, b1, hA2⟩ := mixed_radix_surj A2
    (axis_len tab 0 * axis_len tab 1) (axis_len tab 2) (by omega) s0 s1
  obtain ⟨nn, ii, z0, z1, a0, a1, hA1⟩ := mixed_radix_surj A1
    (axis_len tab 0) (axis_len tab 1) (by omega) t0 t1
  refine ⟨(nn, ii, jj, kk, ll, mm), ?_, ?_⟩
  · simp only [valid_corner, h6, show ¬((6 : Int) = 5) by decide, if_false]
    exact ⟨⟨z0, z1⟩, ⟨a0, a1⟩, ⟨b0, b1⟩, ⟨c0, c1⟩, ⟨d0, d1⟩, ⟨e0, e1⟩⟩
  · rw [corner_row_6 tab h6, ← hA1, ← hA2, ← hA3, ← hA4, ← hr]
    ring

/-- C28: for a table of 5 or 6 axes of length at least 1, `get_xillspec_rownum`
on the valid corners is injective, takes its values in the rows `1..N`, `N`
being the product of the axis lengths, and takes every one of them: two
distinct valid corners never share a row of the file or a slot of the
storage. -/
theorem row_addressing_bijection (tab : xillTable R)
    (h56 : tab.num_param = 5 ∨ tab.num_param = 6)
    (hlen : ∀ i : Nat, i < tab.num_param.toNat → 1 ≤ axis_len tab i) :
    (∀ c c', valid_corner tab c → valid_corner tab c' →
      get_xillspec_rownum tab.num_param_vals tab.num_param
          c.1 c.2.1 c.2.2.1 c.2.2.2.1 c.2.2.2.2.1 c.2.2.2.2.2
        = get_xillspec_rownum tab.num_param_vals tab.num_param
          c'.1 c'.2.1 c'.2.2.1 c'.2.2.2.1 c'.2.2.2.2.1 c'.2.2.2.2.2 → c = c') ∧
    (∀ c, valid_corner tab c →
      1 ≤ get_xillspec_rownum tab.num_param_vals tab.num_param
          c.1 c.2.1 c.2.2.1 c.2.2.2.1 c.2.2.2.2.1 c.2.2.2.2.2 ∧
      get_xillspec_rownum tab.num_param_vals tab.num_param
          c.1 c.2.1 c.2.2.1 c.2.2.2.1 c.2.2.2.2.1 c.2.2.2.2.2 ≤ axis_product tab) ∧
    (∀ r : Int, 1 ≤ r → r ≤ axis_product tab →
      ∃ c, valid_corner tab c ∧
        get_xillspec_rownum tab.num_param_vals tab.num_param
          c.1 c.2.1 c.2.2.1 c.2.2.2.1 c.2.2.2.2.1 c.2.2.2.2.2 = r) := by
  rcases h56 with h5 | h6
  · exact ⟨fun c c' hc hc' h => corner_row_inj_5 tab h5 c c' hc hc' h,
      fun c hc => corner_row_range_5 tab h5 c hc,
      fun r h1 hN => corner_row_surj_5 tab h5 hlen r h1 hN⟩
  · exact ⟨fun c c' hc hc' h => corner_row_inj_6 tab h6 c c' hc hc' h,
      fun c hc => corner_row_range_6 tab h6 c hc,
      fun r h1 hN => corner_row_surj_6 tab h6 hlen r h1 hN⟩

/-- Witness of C28: the table `demoTable`, five axes of length 2, rows 1 to 32. -/
theorem row_addressing_bijection_witness :
    (demoTable.num_param = 5 ∨ demoTable.num_param = 6) ∧
    ∃ c, valid_corner demoTable c ∧
      get_xillspec_rownum demoTable.num_param_vals demoTable.num_param
        c.1 c.2.1 c.2.2.1 c.2.2.2.1 c.2.2.2.2.1 c.2.2.2.2.2 = 17 :=
  ⟨Or.inl rfl,
    (row_addressing_bijection demoTable (Or.inl rfl) (by decide)).2.2 17 (by decide)
      (by decide)⟩


/-- C27 (refuted): for a table of 5 or 6 axes of length at least 1 whose storage
has `num_elements` slots, the product of the lengths, as
`init_xilltable_data_struct` allocates it, the index that `get_xillspec` and
`set_dat` compute for a valid corner lies between 1 and `num_elements`, both
included; for the corner with the largest index on every axis it is
`num_elements`, one past the last slot: `get_xillspec` reads and `set_dat`
writes `data_storage[num_elements]`. -/
theorem storage_index_reaches_end (tab : xillTable R)
    (h56 : tab.num_param = 5 ∨ tab.num_param = 6)
    (hlen : ∀ i : Nat, i < tab.num_param.toNat → 1 ≤ axis_len tab i)
    (hN : tab.num_elements = axis_product tab) :
    valid_corner tab (last_corner tab) ∧
    get_xillspec_rownum tab.num_param_vals tab.num_param
      (last_corner tab).1 (last_corner tab).2.1 (last_corner tab).2.2.1
      (last_corner tab).2.2.2.1 (last_corner tab).2.2.2.2.1 (last_corner tab).2.2.2.2.2
      = tab.num_elements ∧
    (∀ c, valid_corner tab c →
      1 ≤ get_xillspec_rownum tab.num_param_vals tab.num_param
          c.1 c.2.1 c.2.2.1 c.2.2.2.1 c.2.2.2.2.1 c.2.2.2.2.2 ∧
      get_xillspec_rownum tab.num_param_vals tab.num_param
          c.1 c.2.1 c.2.2.1 c.2.2.2.1 c.2.2.2.2.1 c.2.2.2.2.2 ≤ tab.num_elements) ∧
    get_xillspec tab (last_corner tab).1 (last_corner tab).2.1 (last_corner tab).2.2.1
      (last_corner tab).2.2.2.1 (last_corner tab).2.2.2.2.1 (last_corner tab).2.2.2.2.2
      = tab.data_storage tab.num_elements ∧
    ∀ spec : List R,
      (set_dat spec tab (last_corner tab).1 (last_corner tab).2.1 (last_corner tab).2.2.1
        (last_corner tab).2.2.2.1 (last_corner tab).2.2.2.2.1
        (last_corner tab).2.2.2.2.2).data_storage tab.num_elements = some spec := by
  have hrow : corner_row tab (last_corner tab) = tab.num_elements := by
    rcases h56 with h5 | h6
    · rw [hN, axis_product_5 tab h5]
      simp only [last_corner, h5, if_true]
      rw [corner_row_5 tab h5]
      ring
    · rw [hN, axis_product_6 tab h6]
      simp only [last_corner, h6, show ¬((6 : Int) = 5) by decide, if_false]
      rw [corner_row_6 tab h6]
      ring
  have hvalid : valid_corner tab (last_corner tab) := by
    rcases h56 with h5 | h6
    · have hn : tab.num_param.toNat = 5 := by rw [h5]; rfl
      have l0 := hlen 0 (by omega)
      have l1 := hlen 1 (by omega)
      have l2 := hlen 2 (by omega)
      have l3 := hlen 3 (by omega)
      have l4 := hlen 4 (by omega)
      simp only [valid_corner, last_corner, h5, if_true]
      simp only [Nat.cast_zero, Nat.cast_one, Nat.cast_ofNat] at l0 l1 l2 l3 l4
      refine ⟨trivial, ⟨?_, ?_⟩, ⟨?_, ?_⟩, ⟨?_, ?_⟩, ⟨?_, ?_⟩, ⟨?_, ?_⟩⟩ <;> omega
    · have hn : tab.num_param.toNat = 6 := by rw [h6]; rfl
      have l0 := hlen 0 (by omega)
      have l1 := hlen 1 (by omega)
      have l2 := hlen 2 (by omega)
      have l3 := hlen 3 (by omega)
      have l4 := hlen 4 (by omega)
      have l5 := hlen 5 (by omega)
      simp only [valid_corner, last_corner, h6, show ¬((6 : Int) = 5) by decide, if_false]
      simp only [Nat.cast_zero, Nat.cast_one, Nat.cast_ofNat] at l0 l1 l2 l3 l4 l5
      refine ⟨⟨?_, ?_⟩, ⟨?_, ?_⟩, ⟨?_, ?_⟩, ⟨?_, ?_⟩, ⟨?_, ?_⟩, ⟨?_, ?_⟩⟩ <;> omega
  refine ⟨hvalid, hrow, fun c hc => ?_, ?_, fun spec => ?_⟩
  · rw [hN]
    rcases h56 with h5 | h6
    · exact corner_row_range_5 tab h5 c hc
    · exact corner_row_range_6 tab h6 c hc
  · show tab.data_storage (corner_row tab (last_corner tab)) = _
    rw [hrow]
  · show Function.update tab.data_storage (corner_row tab (last_corner tab)) (some spec)
      tab.num_elements = some spec
    rw [hrow, Function.update_same]

/-- Witness of C27: in `demoTable`, five axes of length 2 and 32 slots, the
corner `(0, 1, 1, 1, 1, 1)` has the index 32. -/
theorem storage_index_reaches_end_witness :
    demoTable.num_elements = axis_product demoTable ∧
    last_corner demoTable = (0, 1, 1, 1, 1, 1) ∧
    get_xillspec_rownum demoTable.num_param_vals demoTable.num_param 0 1 1 1 1 1 = 32 ∧
    get_xillspec_rownum demoTable.num_param_vals demoTable.num_param
      (last_corner demoTable).1 (last_corner demoTable).2.1 (last_corner demoTable).2.2.1
      (last_corner demoTable).2.2.2.1 (last_corner demoTable).2.2.2.2.1
      (last_corner demoTable).2.2.2.2.2 = demoTable.num_elements :=
  ⟨by decide, by decide, by decide,
    (storage_index_reaches_end demoTable (Or.inl rfl) (by decide) (by decide)).2.1⟩


/-! ### The number of spectra read by one call -/

theorem num_reads_append (l1 l2 : List FitsEvent) :
    num_reads (l1 ++ l2) = num_reads l1 + num_reads l2 := by
  induction l1 with
  | nil => simp [num_reads]
  | cons e es ih =>
    cases e <;> simp [num_reads, ih]
    omega

/-- One call of `xilltable_fits_load_single_spec` makes at most one
`fits_read_col` call. -/
theorem load_single_spec_num_reads (X : Ext R) (fits : FitsFile R) (st : LoadState R)
    (d l : R) (nn ii jj kk ll mm : Int) :
    num_reads (xilltable_fits_load_single_spec X fits st d l nn ii jj kk ll mm).log
      ≤ num_reads st.log + 1 := by
  by_cases hs : st.status = EXIT_SUCCESS
  swap
  · simp [xilltable_fits_load_single_spec, hs]
  · cases hf : st.fptr <;> cases ho : fits.open_ok <;>
      cases hm : fits.movnam_ok
        (get_xillspec_rownum st.tab.num_param_vals st.tab.num_param nn ii jj kk ll mm) <;>
      cases hr : fits.read_col
        (get_xillspec_rownum st.tab.num_param_vals st.tab.num_param nn ii jj kk ll mm) <;>
      simp [xilltable_fits_load_single_spec, hs, hf, ho, hm, hr, EXIT_FAILURE, EXIT_SUCCESS,
        num_reads_append, num_reads]

theorem check_step_num_reads (X : Ext R) (fits : FitsFile R) (param : xillTableParam R)
    (st : LoadState R) (c : Int × Int × Int × Int × Int × Int) :
    num_reads (check_xilltab_cache_step X fits param st c).log ≤ num_reads st.log + 1 := by
  unfold check_xilltab_cache_step
  split_ifs
  · omega
  · exact load_single_spec_num_reads X fits st _ _ _ _ _ _ _ _
  · omega

theorem check_fold_num_reads (X : Ext R) (fits : FitsFile R) (param : xillTableParam R)
    (cs : List (Int × Int × Int × Int × Int × Int)) (st : LoadState R) :
    num_reads (cs.foldl (check_xilltab_cache_step X fits param) st).log
      ≤ num_reads st.log + cs.length := by
  induction cs generalizing st with
  | nil => simp
  | cons c cs ih =>
    simp only [List.foldl_cons, List.length_cons]
    have h1 := ih (check_xilltab_cache_step X fits param st c)
    have h2 := check_step_num_reads X fits param st c
    omega

theorem length_flatMap_const {α β : Type} (l : List α) (f : α → List β) (k : Nat)
    (h : ∀ a ∈ l, (f a).length = k) : (l.flatMap f).length = l.length * k := by
  induction l with
  | nil => simp
  | cons a l ih =>
    rw [List.flatMap_cons, List.length_append, h a (List.mem_cons_self a l),
      ih (fun b hb => h b (List.mem_cons_of_mem a hb)), List.length_cons]
    ring

theorem length_int_range_two (lo : Int) : (int_range lo (lo + 1)).length = 2 := by
  have h : (lo + 1 + 1 - lo).toNat = 2 := by omega
  simp [int_range, h]

/-- The number of corners visited by the loops of `check_xilltab_cache`. -/
theorem check_xilltab_cache_corners_length (tab : xillTable R) (ind : List Int) :
    (check_xilltab_cache_corners tab ind).length
      = (if tab.num_param = 6 then 32 else 16) * tab.n_incl.toNat := by
  unfold check_xilltab_cache_corners
  simp only []
  rw [length_flatMap_const _ _ (16 * tab.n_incl.toNat)]
  · by_cases h6 : tab.num_param = 6
    · rw [if_pos h6, if_pos h6, if_pos h6, length_int_range_two]
      ring
    · rw [if_neg h6, if_neg h6, if_neg h6]
      simp [int_range]
  · intro nn _
    rw [length_flatMap_const _ _ (8 * tab.n_incl.toNat), length_int_range_two]
    · ring
    · intro ii _
      rw [length_flatMap_const _ _ (4 * tab.n_incl.toNat), length_int_range_two]
      · ring
      · intro jj _
        rw [length_flatMap_const _ _ (2 * tab.n_incl.toNat), length_int_range_two]
        · ring
        · intro kk _
          rw [length_flatMap_const _ _ tab.n_incl.toNat, length_int_range_two]
          intro ll _
          simp


/-- C26 (amended): a single call of `check_xilltab_cache` makes at most
`16 * n_incl` calls of `fits_read_col` for a table of 5 axes and at most
`32 * n_incl` for a table of 6 axes, `n_incl` being the number of inclination
bins: one for every corner of the cell over the other axes and every
inclination bin. -/
theorem load_limit (X : Ext R) (fits : FitsFile R) (param : xillTableParam R)
    (tab : xillTable R) (ind : List Int) (status : Int) :
    num_reads (check_xilltab_cache X fits param tab ind status).log
      ≤ (if tab.num_param = 6 then 32 else 16) * tab.n_incl.toNat := by
  have hf := check_fold_num_reads X fits param (check_xilltab_cache_corners tab ind)
    ({ tab := tab, fptr := false, status := status, log := [] } : LoadState R)
  rw [check_xilltab_cache_corners_length] at hf
  simp only [num_reads, zero_add] at hf
  generalize (if tab.num_param = 6 then 32 else 16) * tab.n_incl.toNat = B at hf ⊢
  unfold check_xilltab_cache
  by_cases h1 : status ≠ EXIT_SUCCESS
  · rw [if_pos h1]
    simp [num_reads]
  · rw [if_neg h1]
    simp only []
    by_cases h2 : (List.foldl (check_xilltab_cache_step X fits param)
        ({ tab := tab, fptr := false, status := status, log := [] } : LoadState R)
        (check_xilltab_cache_corners tab ind)).status ≠ EXIT_SUCCESS
    · rw [if_pos h2]
      exact hf
    · rw [if_neg h2]
      by_cases h3 : (List.foldl (check_xilltab_cache_step X fits param)
          ({ tab := tab, fptr := false, status := status, log := [] } : LoadState R)
          (check_xilltab_cache_corners tab ind)).fptr = true
      · rw [if_pos h3]
        simp only [num_reads_append, num_reads, add_zero]
        exact hf
      · rw [if_neg h3]
        exact hf

/-- Counterexample to C26: on the table `wideInclTable`, five inclination bins
and nothing loaded, one call reads 80 spectra from a file that works. -/
theorem load_limit_counterexample :
    num_reads (check_xilltab_cache demoExt demoFile demoParam wideInclTable [0, 0, 0, 0, 0]
      EXIT_SUCCESS).log = 80 := by
  decide


/-! ### The file handle -/

theorem opens_of_append (l1 l2 : List FitsEvent) :
    opens_of (l1 ++ l2) = opens_of l1 + opens_of l2 := by
  induction l1 with
  | nil => simp [opens_of]
  | cons e es ih =>
    cases e <;> simp [opens_of, ih]
    omega

theorem closes_of_append (l1 l2 : List FitsEvent) :
    closes_of (l1 ++ l2) = closes_of l1 + closes_of l2 := by
  induction l1 with
  | nil => simp [closes_of]
  | cons e es ih =>
    cases e <;> simp [closes_of, ih]
    omega

/-- One call of `xilltable_fits_load_single_spec` keeps `handle_state`. -/
theorem load_single_spec_handle (X : Ext R) (fits : FitsFile R) (st : LoadState R)
    (d l : R) (nn ii jj kk ll mm : Int) (h : handle_state st) :
    handle_state (xilltable_fits_load_single_spec X fits st d l nn ii jj kk ll mm) := by
  by_cases hs : st.status = EXIT_SUCCESS
  swap
  · simpa [xilltable_fits_load_single_spec, hs] using h
  obtain ⟨hc, hcase⟩ := h
  rcases hcase with ⟨hf, hl | ⟨_, hbad⟩⟩ | ⟨hf, es, hl, ho⟩
  · cases hop : fits.open_ok <;>
      cases hm : fits.movnam_ok
        (get_xillspec_rownum st.tab.num_param_vals st.tab.num_param nn ii jj kk ll mm) <;>
      cases hr : fits.read_col
        (get_xillspec_rownum st.tab.num_param_vals st.tab.num_param nn ii jj kk ll mm) <;>
      simp [xilltable_fits_load_single_spec, hs, hf, hl, hop, hm, hr, EXIT_FAILURE,
        EXIT_SUCCESS, handle_state, closes_of, opens_of]
  · exact absurd hs hbad
  · cases hm : fits.movnam_ok
        (get_xillspec_rownum st.tab.num_param_vals st.tab.num_param nn ii jj kk ll mm) <;>
      cases hr : fits.read_col
        (get_xillspec_rownum st.tab.num_param_vals st.tab.num_param nn ii jj kk ll mm) <;>
      simp [xilltable_fits_load_single_spec, hs, hf, hl, hm, hr, EXIT_FAILURE,
        EXIT_SUCCESS, handle_state, closes_of, opens_of, closes_of_append, opens_of_append,
        ho] <;>
      (rw [hl] at hc
       simpa [closes_of] using hc)


theorem check_fold_handle (X : Ext R) (fits : FitsFile R) (param : xillTableParam R)
    (cs : List (Int × Int × Int × Int × Int × Int)) (st : LoadState R)
    (h : handle_state st) :
    handle_state (cs.foldl (check_xilltab_cache_step X fits param) st) := by
  induction cs generalizing st with
  | nil => exact h
  | cons c cs ih =>
    apply ih
    unfold check_xilltab_cache_step
    split_ifs
    · exact h
    · exact load_single_spec_handle X fits st _ _ _ _ _ _ _ _ h
    · exact h

theorem handle_state_opens (st : LoadState R) (h : handle_state st) :
    opens_of st.log ≤ 1 ∧
    (st.fptr = false → st.status = EXIT_SUCCESS → st.log = []) ∧
    (st.fptr = true → opens_of st.log = 1 ∧ FitsEvent.open_table true ∈ st.log) ∧
    (∀ r, reads_of r st.log ≠ [] → st.fptr = true) := by
  obtain ⟨_, ⟨hf, hl | ⟨hl, hbad⟩⟩ | ⟨hf, es, hl, ho⟩⟩ := h
  · rw [hl, hf]
    refine ⟨by simp [opens_of], fun _ _ => rfl, fun h => ?_, fun r hr => absurd rfl hr⟩
    cases h
  · rw [hl, hf]
    refine ⟨by simp [opens_of], fun _ hs => absurd hs hbad, fun h => ?_,
      fun r hr => absurd rfl hr⟩
    cases h
  · rw [hl, hf]
    refine ⟨by simp [opens_of, ho], fun h => ?_, fun _ => ⟨by simp [opens_of, ho], ?_⟩,
      fun _ _ => rfl⟩
    · cases h
    · exact List.mem_cons_self _ _

/-- C25 (refuted in its last part): in every call of `check_xilltab_cache` the
file is opened at most once, and not at all when every corner visited is
resident; a call that ends with a good status has closed the file if it opened
it; but a call in which the read of a row fails has opened the file and
returns without a call of `fits_close_file`, the handle being still open. -/
theorem file_handle_discipline (X : Ext R) (fits : FitsFile R) (param : xillTableParam R)
    (tab : xillTable R) (ind : List Int) (status : Int) :
    opens_of (check_xilltab_cache X fits param tab ind status).log ≤ 1 ∧
    ((∀ c ∈ check_xilltab_cache_corners tab ind,
        get_xillspec tab c.1 c.2.1 c.2.2.1 c.2.2.2.1 c.2.2.2.2.1 c.2.2.2.2.2 ≠ none) →
      (check_xilltab_cache X fits param tab ind status).log = []) ∧
    ((check_xilltab_cache X fits param tab ind status).status = EXIT_SUCCESS →
      closes_of (check_xilltab_cache X fits param tab ind status).log
        = opens_of (check_xilltab_cache X fits param tab ind status).log ∧
      (check_xilltab_cache X fits param tab ind status).fptr = false) ∧
    (∀ r, false ∈ reads_of r (check_xilltab_cache X fits param tab ind status).log →
      FitsEvent.open_table true ∈ (check_xilltab_cache X fits param tab ind status).log ∧
      closes_of (check_xilltab_cache X fits param tab ind status).log = 0 ∧
      (check_xilltab_cache X fits param tab ind status).fptr = true ∧
      (check_xilltab_cache X fits param tab ind status).status ≠ EXIT_SUCCESS) := by
  have h0 : handle_state ({ tab := tab, fptr := false, status := status, log := [] } :
      LoadState R) := ⟨rfl, Or.inl ⟨rfl, Or.inl rfl⟩⟩
  have hF := check_fold_handle X fits param (check_xilltab_cache_corners tab ind) _ h0
  have hO := handle_state_opens _ hF
  have hI := check_fold_faithful X fits param tab (check_xilltab_cache_corners tab ind)
    (check_xilltab_cache_corners tab ind) (fun c hc => hc) _
    (load_faithful_start X fits param tab (check_xilltab_cache_corners tab ind) status)
  have hres : (∀ c ∈ check_xilltab_cache_corners tab ind,
        get_xillspec tab c.1 c.2.1 c.2.2.1 c.2.2.2.1 c.2.2.2.2.1 c.2.2.2.2.2 ≠ none) →
      (check_xilltab_cache X fits param tab ind status).log = [] := by
    intro hall
    by_cases hs : status = EXIT_SUCCESS
    · subst hs
      rw [check_xilltab_cache_resident X fits param tab ind hall]
    · unfold check_xilltab_cache
      rw [if_pos hs]
  refine ⟨?_, hres, ?_, ?_⟩
  all_goals unfold check_xilltab_cache
  all_goals by_cases h1 : status ≠ EXIT_SUCCESS
  · rw [if_pos h1]
    simp [opens_of]
  · rw [if_neg h1]
    simp only []
    by_cases h2 : (List.foldl (check_xilltab_cache_step X fits param)
        ({ tab := tab, fptr := false, status := status, log := [] } : LoadState R)
        (check_xilltab_cache_corners tab ind)).status ≠ EXIT_SUCCESS
    · rw [if_pos h2]
      exact hO.1
    · rw [if_neg h2]
      by_cases h3 : (List.foldl (check_xilltab_cache_step X fits param)
          ({ tab := tab, fptr := false, status := status, log := [] } : LoadState R)
          (check_xilltab_cache_corners tab ind)).fptr = true
      · rw [if_pos h3]
        simp only [opens_of_append, opens_of, add_zero]
        exact hO.1
      · rw [if_neg h3]
        exact hO.1
  · rw [if_pos h1]
    intro hs
    exact absurd hs h1
  · rw [if_neg h1]
    simp only []
    by_cases h2 : (List.foldl (check_xilltab_cache_step X fits param)
        ({ tab := tab, fptr := false, status := status, log := [] } : LoadState R)
        (check_xilltab_cache_corners tab ind)).status ≠ EXIT_SUCCESS
    · rw [if_pos h2]
      intro hs
      exact absurd hs h2
    · rw [if_neg h2]
      by_cases h3 : (List.foldl (check_xilltab_cache_step X fits param)
          ({ tab := tab, fptr := false, status := status, log := [] } : LoadState R)
          (check_xilltab_cache_corners tab ind)).fptr = true
      · rw [if_pos h3]
        intro _
        simp only [closes_of_append, opens_of_append, closes_of, opens_of, add_zero, hF.1,
          (hO.2.2.1 h3).1, zero_add, and_self]
      · rw [if_neg h3]
        intro _
        have hnil := hO.2.1 (by simpa using h3) (not_not.1 h2)
        rw [hnil]
        exact ⟨rfl, by simpa using h3⟩
  · rw [if_pos h1]
    intro r hr
    simp [reads_of] at hr
  · rw [if_neg h1]
    simp only []
    have key : ∀ r, false ∈ reads_of r (List.foldl (check_xilltab_cache_step X fits param)
        ({ tab := tab, fptr := false, status := status, log := [] } : LoadState R)
        (check_xilltab_cache_corners tab ind)).log →
        (List.foldl (check_xilltab_cache_step X fits param)
          ({ tab := tab, fptr := false, status := status, log := [] } : LoadState R)
          (check_xilltab_cache_corners tab ind)).status ≠ EXIT_SUCCESS :=
      fun r hr => (hI.2.2.2 r hr).1
    by_cases h2 : (List.foldl (check_xilltab_cache_step X fits param)
        ({ tab := tab, fptr := false, status := status, log := [] } : LoadState R)
        (check_xilltab_cache_corners tab ind)).status ≠ EXIT_SUCCESS
    · rw [if_pos h2]
      intro r hr
      have hfp := hO.2.2.2 r (List.ne_nil_of_mem hr)
      exact ⟨(hO.2.2.1 hfp).2, hF.1, hfp, h2⟩
    · rw [if_neg h2]
      by_cases h3 : (List.foldl (check_xilltab_cache_step X fits param)
          ({ tab := tab, fptr := false, status := status, log := [] } : LoadState R)
          (check_xilltab_cache_corners tab ind)).fptr = true
      · rw [if_pos h3]
        intro r hr
        simp only [reads_of_append, reads_of, List.append_nil] at hr
        exact absurd (key r hr) h2
      · rw [if_neg h3]
        intro r hr
        exact absurd (key r hr) h2

/-- Witness of C25: on the empty table `emptyTable` with the file `failingFile`
the call opens the file, loads the rows 1 and 2, fails to read row 3 and
returns; its CFITSIO calls hold no `fits_close_file`. -/
theorem file_handle_discipline_witness :
    (check_xilltab_cache demoExt failingFile demoParam emptyTable [0, 0, 0, 0, 0]
      EXIT_SUCCESS).log
      = [FitsEvent.open_table true, FitsEvent.movnam_hdu true, FitsEvent.read_col 1 true,
          FitsEvent.movnam_hdu true, FitsEvent.read_col 2 true, FitsEvent.movnam_hdu true,
          FitsEvent.read_col 3 false] ∧
    closes_of (check_xilltab_cache demoExt failingFile demoParam emptyTable [0, 0, 0, 0, 0]
      EXIT_SUCCESS).log = 0 ∧
    (check_xilltab_cache demoExt failingFile demoParam emptyTable [0, 0, 0, 0, 0]
      EXIT_SUCCESS).fptr = true :=
  have h : false ∈ reads_of 3 (check_xilltab_cache demoExt failingFile demoParam emptyTable
      [0, 0, 0, 0, 0] EXIT_SUCCESS).log := by decide
  ⟨by decide,
    ((file_handle_discipline demoExt failingFile demoParam emptyTable [0, 0, 0, 0, 0]
      EXIT_SUCCESS).2.2.2 3 h).2.1,
    ((file_handle_discipline demoExt failingFile demoParam emptyTable [0, 0, 0, 0, 0]
      EXIT_SUCCESS).2.2.2 3 h).2.2.1⟩


/-! ### The shape of the result of a query -/

theorem for_ii_some_length {α : Type} (n : Nat) (body : Nat → Option α) (l : List α)
    (h : for_ii n body = some l) : l.length = n := by
  induction n generalizing l with
  | zero =>
    simp only [for_ii, Option.some.injEq] at h
    rw [← h]
    rfl
  | succ k ih =>
    simp only [for_ii, bind, Option.bind_eq_some, pure, Option.some.injEq] at h
    obtain ⟨out, hout, v, _, hl⟩ := h
    rw [← hl, List.length_append, ih out hout]
    rfl

theorem for_ii_some_getElem? {α : Type} (n : Nat) (body : Nat → Option α) (l : List α)
    (h : for_ii n body = some l) (i : Nat) (hi : i < n) : body i = l[i]? := by
  induction n generalizing l with
  | zero => exact absurd hi (Nat.not_lt_zero i)
  | succ k ih =>
    simp only [for_ii, bind, Option.bind_eq_some, pure, Option.some.injEq] at h
    obtain ⟨out, hout, v, hv, hl⟩ := h
    have hlen := for_ii_some_length k body out hout
    rw [← hl]
    rcases Nat.lt_succ_iff_lt_or_eq.1 hi with hlt | heq
    · rw [List.getElem?_append_left (by rw [hlen]; exact hlt)]
      exact ih out hout hlt
    · rw [heq, hv, List.getElem?_append_right (by rw [hlen]), hlen]
      simp

/-- When every iteration of the loop succeeds, so does the loop. -/
theorem for_ii_isSome {α : Type} (n : Nat) (body : Nat → Option α)
    (h : ∀ i, i < n → (body i).isSome = true) : (for_ii n body).isSome = true := by
  induction n with
  | zero => rfl
  | succ k ih =>
    have h1 := ih (fun i hi => h i (Nat.lt_succ_of_lt hi))
    have h2 := h k (Nat.lt_succ_self k)
    obtain ⟨out, hout⟩ := Option.isSome_iff_exists.1 h1
    obtain ⟨v, hv⟩ := Option.isSome_iff_exists.1 h2
    simp [for_ii, hout, hv]


theorem interp_5d_tab_incl_length (tab : xillTable R) (n_ener : Nat) (f1 f2 f3 f4 : R)
    (i0 i1 i2 i3 i4 i5 : Int) (flu : List R)
    (h : interp_5d_tab_incl tab n_ener f1 f2 f3 f4 i0 i1 i2 i3 i4 i5 = some flu) :
    flu.length = n_ener :=
  for_ii_some_length n_ener _ flu h

theorem interp_5d_tab_length (tab : xillTable R) (n_ener : Nat) (f1 f2 f3 f4 f5 : R)
    (i0 i1 i2 i3 i4 i5 : Int) (flu : List R)
    (h : interp_5d_tab tab n_ener f1 f2 f3 f4 f5 i0 i1 i2 i3 i4 i5 = some flu) :
    flu.length = n_ener :=
  for_ii_some_length n_ener _ flu h

theorem interp_6d_tab_incl_length (X : Ext R) (tab : xillTable R) (n_ener : Nat)
    (fac : List R) (nfac : Int) (ind : List Int) (iincl : Int) (flu : List R)
    (h : interp_6d_tab_incl X tab n_ener fac nfac ind iincl = some flu) :
    flu.length = n_ener := by
  unfold interp_6d_tab_incl at h
  obtain ⟨s1, _, h1⟩ := Option.bind_eq_some.1 h
  obtain ⟨s2, _, h2⟩ := Option.bind_eq_some.1 h1
  exact for_ii_some_length n_ener _ flu h2

theorem interp_6d_tab_length (X : Ext R) (tab : xillTable R) (n_ener : Nat)
    (fac : List R) (nfac : Int) (ind : List Int) (flu : List R)
    (h : interp_6d_tab X tab n_ener fac nfac ind = some flu) :
    flu.length = n_ener := by
  unfold interp_6d_tab at h
  obtain ⟨s1, _, h1⟩ := Option.bind_eq_some.1 h
  obtain ⟨s2, _, h2⟩ := Option.bind_eq_some.1 h1
  exact for_ii_some_length n_ener _ flu h2

/-- The arrays of a loop over the inclination bins all have the length of the
arrays that its body returns. -/
theorem for_ii_all_length (n k : Nat) (body : Nat → Option (List R)) (flu : List (List R))
    (h : for_ii n body = some flu)
    (hb : ∀ i f, body i = some f → f.length = k) :
    flu.length = n ∧ ∀ f ∈ flu, f.length = k := by
  have hlen := for_ii_some_length n body flu h
  refine ⟨hlen, fun f hf => ?_⟩
  obtain ⟨i, hi, e⟩ := List.mem_iff_getElem.1 hf
  have hb' := for_ii_some_getElem? n body flu h i (by rw [← hlen]; exact hi)
  rw [List.getElem?_eq_getElem hi, e] at hb'
  exact hb i f hb'

/-- The flux arrays computed by `interp_xill_table`, when it returns: as many as
the result has inclination bins, each with `n_ener` elements. -/
theorem interp_xill_table_flu_shape (X : Ext R) (tab : xillTable R)
    (param : xillTableParam R) (ind : List Int) (flu : List (List R))
    (h : interp_xill_table_flu X tab param ind (result_n_incl X tab param) = some flu) :
    flu.length = (result_n_incl X tab param).toNat ∧
    ∀ f ∈ flu, f.length = tab.n_ener.toNat := by
  unfold interp_xill_table_flu at h
  simp only [] at h
  by_cases h5 : tab.num_param = 5
  · rw [if_pos h5] at h
    by_cases hx : X.is_xill_model param.model_type = true
    · rw [if_pos hx] at h
      obtain ⟨flu0, h0, e⟩ := Option.map_eq_some'.1 h
      rw [← e]
      refine ⟨by simp [result_n_incl, hx], fun f hf => ?_⟩
      rw [List.mem_singleton.1 hf]
      exact interp_5d_tab_length tab _ _ _ _ _ _ _ _ _ _ _ _ flu0 h0
    · rw [if_neg hx] at h
      exact for_ii_all_length _ _ _ flu h
        (fun i f hf => interp_5d_tab_incl_length tab _ _ _ _ _ _ _ _ _ _ _ f hf)
  · rw [if_neg h5] at h
    by_cases h6 : tab.num_param = 6
    · rw [if_pos h6] at h
      by_cases hx : X.is_xill_model param.model_type = true
      · rw [if_pos hx] at h
        exact for_ii_all_length _ _ _ flu h
          (fun i f hf => interp_6d_tab_length X tab _ _ _ _ f hf)
      · rw [if_neg hx] at h
        exact for_ii_all_length _ _ _ flu h
          (fun i f hf => interp_6d_tab_incl_length X tab _ _ _ _ _ f hf)
    · rw [if_neg h6] at h
      simp only [Option.some.injEq] at h
      rw [← h]
      refine ⟨by simp, fun f hf => ?_⟩
      rw [(List.mem_replicate.1 hf).2]
      simp


/-- With the corners loaded, the flux arrays are computed. -/
theorem interp_xill_table_flu_isSome (X : Ext R) (tab : xillTable R)
    (param : xillTableParam R) (ind : List Int) (hl : corners_loaded X tab param ind) :
    (interp_xill_table_flu X tab param ind (result_n_incl X tab param)).isSome = true := by
  unfold corners_loaded at hl
  unfold interp_xill_table_flu
  simp only []
  by_cases h5 : tab.num_param = 5
  · rw [if_pos h5] at hl ⊢
    by_cases hx : X.is_xill_model param.model_type = true
    · rw [if_pos hx] at hl ⊢
      rw [interp_5d_tab_eq tab _ _ _ _ _ _ _ _ _ _ _ _ hl]
      rfl
    · rw [if_neg hx] at hl ⊢
      have hn : (result_n_incl X tab param).toNat = tab.n_incl.toNat := by
        simp [result_n_incl, hx]
      rw [hn]
      apply for_ii_isSome
      intro i hi
      rw [interp_5d_tab_incl_eq tab _ _ _ _ _ _ _ _ _ _ _ (hl i hi)]
      rfl
  · rw [if_neg h5] at hl ⊢
    by_cases h6 : tab.num_param = 6
    · rw [if_pos h6] at hl ⊢
      by_cases hx : X.is_xill_model param.model_type = true
      · rw [if_pos hx] at hl ⊢
        apply for_ii_isSome
        intro i _
        have h0 := hl false
        have h1 := hl true
        simp only [b2i_false, b2i_true, add_zero] at h0 h1
        rw [interp_6d_tab_eq X tab _ _ _ _ h0 h1]
        rfl
      · rw [if_neg hx] at hl ⊢
        have hn : (result_n_incl X tab param).toNat = tab.n_incl.toNat := by
          simp [result_n_incl, hx]
        rw [hn]
        apply for_ii_isSome
        intro i hi
        have h0 := hl i hi false
        have h1 := hl i hi true
        simp only [b2i_false, b2i_true, add_zero] at h0 h1
        rw [interp_6d_tab_incl_eq X tab _ _ _ _ _ h0 h1]
        rfl
    · rw [if_neg h6]
      rfl

/-- C22: for a table with `n_ener >= 1` whose corners read by the query are
loaded, `interp_xill_table`, entered with a good status, returns a spectrum
with `n_ener = tab->n_ener`, an energy grid of `n_ener + 1` edges,
`ener[i] = elo[i]` for `i < n_ener` and `ener[n_ener] = ehi[n_ener - 1]`,
`n_incl` equal to 1 for a xillver model and to `tab->n_incl` otherwise, exactly
`n_incl` flux arrays, each of length `n_ener`, and `n_incl` inclinations
`incl[i] = tab->incl[i]`. -/
theorem result_shape (X : Ext R) (tab : xillTable R) (param : xillTableParam R)
    (ind : List Int) (_hn : 1 ≤ tab.n_ener) (hl : corners_loaded X tab param ind) :
    ∃ spec, interp_xill_table X tab param ind EXIT_SUCCESS = some spec ∧
      spec.n_ener = tab.n_ener ∧
      spec.ener.length = tab.n_ener.toNat + 1 ∧
      (∀ i : Nat, i < tab.n_ener.toNat → spec.ener[i]? = some (idx 0 tab.elo i)) ∧
      spec.ener[tab.n_ener.toNat]? = some (idx 0 tab.ehi (tab.n_ener - 1)) ∧
      spec.n_incl = (if X.is_xill_model param.model_type then 1 else tab.n_incl) ∧
      spec.flu.length = spec.n_incl.toNat ∧
      (∀ f ∈ spec.flu, f.length = tab.n_ener.toNat) ∧
      spec.incl.length = spec.n_incl.toNat ∧
      (∀ i : Nat, i < spec.n_incl.toNat → spec.incl[i]? = some (idx 0 tab.incl i)) := by
  obtain ⟨flu, hflu⟩ := Option.isSome_iff_exists.1
    (interp_xill_table_flu_isSome X tab param ind hl)
  obtain ⟨s1, s2⟩ := interp_xill_table_flu_shape X tab param ind flu hflu
  have hflu' : interp_xill_table_flu X tab param ind
      (if X.is_xill_model param.model_type then 1 else tab.n_incl) = some flu := hflu
  have e : interp_xill_table X tab param ind EXIT_SUCCESS
      = some { n_ener := tab.n_ener
               n_incl := result_n_incl X tab param
               ener := ((List.range tab.n_ener.toNat).map fun (ii : Nat) => idx 0 tab.elo ii)
                 ++ [idx 0 tab.ehi (tab.n_ener - 1)]
               incl := (List.range (result_n_incl X tab param).toNat).map
                 fun (ii : Nat) => idx 0 tab.incl ii
               flu := flu } := by
    unfold interp_xill_table
    rw [if_neg (fun hne => hne rfl)]
    simp only []
    rw [hflu']
    rfl
  refine ⟨_, e, rfl, by simp, fun i hi => ?_, ?_, rfl, s1, s2, by simp, fun i hi => ?_⟩
  · simp only []
    rw [List.getElem?_append_left (by simpa using hi)]
    simp [hi]
  · simp only []
    rw [List.getElem?_append_right (by simp)]
    simp
  · simp only [] at hi ⊢
    simp [hi]

/-- Witness of C22: a xillver model on `demoTable`, all of whose spectra are
loaded; the result has one flux array. -/
theorem result_shape_witness :
    (1 : Int) ≤ demoTable.n_ener ∧ corners_loaded demoExt demoTable demoParam [0, 0, 0, 0, 0] ∧
    ∃ spec, interp_xill_table demoExt demoTable demoParam [0, 0, 0, 0, 0] EXIT_SUCCESS
        = some spec ∧ spec.n_ener = 2 ∧ spec.ener.length = 3 ∧ spec.flu.length = 1 :=
  have h32 : cell32 demoTable 2 0 0 0 0 0 0 := by unfold cell32; decide
  have hl : corners_loaded demoExt demoTable demoParam [0, 0, 0, 0, 0] := by
    unfold corners_loaded
    rw [if_pos (show demoTable.num_param = 5 from rfl),
      if_pos (show demoExt.is_xill_model demoParam.model_type = true from rfl)]
    exact h32
  ⟨by decide, hl,
    match result_shape demoExt demoTable demoParam [0, 0, 0, 0, 0] (by decide) hl with
    | ⟨spec, h1, h2, h3, _, _, h6, h7, _, _, _⟩ =>
      ⟨spec, h1, h2, h3, by rw [h7, h6]; rfl⟩⟩


/-! ### The single flux array of a xillver model -/

/-- The header of the spectrum returned by `interp_xill_table`. -/
theorem interp_xill_table_header (X : Ext R) (tab : xillTable R) (param : xillTableParam R)
    (ind : List Int) (status : Int) (spec : xillSpec R)
    (h : interp_xill_table X tab param ind status = some spec) :
    spec.n_ener = tab.n_ener ∧
    spec.n_incl = (if X.is_xill_model param.model_type then 1 else tab.n_incl) := by
  unfold interp_xill_table at h
  split_ifs at h with h1 h2
  · simp only [] at h
    obtain ⟨flu, _, e⟩ := Option.map_eq_some'.1 h
    rw [← e]
    simp [h2]
  · simp only [] at h
    obtain ⟨flu, _, e⟩ := Option.map_eq_some'.1 h
    rw [← e]
    simp [h2]

/-- C24 (amended): for a table of 5 axes and a xillver model, the case in which
`interp_xill_table` returns a single flux array (`n_incl = 1`), that flux is the
32-corner blend over all five axes, the inclination included: in every energy
bin the sum over the 32 bit vectors `(b0,..,b4)` of the product of the weights
of the axes 0..4 times the value stored at corner
`(0, ind[0]+b0, .., ind[4]+b4)`.  The factors are those of
`interp_xill_table_ipol_fac`, and the 32 corners are loaded. -/
theorem single_bin_blend (X : Ext R) (tab : xillTable R) (param : xillTableParam R)
    (ind : List Int) (h5 : tab.num_param = 5)
    (hx : X.is_xill_model param.model_type = true)
    (hc : cell32 tab tab.n_ener.toNat 0 (idx 0 ind 0) (idx 0 ind 1) (idx 0 ind 2)
      (idx 0 ind 3) (idx 0 ind 4)) :
    ∃ spec flu, interp_xill_table X tab param ind EXIT_SUCCESS = some spec ∧
      spec.n_incl = 1 ∧ spec.flu = [flu] ∧ flu.length = tab.n_ener.toNat ∧
      ∀ e, e < tab.n_ener.toNat →
        flu[e]? = some (∑ b0 : Bool, ∑ b1 : Bool, ∑ b2 : Bool, ∑ b3 : Bool, ∑ b4 : Bool,
          (wgt (idx 0 (interp_xill_table_ipol_fac X tab param ind) 0) b0 *
              wgt (idx 0 (interp_xill_table_ipol_fac X tab param ind) 1) b1 *
              wgt (idx 0 (interp_xill_table_ipol_fac X tab param ind) 2) b2 *
              wgt (idx 0 (interp_xill_table_ipol_fac X tab param ind) 3) b3 *
              wgt (idx 0 (interp_xill_table_ipol_fac X tab param ind) 4) b4) *
            specval tab 0 (idx 0 ind 0 + b2i b0) (idx 0 ind 1 + b2i b1)
              (idx 0 ind 2 + b2i b2) (idx 0 ind 3 + b2i b3) (idx 0 ind 4 + b2i b4) e) := by
  have hflu := interp_xill_table_flu_5_xill X tab param ind _ _ _ _ _ h5 hx rfl rfl rfl rfl rfl
    hc
  obtain ⟨spec, hs, e⟩ := Option.map_eq_some'.1 hflu
  have hh := (interp_xill_table_header X tab param ind EXIT_SUCCESS spec hs).2
  rw [if_pos hx] at hh
  refine ⟨spec, _, hs, hh, e, by simp, ?_⟩
  intro e' he'
  simp [he', multilinear5]

/-- Witness of C24: a xillver model on `demoTable` with the inclination halfway
between the two tabulated values. -/
theorem single_bin_blend_witness :
    cell32 demoTable demoTable.n_ener.toNat 0 (idx 0 [0, 0, 0, 0, 0] 0)
      (idx 0 [0, 0, 0, 0, 0] 1) (idx 0 [0, 0, 0, 0, 0] 2) (idx 0 [0, 0, 0, 0, 0] 3)
      (idx 0 [0, 0, 0, 0, 0] 4) ∧
    ∃ spec flu, interp_xill_table demoExt demoTable inclMidParam [0, 0, 0, 0, 0] EXIT_SUCCESS
        = some spec ∧ spec.n_incl = 1 ∧ spec.flu = [flu] ∧ flu.length = 2 :=
  have hc : cell32 demoTable demoTable.n_ener.toNat 0 (idx 0 [0, 0, 0, 0, 0] 0)
      (idx 0 [0, 0, 0, 0, 0] 1) (idx 0 [0, 0, 0, 0, 0] 2) (idx 0 [0, 0, 0, 0, 0] 3)
      (idx 0 [0, 0, 0, 0, 0] 4) := by unfold cell32; decide
  ⟨hc,
    match single_bin_blend demoExt demoTable inclMidParam [0, 0, 0, 0, 0] rfl rfl hc with
    | ⟨spec, flu, h1, h2, h3, h4, _⟩ => ⟨spec, flu, h1, h2, h3, h4⟩⟩

/-- Counterexample to C24: on `demoTable`, for a xillver model whose parameters
lie on the first grid point of the axes 0..3 and halfway between the two
inclinations, the factors are `[0, 0, 0, 0, 1/2]` and the single flux array
returned is `[3/2, 5/2]`, the mean of the spectra `[1, 1]` and `[2, 4]` stored
for the two inclinations; the 16-corner blend with the same factors of the
axes 0..3 is `[1, 1]` at inclination index 0 and `[2, 4]` at inclination
index 1. -/
theorem single_bin_blend_counterexample :
    demoExt.is_xill_model inclMidParam.model_type = true ∧
    interp_xill_table_ipol_fac demoExt demoTable inclMidParam [0, 0, 0, 0, 0]
      = [0, 0, 0, 0, 1 / 2] ∧
    (interp_xill_table demoExt demoTable inclMidParam [0, 0, 0, 0, 0]
      EXIT_SUCCESS).map (fun s => (s.n_incl, s.flu)) = some (1, [[3 / 2, 5 / 2]]) ∧
    interp_5d_tab_incl demoTable 2 0 0 0 0 0 0 0 0 0 0 = some [1, 1] ∧
    interp_5d_tab_incl demoTable 2 0 0 0 0 0 0 0 0 0 1 = some [2, 4] := by
  have hf : interp_xill_table_ipol_fac demoExt demoTable inclMidParam [0, 0, 0, 0, 0]
      = [0, 0, 0, 0, 1 / 2] := by
    simp [interp_xill_table_ipol_fac, ensure_ecut_within_boundarys, ipol_fac_loop,
      ipol_fac_step, ipol_fac_clamp, ipol_fac_value, get_xilltab_param_index,
      get_xilltab_paramvals, resetInpvalsToBoundaries, demoTable, inclMidParam, demoParam,
      demoExt, idx, range5, Function.update]
    norm_num
  have hc : cell32 demoTable demoTable.n_ener.toNat 0 (idx 0 [0, 0, 0, 0, 0] 0)
      (idx 0 [0, 0, 0, 0, 0] 1) (idx 0 [0, 0, 0, 0, 0] 2) (idx 0 [0, 0, 0, 0, 0] 3)
      (idx 0 [0, 0, 0, 0, 0] 4) := by unfold cell32; decide
  have h16a : cell16 demoTable 2 0 0 0 0 0 0 := by unfold cell16; decide
  have h16b : cell16 demoTable 2 0 0 0 0 0 1 := by unfold cell16; decide
  have hflu := interp_xill_table_flu_5_xill demoExt demoTable inclMidParam
    [0, 0, 0, 0, 0] 0 0 0 0 (1 / 2) rfl rfl (by rw [hf]; rfl) (by rw [hf]; rfl)
    (by rw [hf]; rfl) (by rw [hf]; rfl) (by rw [hf]; rfl) hc
  obtain ⟨spec, hs, e⟩ := Option.map_eq_some'.1 hflu
  have hh := (interp_xill_table_header demoExt demoTable inclMidParam [0, 0, 0, 0, 0]
    EXIT_SUCCESS spec hs).2
  refine ⟨rfl, hf, ?_, ?_, ?_⟩
  · rw [hs]
    simp only [Option.map_some', Option.some.injEq, Prod.mk.injEq]
    refine ⟨by rw [hh]; rfl, ?_⟩
    rw [e]
    simp [multilinear5, Fintype.sum_bool, wgt, b2i, specval, get_xillspec,
      get_xillspec_rownum, demoTable, idx, List.range_succ]
    norm_num
  · rw [interp_5d_tab_incl_eq demoTable 2 0 0 0 0 0 0 0 0 0 0 h16a]
    simp [multilinear4, Fintype.sum_bool, wgt, b2i, specval, get_xillspec,
      get_xillspec_rownum, demoTable, idx, List.range_succ]
  · rw [interp_5d_tab_incl_eq demoTable 2 0 0 0 0 0 0 0 0 0 1 h16b]
    simp [multilinear4, Fintype.sum_bool, wgt, b2i, specval, get_xillspec,
      get_xillspec_rownum, demoTable, idx, List.range_succ]
    norm_num


/-! ### The inclination as an output dimension -/

/-- The flux of a query on a 6-axis table for a model that is not a xillver
model: one array per inclination bin `m`, the two-stage blend at inclination
index `m`. -/
theorem interp_xill_table_flu_6_incl (X : Ext R) (tab : xillTable R)
    (param : xillTableParam R) (ind : List Int)
    (h6 : tab.num_param = 6) (hx : X.is_xill_model param.model_type = false)
    (hc : ∀ m : Nat, m < tab.n_incl.toNat → ∀ b0 : Bool,
      cell16 tab tab.n_ener.toNat (idx 0 ind 0 + b2i b0) (idx 0 ind 1) (idx 0 ind 2)
        (idx 0 ind 3) (idx 0 ind 4) m) :
    (interp_xill_table X tab param ind EXIT_SUCCESS).map (fun s => s.flu)
      = some ((List.range tab.n_incl.toNat).map fun (m : Nat) =>
          (List.range tab.n_ener.toNat).map fun e =>
            X.interp_lin_1d (idx 0 (interp_xill_table_ipol_fac X tab param ind) 0)
              (multilinear4 tab (idx 0 (interp_xill_table_ipol_fac X tab param ind) 1)
                (idx 0 (interp_xill_table_ipol_fac X tab param ind) 2)
                (idx 0 (interp_xill_table_ipol_fac X tab param ind) 3)
                (idx 0 (interp_xill_table_ipol_fac X tab param ind) 4)
                (idx 0 ind 0) (idx 0 ind 1) (idx 0 ind 2) (idx 0 ind 3) (idx 0 ind 4) m e)
              (multilinear4 tab (idx 0 (interp_xill_table_ipol_fac X tab param ind) 1)
                (idx 0 (interp_xill_table_ipol_fac X tab param ind) 2)
                (idx 0 (interp_xill_table_ipol_fac X tab param ind) 3)
                (idx 0 (interp_xill_table_ipol_fac X tab param ind) 4)
                (idx 0 ind 0 + 1) (idx 0 ind 1) (idx 0 ind 2) (idx 0 ind 3) (idx 0 ind 4)
                m e)) := by
  have hfor := for_ii_eq_some tab.n_incl.toNat
    (fun ii => interp_6d_tab_incl X tab tab.n_ener.toNat
      (interp_xill_table_ipol_fac X tab param ind) 6 ind (ii : Int))
    (fun (m : Nat) => (List.range tab.n_ener.toNat).map fun e =>
      X.interp_lin_1d (idx 0 (interp_xill_table_ipol_fac X tab param ind) 0)
        (multilinear4 tab (idx 0 (interp_xill_table_ipol_fac X tab param ind) 1)
          (idx 0 (interp_xill_table_ipol_fac X tab param ind) 2)
          (idx 0 (interp_xill_table_ipol_fac X tab param ind) 3)
          (idx 0 (interp_xill_table_ipol_fac X tab param ind) 4)
          (idx 0 ind 0) (idx 0 ind 1) (idx 0 ind 2) (idx 0 ind 3) (idx 0 ind 4) m e)
        (multilinear4 tab (idx 0 (interp_xill_table_ipol_fac X tab param ind) 1)
          (idx 0 (interp_xill_table_ipol_fac X tab param ind) 2)
          (idx 0 (interp_xill_table_ipol_fac X tab param ind) 3)
          (idx 0 (interp_xill_table_ipol_fac X tab param ind) 4)
          (idx 0 ind 0 + 1) (idx 0 ind 1) (idx 0 ind 2) (idx 0 ind 3) (idx 0 ind 4) m e))
    (fun m hm => by
      have h0 := hc m hm false
      have h1 := hc m hm true
      simp only [b2i_false, b2i_true, add_zero] at h0 h1
      exact interp_6d_tab_incl_eq X tab _ _ _ ind m h0 h1)
  simp only [interp_xill_table, ne_eq, not_true_eq_false, if_false, interp_xill_table_flu, h6,
    show ¬((6 : Int) = 5) by decide, hx, if_true, Bool.false_eq_true, hfor, Option.map_some',
    Option.map]

theorem get_xilltab_paramvals_incl (X : Ext R) (param : xillTableParam R) (v : R) (q : Int)
    (hq : q ≠ X.PARAM_INC) :
    get_xilltab_paramvals X { param with incl := v } q = get_xilltab_paramvals X param q := by
  simp [get_xilltab_paramvals, Function.update_apply, hq]

/-- For a model that is not a xillver model, changing `incl` and the indices
changes the array `inp_param_vals` of the factor loop at the entry `PARAM_INC`
only. -/
theorem ipol_fac_loop_inp_incl (X : Ext R) (tab : xillTable R) (param : xillTableParam R)
    (ind1 ind2 : List Int) (v : R) (hx : X.is_xill_model param.model_type = false)
    (k : Nat) (q : Int) (hq : q ≠ X.PARAM_INC) :
    (ipol_fac_loop X tab { param with incl := v } ind2 k).1 q
      = (ipol_fac_loop X tab param ind1 k).1 q := by
  induction k generalizing q with
  | zero => exact get_xilltab_paramvals_incl X param v q hq
  | succ k ih =>
    rw [ipol_fac_loop_succ, ipol_fac_loop_succ]
    simp only [ipol_fac_step, ipol_fac_clamp, hx]
    by_cases hkinc : idx 0 tab.param_index k = X.PARAM_INC
    · simp only [hkinc, beq_self_eq_true, Bool.not_false, Bool.and_self, Bool.not_true,
        Bool.false_eq_true, if_false]
      exact ih q hq
    · have hb : (idx 0 tab.param_index k == X.PARAM_INC) = false := by simpa using hkinc
      simp only [hb, Bool.and_false, Bool.not_false, if_true]
      by_cases hk : q = idx 0 tab.param_index k
      · rw [hk, Function.update_same, Function.update_same, ih _ hkinc]
      · rw [Function.update_noteq hk, Function.update_noteq hk, ih q hq]


/-- For a model that is not a xillver model, changing `incl` does not change the
factor that the loop computes for an axis of another kind on which the
indices agree. -/
theorem ipol_fac_loop_getElem?_incl (X : Ext R) (tab : xillTable R)
    (param : xillTableParam R) (ind1 ind2 : List Int) (v : R)
    (hx : X.is_xill_model param.model_type = false) (k j : Nat) (hj : j < k)
    (hkind : idx 0 tab.param_index j ≠ X.PARAM_INC)
    (hind : idx 0 ind1 j = idx 0 ind2 j) :
    (ipol_fac_loop X tab { param with incl := v } ind2 k).2[j]?
      = (ipol_fac_loop X tab param ind1 k).2[j]? := by
  rw [ipol_fac_loop_getElem X tab _ ind2 k j hj, ipol_fac_loop_getElem X tab _ ind1 k j hj]
  have h := ipol_fac_loop_inp_incl X tab param ind1 ind2 v hx j _ hkind
  have hb : (idx 0 tab.param_index j == X.PARAM_INC) = false := by simpa using hkind
  simp only [ipol_fac_value, ipol_fac_clamp, hx, hb, Bool.and_false, Bool.not_false, if_true,
    Function.update_same, h, hind]

/-- For a model that is not a xillver model, changing `incl` does not change the
factor handed to the blends for an axis of another kind on which the indices
agree. -/
theorem interp_xill_table_ipol_fac_incl (X : Ext R) (tab : xillTable R)
    (param : xillTableParam R) (ind1 ind2 : List Int) (v : R)
    (hx : X.is_xill_model param.model_type = false) (j : Nat)
    (hj : j < tab.num_param.toNat)
    (hkind : idx 0 tab.param_index j ≠ X.PARAM_INC)
    (hind : idx 0 ind1 j = idx 0 ind2 j) :
    idx 0 (interp_xill_table_ipol_fac X tab { param with incl := v } ind2) j
      = idx 0 (interp_xill_table_ipol_fac X tab param ind1) j := by
  have hL := ipol_fac_loop_getElem?_incl X tab param ind1 ind2 v hx tab.num_param.toNat j hj
    hkind hind
  have hl1 := ipol_fac_loop_length X tab param ind1 tab.num_param.toNat
  have hl2 := ipol_fac_loop_length X tab { param with incl := v } ind2 tab.num_param.toNat
  have key : (interp_xill_table_ipol_fac X tab { param with incl := v } ind2)[j]?
      = (interp_xill_table_ipol_fac X tab param ind1)[j]? := by
    unfold interp_xill_table_ipol_fac
    by_cases hp : get_xilltab_param_index tab X.PARAM_ECT = (j : Int)
    · rw [ensure_ecut_getElem?_eq X tab _ _ j hp (by rw [hl2]; exact hj),
        ensure_ecut_getElem?_eq X tab _ _ j hp (by rw [hl1]; exact hj), hL]
    · rw [ensure_ecut_getElem?_ne X tab _ _ j hp, ensure_ecut_getElem?_ne X tab _ _ j hp, hL]
  rw [idx_natCast, idx_natCast, List.getD_eq_getElem?_getD, List.getD_eq_getElem?_getD, key]


/-- For a model that is not a xillver model the flux arrays do not depend on
`incl` nor on the index of the inclination axis. -/
theorem interp_xill_table_flu_incl (X : Ext R) (tab : xillTable R)
    (param : xillTableParam R) (ind1 ind2 : List Int) (v : R) (n_incl : Int)
    (hx : X.is_xill_model param.model_type = false)
    (hk : ∀ j : Nat, (j : Int) < tab.num_param - 1 → idx 0 tab.param_index j ≠ X.PARAM_INC)
    (hi : ∀ j : Nat, (j : Int) < tab.num_param - 1 → idx 0 ind1 j = idx 0 ind2 j) :
    interp_xill_table_flu X tab { param with incl := v } ind2 n_incl
      = interp_xill_table_flu X tab param ind1 n_incl := by
  have hfac : ∀ j : Nat, (j : Int) < tab.num_param - 1 →
      idx 0 (interp_xill_table_ipol_fac X tab { param with incl := v } ind2) j
        = idx 0 (interp_xill_table_ipol_fac X tab param ind1) j := fun j hj =>
    interp_xill_table_ipol_fac_incl X tab param ind1 ind2 v hx j (by omega) (hk j hj) (hi j hj)
  unfold interp_xill_table_flu
  simp only [hx]
  by_cases h5 : tab.num_param = 5
  · have f0 := hfac 0 (by rw [h5]; decide)
    have f1 := hfac 1 (by rw [h5]; decide)
    have f2 := hfac 2 (by rw [h5]; decide)
    have f3 := hfac 3 (by rw [h5]; decide)
    have i0 := hi 0 (by rw [h5]; decide)
    have i1 := hi 1 (by rw [h5]; decide)
    have i2 := hi 2 (by rw [h5]; decide)
    have i3 := hi 3 (by rw [h5]; decide)
    simp only [Nat.cast_zero, Nat.cast_one, Nat.cast_ofNat] at f0 f1 f2 f3 i0 i1 i2 i3
    simp only [h5, if_true, Bool.false_eq_true, if_false, f0, f1, f2, f3, i0, i1, i2, i3]
  · by_cases h6 : tab.num_param = 6
    · have f0 := hfac 0 (by rw [h6]; decide)
      have f1 := hfac 1 (by rw [h6]; decide)
      have f2 := hfac 2 (by rw [h6]; decide)
      have f3 := hfac 3 (by rw [h6]; decide)
      have f4 := hfac 4 (by rw [h6]; decide)
      have i0 := hi 0 (by rw [h6]; decide)
      have i1 := hi 1 (by rw [h6]; decide)
      have i2 := hi 2 (by rw [h6]; decide)
      have i3 := hi 3 (by rw [h6]; decide)
      have i4 := hi 4 (by rw [h6]; decide)
      simp only [Nat.cast_zero, Nat.cast_one, Nat.cast_ofNat] at f0 f1 f2 f3 f4 i0 i1 i2 i3 i4
      simp only [h6, show ¬((6 : Int) = 5) by decide, if_true, Bool.false_eq_true, if_false,
        interp_6d_tab_incl, f0, f1, f2, f3, f4, i0, i1, i2, i3, i4]
    · simp only [h5, h6, if_false]

/-- For a model that is not a xillver model, two queries on the same table whose
parameters differ in `incl` only and whose indices agree on the other axes
return the same spectrum. -/
theorem interp_xill_table_incl (X : Ext R) (tab : xillTable R)
    (param : xillTableParam R) (ind1 ind2 : List Int) (v : R) (status : Int)
    (hx : X.is_xill_model param.model_type = false)
    (hk : ∀ j : Nat, (j : Int) < tab.num_param - 1 → idx 0 tab.param_index j ≠ X.PARAM_INC)
    (hi : ∀ j : Nat, (j : Int) < tab.num_param - 1 → idx 0 ind1 j = idx 0 ind2 j) :
    interp_xill_table X tab { param with incl := v } ind2 status
      = interp_xill_table X tab param ind1 status := by
  unfold interp_xill_table
  simp only [interp_xill_table_flu_incl X tab param ind1 ind2 v _ hx hk hi]


/-- C23: for a model that is not a xillver model, with the corners loaded: on a
table of 5 axes the flux array `flu[m]` of every inclination bin `m < n_incl`
is the 16-corner blend over the axes 0..3 at inclination index `m`; on a table
of 6 axes it is the two-stage blend, `interp_lin_1d` on axis 0 of the two
16-corner blends over the axes 1..4 at inclination index `m`.  And, when no
axis other than the last one is of kind `PARAM_INC`, a query whose parameters
differ in `incl` only and whose indices agree on the axes other than the last
one returns the same spectrum. -/
theorem inclination_retained (X : Ext R) (tab : xillTable R) (param : xillTableParam R)
    (ind : List Int) (hx : X.is_xill_model param.model_type = false) :
    (tab.num_param = 5 →
      (∀ m : Nat, m < tab.n_incl.toNat →
        cell16 tab tab.n_ener.toNat 0 (idx 0 ind 0) (idx 0 ind 1) (idx 0 ind 2)
          (idx 0 ind 3) m) →
      ∃ spec, interp_xill_table X tab param ind EXIT_SUCCESS = some spec ∧
        spec.flu.length = tab.n_incl.toNat ∧
        ∀ m : Nat, m < tab.n_incl.toNat →
          spec.flu[m]? = some ((List.range tab.n_ener.toNat).map
            (multilinear4 tab (idx 0 (interp_xill_table_ipol_fac X tab param ind) 0)
              (idx 0 (interp_xill_table_ipol_fac X tab param ind) 1)
              (idx 0 (interp_xill_table_ipol_fac X tab param ind) 2)
              (idx 0 (interp_xill_table_ipol_fac X tab param ind) 3)
              0 (idx 0 ind 0) (idx 0 ind 1) (idx 0 ind 2) (idx 0 ind 3) m))) ∧
    (tab.num_param = 6 →
      (∀ m : Nat, m < tab.n_incl.toNat → ∀ b0 : Bool,
        cell16 tab tab.n_ener.toNat (idx 0 ind 0 + b2i b0) (idx 0 ind 1) (idx 0 ind 2)
          (idx 0 ind 3) (idx 0 ind 4) m) →
      ∃ spec, interp_xill_table X tab param ind EXIT_SUCCESS = some spec ∧
        spec.flu.length = tab.n_incl.toNat ∧
        ∀ m : Nat, m < tab.n_incl.toNat →
          spec.flu[m]? = some ((List.range tab.n_ener.toNat).map fun e =>
            X.interp_lin_1d (idx 0 (interp_xill_table_ipol_fac X tab param ind) 0)
              (multilinear4 tab (idx 0 (interp_xill_table_ipol_fac X tab param ind) 1)
                (idx 0 (interp_xill_table_ipol_fac X tab param ind) 2)
                (idx 0 (interp_xill_table_ipol_fac X tab param ind) 3)
                (idx 0 (interp_xill_table_ipol_fac X tab param ind) 4)
                (idx 0 ind 0) (idx 0 ind 1) (idx 0 ind 2) (idx 0 ind 3) (idx 0 ind 4) m e)
              (multilinear4 tab (idx 0 (interp_xill_table_ipol_fac X tab param ind) 1)
                (idx 0 (interp_xill_table_ipol_fac X tab param ind) 2)
                (idx 0 (interp_xill_table_ipol_fac X tab param ind) 3)
                (idx 0 (interp_xill_table_ipol_fac X tab param ind) 4)
                (idx 0 ind 0 + 1) (idx 0 ind 1) (idx 0 ind 2) (idx 0 ind 3) (idx 0 ind 4)
                m e))) ∧
    (∀ (v : R) (ind2 : List Int) (status : Int),
      (∀ j : Nat, (j : Int) < tab.num_param - 1 → idx 0 tab.param_index j ≠ X.PARAM_INC) →
      (∀ j : Nat, (j : Int) < tab.num_param - 1 → idx 0 ind j = idx 0 ind2 j) →
      interp_xill_table X tab { param with incl := v } ind2 status
        = interp_xill_table X tab param ind status) := by
  refine ⟨fun h5 hc => ?_, fun h6 hc => ?_, fun v ind2 status hk hi =>
    interp_xill_table_incl X tab param ind ind2 v status hx hk hi⟩
  · have hflu := interp_xill_table_flu_5_incl X tab param ind _ _ _ _ h5 hx rfl rfl rfl rfl hc
    obtain ⟨spec, hs, e⟩ := Option.map_eq_some'.1 hflu
    refine ⟨spec, hs, by rw [e]; simp, fun m hm => ?_⟩
    rw [e]
    simp [hm]
  · have hflu := interp_xill_table_flu_6_incl X tab param ind h6 hx hc
    obtain ⟨spec, hs, e⟩ := Option.map_eq_some'.1 hflu
    refine ⟨spec, hs, by rw [e]; simp, fun m hm => ?_⟩
    rw [e]
    simp [hm]

/-- Witness of C23: on `demoTable`, for a model that is not a xillver model, the
query with inclination 2 returns what the query with inclination 1 returns. -/
theorem inclination_retained_witness :
    demoExt.is_xill_model nonXillParam.model_type = false ∧
    interp_xill_table demoExt demoTable { nonXillParam with incl := 2 } [0, 0, 0, 0, 1]
        EXIT_SUCCESS
      = interp_xill_table demoExt demoTable nonXillParam [0, 0, 0, 0, 0] EXIT_SUCCESS := by
  refine ⟨rfl, (inclination_retained demoExt demoTable nonXillParam [0, 0, 0, 0, 0] rfl).2.2
    2 [0, 0, 0, 0, 1] EXIT_SUCCESS ?_ ?_⟩
  · intro j hj
    have h4 : j < 4 := by
      have : demoTable.num_param = 5 := rfl
      rw [this] at hj
      omega
    interval_cases j <;> decide
  · intro j hj
    have h4 : j < 4 := by
      have : demoTable.num_param = 5 := rfl
      rw [this] at hj
      omega
    interval_cases j <;> rfl


/-! ### The lookup of an axis by its kind -/

/-- C35: `get_xilltab_param_index(tab, k)` returns `-1` if and only if no axis
`ii` in `0..num_param-1` has `param_index[ii] = k`; when some axis `q` has kind
`k` it returns the smallest position `p` with `param_index[p] = k`, so that
`p <= q` and no position below `p` has kind `k`. -/
theorem axis_lookup (tab : xillTable R) (k : Int) :
    (get_xilltab_param_index tab k = -1 ↔
      ∀ ii : Nat, ii < tab.num_param.toNat → idx 0 tab.param_index ii ≠ k) ∧
    (∀ q : Nat, q < tab.num_param.toNat → idx 0 tab.param_index q = k →
      ∃ p : Nat, get_xilltab_param_index tab k = (p : Int) ∧ p ≤ q ∧
        p < tab.num_param.toNat ∧ idx 0 tab.param_index p = k ∧
        ∀ jj : Nat, jj < p → idx 0 tab.param_index jj ≠ k) := by
  rcases get_xilltab_param_index_spec tab k with ⟨h1, h2⟩ | ⟨p, h1, h2, h3, h4⟩
  · refine ⟨⟨fun _ => h2, fun _ => h1⟩, fun q hq hk => absurd hk (h2 q hq)⟩
  · refine ⟨⟨fun h => ?_, fun h => absurd h3 (h p h2)⟩, fun q _ hk => ?_⟩
    · rw [h1] at h
      omega
    · refine ⟨p, h1, ?_, h2, h3, h4⟩
      by_contra hlt
      exact h4 q (not_le.1 hlt) hk

/-- Witness of C35: in `demoTable`, whose axes have the kinds 0, 1, 2, 3, 8, the
axis of kind 8 is found at a position `p <= 4`. -/
theorem axis_lookup_witness :
    (4 < demoTable.num_param.toNat ∧ idx 0 demoTable.param_index ((4 : Nat) : Int) = 8) ∧
    ∃ p : Nat, get_xilltab_param_index demoTable 8 = (p : Int) ∧ p ≤ 4 ∧
      p < demoTable.num_param.toNat ∧ idx 0 demoTable.param_index p = 8 ∧
      ∀ jj : Nat, jj < p → idx 0 demoTable.param_index jj ≠ 8 :=
  ⟨⟨by decide, by decide⟩, (axis_lookup demoTable 8).2 4 (by decide) (by decide)⟩


/-! ### The frame of the cutoff pin -/

/-- C31 (refuted in part): `ensure_ecut_within_boundarys` keeps the length of
`ipol_fac` and changes no entry other than the one at the position `p` of the
cutoff axis, and it leaves the whole array unchanged when no axis has kind
`PARAM_ECT`.  The entry at `p` becomes 1 when `ect` is at or above the last
value of the axis stored at position `PARAM_ECT`, else 0 when `ect` is at or
below the first value of that axis, else it is unchanged: the bounds are those
of the axis at position `PARAM_ECT`, not of the axis at position `p`.  When
`p = PARAM_ECT` and the first value of the axis lies below the last one, the
entry is set to 0 for `ect` at or below the lowest tabulated cutoff value and
the array is unchanged for `ect` strictly between the lowest and the highest
one. -/
theorem cutoff_pin_frame (X : Ext R) (tab : xillTable R) (param : xillTableParam R)
    (L : List R) :
    (ensure_ecut_within_boundarys X tab param L).length = L.length ∧
    (∀ j : Nat, get_xilltab_param_index tab X.PARAM_ECT ≠ (j : Int) →
      (ensure_ecut_within_boundarys X tab param L)[j]? = L[j]?) ∧
    ((∀ ii : Nat, ii < tab.num_param.toNat → idx 0 tab.param_index ii ≠ X.PARAM_ECT) →
      ensure_ecut_within_boundarys X tab param L = L) ∧
    (∀ p : Nat, get_xilltab_param_index tab X.PARAM_ECT = (p : Int) → p < L.length →
      (ensure_ecut_within_boundarys X tab param L)[p]?
        = if param.ect ≥ idx 0 (idx [] tab.param_vals X.PARAM_ECT)
              (idx 0 tab.num_param_vals X.PARAM_ECT - 1) then some 1
          else if param.ect ≤ idx 0 (idx [] tab.param_vals X.PARAM_ECT) 0 then some 0
          else L[p]?) ∧
    (∀ p : Nat, get_xilltab_param_index tab X.PARAM_ECT = (p : Int) →
      (p : Int) = X.PARAM_ECT →
      axis_val tab p 0 < axis_val tab p (axis_len tab p - 1) →
      (param.ect ≤ axis_val tab p 0 → p < L.length →
        (ensure_ecut_within_boundarys X tab param L)[p]? = some 0) ∧
      (axis_val tab p 0 < param.ect → param.ect < axis_val tab p (axis_len tab p - 1) →
        ensure_ecut_within_boundarys X tab param L = L)) := by
  have hkind : ∀ p : Nat, get_xilltab_param_index tab X.PARAM_ECT = (p : Int) →
      idx 0 tab.param_index p = X.PARAM_ECT := by
    intro p hp
    rcases get_xilltab_param_index_spec tab X.PARAM_ECT with ⟨h1, _⟩ | ⟨p', h1, _, h3, _⟩
    · rw [h1] at hp
      omega
    · have : p' = p := by
        rw [h1] at hp
        exact_mod_cast hp
      rw [← this]
      exact h3
  refine ⟨ensure_ecut_length X tab param L,
    fun j hj => ensure_ecut_getElem?_ne X tab param L j hj, fun hno => ?_,
    fun p hp hpl => ?_, fun p hp hpos hlt => ⟨fun hlo hpl => ?_, fun h1 h2 => ?_⟩⟩
  · rcases get_xilltab_param_index_spec tab X.PARAM_ECT with ⟨h1, _⟩ | ⟨p, _, h2, h3, _⟩
    · unfold ensure_ecut_within_boundarys
      simp only [h1]
      rw [if_neg (by decide)]
    · exact absurd h3 (hno p h2)
  · rw [ensure_ecut_getElem?_eq X tab param L p hp hpl, hkind p hp]
  · rw [ensure_ecut_getElem?_eq X tab param L p hp hpl, hkind p hp, ← hpos]
    simp only [axis_val, axis_len] at hlt hlo
    rw [if_neg (not_le.2 (lt_of_le_of_lt hlo hlt)), if_pos hlo]
  · simp only [axis_val, axis_len] at h1 h2
    have hk : idx 0 tab.param_index p = (p : Int) := by rw [hkind p hp, hpos]
    unfold ensure_ecut_within_boundarys
    simp only [hp, hk]
    rw [if_pos (Int.natCast_nonneg p), if_neg (not_le.2 h1), if_neg (not_le.2 h2)]

/-- Witness of C31: in `cutoffSecondTable` the cutoff axis, values 20 and 300, is
at position 1 and the axis at position `PARAM_ECT = 3` holds 0 and 4.  For
`ect = 20`, the lowest tabulated cutoff value, the entry at position 1 is set
to 1, not to 0; for `ect = 100`, strictly between 20 and 300, the array is
changed. -/
theorem cutoff_pin_frame_witness :
    get_xilltab_param_index cutoffSecondTable demoExt.PARAM_ECT = ((1 : Nat) : Int) ∧
    cutoffSecondParam.ect = axis_val cutoffSecondTable 1 0 ∧
    (ensure_ecut_within_boundarys demoExt cutoffSecondTable cutoffSecondParam
      [1 / 2, 0, 0, 0, 0])[1]? = some 1 ∧
    axis_val cutoffSecondTable 1 0 < 100 ∧
    (100 : ℚ) < axis_val cutoffSecondTable 1 (axis_len cutoffSecondTable 1 - 1) ∧
    ensure_ecut_within_boundarys demoExt cutoffSecondTable
      { cutoffSecondParam with ect := 100 } [1 / 2, 0, 0, 0, 0] = [1 / 2, 1, 0, 0, 0] := by
  have hp : get_xilltab_param_index cutoffSecondTable demoExt.PARAM_ECT = ((1 : Nat) : Int) := by
    decide
  refine ⟨hp, ?_, ?_, ?_, ?_, ?_⟩
  · simp [axis_val, cutoffSecondTable, cutoffSecondParam, idx]
  · rw [(cutoff_pin_frame demoExt cutoffSecondTable cutoffSecondParam
      [1 / 2, 0, 0, 0, 0]).2.2.2.1 1 hp (by decide)]
    simp [cutoffSecondTable, cutoffSecondParam, demoExt, idx]
    norm_num
  · simp [axis_val, cutoffSecondTable, idx]
    norm_num
  · simp [axis_val, axis_len, cutoffSecondTable, idx]
    norm_num
  · simp [ensure_ecut_within_boundarys, get_xilltab_param_index, cutoffSecondTable,
      cutoffSecondParam, demoExt, idx, range5]
    norm_num


/-! ### The blends as convex combinations -/

theorem unit_mul {a b : R} (ha : 0 ≤ a ∧ a ≤ 1) (hb : 0 ≤ b ∧ b ≤ 1) :
    0 ≤ a * b ∧ a * b ≤ 1 := by
  refine ⟨mul_nonneg ha.1 hb.1, ?_⟩
  have h := mul_le_mul ha.2 hb.2 hb.1 zero_le_one
  rwa [one_mul] at h

theorem unit_compl {f : R} (h : 0 ≤ f ∧ f ≤ 1) : 0 ≤ 1 - f ∧ 1 - f ≤ 1 :=
  ⟨by linarith [h.2], by linarith [h.1]⟩

theorem wgt_unit {f : R} (h : 0 ≤ f ∧ f ≤ 1) (b : Bool) : 0 ≤ wgt f b ∧ wgt f b ≤ 1 := by
  cases b
  · rw [wgt_false]
    exact unit_compl h
  · rw [wgt_true]
    exact h

/-- The 16 weights of `interp_5d_tab_incl` lie in `[0,1]` for fractions in
`[0,1]`. -/
theorem weights16_unit (f1 f2 f3 f4 : R) (h1 : 0 ≤ f1 ∧ f1 ≤ 1) (h2 : 0 ≤ f2 ∧ f2 ≤ 1)
    (h3 : 0 ≤ f3 ∧ f3 ≤ 1) (h4 : 0 ≤ f4 ∧ f4 ≤ 1) :
    ∀ w ∈
      [f_0000 f1 f2 f3 f4, f_1000 f1 f2 f3 f4, f_0100 f1 f2 f3 f4, f_0010 f1 f2 f3 f4,
       f_0001 f1 f2 f3 f4, f_1010 f1 f2 f3 f4, f_1001 f1 f2 f3 f4, f_0101 f1 f2 f3 f4,
       f_1100 f1 f2 f3 f4, f_0110 f1 f2 f3 f4, f_0011 f1 f2 f3 f4, f_1101 f1 f2 f3 f4,
       f_1110 f1 f2 f3 f4, f_1011 f1 f2 f3 f4, f_0111 f1 f2 f3 f4, f_1111 f1 f2 f3 f4],
      0 ≤ w ∧ w ≤ 1 := by
  have c1 := unit_compl h1
  have c2 := unit_compl h2
  have c3 := unit_compl h3
  have c4 := unit_compl h4
  intro w hw
  simp only [List.mem_cons, List.mem_singleton, List.not_mem_nil, or_false] at hw
  rcases hw with rfl | rfl | rfl | rfl | rfl | rfl | rfl | rfl | rfl | rfl | rfl | rfl | rfl | rfl | rfl | rfl
  all_goals
    simp only [
      f_0000, f_1000, f_0100, f_0010, f_0001, f_1010, f_1001, f_0101, f_1100, f_0110, f_0011,
      f_1101, f_1110, f_1011, f_0111, f_1111]
    exact unit_mul (unit_mul (unit_mul (by assumption) (by assumption)) (by assumption))
      (by assumption)

/-- The 32 weights of `interp_5d_tab` lie in `[0,1]` for fractions in `[0,1]`. -/
theorem weights32_unit (f1 f2 f3 f4 f5 : R) (h1 : 0 ≤ f1 ∧ f1 ≤ 1) (h2 : 0 ≤ f2 ∧ f2 ≤ 1)
    (h3 : 0 ≤ f3 ∧ f3 ≤ 1) (h4 : 0 ≤ f4 ∧ f4 ≤ 1) (h5 : 0 ≤ f5 ∧ f5 ≤ 1) :
    ∀ w ∈
      [f_00000 f1 f2 f3 f4 f5, f_10000 f1 f2 f3 f4 f5, f_01000 f1 f2 f3 f4 f5,
       f_00100 f1 f2 f3 f4 f5, f_00010 f1 f2 f3 f4 f5, f_10100 f1 f2 f3 f4 f5,
       f_10010 f1 f2 f3 f4 f5, f_01010 f1 f2 f3 f4 f5, f_11000 f1 f2 f3 f4 f5,
       f_01100 f1 f2 f3 f4 f5, f_00110 f1 f2 f3 f4 f5, f_11010 f1 f2 f3 f4 f5,
       f_11100 f1 f2 f3 f4 f5, f_10110 f1 f2 f3 f4 f5, f_01110 f1 f2 f3 f4 f5,
       f_11110 f1 f2 f3 f4 f5, f_00001 f1 f2 f3 f4 f5, f_10001 f1 f2 f3 f4 f5,
       f_01001 f1 f2 f3 f4 f5, f_00101 f1 f2 f3 f4 f5, f_00011 f1 f2 f3 f4 f5,
       f_10101 f1 f2 f3 f4 f5, f_10011 f1 f2 f3 f4 f5, f_01011 f1 f2 f3 f4 f5,
       f_11001 f1 f2 f3 f4 f5, f_01101 f1 f2 f3 f4 f5, f_00111 f1 f2 f3 f4 f5,
       f_11011 f1 f2 f3 f4 f5, f_11101 f1 f2 f3 f4 f5, f_10111 f1 f2 f3 f4 f5,
       f_01111 f1 f2 f3 f4 f5, f_11111 f1 f2 f3 f4 f5],
      0 ≤ w ∧ w ≤ 1 := by
  have c1 := unit_compl h1
  have c2 := unit_compl h2
  have c3 := unit_compl h3
  have c4 := unit_compl h4
  have c5 := unit_compl h5
  intro w hw
  simp only [List.mem_cons, List.mem_singleton, List.not_mem_nil, or_false] at hw
  rcases hw with rfl | rfl | rfl | rfl | rfl | rfl | rfl | rfl | rfl | rfl | rfl | rfl | rfl | rfl | rfl | rfl | rfl | rfl | rfl | rfl | rfl | rfl | rfl | rfl | rfl | rfl | rfl | rfl | rfl | rfl | rfl | rfl
  all_goals
    simp only [
      f_00000, f_10000, f_01000, f_00100, f_00010, f_10100, f_10010, f_01010, f_11000, f_01100,
      f_00110, f_11010, f_11100, f_10110, f_01110, f_11110, f_00001, f_10001, f_01001, f_00101,
      f_00011, f_10101, f_10011, f_01011, f_11001, f_01101, f_00111, f_11011, f_11101, f_10111,
      f_01111, f_11111]
    exact unit_mul (unit_mul (unit_mul (unit_mul (by assumption) (by assumption))
      (by assumption)) (by assumption)) (by assumption)

/-- The 16-corner blend lies between any two bounds of the 16 corner values. -/
theorem multilinear4_bounds (tab : xillTable R) (f1 f2 f3 f4 : R)
    (i0 i1 i2 i3 i4 i5 : Int) (e : Nat)
    (h1 : 0 ≤ f1 ∧ f1 ≤ 1) (h2 : 0 ≤ f2 ∧ f2 ≤ 1) (h3 : 0 ≤ f3 ∧ f3 ≤ 1)
    (h4 : 0 ≤ f4 ∧ f4 ≤ 1) (lo hi : R)
    (hb : ∀ b : Bool × Bool × Bool × Bool,
      lo ≤ corner16 tab i0 i1 i2 i3 i4 i5 e b ∧ corner16 tab i0 i1 i2 i3 i4 i5 e b ≤ hi) :
    lo ≤ multilinear4 tab f1 f2 f3 f4 i0 i1 i2 i3 i4 i5 e ∧
    multilinear4 tab f1 f2 f3 f4 i0 i1 i2 i3 i4 i5 e ≤ hi := by
  have hw : ∀ b1 b2 b3 b4 : Bool, 0 ≤ wgt f1 b1 * wgt f2 b2 * wgt f3 b3 * wgt f4 b4 :=
    fun b1 b2 b3 b4 => mul_nonneg (mul_nonneg (mul_nonneg (wgt_unit h1 b1).1
      (wgt_unit h2 b2).1) (wgt_unit h3 b3).1) (wgt_unit h4 b4).1
  have hlo : 0 ≤ ∑ b1 : Bool, ∑ b2 : Bool, ∑ b3 : Bool, ∑ b4 : Bool,
      (wgt f1 b1 * wgt f2 b2 * wgt f3 b3 * wgt f4 b4) *
        (specval tab i0 (i1 + b2i b1) (i2 + b2i b2) (i3 + b2i b3) (i4 + b2i b4) i5 e - lo) :=
    Finset.sum_nonneg fun b1 _ => Finset.sum_nonneg fun b2 _ => Finset.sum_nonneg fun b3 _ =>
      Finset.sum_nonneg fun b4 _ => mul_nonneg (hw b1 b2 b3 b4)
        (sub_nonneg.2 (hb (b1, b2, b3, b4)).1)
  have hhi : 0 ≤ ∑ b1 : Bool, ∑ b2 : Bool, ∑ b3 : Bool, ∑ b4 : Bool,
      (wgt f1 b1 * wgt f2 b2 * wgt f3 b3 * wgt f4 b4) *
        (hi - specval tab i0 (i1 + b2i b1) (i2 + b2i b2) (i3 + b2i b3) (i4 + b2i b4) i5 e) :=
    Finset.sum_nonneg fun b1 _ => Finset.sum_nonneg fun b2 _ => Finset.sum_nonneg fun b3 _ =>
      Finset.sum_nonneg fun b4 _ => mul_nonneg (hw b1 b2 b3 b4)
        (sub_nonneg.2 (hb (b1, b2, b3, b4)).2)
  have elo : (∑ b1 : Bool, ∑ b2 : Bool, ∑ b3 : Bool, ∑ b4 : Bool,
      (wgt f1 b1 * wgt f2 b2 * wgt f3 b3 * wgt f4 b4) *
        (specval tab i0 (i1 + b2i b1) (i2 + b2i b2) (i3 + b2i b3) (i4 + b2i b4) i5 e - lo))
      = multilinear4 tab f1 f2 f3 f4 i0 i1 i2 i3 i4 i5 e - lo := by
    simp only [multilinear4, Fintype.sum_bool, wgt_true, wgt_false]
    ring
  have ehi : (∑ b1 : Bool, ∑ b2 : Bool, ∑ b3 : Bool, ∑ b4 : Bool,
      (wgt f1 b1 * wgt f2 b2 * wgt f3 b3 * wgt f4 b4) *
        (hi - specval tab i0 (i1 + b2i b1) (i2 + b2i b2) (i3 + b2i b3) (i4 + b2i b4) i5 e))
      = hi - multilinear4 tab f1 f2 f3 f4 i0 i1 i2 i3 i4 i5 e := by
    simp only [multilinear4, Fintype.sum_bool, wgt_true, wgt_false]
    ring
  rw [elo] at hlo
  rw [ehi] at hhi
  exact ⟨sub_nonneg.1 hlo, sub_nonneg.1 hhi⟩

/-- The 32-corner blend lies between any two bounds of the 32 corner values. -/
theorem multilinear5_bounds (tab : xillTable R) (f1 f2 f3 f4 f5 : R)
    (i0 i1 i2 i3 i4 i5 : Int) (e : Nat)
    (h1 : 0 ≤ f1 ∧ f1 ≤ 1) (h2 : 0 ≤ f2 ∧ f2 ≤ 1) (h3 : 0 ≤ f3 ∧ f3 ≤ 1)
    (h4 : 0 ≤ f4 ∧ f4 ≤ 1) (h5 : 0 ≤ f5 ∧ f5 ≤ 1) (lo hi : R)
    (hb : ∀ b : Bool × Bool × Bool × Bool × Bool,
      lo ≤ corner32 tab i0 i1 i2 i3 i4 i5 e b ∧ corner32 tab i0 i1 i2 i3 i4 i5 e b ≤ hi) :
    lo ≤ multilinear5 tab f1 f2 f3 f4 f5 i0 i1 i2 i3 i4 i5 e ∧
    multilinear5 tab f1 f2 f3 f4 f5 i0 i1 i2 i3 i4 i5 e ≤ hi := by
  have hw : ∀ b1 b2 b3 b4 b5 : Bool,
      0 ≤ wgt f1 b1 * wgt f2 b2 * wgt f3 b3 * wgt f4 b4 * wgt f5 b5 :=
    fun b1 b2 b3 b4 b5 => mul_nonneg (mul_nonneg (mul_nonneg (mul_nonneg (wgt_unit h1 b1).1
      (wgt_unit h2 b2).1) (wgt_unit h3 b3).1) (wgt_unit h4 b4).1) (wgt_unit h5 b5).1
  have hlo : 0 ≤ ∑ b1 : Bool, ∑ b2 : Bool, ∑ b3 : Bool, ∑ b4 : Bool, ∑ b5 : Bool,
      (wgt f1 b1 * wgt f2 b2 * wgt f3 b3 * wgt f4 b4 * wgt f5 b5) *
        (specval tab i0 (i1 + b2i b1) (i2 + b2i b2) (i3 + b2i b3) (i4 + b2i b4)
          (i5 + b2i b5) e - lo) :=
    Finset.sum_nonneg fun b1 _ => Finset.sum_nonneg fun b2 _ => Finset.sum_nonneg fun b3 _ =>
      Finset.sum_nonneg fun b4 _ => Finset.sum_nonneg fun b5 _ =>
        mul_nonneg (hw b1 b2 b3 b4 b5) (sub_nonneg.2 (hb (b1, b2, b3, b4, b5)).1)
  have hhi : 0 ≤ ∑ b1 : Bool, ∑ b2 : Bool, ∑ b3 : Bool, ∑ b4 : Bool, ∑ b5 : Bool,
      (wgt f1 b1 * wgt f2 b2 * wgt f3 b3 * wgt f4 b4 * wgt f5 b5) *
        (hi - specval tab i0 (i1 + b2i b1) (i2 + b2i b2) (i3 + b2i b3) (i4 + b2i b4)
          (i5 + b2i b5) e) :=
    Finset.sum_nonneg fun b1 _ => Finset.sum_nonneg fun b2 _ => Finset.sum_nonneg fun b3 _ =>
      Finset.sum_nonneg fun b4 _ => Finset.sum_nonneg fun b5 _ =>
        mul_nonneg (hw b1 b2 b3 b4 b5) (sub_nonneg.2 (hb (b1, b2, b3, b4, b5)).2)
  have elo : (∑ b1 : Bool, ∑ b2 : Bool, ∑ b3 : Bool, ∑ b4 : Bool, ∑ b5 : Bool,
      (wgt f1 b1 * wgt f2 b2 * wgt f3 b3 * wgt f4 b4 * wgt f5 b5) *
        (specval tab i0 (i1 + b2i b1) (i2 + b2i b2) (i3 + b2i b3) (i4 + b2i b4)
          (i5 + b2i b5) e - lo))
      = multilinear5 tab f1 f2 f3 f4 f5 i0 i1 i2 i3 i4 i5 e - lo := by
    simp only [multilinear5, Fintype.sum_bool, wgt_true, wgt_false]
    ring
  have ehi : (∑ b1 : Bool, ∑ b2 : Bool, ∑ b3 : Bool, ∑ b4 : Bool, ∑ b5 : Bool,
      (wgt f1 b1 * wgt f2 b2 * wgt f3 b3 * wgt f4 b4 * wgt f5 b5) *
        (hi - specval tab i0 (i1 + b2i b1) (i2 + b2i b2) (i3 + b2i b3) (i4 + b2i b4)
          (i5 + b2i b5) e))
      = hi - multilinear5 tab f1 f2 f3 f4 f5 i0 i1 i2 i3 i4 i5 e := by
    simp only [multilinear5, Fintype.sum_bool, wgt_true, wgt_false]
    ring
  rw [elo] at hlo
  rw [ehi] at hhi
  exact ⟨sub_nonneg.1 hlo, sub_nonneg.1 hhi⟩

/-- C32: for fractions `f1..f4` in `[0,1]` every one of the 16 weights of
`interp_5d_tab_incl` lies in `[0,1]`, and in every energy bin the output lies
between the minimum and the maximum of the 16 corner values of that bin; for
`f1..f5` in `[0,1]` the same holds for the 32 weights and the 32 corners of
`interp_5d_tab`.  The corners are loaded, and the arithmetic is exact. -/
theorem convex_combination (tab : xillTable R) (n_ener : Nat) (f1 f2 f3 f4 f5 : R)
    (i0 i1 i2 i3 i4 i5 : Int)
    (h1 : 0 ≤ f1 ∧ f1 ≤ 1) (h2 : 0 ≤ f2 ∧ f2 ≤ 1) (h3 : 0 ≤ f3 ∧ f3 ≤ 1)
    (h4 : 0 ≤ f4 ∧ f4 ≤ 1) (h5 : 0 ≤ f5 ∧ f5 ≤ 1) :
    (∀ w ∈
      [f_0000 f1 f2 f3 f4, f_1000 f1 f2 f3 f4, f_0100 f1 f2 f3 f4, f_0010 f1 f2 f3 f4,
       f_0001 f1 f2 f3 f4, f_1010 f1 f2 f3 f4, f_1001 f1 f2 f3 f4, f_0101 f1 f2 f3 f4,
       f_1100 f1 f2 f3 f4, f_0110 f1 f2 f3 f4, f_0011 f1 f2 f3 f4, f_1101 f1 f2 f3 f4,
       f_1110 f1 f2 f3 f4, f_1011 f1 f2 f3 f4, f_0111 f1 f2 f3 f4, f_1111 f1 f2 f3 f4],
      0 ≤ w ∧ w ≤ 1) ∧
    (cell16 tab n_ener i0 i1 i2 i3 i4 i5 →
      ∃ flu, interp_5d_tab_incl tab n_ener f1 f2 f3 f4 i0 i1 i2 i3 i4 i5 = some flu ∧
        ∀ e, e < n_ener → ∃ v, flu[e]? = some v ∧
          Finset.univ.inf' Finset.univ_nonempty (corner16 tab i0 i1 i2 i3 i4 i5 e) ≤ v ∧
          v ≤ Finset.univ.sup' Finset.univ_nonempty (corner16 tab i0 i1 i2 i3 i4 i5 e)) ∧
    (∀ w ∈
      [f_00000 f1 f2 f3 f4 f5, f_10000 f1 f2 f3 f4 f5, f_01000 f1 f2 f3 f4 f5,
       f_00100 f1 f2 f3 f4 f5, f_00010 f1 f2 f3 f4 f5, f_10100 f1 f2 f3 f4 f5,
       f_10010 f1 f2 f3 f4 f5, f_01010 f1 f2 f3 f4 f5, f_11000 f1 f2 f3 f4 f5,
       f_01100 f1 f2 f3 f4 f5, f_00110 f1 f2 f3 f4 f5, f_11010 f1 f2 f3 f4 f5,
       f_11100 f1 f2 f3 f4 f5, f_10110 f1 f2 f3 f4 f5, f_01110 f1 f2 f3 f4 f5,
       f_11110 f1 f2 f3 f4 f5, f_00001 f1 f2 f3 f4 f5, f_10001 f1 f2 f3 f4 f5,
       f_01001 f1 f2 f3 f4 f5, f_00101 f1 f2 f3 f4 f5, f_00011 f1 f2 f3 f4 f5,
       f_10101 f1 f2 f3 f4 f5, f_10011 f1 f2 f3 f4 f5, f_01011 f1 f2 f3 f4 f5,
       f_11001 f1 f2 f3 f4 f5, f_01101 f1 f2 f3 f4 f5, f_00111 f1 f2 f3 f4 f5,
       f_11011 f1 f2 f3 f4 f5, f_11101 f1 f2 f3 f4 f5, f_10111 f1 f2 f3 f4 f5,
       f_01111 f1 f2 f3 f4 f5, f_11111 f1 f2 f3 f4 f5],
      0 ≤ w ∧ w ≤ 1) ∧
    (cell32 tab n_ener i0 i1 i2 i3 i4 i5 →
      ∃ flu, interp_5d_tab tab n_ener f1 f2 f3 f4 f5 i0 i1 i2 i3 i4 i5 = some flu ∧
        ∀ e, e < n_ener → ∃ v, flu[e]? = some v ∧
          Finset.univ.inf' Finset.univ_nonempty (corner32 tab i0 i1 i2 i3 i4 i5 e) ≤ v ∧
          v ≤ Finset.univ.sup' Finset.univ_nonempty (corner32 tab i0 i1 i2 i3 i4 i5 e)) := by
  refine ⟨weights16_unit f1 f2 f3 f4 h1 h2 h3 h4, fun hc => ?_,
    weights32_unit f1 f2 f3 f4 f5 h1 h2 h3 h4 h5, fun hc => ?_⟩
  · refine ⟨_, interp_5d_tab_incl_eq tab n_ener f1 f2 f3 f4 i0 i1 i2 i3 i4 i5 hc, ?_⟩
    intro e he
    refine ⟨multilinear4 tab f1 f2 f3 f4 i0 i1 i2 i3 i4 i5 e, by simp [he], ?_⟩
    exact multilinear4_bounds tab f1 f2 f3 f4 i0 i1 i2 i3 i4 i5 e h1 h2 h3 h4 _ _
      fun b => ⟨Finset.inf'_le _ (Finset.mem_univ b), Finset.le_sup' _ (Finset.mem_univ b)⟩
  · refine ⟨_, interp_5d_tab_eq tab n_ener f1 f2 f3 f4 f5 i0 i1 i2 i3 i4 i5 hc, ?_⟩
    intro e he
    refine ⟨multilinear5 tab f1 f2 f3 f4 f5 i0 i1 i2 i3 i4 i5 e, by simp [he], ?_⟩
    exact multilinear5_bounds tab f1 f2 f3 f4 f5 i0 i1 i2 i3 i4 i5 e h1 h2 h3 h4 h5 _ _
      fun b => ⟨Finset.inf'_le _ (Finset.mem_univ b), Finset.le_sup' _ (Finset.mem_univ b)⟩

/-- Witness of C32 on `demoTable`, at the base corner `(0,0,0,0,0,0)` with the
fractions `1/2`, `1/4`, `0`, `1`, `1/3`. -/
theorem convex_combination_witness :
    cell32 demoTable 2 0 0 0 0 0 0 ∧
    ∃ flu, interp_5d_tab demoTable 2 (1 / 2) (1 / 4) 0 1 (1 / 3) 0 0 0 0 0 0 = some flu ∧
      ∀ e, e < 2 → ∃ v, flu[e]? = some v ∧
        Finset.univ.inf' Finset.univ_nonempty (corner32 demoTable 0 0 0 0 0 0 e) ≤ v ∧
        v ≤ Finset.univ.sup' Finset.univ_nonempty (corner32 demoTable 0 0 0 0 0 0 e) :=
  have h32 : cell32 demoTable 2 0 0 0 0 0 0 := by unfold cell32; decide
  ⟨h32, (convex_combination demoTable 2 (1 / 2) (1 / 4) 0 1 (1 / 3) 0 0 0 0 0 0
    (by norm_num) (by norm_num) (by norm_num) (by norm_num) (by norm_num)).2.2.2 h32⟩


/-! ### The selection of the table variant -/

/-- The id returned by `get_xilltable_id` is one of the four enumerators. -/
theorem get_xilltable_id_mem (X : Ext R) (ids : TableIds) (model_id prim_type : Int) :
    get_xilltable_id X ids model_id prim_type = ids.XILLTABLE_ID_STANDARD ∨
    get_xilltable_id X ids model_id prim_type = ids.XILLTABLE_ID_NTHCOMP ∨
    get_xilltable_id X ids model_id prim_type = ids.XILLTABLE_ID_NS ∨
    get_xilltable_id X ids model_id prim_type = ids.XILLTABLE_ID_CO := by
  unfold get_xilltable_id
  split_ifs
  · exact Or.inr (Or.inr (Or.inl rfl))
  · exact Or.inr (Or.inr (Or.inr rfl))
  · exact Or.inr (Or.inl rfl)
  · exact Or.inl rfl

/-- A call of `get_init_xillver_table` entered with a good status either finds
the table of the variant in the catalog, or calls `init_xillver_table`. -/
theorem get_init_hit_or_init (X : Ext R) (ids : TableIds) (fresh : xillTable R)
    (files : String → TableFile R) (cat : Catalog R) (tab : Option Nat)
    (model_type prim_type : Int) (g : GetInitResult R)
    (h : get_init_xillver_table X ids fresh files cat tab model_type prim_type EXIT_SUCCESS
      = some g) :
    (g.status = EXIT_SUCCESS ∧ g.fname ≠ none ∧ g.tab ≠ none ∧ g.cat = cat) ∨
    ∃ name, g.cat.init_calls = cat.init_calls ++ [name] := by
  unfold get_init_xillver_table at h
  rw [if_neg (fun hne => hne rfl)] at h
  simp only [] at h
  by_cases h1 : get_xilltable_id X ids model_type prim_type = ids.XILLTABLE_ID_STANDARD
  · rw [if_pos h1] at h
    by_cases hn : cat.cached_xill_tab = none
    · rw [if_pos hn] at h
      obtain ⟨r, _, hg⟩ := Option.map_eq_some'.1 h
      right
      exact ⟨X.XILLTABLE_FILENAME, by rw [← hg]⟩
    · rw [if_neg hn] at h
      left
      rw [← Option.some.inj h]
      exact ⟨rfl, by simp, hn, rfl⟩
  rw [if_neg h1] at h
  by_cases h2 : get_xilltable_id X ids model_type prim_type = ids.XILLTABLE_ID_NTHCOMP
  · rw [if_pos h2] at h
    by_cases hn : cat.cached_xill_tab_dens_nthcomp = none
    · rw [if_pos hn] at h
      obtain ⟨r, _, hg⟩ := Option.map_eq_some'.1 h
      right
      refine ⟨X.XILLTABLE_NTHCOMP_FILENAME, ?_⟩
      rw [← hg]
      split_ifs <;> rfl
    · rw [if_neg hn] at h
      left
      rw [← Option.some.inj h]
      exact ⟨rfl, by simp, hn, rfl⟩
  rw [if_neg h2] at h
  by_cases h3 : get_xilltable_id X ids model_type prim_type = ids.XILLTABLE_ID_NS
  · rw [if_pos h3] at h
    by_cases hn : cat.cached_xill_tab_ns = none
    · rw [if_pos hn] at h
      obtain ⟨r, _, hg⟩ := Option.map_eq_some'.1 h
      right
      refine ⟨X.XILLTABLE_NS_FILENAME, ?_⟩
      rw [← hg]
      split_ifs <;> rfl
    · rw [if_neg hn] at h
      left
      rw [← Option.some.inj h]
      exact ⟨rfl, by simp, hn, rfl⟩
  rw [if_neg h3] at h
  by_cases h4 : get_xilltable_id X ids model_type prim_type = ids.XILLTABLE_ID_CO
  · rw [if_pos h4] at h
    by_cases hn : cat.cached_xill_tab_co = none
    · rw [if_pos hn] at h
      obtain ⟨r, _, hg⟩ := Option.map_eq_some'.1 h
      right
      refine ⟨X.XILLTABLE_CO_FILENAME, ?_⟩
      rw [← hg]
      split_ifs <;> rfl
    · rw [if_neg hn] at h
      left
      rw [← Option.some.inj h]
      exact ⟨rfl, by simp, hn, rfl⟩
  rcases get_xilltable_id_mem X ids model_type prim_type with e | e | e | e
  · exact absurd e h1
  · exact absurd e h2
  · exact absurd e h3
  · exact absurd e h4

/-- C34: `get_xilltable_id` returns the neutron-star id whenever
`is_ns_model(model_id)` holds, otherwise the CO id whenever
`is_co_model(model_id)` holds, otherwise the thermal-Comptonization id when
`prim_type` is `PRIM_SPEC_NTHCOMP` and the standard id when it is not (so, the
two enumerators being distinct, the thermal-Comptonization id exactly when
`prim_type` is `PRIM_SPEC_NTHCOMP`); the id is always one of these four.  So a
call of `get_init_xillver_table` entered with a good status never takes the
`default` branch of its `switch`, which returns NULL with a bad status and
without a call of `init_xillver_table`: either the call returns the cached
table and the file name with a good status and the catalog unchanged, or it
has called `init_xillver_table`. -/
theorem variant_selection (X : Ext R) (ids : TableIds) (model_id prim_type : Int) :
    (X.is_ns_model model_id = true →
      get_xilltable_id X ids model_id prim_type = ids.XILLTABLE_ID_NS) ∧
    (X.is_ns_model model_id = false → X.is_co_model model_id = true →
      get_xilltable_id X ids model_id prim_type = ids.XILLTABLE_ID_CO) ∧
    (X.is_ns_model model_id = false → X.is_co_model model_id = false →
      prim_type = X.PRIM_SPEC_NTHCOMP →
      get_xilltable_id X ids model_id prim_type = ids.XILLTABLE_ID_NTHCOMP) ∧
    (X.is_ns_model model_id = false → X.is_co_model model_id = false →
      prim_type ≠ X.PRIM_SPEC_NTHCOMP →
      get_xilltable_id X ids model_id prim_type = ids.XILLTABLE_ID_STANDARD) ∧
    (X.is_ns_model model_id = false → X.is_co_model model_id = false →
      ids.XILLTABLE_ID_NTHCOMP ≠ ids.XILLTABLE_ID_STANDARD →
      (get_xilltable_id X ids model_id prim_type = ids.XILLTABLE_ID_NTHCOMP ↔
        prim_type = X.PRIM_SPEC_NTHCOMP)) ∧
    (get_xilltable_id X ids model_id prim_type = ids.XILLTABLE_ID_STANDARD ∨
      get_xilltable_id X ids model_id prim_type = ids.XILLTABLE_ID_NTHCOMP ∨
      get_xilltable_id X ids model_id prim_type = ids.XILLTABLE_ID_NS ∨
      get_xilltable_id X ids model_id prim_type = ids.XILLTABLE_ID_CO) ∧
    (∀ (fresh : xillTable R) (files : String → TableFile R) (cat : Catalog R)
        (tab : Option Nat) (g : GetInitResult R),
      get_init_xillver_table X ids fresh files cat tab model_id prim_type EXIT_SUCCESS
        = some g →
      (g.status = EXIT_SUCCESS ∧ g.fname ≠ none ∧ g.tab ≠ none ∧ g.cat = cat) ∨
      ∃ name, g.cat.init_calls = cat.init_calls ++ [name]) := by
  refine ⟨fun hns => ?_, fun hns hco => ?_, fun hns hco hp => ?_, fun hns hco hp => ?_,
    fun hns hco hd => ⟨fun hid => ?_, fun hp => ?_⟩,
    get_xilltable_id_mem X ids model_id prim_type,
    fun fresh files cat tab g h =>
      get_init_hit_or_init X ids fresh files cat tab model_id prim_type g h⟩
  · simp [get_xilltable_id, hns]
  · simp [get_xilltable_id, hns, hco]
  · simp [get_xilltable_id, hns, hco, hp]
  · simp [get_xilltable_id, hns, hco, hp]
  · by_contra hp
    apply hd
    rw [← hid]
    simp [get_xilltable_id, hns, hco, hp]
  · simp [get_xilltable_id, hns, hco, hp]

/-- Witness of C34: with the predicates of `demoExt`, model type 1 is a
neutron-star model and gets the neutron-star table. -/
theorem variant_selection_witness :
    demoExt.is_ns_model 1 = true ∧
    get_xilltable_id demoExt demoIds 1 0 = demoIds.XILLTABLE_ID_NS :=
  ⟨rfl, (variant_selection demoExt demoIds 1 0).1 rfl⟩


/-! ### A failed initialisation -/

/-- A call of `init_xillver_table` that ends with a bad status has left the heap
and `*inp_tab` as they were, unless the initialisation went through and the
closing `fits_close_file` failed: then `*inp_tab` points to the new table. -/
theorem init_failure_cases (X : Ext R) (fresh : xillTable R) (file : TableFile R)
    (heap : List (xillTable R)) (inp_tab : Option Nat) (status : Int)
    (r : List (xillTable R) × Option Nat × Int)
    (h : init_xillver_table X fresh file heap inp_tab status = some r)
    (hs : r.2.2 ≠ EXIT_SUCCESS) :
    (r.1 = heap ∧ r.2.1 = inp_tab) ∨
    (status = EXIT_SUCCESS ∧ file.close_ok = false ∧ r.2.1 = some heap.length ∧
      r.1.length = heap.length + 1) := by
  unfold init_xillver_table at h
  by_cases h1 : status ≠ EXIT_SUCCESS
  · rw [if_pos h1] at h
    cases h
    exact Or.inl ⟨rfl, rfl⟩
  rw [if_neg h1] at h
  by_cases h2 : file.open_ok = false
  · rw [if_pos h2] at h
    cases h
    exact Or.inl ⟨rfl, rfl⟩
  rw [if_neg h2] at h
  simp only [] at h
  by_cases h3 : (get_num_param_auto file status).2 ≠ EXIT_SUCCESS
  · rw [if_pos h3] at h
    cases h
    exact Or.inl ⟨rfl, rfl⟩
  rw [if_neg h3] at h
  cases h4 : (new_xillTable fresh (get_num_param_auto file status).1
      (get_num_param_auto file status).2).1 with
  | none =>
    have h5 := new_xillTable_none _ _ _ h4
    rw [h4] at h
    simp only [] at h
    rw [h5] at h
    rw [if_neg (by decide)] at h
    cases h
    exact Or.inl ⟨rfl, rfl⟩
  | some tab =>
    rw [h4] at h
    simp only [] at h
    obtain ⟨pa, _, h6⟩ := Option.bind_eq_some.1 h
    obtain ⟨ds, _, h7⟩ := Option.bind_eq_some.1 h6
    by_cases h8 : ds.2 = EXIT_SUCCESS
    · rw [if_pos h8] at h7
      by_cases hc : file.close_ok = true
      · rw [if_pos hc] at h7
        cases h7
        exact absurd h8 hs
      · rw [if_neg hc] at h7
        cases h7
        exact Or.inr ⟨not_not.1 h1, by simpa using hc, rfl, by simp⟩
    · rw [if_neg h8] at h7
      cases h7
      exact Or.inl ⟨rfl, rfl⟩

/-- A call of `get_init_xillver_table`, entered with a good status, for a variant
whose global pointer is NULL: it is a call of `init_xillver_table` on the file
of the variant, with that pointer. -/
theorem get_init_miss (X : Ext R) (ids : TableIds) (fresh : xillTable R)
    (files : String → TableFile R) (cat : Catalog R) (tab : Option Nat)
    (model_type prim_type : Int)
    (hnull : cached_entry ids cat (get_xilltable_id X ids model_type prim_type) = none) :
    (∀ r, init_xillver_table X fresh
        (files (variant_filename X ids (get_xilltable_id X ids model_type prim_type)))
        cat.heap none EXIT_SUCCESS = some r →
      ∃ g, get_init_xillver_table X ids fresh files cat tab model_type prim_type EXIT_SUCCESS
          = some g ∧
        g.status = r.2.2 ∧ g.cat.heap = r.1 ∧
        cached_entry ids g.cat (get_xilltable_id X ids model_type prim_type) = r.2.1 ∧
        g.cat.init_calls = cat.init_calls ++
          [variant_filename X ids (get_xilltable_id X ids model_type prim_type)] ∧
        (r.1 = cat.heap → r.2.1 = none →
          g.cat = { cat with init_calls := cat.init_calls ++
            [variant_filename X ids (get_xilltable_id X ids model_type prim_type)] })) ∧
    (init_xillver_table X fresh
        (files (variant_filename X ids (get_xilltable_id X ids model_type prim_type)))
        cat.heap none EXIT_SUCCESS = none →
      get_init_xillver_table X ids fresh files cat tab model_type prim_type EXIT_SUCCESS
        = none) := by
  unfold get_init_xillver_table
  rw [if_neg (fun hne => hne rfl)]
  simp only []
  by_cases h1 : get_xilltable_id X ids model_type prim_type = ids.XILLTABLE_ID_STANDARD
  · have hn : cat.cached_xill_tab = none := by
      unfold cached_entry at hnull
      rwa [if_pos h1] at hnull
    have hf : variant_filename X ids (get_xilltable_id X ids model_type prim_type)
        = X.XILLTABLE_FILENAME := by
      unfold variant_filename
      rw [if_pos h1]
    rw [if_pos h1, if_pos hn, hn, hf]
    refine ⟨fun r hr => ?_, fun hr => ?_⟩
    · rw [hr]
      refine ⟨_, rfl, rfl, rfl, ?_, rfl, fun e1 e2 => ?_⟩
      · unfold cached_entry
        rw [if_pos h1]
      · obtain ⟨heap, rel, p1, p2, p3, p4, p5, p6, calls⟩ := cat
        simp only [] at e1 e2 ⊢
        rw [e1, e2]
    · rw [hr]
      rfl
  by_cases h2 : get_xilltable_id X ids model_type prim_type = ids.XILLTABLE_ID_NTHCOMP
  · have hn : cat.cached_xill_tab_dens_nthcomp = none := by
      unfold cached_entry at hnull
      rwa [if_neg h1, if_pos h2] at hnull
    have hf : variant_filename X ids (get_xilltable_id X ids model_type prim_type)
        = X.XILLTABLE_NTHCOMP_FILENAME := by
      unfold variant_filename
      rw [if_neg h1, if_pos h2]
    rw [if_neg h1, if_pos h2, if_pos hn, hn, hf]
    refine ⟨fun r hr => ?_, fun hr => ?_⟩
    · rw [hr]
      simp only [Option.map_some']
      by_cases hs : r.2.2 ≠ EXIT_SUCCESS
      · rw [if_pos hs]
        refine ⟨_, rfl, rfl, rfl, ?_, rfl, fun e1 e2 => ?_⟩
        · unfold cached_entry
          rw [if_neg h1, if_pos h2]
        · obtain ⟨heap, rel, p1, p2, p3, p4, p5, p6, calls⟩ := cat
          simp only [] at e1 e2 ⊢
          rw [e1, e2]
      · rw [if_neg hs]
        refine ⟨_, rfl, rfl, rfl, ?_, rfl, fun e1 e2 => ?_⟩
        · unfold cached_entry
          rw [if_neg h1, if_pos h2]
        · obtain ⟨heap, rel, p1, p2, p3, p4, p5, p6, calls⟩ := cat
          simp only [] at e1 e2 ⊢
          rw [e1, e2]
    · rw [hr]
      rfl
  by_cases h3 : get_xilltable_id X ids model_type prim_type = ids.XILLTABLE_ID_NS
  · have hn : cat.cached_xill_tab_ns = none := by
      unfold cached_entry at hnull
      rwa [if_neg h1, if_neg h2, if_pos h3] at hnull
    have hf : variant_filename X ids (get_xilltable_id X ids model_type prim_type)
        = X.XILLTABLE_NS_FILENAME := by
      unfold variant_filename
      rw [if_neg h1, if_neg h2, if_pos h3]
    rw [if_neg h1, if_neg h2, if_pos h3, if_pos hn, hn, hf]
    refine ⟨fun r hr => ?_, fun hr => ?_⟩
    · rw [hr]
      simp only [Option.map_some']
      by_cases hs : r.2.2 ≠ EXIT_SUCCESS
      · rw [if_pos hs]
        refine ⟨_, rfl, rfl, rfl, ?_, rfl, fun e1 e2 => ?_⟩
        · unfold cached_entry
          rw [if_neg h1, if_neg h2, if_pos h3]
        · obtain ⟨heap, rel, p1, p2, p3, p4, p5, p6, calls⟩ := cat
          simp only [] at e1 e2 ⊢
          rw [e1, e2]
      · rw [if_neg hs]
        refine ⟨_, rfl, rfl, rfl, ?_, rfl, fun e1 e2 => ?_⟩
        · unfold cached_entry
          rw [if_neg h1, if_neg h2, if_pos h3]
        · obtain ⟨heap, rel, p1, p2, p3, p4, p5, p6, calls⟩ := cat
          simp only [] at e1 e2 ⊢
          rw [e1, e2]
    · rw [hr]
      rfl
  by_cases h4 : get_xilltable_id X ids model_type prim_type = ids.XILLTABLE_ID_CO
  · have hn : cat.cached_xill_tab_co = none := by
      unfold cached_entry at hnull
      rwa [if_neg h1, if_neg h2, if_neg h3, if_pos h4] at hnull
    have hf : variant_filename X ids (get_xilltable_id X ids model_type prim_type)
        = X.XILLTABLE_CO_FILENAME := by
      unfold variant_filename
      rw [if_neg h1, if_neg h2, if_neg h3, if_pos h4]
    rw [if_neg h1, if_neg h2, if_neg h3, if_pos h4, if_pos hn, hn, hf]
    refine ⟨fun r hr => ?_, fun hr => ?_⟩
    · rw [hr]
      simp only [Option.map_some']
      by_cases hs : r.2.2 ≠ EXIT_SUCCESS
      · rw [if_pos hs]
        refine ⟨_, rfl, rfl, rfl, ?_, rfl, fun e1 e2 => ?_⟩
        · unfold cached_entry
          rw [if_neg h1, if_neg h2, if_neg h3, if_pos h4]
        · obtain ⟨heap, rel, p1, p2, p3, p4, p5, p6, calls⟩ := cat
          simp only [] at e1 e2 ⊢
          rw [e1, e2]
      · rw [if_neg hs]
        refine ⟨_, rfl, rfl, rfl, ?_, rfl, fun e1 e2 => ?_⟩
        · unfold cached_entry
          rw [if_neg h1, if_neg h2, if_neg h3, if_pos h4]
        · obtain ⟨heap, rel, p1, p2, p3, p4, p5, p6, calls⟩ := cat
          simp only [] at e1 e2 ⊢
          rw [e1, e2]
    · rw [hr]
      rfl
  rcases get_xilltable_id_mem X ids model_type prim_type with e | e | e | e
  · exact absurd e h1
  · exact absurd e h2
  · exact absurd e h3
  · exact absurd e h4

/-- A call of `get_init_xillver_table`, entered with a good status, for a variant
whose global pointer is set, returns that pointer and the file name of the
variant and changes nothing. -/
theorem get_init_hit_entry (X : Ext R) (ids : TableIds) (fresh : xillTable R)
    (files : String → TableFile R) (cat : Catalog R) (tab : Option Nat)
    (model_type prim_type : Int) (a : Nat)
    (hset : cached_entry ids cat (get_xilltable_id X ids model_type prim_type) = some a) :
    get_init_xillver_table X ids fresh files cat tab model_type prim_type EXIT_SUCCESS
      = some { cat := cat, tab := some a,
               fname := some
                 (variant_filename X ids (get_xilltable_id X ids model_type prim_type)),
               status := EXIT_SUCCESS } := by
  have hit := get_init_hit X ids fresh files cat tab model_type prim_type a
  unfold cached_entry at hset
  unfold variant_filename
  by_cases h1 : get_xilltable_id X ids model_type prim_type = ids.XILLTABLE_ID_STANDARD
  · rw [if_pos h1] at hset ⊢
    exact hit.1 h1 hset
  rw [if_neg h1] at hset ⊢
  by_cases h2 : get_xilltable_id X ids model_type prim_type = ids.XILLTABLE_ID_NTHCOMP
  · rw [if_pos h2] at hset ⊢
    exact hit.2.1 h1 h2 hset
  rw [if_neg h2] at hset ⊢
  by_cases h3 : get_xilltable_id X ids model_type prim_type = ids.XILLTABLE_ID_NS
  · rw [if_pos h3] at hset ⊢
    exact hit.2.2.1 h1 h2 h3 hset
  rw [if_neg h3] at hset ⊢
  by_cases h4 : get_xilltable_id X ids model_type prim_type = ids.XILLTABLE_ID_CO
  · rw [if_pos h4] at hset ⊢
    exact hit.2.2.2 h1 h2 h3 h4 hset
  rw [if_neg h4] at hset
  cases hset

/-- C33 (amended): a call of `get_init_xillver_table`, entered with a good status
for a variant whose catalog entry is NULL, in which `init_xillver_table` ends
with a bad status, returns that status to its caller.  Unless the
initialisation went through and only the closing `fits_close_file` failed,
the entry stays NULL and the catalog is unchanged but for the record of the
call, and a later call for the variant is again a call of
`init_xillver_table` on the file then behind the name.  When only the closing
failed, the entry holds the new table, and every later call for the variant
returns that table with a good status, without a new initialisation. -/
theorem failed_init_keeps_entry (X : Ext R) (ids : TableIds) (fresh : xillTable R)
    (files : String → TableFile R) (cat : Catalog R) (tab : Option Nat)
    (model_type prim_type : Int) (r : List (xillTable R) × Option Nat × Int)
    (hnull : cached_entry ids cat (get_xilltable_id X ids model_type prim_type) = none)
    (hr : init_xillver_table X fresh
      (files (variant_filename X ids (get_xilltable_id X ids model_type prim_type)))
      cat.heap none EXIT_SUCCESS = some r)
    (hbad : r.2.2 ≠ EXIT_SUCCESS) :
    ∃ g, get_init_xillver_table X ids fresh files cat tab model_type prim_type EXIT_SUCCESS
        = some g ∧
      g.status = r.2.2 ∧
      cached_entry ids g.cat (get_xilltable_id X ids model_type prim_type) = r.2.1 ∧
      ((files (variant_filename X ids
          (get_xilltable_id X ids model_type prim_type))).close_ok = true → r.2.1 = none) ∧
      (r.2.1 = none →
        g.cat = { cat with init_calls := cat.init_calls ++
          [variant_filename X ids (get_xilltable_id X ids model_type prim_type)] } ∧
        ∀ (fresh2 : xillTable R) (files2 : String → TableFile R) (tab2 : Option Nat)
            (model_type2 prim_type2 : Int),
          get_xilltable_id X ids model_type2 prim_type2
            = get_xilltable_id X ids model_type prim_type →
          (get_init_xillver_table X ids fresh2 files2 g.cat tab2 model_type2 prim_type2
              EXIT_SUCCESS).map (fun g2 => (g2.status, g2.cat.init_calls))
            = (init_xillver_table X fresh2
                (files2 (variant_filename X ids
                  (get_xilltable_id X ids model_type prim_type)))
                cat.heap none EXIT_SUCCESS).map
              (fun r2 => (r2.2.2, cat.init_calls ++
                [variant_filename X ids (get_xilltable_id X ids model_type prim_type),
                  variant_filename X ids (get_xilltable_id X ids model_type prim_type)]))) ∧
      (r.2.1 ≠ none →
        (files (variant_filename X ids
          (get_xilltable_id X ids model_type prim_type))).close_ok = false ∧
        r.2.1 = some cat.heap.length ∧
        ∀ (fresh2 : xillTable R) (files2 : String → TableFile R) (tab2 : Option Nat)
            (model_type2 prim_type2 : Int),
          get_xilltable_id X ids model_type2 prim_type2
            = get_xilltable_id X ids model_type prim_type →
          get_init_xillver_table X ids fresh2 files2 g.cat tab2 model_type2 prim_type2
              EXIT_SUCCESS
            = some { cat := g.cat, tab := some cat.heap.length,
                     fname := some (variant_filename X ids
                       (get_xilltable_id X ids model_type prim_type)),
                     status := EXIT_SUCCESS }) := by
  obtain ⟨g, hg, hst, hheap, hentry, hcalls, hcat⟩ :=
    (get_init_miss X ids fresh files cat tab model_type prim_type hnull).1 r hr
  have hcases := init_failure_cases X fresh _ cat.heap none EXIT_SUCCESS r hr hbad
  refine ⟨g, hg, hst, hentry, fun hclose => ?_, fun hnone => ?_, fun hsome => ?_⟩
  · rcases hcases with ⟨_, e⟩ | ⟨_, hc, _, _⟩
    · exact e
    · rw [hclose] at hc
      cases hc
  · have hr1 : r.1 = cat.heap := by
      rcases hcases with ⟨e, _⟩ | ⟨_, _, e, _⟩
      · exact e
      · rw [hnone] at e
        cases e
    have hgc := hcat hr1 hnone
    refine ⟨hgc, fun fresh2 files2 tab2 model_type2 prim_type2 hid => ?_⟩
    have hnull2 : cached_entry ids g.cat (get_xilltable_id X ids model_type2 prim_type2)
        = none := by
      rw [hid, hentry, hnone]
    have hm := get_init_miss X ids fresh2 files2 g.cat tab2 model_type2 prim_type2 hnull2
    rw [hid] at hm
    have hh : g.cat.heap = cat.heap := by rw [hheap, hr1]
    rw [hh] at hm
    cases hi : init_xillver_table X fresh2
        (files2 (variant_filename X ids (get_xilltable_id X ids model_type prim_type)))
        cat.heap none EXIT_SUCCESS with
    | none =>
      rw [hm.2 hi]
      rfl
    | some r2 =>
      obtain ⟨g2, hg2, hst2, _, _, hcalls2, _⟩ := hm.1 r2 hi
      rw [hg2]
      simp only [Option.map_some', Option.some.injEq, Prod.mk.injEq]
      refine ⟨hst2, ?_⟩
      rw [hcalls2, hcalls]
      simp
  · rcases hcases with ⟨_, e⟩ | ⟨_, hc, e, _⟩
    · exact absurd e hsome
    · refine ⟨hc, e, fun fresh2 files2 tab2 model_type2 prim_type2 hid => ?_⟩
      have hset : cached_entry ids g.cat (get_xilltable_id X ids model_type2 prim_type2)
          = some cat.heap.length := by
        rw [hid, hentry, e]
      have := get_init_hit_entry X ids fresh2 files2 g.cat tab2 model_type2 prim_type2
        cat.heap.length hset
      rw [hid] at this
      exact this

/-- Witness of C33: on the empty catalog, the table file of the standard variant
holds an axis name that relxill does not know; the call returns the status
`EXIT_FAILURE`, the six pointers of the catalog stay NULL, and the next call,
made when the file is `demoTableFile`, initialises the table. -/
theorem failed_init_keeps_entry_witness :
    ∃ g : GetInitResult ℚ,
      get_init_xillver_table demoExt demoIds emptyTable (fun _ => unknownAxisFile)
        empty_catalog none 0 0 EXIT_SUCCESS = some g ∧
      g.status = EXIT_FAILURE ∧
      g.cat = { empty_catalog with init_calls := [demoExt.XILLTABLE_FILENAME] } ∧
      (get_init_xillver_table demoExt demoIds emptyTable (fun _ => demoTableFile)
          g.cat none 0 0 EXIT_SUCCESS).map (fun g2 => (g2.status, g2.cat.init_calls))
        = some (EXIT_SUCCESS, [demoExt.XILLTABLE_FILENAME, demoExt.XILLTABLE_FILENAME]) :=
  have hm : (init_xillver_table demoExt emptyTable unknownAxisFile [] none
      EXIT_SUCCESS).map (fun r => r.2) = some (none, EXIT_FAILURE) := by
    decide
  have hm2 : (init_xillver_table demoExt emptyTable demoTableFile [] none
      EXIT_SUCCESS).map (fun r2 => (r2.2.2,
        ([] : List String) ++ [demoExt.XILLTABLE_FILENAME, demoExt.XILLTABLE_FILENAME]))
      = some (EXIT_SUCCESS, [demoExt.XILLTABLE_FILENAME, demoExt.XILLTABLE_FILENAME]) := by
    decide
  match Option.map_eq_some'.1 hm with
  | ⟨r, hr, hs⟩ =>
    have h1 : r.2.1 = none := congrArg Prod.fst hs
    have h2 : r.2.2 = EXIT_FAILURE := congrArg Prod.snd hs
    match failed_init_keeps_entry demoExt demoIds emptyTable (fun _ => unknownAxisFile)
        empty_catalog none 0 0 r rfl hr (by rw [h2]; decide) with
    | ⟨g, hg, hst, _, _, hA, _⟩ =>
      ⟨g, hg, hst.trans h2, (hA h1).1,
        ((hA h1).2 emptyTable (fun _ => demoTableFile) none 0 0 rfl).trans hm2⟩

/-- Counterexample to C33: on the empty catalog, with a table file on which
every call but the closing `fits_close_file` succeeds, `init_xillver_table`
ends with the status `EXIT_FAILURE` and the catalog entry points to the new
table: `cached_xill_tab` for the standard variant, `cached_xill_tab_ns` for a
neutron-star model.  The next call for the standard variant returns that
table with a good status and calls no `init_xillver_table`. -/
theorem failed_init_close_counterexample :
    (init_xillver_table demoExt emptyTable closeFailFile [] none EXIT_SUCCESS).map
        (fun r => r.2) = some (some 0, EXIT_FAILURE) ∧
    (get_init_xillver_table demoExt demoIds emptyTable (fun _ => closeFailFile)
        empty_catalog none 0 0 EXIT_SUCCESS).map
        (fun g => (g.status, g.cat.cached_xill_tab, g.tab, g.fname, g.cat.init_calls))
      = some (EXIT_FAILURE, some 0, some 0, some demoExt.XILLTABLE_FILENAME,
          [demoExt.XILLTABLE_FILENAME]) ∧
    (get_init_xillver_table demoExt demoIds emptyTable (fun _ => closeFailFile)
        empty_catalog none 1 0 EXIT_SUCCESS).map
        (fun g => (g.status, g.cat.cached_xill_tab_ns, g.tab, g.fname, g.cat.init_calls))
      = some (EXIT_FAILURE, some 0, none, none, [demoExt.XILLTABLE_NS_FILENAME]) ∧
    ((get_init_xillver_table demoExt demoIds emptyTable (fun _ => closeFailFile)
        empty_catalog none 0 0 EXIT_SUCCESS).bind fun g =>
      (get_init_xillver_table demoExt demoIds emptyTable (fun _ => closeFailFile)
        g.cat none 0 0 EXIT_SUCCESS).map
        (fun g2 => (g2.status, g2.tab, g2.cat.init_calls)))
      = some (EXIT_SUCCESS, some 0, [demoExt.XILLTABLE_FILENAME]) := by
  refine ⟨by decide, by decide, by decide, by decide⟩


/-! ### A read that failed is made again -/

/-- Counterexample to C10: two calls of `check_xilltab_cache` on the empty table
`emptyTable` with the same indices; in the first the read of row 3 fails, in
the second, entered with a good status, every read succeeds.  Row 3 is read
twice, the rows 1 and 2 once. -/
theorem at_most_once_load_counterexample :
    reads_of 3 (run_cache_calls demoExt emptyTable
      [{ fits := failingFile, param := demoParam, ind := [0, 0, 0, 0, 0],
         status := EXIT_SUCCESS },
       { fits := demoFile, param := demoParam, ind := [0, 0, 0, 0, 0],
         status := EXIT_SUCCESS }]).2 = [false, true] ∧
    reads_of 1 (run_cache_calls demoExt emptyTable
      [{ fits := failingFile, param := demoParam, ind := [0, 0, 0, 0, 0],
         status := EXIT_SUCCESS },
       { fits := demoFile, param := demoParam, ind := [0, 0, 0, 0, 0],
         status := EXIT_SUCCESS }]).2 = [true] ∧
    (check_xilltab_cache demoExt failingFile demoParam emptyTable [0, 0, 0, 0, 0]
      EXIT_SUCCESS).status ≠ EXIT_SUCCESS := by
  refine ⟨by decide, by decide, by decide⟩


/-! ### The factors of the clamped axes that the blends receive -/

/-- Three facts about the quotient
`(x' - param_vals[ind]) / (param_vals[ind+1] - param_vals[ind])`, `x'` being
the clamped value of `x`, on an axis with strictly increasing values. -/
theorem clamped_formula (tab : xillTable R) (ind : List Int) (ii : Nat)
    (haxis : axis_increasing tab ii) (x : R) :
    (x < axis_val tab ii 0 → idx 0 ind ii = 0 →
      (resetInpvalsToBoundaries x (axis_val tab ii 0) (axis_val tab ii (axis_len tab ii - 1))
          - axis_val tab ii (idx 0 ind ii)) /
        (axis_val tab ii (idx 0 ind ii + 1) - axis_val tab ii (idx 0 ind ii)) = 0) ∧
    (axis_val tab ii (axis_len tab ii - 1) < x → idx 0 ind ii = axis_len tab ii - 2 →
      (resetInpvalsToBoundaries x (axis_val tab ii 0) (axis_val tab ii (axis_len tab ii - 1))
          - axis_val tab ii (idx 0 ind ii)) /
        (axis_val tab ii (idx 0 ind ii + 1) - axis_val tab ii (idx 0 ind ii)) = 1) ∧
    (0 ≤ idx 0 ind ii → idx 0 ind ii ≤ axis_len tab ii - 2 →
      axis_val tab ii (idx 0 ind ii)
        ≤ resetInpvalsToBoundaries x (axis_val tab ii 0)
          (axis_val tab ii (axis_len tab ii - 1)) →
      resetInpvalsToBoundaries x (axis_val tab ii 0) (axis_val tab ii (axis_len tab ii - 1))
        ≤ axis_val tab ii (idx 0 ind ii + 1) →
      axis_val tab ii (idx 0 ind ii + 1) - axis_val tab ii (idx 0 ind ii) ≠ 0 ∧
      0 ≤ (resetInpvalsToBoundaries x (axis_val tab ii 0)
            (axis_val tab ii (axis_len tab ii - 1)) - axis_val tab ii (idx 0 ind ii)) /
          (axis_val tab ii (idx 0 ind ii + 1) - axis_val tab ii (idx 0 ind ii)) ∧
      (resetInpvalsToBoundaries x (axis_val tab ii 0)
            (axis_val tab ii (axis_len tab ii - 1)) - axis_val tab ii (idx 0 ind ii)) /
          (axis_val tab ii (idx 0 ind ii + 1) - axis_val tab ii (idx 0 ind ii)) ≤ 1) := by
  refine ⟨?_, ?_, ?_⟩
  · intro hx hind
    simp [resetInpvalsToBoundaries, hx, hind]
  · intro hx hind
    have hlen := haxis.1
    have hlohi : axis_val tab ii 0 ≤ axis_val tab ii (axis_len tab ii - 1) :=
      axis_val_le haxis le_rfl (by omega) (by omega)
    have hlt : axis_val tab ii (axis_len tab ii - 2) < axis_val tab ii (axis_len tab ii - 1) :=
      axis_val_lt haxis (by omega) (by omega) (by omega)
    have h1 : ¬ x < axis_val tab ii 0 := not_lt.2 (le_trans hlohi (le_of_lt hx))
    have h2 : axis_len tab ii - 2 + 1 = axis_len tab ii - 1 := by omega
    rw [hind, h2]
    simp only [resetInpvalsToBoundaries, h1, if_false, gt_iff_lt, hx, if_true]
    exact div_self (sub_ne_zero.2 (ne_of_gt hlt))
  · intro h0 h1 ha hb
    have hlt : axis_val tab ii (idx 0 ind ii) < axis_val tab ii (idx 0 ind ii + 1) :=
      axis_val_lt haxis h0 (by omega) (by omega)
    have hpos : 0 < axis_val tab ii (idx 0 ind ii + 1) - axis_val tab ii (idx 0 ind ii) :=
      sub_pos.2 hlt
    refine ⟨ne_of_gt hpos, div_nonneg (sub_nonneg.2 ha) (le_of_lt hpos), ?_⟩
    rw [div_le_one hpos]
    exact sub_le_sub_right hb _

/-- C7 (refuted for a cutoff axis stored out of place).  For a clamped axis `ii`
of `interp_xill_table` with strictly increasing tabulated values, let `frac`
be the factor of the axis that the blends receive (the entry of `ipol_fac`
after the factor loop and `ensure_ecut_within_boundarys`), `x` the input
value of the axis (the caller's value of the parameter whenever no earlier
axis has the same kind) and `x'` its clamped value.
* If `ii` is not the position of the cutoff axis, `frac` is
  `(x' - param_vals[ind]) / (param_vals[ind+1] - param_vals[ind])`; it is 0 for
  `x` below the first tabulated value with `ind = 0`, 1 for `x` above the last
  one with `ind = len - 2`, and whenever `ind` brackets `x'` the denominator
  is not 0 and `0 ≤ frac ≤ 1`.
* If `ii` is the position of the cutoff axis, `frac` is 1 when `ect` is at or
  above the last value of the axis stored at position `PARAM_ECT`, else 0 when
  `ect` is at or below the first value of that axis, else the quotient: the
  bounds are those of the axis at position `PARAM_ECT`, not of axis `ii`.
* If moreover `ii = PARAM_ECT`, the statements of the first item hold for the
  cutoff axis too. -/
theorem clamped_fraction (X : Ext R) (tab : xillTable R) (param : xillTableParam R)
    (ind : List Int) (ii : Nat) (hii : ii < tab.num_param.toNat)
    (hclamp : axis_clamped X tab param ii)
    (haxis : axis_increasing tab ii) :
    ∃ frac x x', (interp_xill_table_ipol_fac X tab param ind)[ii]? = some frac ∧
      x = (ipol_fac_loop X tab param ind ii).1 (idx 0 tab.param_index ii) ∧
      ((∀ jj : Nat, jj < ii → idx 0 tab.param_index jj ≠ idx 0 tab.param_index ii) →
        x = get_xilltab_paramvals X param (idx 0 tab.param_index ii)) ∧
      x' = resetInpvalsToBoundaries x (axis_val tab ii 0)
        (axis_val tab ii (axis_len tab ii - 1)) ∧
      (get_xilltab_param_index tab X.PARAM_ECT ≠ (ii : Int) →
        frac = (x' - axis_val tab ii (idx 0 ind ii)) /
          (axis_val tab ii (idx 0 ind ii + 1) - axis_val tab ii (idx 0 ind ii)) ∧
        (x < axis_val tab ii 0 → idx 0 ind ii = 0 → frac = 0) ∧
        (axis_val tab ii (axis_len tab ii - 1) < x → idx 0 ind ii = axis_len tab ii - 2 →
          frac = 1) ∧
        (0 ≤ idx 0 ind ii → idx 0 ind ii ≤ axis_len tab ii - 2 →
          axis_val tab ii (idx 0 ind ii) ≤ x' → x' ≤ axis_val tab ii (idx 0 ind ii + 1) →
          axis_val tab ii (idx 0 ind ii + 1) - axis_val tab ii (idx 0 ind ii) ≠ 0 ∧
            0 ≤ frac ∧ frac ≤ 1)) ∧
      (get_xilltab_param_index tab X.PARAM_ECT = (ii : Int) →
        frac = if param.ect ≥ idx 0 (idx [] tab.param_vals X.PARAM_ECT)
              (idx 0 tab.num_param_vals X.PARAM_ECT - 1) then 1
          else if param.ect ≤ idx 0 (idx [] tab.param_vals X.PARAM_ECT) 0 then 0
          else (x' - axis_val tab ii (idx 0 ind ii)) /
            (axis_val tab ii (idx 0 ind ii + 1) - axis_val tab ii (idx 0 ind ii))) ∧
      (get_xilltab_param_index tab X.PARAM_ECT = (ii : Int) → (ii : Int) = X.PARAM_ECT →
        get_xilltab_paramvals X param X.PARAM_ECT = param.ect →
        (x < axis_val tab ii 0 → frac = 0) ∧
        (axis_val tab ii (axis_len tab ii - 1) < x → frac = 1) ∧
        (0 ≤ idx 0 ind ii → idx 0 ind ii ≤ axis_len tab ii - 2 →
          axis_val tab ii (idx 0 ind ii) ≤ x' → x' ≤ axis_val tab ii (idx 0 ind ii + 1) →
          axis_val tab ii (idx 0 ind ii + 1) - axis_val tab ii (idx 0 ind ii) ≠ 0 ∧
            frac = (x' - axis_val tab ii (idx 0 ind ii)) /
              (axis_val tab ii (idx 0 ind ii + 1) - axis_val tab ii (idx 0 ind ii)) ∧
            0 ≤ frac ∧ frac ≤ 1)) := by
  have hloop := ipol_fac_loop_clamped_turn X tab param ind tab.num_param.toNat ii hii hclamp
  have hform := clamped_formula tab ind ii haxis
    ((ipol_fac_loop X tab param ind ii).1 (idx 0 tab.param_index ii))
  have hlenL : ii < (ipol_fac_loop X tab param ind tab.num_param.toNat).2.length := by
    rw [ipol_fac_loop_length]
    exact hii
  have hlohi : axis_val tab ii 0 ≤ axis_val tab ii (axis_len tab ii - 1) := by
    have hlen := haxis.1
    exact axis_val_le haxis le_rfl (by omega) (by omega)
  by_cases hp : get_xilltab_param_index tab X.PARAM_ECT = (ii : Int)
  · have hkind : idx 0 tab.param_index ii = X.PARAM_ECT := by
      rcases get_xilltab_param_index_spec tab X.PARAM_ECT with ⟨h1, _⟩ | ⟨p', h1, _, h3, _⟩
      · rw [h1] at hp
        omega
      · have : p' = ii := by
          rw [h1] at hp
          exact_mod_cast hp
        rw [← this]
        exact h3
    have hfirst : ∀ jj : Nat, jj < ii →
        idx 0 tab.param_index jj ≠ idx 0 tab.param_index ii := by
      rcases get_xilltab_param_index_spec tab X.PARAM_ECT with ⟨h1, _⟩ | ⟨p', h1, _, _, h4⟩
      · rw [h1] at hp
        omega
      · have : p' = ii := by
          rw [h1] at hp
          exact_mod_cast hp
        rw [hkind, ← this]
        exact h4
    have hfin : (interp_xill_table_ipol_fac X tab param ind)[ii]?
        = some (if param.ect ≥ idx 0 (idx [] tab.param_vals X.PARAM_ECT)
              (idx 0 tab.num_param_vals X.PARAM_ECT - 1) then 1
          else if param.ect ≤ idx 0 (idx [] tab.param_vals X.PARAM_ECT) 0 then 0
          else (resetInpvalsToBoundaries
                ((ipol_fac_loop X tab param ind ii).1 (idx 0 tab.param_index ii))
                (axis_val tab ii 0) (axis_val tab ii (axis_len tab ii - 1))
              - axis_val tab ii (idx 0 ind ii)) /
            (axis_val tab ii (idx 0 ind ii + 1) - axis_val tab ii (idx 0 ind ii))) := by
      unfold interp_xill_table_ipol_fac
      rw [ensure_ecut_getElem?_eq X tab param _ ii hp hlenL, hloop]
      simp only [hkind]
      split_ifs <;> rfl
    refine ⟨_, _, _, hfin, rfl,
      fun hf => ipol_fac_loop_inp X tab param ind ii _ hf, rfl,
      fun hne => absurd hp hne, fun _ => rfl, fun _ hpos hect => ?_⟩
    have hx : (ipol_fac_loop X tab param ind ii).1 (idx 0 tab.param_index ii) = param.ect := by
      rw [ipol_fac_loop_inp X tab param ind ii _ hfirst, hkind, hect]
    rw [hx] at hform ⊢
    have e1 : idx 0 (idx [] tab.param_vals X.PARAM_ECT)
        (idx 0 tab.num_param_vals X.PARAM_ECT - 1)
        = axis_val tab ii (axis_len tab ii - 1) := by
      rw [← hpos]
      rfl
    have e0 : idx 0 (idx [] tab.param_vals X.PARAM_ECT) 0 = axis_val tab ii 0 := by
      rw [← hpos]
      rfl
    rw [e1, e0]
    refine ⟨fun hlo => ?_, fun hhi => ?_, fun h0 h1 ha hb => ?_⟩
    · rw [if_neg (not_le.2 (lt_of_lt_of_le hlo hlohi)), if_pos (le_of_lt hlo)]
    · rw [if_pos (le_of_lt hhi)]
    · obtain ⟨hd, hf0, hf1⟩ := hform.2.2 h0 h1 ha hb
      have hlen := haxis.1
      by_cases c1 : param.ect ≥ axis_val tab ii (axis_len tab ii - 1)
      · have hx' : resetInpvalsToBoundaries param.ect (axis_val tab ii 0)
            (axis_val tab ii (axis_len tab ii - 1))
            = axis_val tab ii (axis_len tab ii - 1) := by
          rcases eq_or_lt_of_le c1 with h | h
          · rw [← h]
            exact resetInpvalsToBoundaries_of_mem hlohi (le_refl _)
          · have hn : ¬ param.ect < axis_val tab ii 0 :=
              not_lt.2 (le_trans hlohi (le_of_lt h))
            simp only [resetInpvalsToBoundaries, hn, if_false, gt_iff_lt, h, if_true]
        have hup : axis_val tab ii (idx 0 ind ii + 1)
            ≤ axis_val tab ii (axis_len tab ii - 1) :=
          axis_val_le haxis (by omega) (by omega) (by omega)
        rw [hx'] at hb ha hf0 hf1 ⊢
        have heq : axis_val tab ii (idx 0 ind ii + 1)
            = axis_val tab ii (axis_len tab ii - 1) := le_antisymm hup hb
        rw [if_pos c1]
        refine ⟨hd, ?_, zero_le_one, le_refl _⟩
        rw [← heq]
        exact (div_self hd).symm
      · rw [if_neg c1]
        by_cases c0 : param.ect ≤ axis_val tab ii 0
        · have hx' : resetInpvalsToBoundaries param.ect (axis_val tab ii 0)
              (axis_val tab ii (axis_len tab ii - 1)) = axis_val tab ii 0 := by
            rcases eq_or_lt_of_le c0 with h | h
            · rw [h]
              exact resetInpvalsToBoundaries_of_mem (le_refl _) hlohi
            · simp only [resetInpvalsToBoundaries, h, if_true]
          have hdn : axis_val tab ii 0 ≤ axis_val tab ii (idx 0 ind ii) :=
            axis_val_le haxis le_rfl h0 (by omega)
          rw [hx'] at ha ⊢
          have heq : axis_val tab ii (idx 0 ind ii) = axis_val tab ii 0 :=
            le_antisymm ha hdn
          rw [if_pos c0]
          refine ⟨hd, ?_, le_refl _, zero_le_one⟩
          rw [heq, sub_self, zero_div]
        · rw [if_neg c0]
          exact ⟨hd, rfl, hf0, hf1⟩
  · have hfin : (interp_xill_table_ipol_fac X tab param ind)[ii]?
        = some ((resetInpvalsToBoundaries
                ((ipol_fac_loop X tab param ind ii).1 (idx 0 tab.param_index ii))
                (axis_val tab ii 0) (axis_val tab ii (axis_len tab ii - 1))
              - axis_val tab ii (idx 0 ind ii)) /
            (axis_val tab ii (idx 0 ind ii + 1) - axis_val tab ii (idx 0 ind ii))) := by
      unfold interp_xill_table_ipol_fac
      rw [ensure_ecut_getElem?_ne X tab param _ ii hp, hloop]
    exact ⟨_, _, _, hfin, rfl,
      fun hf => ipol_fac_loop_inp X tab param ind ii _ hf, rfl,
      fun _ => ⟨rfl, hform.1, hform.2.1, hform.2.2⟩, fun h => absurd h hp,
      fun h => absurd h hp⟩


theorem cutoffSecondTable_axis_increasing (ii : Nat) (hii : ii < 5) :
    axis_increasing cutoffSecondTable ii := by
  have h : ii = 0 ∨ ii = 1 ∨ ii = 2 ∨ ii = 3 ∨ ii = 4 := by omega
  rcases h with h | h | h | h | h <;> subst h <;>
    (simp [axis_increasing, axis_len, cutoffSecondTable, idx]; try norm_num)

/-- Witness of C7 on `cutoffSecondTable`, whose cutoff axis (20, 300) is at
position 1 while the axis at position `PARAM_ECT = 3` holds 0 and 4.  For the
cutoff energy 10, below the first value 20 of the axis, with `ind[1] = 0`,
the factor loop stores 0 but the blends receive the factor 1, and the flux is
`[17, 353]`.  For `gam = 0`, below the first value 1 of axis 0, with
`ind[0] = 0`, the blends receive the factor 0. -/
theorem clamped_fraction_witness :
    axis_clamped demoExt cutoffSecondTable lowCutoffParam 1 ∧
    axis_increasing cutoffSecondTable 1 ∧
    get_xilltab_paramvals demoExt lowCutoffParam (idx 0 cutoffSecondTable.param_index 1)
      < axis_val cutoffSecondTable 1 0 ∧
    idx 0 [0, 0, 0, 0, 0] 1 = 0 ∧
    (ipol_fac_loop demoExt cutoffSecondTable lowCutoffParam [0, 0, 0, 0, 0]
      cutoffSecondTable.num_param.toNat).2[1]? = some 0 ∧
    (interp_xill_table_ipol_fac demoExt cutoffSecondTable lowCutoffParam
      [0, 0, 0, 0, 0])[1]? = some 1 ∧
    (interp_xill_table demoExt cutoffSecondTable lowCutoffParam [0, 0, 0, 0, 0]
      EXIT_SUCCESS).map (fun s => s.flu) = some [[17, 353]] ∧
    get_xilltab_paramvals demoExt { lowCutoffParam with gam := 0 }
        (idx 0 cutoffSecondTable.param_index 0) < axis_val cutoffSecondTable 0 0 ∧
    (interp_xill_table_ipol_fac demoExt cutoffSecondTable { lowCutoffParam with gam := 0 }
      [0, 0, 0, 0, 0])[0]? = some 0 := by
  have hc1 : axis_clamped demoExt cutoffSecondTable lowCutoffParam 1 := by
    simp [axis_clamped, demoExt, lowCutoffParam, cutoffSecondParam]
  have hc0 : axis_clamped demoExt cutoffSecondTable { lowCutoffParam with gam := 0 } 0 := by
    simp [axis_clamped, demoExt, lowCutoffParam, cutoffSecondParam]
  have hp : get_xilltab_param_index cutoffSecondTable demoExt.PARAM_ECT = ((1 : Nat) : Int) := by
    decide
  have hx1 : get_xilltab_paramvals demoExt lowCutoffParam
      (idx 0 cutoffSecondTable.param_index 1) < axis_val cutoffSecondTable 1 0 := by
    simp [get_xilltab_paramvals, demoExt, lowCutoffParam, cutoffSecondParam,
      cutoffSecondTable, axis_val, idx, Function.update]
    norm_num
  have hx0 : get_xilltab_paramvals demoExt { lowCutoffParam with gam := 0 }
      (idx 0 cutoffSecondTable.param_index 0) < axis_val cutoffSecondTable 0 0 := by
    simp [get_xilltab_paramvals, demoExt, lowCutoffParam, cutoffSecondParam,
      cutoffSecondTable, axis_val, idx, Function.update]
  have hf : interp_xill_table_ipol_fac demoExt cutoffSecondTable lowCutoffParam
      [0, 0, 0, 0, 0] = [1 / 2, 1, 0, 0, 0] := by
    simp [interp_xill_table_ipol_fac, ensure_ecut_within_boundarys, ipol_fac_loop,
      ipol_fac_step, ipol_fac_clamp, ipol_fac_value, get_xilltab_param_index,
      get_xilltab_paramvals, resetInpvalsToBoundaries, cutoffSecondTable, lowCutoffParam,
      cutoffSecondParam, demoExt, idx, range5, Function.update]
    norm_num
  have hc : cell32 cutoffSecondTable cutoffSecondTable.n_ener.toNat 0
      (idx 0 [0, 0, 0, 0, 0] 0) (idx 0 [0, 0, 0, 0, 0] 1) (idx 0 [0, 0, 0, 0, 0] 2)
      (idx 0 [0, 0, 0, 0, 0] 3) (idx 0 [0, 0, 0, 0, 0] 4) := by
    unfold cell32; decide
  refine ⟨hc1, cutoffSecondTable_axis_increasing 1 (by omega), hx1, rfl, ?_, ?_, ?_, hx0, ?_⟩
  · simp [ipol_fac_loop, ipol_fac_step, ipol_fac_clamp, ipol_fac_value,
      get_xilltab_paramvals, resetInpvalsToBoundaries, cutoffSecondTable, lowCutoffParam,
      cutoffSecondParam, demoExt, idx, range5, Function.update]
    norm_num
  · obtain ⟨frac, x, x', h1, -, -, -, -, hC, -⟩ :=
      clamped_fraction demoExt cutoffSecondTable lowCutoffParam [0, 0, 0, 0, 0] 1 (by decide)
        hc1 (cutoffSecondTable_axis_increasing 1 (by omega))
    rw [h1, hC hp]
    simp [cutoffSecondTable, lowCutoffParam, cutoffSecondParam, demoExt, idx]
    norm_num
  · rw [interp_xill_table_flu_5_xill demoExt cutoffSecondTable lowCutoffParam
      [0, 0, 0, 0, 0] (1 / 2) 1 0 0 0 rfl rfl (by rw [hf]; rfl) (by rw [hf]; rfl)
      (by rw [hf]; rfl) (by rw [hf]; rfl) (by rw [hf]; rfl) hc]
    simp [multilinear5, Fintype.sum_bool, wgt, b2i, specval, get_xillspec,
      get_xillspec_rownum, cutoffSecondTable, idx, List.range_succ]
    norm_num
  · obtain ⟨frac, x, x', h1, -, hxf, -, hA, -, -⟩ :=
      clamped_fraction demoExt cutoffSecondTable { lowCutoffParam with gam := 0 }
        [0, 0, 0, 0, 0] 0 (by decide) hc0 (cutoffSecondTable_axis_increasing 0 (by omega))
    have hx := hxf (fun jj hjj => absurd hjj (Nat.not_lt_zero jj))
    have hne : get_xilltab_param_index cutoffSecondTable demoExt.PARAM_ECT
        ≠ ((0 : Nat) : Int) := by decide
    rw [h1, (hA hne).2.1 (by rw [hx]; exact hx0) rfl]

end Theorems

end Relxill
